import Mathlib

/-! ## samp-plugin-jit: the asmjit backend (`src/plugin/jit/backend-asmjit.cpp`)

A verification development over a shallow embedding of the backend:

* the instruction map and its lookup `get_instr_ptr`;
* the assembler facade (`X86Assembler`) as an explicit state that collects the
  emitted items, and the emitters (`emit_exec`, `emit_exec_helper`, ...,
  `compile`) as functions on that state, one call per source line;
* a 32-bit x86 machine that runs the emitted items, used to state what the
  emitted trampolines do.

Cells and registers are 32-bit: they are `Nat` below `2^32`, arithmetic is
reduced `% 2^32`, signed readings go through `toSigned`.
-/

namespace Jit

/-! ## Instruction map and lookup -/

/-- The record `InstrMapEntry`: a bytecode address and the native address of
its translation. -/
structure InstrMapEntry where
  amx_addr : Int
  jit_addr : Nat
deriving DecidableEq, Repr

/-- The comparator `CompareInstrMapEntries::operator()`. -/
def CompareInstrMapEntries (lhs rhs : InstrMapEntry) : Bool :=
  decide (lhs.amx_addr < rhs.amx_addr)

/-- The entry `begin[i]` of an instruction map held as a list. -/
def entryAt (instr_map : List InstrMapEntry) (i : Nat) : InstrMapEntry :=
  instr_map.getD i ⟨0, 0⟩

/-- The loop of `std::lower_bound` on `[first, first + len)`: halve the range,
go right when `comp(*middle, val)`. The first argument bounds the number of
iterations; `len` iterations always suffice. -/
def lower_bound_loop (instr_map : List InstrMapEntry) (val : InstrMapEntry) :
    Nat → Nat → Nat → Nat
  | 0, first, _ => first
  | fuel + 1, first, len =>
    if len = 0 then first
    else
      let half := len / 2
      let middle := first + half
      if CompareInstrMapEntries (entryAt instr_map middle) val then
        lower_bound_loop instr_map val fuel (middle + 1) (len - half - 1)
      else
        lower_bound_loop instr_map val fuel first half

/-- The loop of `std::upper_bound` on `[first, first + len)`: go left when
`comp(val, *middle)`. -/
def upper_bound_loop (instr_map : List InstrMapEntry) (val : InstrMapEntry) :
    Nat → Nat → Nat → Nat
  | 0, first, _ => first
  | fuel + 1, first, len =>
    if len = 0 then first
    else
      let half := len / 2
      let middle := first + half
      if CompareInstrMapEntries val (entryAt instr_map middle) then
        upper_bound_loop instr_map val fuel first half
      else
        upper_bound_loop instr_map val fuel (middle + 1) (len - half - 1)

/-- The call `std::equal_range(begin, begin + size, target, comp)`: the pair
of `std::lower_bound` and `std::upper_bound`, as indices from `begin`. -/
def equal_range (instr_map : List InstrMapEntry) (size : Nat)
    (target : InstrMapEntry) : Nat × Nat :=
  (lower_bound_loop instr_map target size 0 size,
   upper_bound_loop instr_map target size 0 size)

/-- The function `get_instr_ptr(address, instr_map, instr_map_size)`: binary
search over the first `instr_map_size` entries; the null pointer is `0`. -/
def get_instr_ptr (address : Int) (instr_map : List InstrMapEntry)
    (instr_map_size : Nat) : Nat :=
  let target : InstrMapEntry := ⟨address, 0⟩
  let result := equal_range instr_map instr_map_size target
  if result.1 ≠ result.2 then (entryAt instr_map result.1).jit_addr else 0

/-- Strictly ascending bytecode addresses on the first `n` entries. -/
def StrictAsc (instr_map : List InstrMapEntry) (n : Nat) : Prop :=
  ∀ i j, i < j → j < n →
    (entryAt instr_map i).amx_addr < (entryAt instr_map j).amx_addr

/-! ## The assembler facade

`X86Assembler` collects what the emitters ask for, in order. An item is an
instruction, a label binding, a data word, a data record or an alignment pad.
The byte size of an encoded instruction is a parameter of the assembler
(`enc`): the encoder is a library, only the sizes of the data items are fixed
by the source. -/

/-- The general purpose registers. -/
inductive GpReg
  | eax | ecx | edx | ebx | esp | ebp | esi | edi
deriving DecidableEq, Repr

/-- An assembler label. -/
structure Label where
  id : Nat
deriving DecidableEq, Repr

/-- A memory operand `[base + (index << shift) + disp]` or `[label + disp]`,
with its access size in bytes (`byte_ptr`, `word_ptr`, `dword_ptr`). -/
structure Mem where
  size : Nat
  base : Option GpReg
  index : Option GpReg
  shift : Int
  disp : Int
  label : Option Label
deriving DecidableEq, Repr

/-- An instruction operand. `reg8` and `reg16` are the low byte and the low
word of a general purpose register (`al`, `cl`, `ax`). -/
inductive Operand
  | reg (r : GpReg)
  | reg8 (r : GpReg)
  | reg16 (r : GpReg)
  | imm (v : Int)
  | mem (m : Mem)
deriving DecidableEq, Repr

instance : Coe GpReg Operand := ⟨Operand.reg⟩
instance : Coe Mem Operand := ⟨Operand.mem⟩

/-- The operand `dword_ptr(base, disp)`. -/
def dword_ptr (base : GpReg) (disp : Int) : Mem := ⟨4, some base, none, 0, disp, none⟩
/-- The operand `dword_ptr(base, index, shift)`. -/
def dword_ptr_idx (base index : GpReg) (shift : Int) : Mem :=
  ⟨4, some base, some index, shift, 0, none⟩
/-- The operand `dword_ptr(label)`. -/
def dword_ptr_lbl (l : Label) : Mem := ⟨4, none, none, 0, 0, some l⟩
/-- The operand `word_ptr(base, index)`. -/
def word_ptr_idx (base index : GpReg) : Mem := ⟨2, some base, some index, 0, 0, none⟩
/-- The operand `byte_ptr(base, index)`. -/
def byte_ptr_idx (base index : GpReg) : Mem := ⟨1, some base, some index, 0, 0, none⟩

/-- Condition codes of `jcc` and `setcc`, one per mnemonic the source uses. -/
inductive Cond
  | e | ne | z | nz | l | le | g | ge | b | be | a | ae
deriving DecidableEq, Repr

/-- The C functions the emitted code calls by absolute address. -/
inductive CFunction
  | get_public_addr | get_native_addr | get_instr_ptr
deriving DecidableEq, Repr

/-- Two-operand instructions `op dst, src`. -/
inductive BinOp
  | mov | movzx | movsx | add | sub | cmp | and_ | or_ | xor_ | test | xchg
  | imul2 | shl | shr | sar
deriving DecidableEq, Repr

/-- One-operand instructions. `imul1`, `mul`, `idiv` and `div` are the forms
that work on `edx:eax`. -/
inductive UnOp
  | push | pop | not_ | neg | inc | dec | imul1 | mul | idiv | div
deriving DecidableEq, Repr

/-- String instructions with their repeat form. -/
inductive StrOp
  | rep_movsd | rep_movsw | rep_movsb | repe_cmpsb | rep_stosd
deriving DecidableEq, Repr

/-- The x87 instructions with a memory operand. -/
inductive FpuMemOp
  | fild | fld | fstp | fadd | fsub | fmul | fdiv
deriving DecidableEq, Repr

/-- The x87 instructions without a memory operand. -/
inductive FpuOp
  | fabs | fsqrt | fld1 | fyl2x | fdivrp (st : Nat)
deriving DecidableEq, Repr

/-- The x86 instructions the backend emits. -/
inductive Instr
  | bin (op : BinOp) (dst src : Operand)
  | un (op : UnOp) (dst : Operand)
  | lea (dst : Operand) (src : Mem)
  | imul3 (dst src imm : Operand)
  | set (c : Cond) (dst : Operand)
  | jmp (l : Label)
  | jmp_reg (r : GpReg)
  | j (c : Cond) (l : Label)
  | call (l : Label)
  | call_reg (r : GpReg)
  | call_ptr (f : CFunction)
  | ret
  | ret_imm (n : Nat)
  | cld
  | str (op : StrOp)
  | fpu_mem (op : FpuMemOp) (m : Mem)
  | fpu (op : FpuOp)
deriving DecidableEq, Repr

/-- One item of the code buffer. -/
inductive Item
  | instr (i : Instr)
  | bind (l : Label)
  | dd (v : Int)
  | dstruct (e : InstrMapEntry)
  | align (pad : Nat)
deriving DecidableEq, Repr

/-- Size in bytes of an item: `dd` and `dintptr` emit one 32-bit word, an
`InstrMapEntry` is a cell and a pointer, a binding emits nothing. -/
def Item.size (enc : Instr → Nat) : Item → Nat
  | .instr i => enc i
  | .bind _ => 0
  | .dd _ => 4
  | .dstruct _ => 8
  | .align pad => pad

/-- Total size in bytes of a list of items. -/
def itemsSize (enc : Instr → Nat) : List Item → Nat
  | [] => 0
  | it :: rest => it.size enc + itemsSize enc rest

/-- The assembler state: the items emitted so far, the number of labels
created, and the size function of the encoder. -/
structure X86Assembler where
  enc : Instr → Nat
  items : List Item
  numLabels : Nat

namespace X86Assembler

/-- The call `as.getCodeSize()`. -/
def getCodeSize (as : X86Assembler) : Nat := itemsSize as.enc as.items

/-- Append one item to the buffer. -/
def emit (as : X86Assembler) (it : Item) : X86Assembler :=
  { as with items := as.items ++ [it] }

/-- The call `as.newLabel()`. -/
def newLabel (as : X86Assembler) : Label × X86Assembler :=
  (⟨as.numLabels⟩, { as with numLabels := as.numLabels + 1 })

/-- The call `as.bind(label)`. -/
def bind (as : X86Assembler) (l : Label) : X86Assembler := as.emit (.bind l)
/-- The call `as.dd(v)`. -/
def dd (as : X86Assembler) (v : Int) : X86Assembler := as.emit (.dd v)
/-- The call `as.dintptr(v)`: a pointer-sized word, 32 bits on the target. -/
def dintptr (as : X86Assembler) (v : Int) : X86Assembler := as.emit (.dd v)
/-- The call `as.dstruct(entry)`. -/
def dstruct (as : X86Assembler) (e : InstrMapEntry) : X86Assembler := as.emit (.dstruct e)
/-- The call `as.align(m)`: pad with filler up to the next multiple of `m`. -/
def align (as : X86Assembler) (m : Nat) : X86Assembler :=
  as.emit (.align ((m - as.getCodeSize % m) % m))

def mov (as : X86Assembler) (dst src : Operand) : X86Assembler := as.emit (.instr (.bin .mov dst src))
def movzx (as : X86Assembler) (dst src : Operand) : X86Assembler := as.emit (.instr (.bin .movzx dst src))
def movsx (as : X86Assembler) (dst src : Operand) : X86Assembler := as.emit (.instr (.bin .movsx dst src))
def lea (as : X86Assembler) (dst : Operand) (src : Mem) : X86Assembler := as.emit (.instr (.lea dst src))
def push (as : X86Assembler) (src : Operand) : X86Assembler := as.emit (.instr (.un .push src))
def pop (as : X86Assembler) (dst : Operand) : X86Assembler := as.emit (.instr (.un .pop dst))
def add (as : X86Assembler) (dst src : Operand) : X86Assembler := as.emit (.instr (.bin .add dst src))
def sub (as : X86Assembler) (dst src : Operand) : X86Assembler := as.emit (.instr (.bin .sub dst src))
def cmp (as : X86Assembler) (dst src : Operand) : X86Assembler := as.emit (.instr (.bin .cmp dst src))
def and_ (as : X86Assembler) (dst src : Operand) : X86Assembler := as.emit (.instr (.bin .and_ dst src))
def or_ (as : X86Assembler) (dst src : Operand) : X86Assembler := as.emit (.instr (.bin .or_ dst src))
def xor_ (as : X86Assembler) (dst src : Operand) : X86Assembler := as.emit (.instr (.bin .xor_ dst src))
def test (as : X86Assembler) (dst src : Operand) : X86Assembler := as.emit (.instr (.bin .test dst src))
def xchg (as : X86Assembler) (dst src : Operand) : X86Assembler := as.emit (.instr (.bin .xchg dst src))
def not_ (as : X86Assembler) (dst : Operand) : X86Assembler := as.emit (.instr (.un .not_ dst))
def neg (as : X86Assembler) (dst : Operand) : X86Assembler := as.emit (.instr (.un .neg dst))
def inc (as : X86Assembler) (dst : Operand) : X86Assembler := as.emit (.instr (.un .inc dst))
def dec (as : X86Assembler) (dst : Operand) : X86Assembler := as.emit (.instr (.un .dec dst))
/-- The one-operand form `as.imul(src)`: `edx:eax = eax * src`. -/
def imul1 (as : X86Assembler) (src : Operand) : X86Assembler := as.emit (.instr (.un .imul1 src))
/-- The two-operand form `as.imul(dst, src)`. -/
def imul2 (as : X86Assembler) (dst src : Operand) : X86Assembler := as.emit (.instr (.bin .imul2 dst src))
/-- The three-operand form `as.imul(dst, src, imm)`. -/
def imul3 (as : X86Assembler) (dst src imm : Operand) : X86Assembler :=
  as.emit (.instr (.imul3 dst src imm))
def mul (as : X86Assembler) (src : Operand) : X86Assembler := as.emit (.instr (.un .mul src))
def idiv (as : X86Assembler) (src : Operand) : X86Assembler := as.emit (.instr (.un .idiv src))
def div (as : X86Assembler) (src : Operand) : X86Assembler := as.emit (.instr (.un .div src))
def shl (as : X86Assembler) (dst count : Operand) : X86Assembler := as.emit (.instr (.bin .shl dst count))
def shr (as : X86Assembler) (dst count : Operand) : X86Assembler := as.emit (.instr (.bin .shr dst count))
def sar (as : X86Assembler) (dst count : Operand) : X86Assembler := as.emit (.instr (.bin .sar dst count))
def sete (as : X86Assembler) (dst : Operand) : X86Assembler := as.emit (.instr (.set .e dst))
def setne (as : X86Assembler) (dst : Operand) : X86Assembler := as.emit (.instr (.set .ne dst))
def setz (as : X86Assembler) (dst : Operand) : X86Assembler := as.emit (.instr (.set .z dst))
def setl (as : X86Assembler) (dst : Operand) : X86Assembler := as.emit (.instr (.set .l dst))
def setle (as : X86Assembler) (dst : Operand) : X86Assembler := as.emit (.instr (.set .le dst))
def setg (as : X86Assembler) (dst : Operand) : X86Assembler := as.emit (.instr (.set .g dst))
def setge (as : X86Assembler) (dst : Operand) : X86Assembler := as.emit (.instr (.set .ge dst))
def setb (as : X86Assembler) (dst : Operand) : X86Assembler := as.emit (.instr (.set .b dst))
def setbe (as : X86Assembler) (dst : Operand) : X86Assembler := as.emit (.instr (.set .be dst))
def seta (as : X86Assembler) (dst : Operand) : X86Assembler := as.emit (.instr (.set .a dst))
def setae (as : X86Assembler) (dst : Operand) : X86Assembler := as.emit (.instr (.set .ae dst))
def jmp (as : X86Assembler) (l : Label) : X86Assembler := as.emit (.instr (.jmp l))
/-- The call `as.jmp(reg)`. -/
def jmp_reg (as : X86Assembler) (r : GpReg) : X86Assembler := as.emit (.instr (.jmp_reg r))
def je (as : X86Assembler) (l : Label) : X86Assembler := as.emit (.instr (.j .e l))
def jne (as : X86Assembler) (l : Label) : X86Assembler := as.emit (.instr (.j .ne l))
def jz (as : X86Assembler) (l : Label) : X86Assembler := as.emit (.instr (.j .z l))
def jnz (as : X86Assembler) (l : Label) : X86Assembler := as.emit (.instr (.j .nz l))
def jl (as : X86Assembler) (l : Label) : X86Assembler := as.emit (.instr (.j .l l))
def jle (as : X86Assembler) (l : Label) : X86Assembler := as.emit (.instr (.j .le l))
def jg (as : X86Assembler) (l : Label) : X86Assembler := as.emit (.instr (.j .g l))
def jge (as : X86Assembler) (l : Label) : X86Assembler := as.emit (.instr (.j .ge l))
def jb (as : X86Assembler) (l : Label) : X86Assembler := as.emit (.instr (.j .b l))
def jbe (as : X86Assembler) (l : Label) : X86Assembler := as.emit (.instr (.j .be l))
def ja (as : X86Assembler) (l : Label) : X86Assembler := as.emit (.instr (.j .a l))
def jae (as : X86Assembler) (l : Label) : X86Assembler := as.emit (.instr (.j .ae l))
def call (as : X86Assembler) (l : Label) : X86Assembler := as.emit (.instr (.call l))
/-- The call `as.call(reg)`. -/
def call_reg (as : X86Assembler) (r : GpReg) : X86Assembler := as.emit (.instr (.call_reg r))
/-- The call `as.call(asmjit_cast<void*>(&f))` of a C function. -/
def call_ptr (as : X86Assembler) (f : CFunction) : X86Assembler := as.emit (.instr (.call_ptr f))
def ret (as : X86Assembler) : X86Assembler := as.emit (.instr .ret)
/-- The call `as.ret(n)`: return and drop `n` bytes. -/
def ret_imm (as : X86Assembler) (n : Nat) : X86Assembler := as.emit (.instr (.ret_imm n))
def cld (as : X86Assembler) : X86Assembler := as.emit (.instr .cld)
def rep_movsd (as : X86Assembler) : X86Assembler := as.emit (.instr (.str .rep_movsd))
def rep_movsw (as : X86Assembler) : X86Assembler := as.emit (.instr (.str .rep_movsw))
def rep_movsb (as : X86Assembler) : X86Assembler := as.emit (.instr (.str .rep_movsb))
def repe_cmpsb (as : X86Assembler) : X86Assembler := as.emit (.instr (.str .repe_cmpsb))
def rep_stosd (as : X86Assembler) : X86Assembler := as.emit (.instr (.str .rep_stosd))
def fild (as : X86Assembler) (src : Mem) : X86Assembler := as.emit (.instr (.fpu_mem .fild src))
def fld (as : X86Assembler) (src : Mem) : X86Assembler := as.emit (.instr (.fpu_mem .fld src))
def fstp (as : X86Assembler) (dst : Mem) : X86Assembler := as.emit (.instr (.fpu_mem .fstp dst))
def fadd (as : X86Assembler) (src : Mem) : X86Assembler := as.emit (.instr (.fpu_mem .fadd src))
def fsub (as : X86Assembler) (src : Mem) : X86Assembler := as.emit (.instr (.fpu_mem .fsub src))
def fmul (as : X86Assembler) (src : Mem) : X86Assembler := as.emit (.instr (.fpu_mem .fmul src))
def fdiv (as : X86Assembler) (src : Mem) : X86Assembler := as.emit (.instr (.fpu_mem .fdiv src))
def fabs (as : X86Assembler) : X86Assembler := as.emit (.instr (.fpu .fabs))
def fsqrt (as : X86Assembler) : X86Assembler := as.emit (.instr (.fpu .fsqrt))
def fld1 (as : X86Assembler) : X86Assembler := as.emit (.instr (.fpu .fld1))
def fyl2x (as : X86Assembler) : X86Assembler := as.emit (.instr (.fpu .fyl2x))
def fdivrp (as : X86Assembler) (st : Nat) : X86Assembler := as.emit (.instr (.fpu (.fdivrp st)))

end X86Assembler

open GpReg in
/-- The low byte of `eax`. -/
def al : Operand := .reg8 eax
open GpReg in
/-- The low byte of `ecx`. -/
def cl : Operand := .reg8 ecx
open GpReg in
/-- The low word of `eax`. -/
def ax : Operand := .reg16 eax
/-- An immediate operand. -/
def imm (v : Int) : Operand := .imm v

/-! ## The AMX side: constants, instructions, the program handle -/

/-- The 32-bit cell value of an integer: two's complement wrap-around. -/
def toCell (x : Int) : Int := (x + 2147483648) % 4294967296 - 2147483648

/-- The unsigned 32-bit value of an integer. -/
def toU32 (x : Int) : Nat := (x % 4294967296).toNat

/-- The signed reading of a 32-bit word. -/
def toSigned (x : Nat) : Int :=
  if x % 4294967296 < 2147483648 then (x % 4294967296 : Nat) else (x % 4294967296 : Nat) - 4294967296

/-- The constants the backend takes from `amx.h`, which is not part of the
source file: the `offsetof` values of the `AMX` and `AMX_HEADER` fields it
touches, the error codes and the natives-registered flag. They are parameters
of the emitters. -/
structure AmxH where
  off_base : Int
  off_data : Int
  off_frm : Int
  off_hea : Int
  off_hlw : Int
  off_stk : Int
  off_stp : Int
  off_flags : Int
  off_error : Int
  off_paramcount : Int
  hdr_cod : Int
  hdr_dat : Int
  AMX_ERR_NONE : Int
  AMX_ERR_STACKERR : Int
  AMX_ERR_BOUNDS : Int
  AMX_ERR_STACKLOW : Int
  AMX_ERR_HEAPLOW : Int
  AMX_ERR_NOTFOUND : Int
  AMX_ERR_INDEX : Int
  AMX_FLAG_NTVREG : Int

/-- The opcode identifiers. The first 129 are the cases of the translation
switch, in source order; the last eight are identifiers of the AMX instruction
set for which the switch has no case. -/
inductive AMXOpcodeID
  | OP_LOAD_PRI | OP_LOAD_ALT | OP_LOAD_S_PRI | OP_LOAD_S_ALT
  | OP_LREF_PRI | OP_LREF_ALT | OP_LREF_S_PRI | OP_LREF_S_ALT
  | OP_LOAD_I | OP_LODB_I | OP_CONST_PRI | OP_CONST_ALT
  | OP_ADDR_PRI | OP_ADDR_ALT | OP_STOR_PRI | OP_STOR_ALT
  | OP_STOR_S_PRI | OP_STOR_S_ALT | OP_SREF_PRI | OP_SREF_ALT
  | OP_SREF_S_PRI | OP_SREF_S_ALT | OP_STOR_I | OP_STRB_I
  | OP_LIDX | OP_LIDX_B | OP_IDXADDR | OP_IDXADDR_B
  | OP_ALIGN_PRI | OP_ALIGN_ALT | OP_LCTRL | OP_SCTRL
  | OP_MOVE_PRI | OP_MOVE_ALT | OP_XCHG
  | OP_PUSH_PRI | OP_PUSH_ALT | OP_PUSH_C | OP_PUSH | OP_PUSH_S
  | OP_POP_PRI | OP_POP_ALT | OP_STACK | OP_HEAP
  | OP_PROC | OP_RET | OP_RETN | OP_CALL | OP_JUMP_PRI
  | OP_JUMP | OP_JZER | OP_JNZ | OP_JEQ | OP_JNEQ
  | OP_JLESS | OP_JLEQ | OP_JGRTR | OP_JGEQ
  | OP_JSLESS | OP_JSLEQ | OP_JSGRTR | OP_JSGEQ
  | OP_SHL | OP_SHR | OP_SSHR
  | OP_SHL_C_PRI | OP_SHL_C_ALT | OP_SHR_C_PRI | OP_SHR_C_ALT
  | OP_SMUL | OP_SDIV | OP_SDIV_ALT | OP_UMUL | OP_UDIV | OP_UDIV_ALT
  | OP_ADD | OP_SUB | OP_SUB_ALT | OP_AND | OP_OR | OP_XOR
  | OP_NOT | OP_NEG | OP_INVERT | OP_ADD_C | OP_SMUL_C
  | OP_ZERO_PRI | OP_ZERO_ALT | OP_ZERO | OP_ZERO_S
  | OP_SIGN_PRI | OP_SIGN_ALT
  | OP_EQ | OP_NEQ | OP_LESS | OP_LEQ | OP_GRTR | OP_GEQ
  | OP_SLESS | OP_SLEQ | OP_SGRTR | OP_SGEQ
  | OP_EQ_C_PRI | OP_EQ_C_ALT
  | OP_INC_PRI | OP_INC_ALT | OP_INC | OP_INC_S | OP_INC_I
  | OP_DEC_PRI | OP_DEC_ALT | OP_DEC | OP_DEC_S | OP_DEC_I
  | OP_MOVS | OP_CMPS | OP_FILL | OP_HALT | OP_BOUNDS
  | OP_SYSREQ_PRI | OP_SYSREQ_C | OP_SYSREQ_D
  | OP_SWITCH | OP_CASETBL | OP_SWAP_PRI | OP_SWAP_ALT | OP_PUSH_ADR
  | OP_NOP | OP_BREAK
  | OP_NONE | OP_JREL | OP_CALL_PRI | OP_FILE | OP_LINE | OP_SYMBOL
  | OP_SRANGE | OP_SYMTAG
deriving DecidableEq, Repr

/-- A decoded instruction: `instr.address()`, `instr.opcode().id()` and the
operand vector. -/
structure AMXInstruction where
  address : Int
  opcode : AMXOpcodeID
  operands : List Int
deriving DecidableEq, Repr

namespace AMXInstruction

/-- The call `instr.operand(i)`. -/
def operand_at (instr : AMXInstruction) (i : Nat) : Int := instr.operands.getD i 0

/-- The call `instr.operand()`, the first operand. -/
def operand (instr : AMXInstruction) : Int := instr.operand_at 0

/-- The call `instr.num_operands()`. -/
def num_operands (instr : AMXInstruction) : Nat := instr.operands.length

/-- Modelled from the spec: `instr.size()` (the instruction class is declared
in amxdisasm.h, absent from the source file). The spec calls
`address + size` the next-instruction address; an instruction occupies one
cell for its opcode and one cell per operand. -/
def size (instr : AMXInstruction) : Int := 4 * (1 + (instr.operands.length : Int))

end AMXInstruction

/-- Modelled from the spec: an instruction as it lies in the code section, an
opcode cell followed by its operand cells (the bytecode format is external,
amxdisasm.h is absent from the source file). -/
structure RawInstr where
  opcode : AMXOpcodeID
  operands : List Int
deriving DecidableEq, Repr

/-- Modelled from the spec: the stream the disassembler (amxdisasm.h, absent
from the source file) produces, "a lazy finite sequence of
(address, opcode, operands[])" handed out "in order": the code section is read
front to back starting at `ip`, the address of an instruction is the offset of
its opcode cell from the start of the code, and the next instruction starts
where this one ends. -/
def disassemble (ip : Int) : List RawInstr → List AMXInstruction
  | [] => []
  | r :: rest =>
    ⟨ip, r.opcode, r.operands⟩ ::
      disassemble (ip + 4 * (1 + (r.operands.length : Int))) rest

/-- The program handle `jit::AMXPtr`, as far as the backend uses it: the AMX
instance pointer `amx.amx()`, the address of the code section `amx.code()`,
the code section as the disassembler reads it, whether the section ends in
bytecode the disassembler rejects (and what it leaves in `instr` then), the
native registry lookups, and a read of one cell of the loaded image at an
absolute address (the case tables of `SWITCH`). -/
structure AMXPtr where
  amx : Int
  code : Int
  section_code : List RawInstr
  malformed : Option AMXInstruction
  get_native_name : Int → Option String
  find_native : Int → Int
  cell_at : Int → Int

/-- The instructions `disas.decode` hands out for a program, in order. -/
def AMXPtr.decoded (amx : AMXPtr) : List AMXInstruction :=
  disassemble 0 amx.section_code

/-- The opcode metadata `AMXOpcode::is_call` and `AMXOpcode::is_jump`,
declared outside the source file: parameters of the jump-target scan. -/
structure OpcodeInfo where
  is_call : AMXOpcodeID → Bool
  is_jump : AMXOpcodeID → Bool

/-- The enumeration `RuntimeDataIndex`: slot numbers of the runtime header.
`jit::BackendRuntimeDataExec`, the first, is slot 0 (the host reads the exec
pointer from the start of the block). -/
def RuntimeDataExecPtr : Nat := 0
def RuntimeDataAmxPtr : Nat := 1
def RuntimeDataEbp : Nat := 2
def RuntimeDataEsp : Nat := 3
def RuntimeDataResetEbp : Nat := 4
def RuntimeDataResetEsp : Nat := 5
def RuntimeDataInstrMapSize : Nat := 6
def RuntimeDataInstrMapPtr : Nat := 7

/-! ## Runtime header, intrinsics and trampolines -/

section Emitters
open GpReg

/-- Replace the data word that starts at byte offset `off` of the buffer. -/
def setWordAt (enc : Instr → Nat) : List Item → Nat → Int → List Item
  | [], _, _ => []
  | .dd w :: rest, off, v =>
    if off = 0 then .dd v :: rest
    else if 4 ≤ off then .dd w :: setWordAt enc rest (off - 4) v
    else .dd w :: rest
  | .bind l :: rest, off, v => .bind l :: setWordAt enc rest off v
  | .instr i :: rest, off, v =>
    if enc i ≤ off then .instr i :: setWordAt enc rest (off - enc i) v
    else .instr i :: rest
  | .dstruct e :: rest, off, v =>
    if 8 ≤ off then .dstruct e :: setWordAt enc rest (off - 8) v
    else .dstruct e :: rest
  | .align pad :: rest, off, v =>
    if pad ≤ off then .align pad :: setWordAt enc rest (off - pad) v
    else .align pad :: rest

/-- The function `set_runtime_data(as, index, data)`: store into the
`index`-th pointer-sized word of the code buffer. -/
def set_runtime_data (as : X86Assembler) (index : Nat) (data : Int) : X86Assembler :=
  { as with items := setWordAt as.enc as.items (4 * index) data }

/-- The function `reserve_instr_map(as, amx)`: count the instructions the
disassembler decodes, record the count and the current code size in the
header, and reserve one dummy entry per instruction. -/
def reserve_instr_map (as : X86Assembler) (amx : AMXPtr) : X86Assembler :=
  let size := amx.decoded.length
  let as := set_runtime_data as RuntimeDataInstrMapSize size
  let as := set_runtime_data as RuntimeDataInstrMapPtr as.getCodeSize
  let dummy : InstrMapEntry := ⟨0, 0⟩
  (List.range size).foldl (fun as _ => as.dstruct dummy) as

def emit_float (as : X86Assembler) : X86Assembler :=
  let as := as.fild (dword_ptr esp 4)
  let as := as.sub esp (imm 4)
  let as := as.fstp (dword_ptr esp 0)
  let as := as.mov eax (dword_ptr esp 0)
  let as := as.add esp (imm 4)
  as

def emit_floatabs (as : X86Assembler) : X86Assembler :=
  let as := as.fld (dword_ptr esp 4)
  let as := as.fabs
  let as := as.sub esp (imm 4)
  let as := as.fstp (dword_ptr esp 0)
  let as := as.mov eax (dword_ptr esp 0)
  let as := as.add esp (imm 4)
  as

def emit_floatadd (as : X86Assembler) : X86Assembler :=
  let as := as.fld (dword_ptr esp 4)
  let as := as.fadd (dword_ptr esp 8)
  let as := as.sub esp (imm 4)
  let as := as.fstp (dword_ptr esp 0)
  let as := as.mov eax (dword_ptr esp 0)
  let as := as.add esp (imm 4)
  as

def emit_floatsub (as : X86Assembler) : X86Assembler :=
  let as := as.fld (dword_ptr esp 4)
  let as := as.fsub (dword_ptr esp 8)
  let as := as.sub esp (imm 4)
  let as := as.fstp (dword_ptr esp 0)
  let as := as.mov eax (dword_ptr esp 0)
  let as := as.add esp (imm 4)
  as

def emit_floatmul (as : X86Assembler) : X86Assembler :=
  let as := as.fld (dword_ptr esp 4)
  let as := as.fmul (dword_ptr esp 8)
  let as := as.sub esp (imm 4)
  let as := as.fstp (dword_ptr esp 0)
  let as := as.mov eax (dword_ptr esp 0)
  let as := as.add esp (imm 4)
  as

def emit_floatdiv (as : X86Assembler) : X86Assembler :=
  let as := as.fld (dword_ptr esp 4)
  let as := as.fdiv (dword_ptr esp 8)
  let as := as.sub esp (imm 4)
  let as := as.fstp (dword_ptr esp 0)
  let as := as.mov eax (dword_ptr esp 0)
  let as := as.add esp (imm 4)
  as

def emit_floatsqroot (as : X86Assembler) : X86Assembler :=
  let as := as.fld (dword_ptr esp 4)
  let as := as.fsqrt
  let as := as.sub esp (imm 4)
  let as := as.fstp (dword_ptr esp 0)
  let as := as.mov eax (dword_ptr esp 0)
  let as := as.add esp (imm 4)
  as

def emit_floatlog (as : X86Assembler) : X86Assembler :=
  let as := as.fld1
  let as := as.fld (dword_ptr esp 8)
  let as := as.fyl2x
  let as := as.fld1
  let as := as.fdivrp 1
  let as := as.fld (dword_ptr esp 4)
  let as := as.fyl2x
  let as := as.sub esp (imm 4)
  let as := as.fstp (dword_ptr esp 0)
  let as := as.mov eax (dword_ptr esp 0)
  let as := as.add esp (imm 4)
  as

/-- The table `intrinsics`: native names with their inline emitters. -/
def intrinsics : List (String × (X86Assembler → X86Assembler)) :=
  [("float", emit_float),
   ("floatabs", emit_floatabs),
   ("floatadd", emit_floatadd),
   ("floatsub", emit_floatsub),
   ("floatmul", emit_floatmul),
   ("floatdiv", emit_floatdiv),
   ("floatsqroot", emit_floatsqroot),
   ("floatlog", emit_floatlog)]

variable (K : AmxH)

def emit_get_amx_ptr (as : X86Assembler) (amx_ptr : Label) (reg : GpReg) : X86Assembler :=
  as.mov reg (dword_ptr_lbl amx_ptr)

def emit_get_amx_data_ptr (as : X86Assembler) (amx_ptr : Label) (reg : GpReg) :
    X86Assembler :=
  let (L_quit, as) := as.newLabel
  let as := emit_get_amx_ptr as amx_ptr eax
  let as := as.mov reg (dword_ptr eax K.off_data)
  let as := as.cmp reg (imm 0)
  let as := as.jnz L_quit
  let as := as.mov reg (dword_ptr eax K.off_base)
  let as := as.mov eax (dword_ptr reg K.hdr_dat)
  let as := as.add reg eax
  let as := as.bind L_quit
  as

/-- The emitter of `int JIT_CDECL exec(cell index, cell *retval)`. -/
def emit_exec (as : X86Assembler)
    (l_amx l_instr_map l_instr_map_size l_reset_ebp l_reset_esp l_exec_helper : Label) :
    X86Assembler :=
  let as := set_runtime_data as RuntimeDataExecPtr as.getCodeSize
  let (L_do_call, as) := as.newLabel
  let (L_check_heap, as) := as.newLabel
  let (L_check_stack, as) := as.newLabel
  let (L_check_natives, as) := as.newLabel
  let (L_checks_done, as) := as.newLabel
  let (L_cleanup, as) := as.newLabel
  let (L_return, as) := as.newLabel
  -- Offsets of exec() arguments relative to ebp.
  let arg_index : Int := 8
  let arg_retval : Int := 12
  let var_address : Int := -4
  let var_reset_ebp : Int := -8
  let var_reset_esp : Int := -12
  let as := as.push ebp
  let as := as.mov ebp esp
  let as := as.sub esp (imm 12)
  let as := as.push esi
  let as := emit_get_amx_ptr as l_amx esi
  let as := as.push ebx
  let as := emit_get_amx_data_ptr K as l_amx ebx
  -- if (amx->hea >= amx->stk) return AMX_ERR_STACKERR;
  let as := as.mov ecx (dword_ptr esi K.off_hea)
  let as := as.mov edx (dword_ptr esi K.off_stk)
  let as := as.cmp ecx edx
  let as := as.jl L_check_heap
  let as := as.mov eax (imm K.AMX_ERR_STACKERR)
  let as := as.jmp L_return
  let as := as.bind L_check_heap
  -- if (amx->hea < amx->hlw) return AMX_ERR_HEAPLOW;
  let as := as.mov ecx (dword_ptr esi K.off_hea)
  let as := as.mov edx (dword_ptr esi K.off_hlw)
  let as := as.cmp ecx edx
  let as := as.jge L_check_stack
  let as := as.mov eax (imm K.AMX_ERR_HEAPLOW)
  let as := as.jmp L_return
  let as := as.bind L_check_stack
  -- if (amx->stk > amx->stp) return AMX_ERR_STACKLOW;
  let as := as.mov ecx (dword_ptr esi K.off_stk)
  let as := as.mov edx (dword_ptr esi K.off_stp)
  let as := as.cmp ecx edx
  let as := as.jle L_check_natives
  let as := as.mov eax (imm K.AMX_ERR_STACKLOW)
  let as := as.jmp L_return
  let as := as.bind L_check_natives
  -- if ((amx->flags & AMX_FLAG_NTVREG) == 0) return AMX_ERR_NOTFOUND;
  let as := as.mov ecx (dword_ptr esi K.off_flags)
  let as := as.and_ ecx (imm K.AMX_FLAG_NTVREG)
  let as := as.cmp ecx (imm 0)
  let as := as.jne L_checks_done
  let as := as.mov eax (imm K.AMX_ERR_NOTFOUND)
  let as := as.jmp L_return
  let as := as.bind L_checks_done
  -- Reset the error code.
  let as := as.mov (dword_ptr esi K.off_error) (imm K.AMX_ERR_NONE)
  -- Get address of the public function.
  let as := as.push (dword_ptr ebp arg_index)
  let as := emit_get_amx_ptr as l_amx eax
  let as := as.push eax
  let as := as.call_ptr .get_public_addr
  let as := as.add esp (imm 8)
  -- If the function was not found, exit with error.
  let as := as.cmp eax (imm 0)
  let as := as.jne L_do_call
  let as := as.mov eax (imm K.AMX_ERR_INDEX)
  let as := as.jmp L_return
  let as := as.bind L_do_call
  -- Get pointer to the start of the function.
  let as := as.push (dword_ptr_lbl l_instr_map_size)
  let as := as.push (dword_ptr_lbl l_instr_map)
  let as := as.push eax
  let as := as.call_ptr .get_instr_ptr
  let as := as.add esp (imm 12)
  let as := as.mov (dword_ptr ebp var_address) eax
  -- Push size of arguments and reset parameter count.
  let as := as.mov eax (dword_ptr esi K.off_paramcount)
  let as := as.imul3 eax eax (imm 4)
  let as := as.mov ecx (dword_ptr esi K.off_stk)
  let as := as.sub ecx (imm 4)
  let as := as.mov (dword_ptr_idx ebx ecx 0) eax
  let as := as.mov (dword_ptr esi K.off_stk) ecx
  let as := as.mov (dword_ptr esi K.off_paramcount) (imm 0)
  -- Keep a copy of the old reset_ebp and reset_esp on the stack.
  let as := as.mov eax (dword_ptr_lbl l_reset_ebp)
  let as := as.mov (dword_ptr ebp var_reset_ebp) eax
  let as := as.mov eax (dword_ptr_lbl l_reset_esp)
  let as := as.mov (dword_ptr ebp var_reset_esp) eax
  -- Call the function.
  let as := as.push (dword_ptr ebp var_address)
  let as := as.call l_exec_helper
  let as := as.add esp (imm 4)
  -- Copy the return value if retval is not NULL.
  let as := as.mov ecx (dword_ptr esp arg_retval)
  let as := as.cmp ecx (imm 0)
  let as := as.je L_cleanup
  let as := as.mov (dword_ptr ecx 0) eax
  let as := as.bind L_cleanup
  -- Restore reset_ebp and reset_esp (remember they are kept in locals?).
  let as := as.mov eax (dword_ptr ebp var_reset_ebp)
  let as := as.mov (dword_ptr_lbl l_reset_ebp) eax
  let as := as.mov eax (dword_ptr ebp var_reset_esp)
  let as := as.mov (dword_ptr_lbl l_reset_esp) eax
  let as := as.mov eax (imm K.AMX_ERR_NONE)
  let as := as.xchg eax (dword_ptr esi K.off_error)
  let as := as.bind L_return
  let as := as.pop ebx
  let as := as.pop esi
  let as := as.mov esp ebp
  let as := as.pop ebp
  let as := as.ret
  as

/-- The emitter of `cell JIT_CDECL exec_helper(void *address)`. -/
def emit_exec_helper (as : X86Assembler)
    (l_amx l_ebp l_esp l_reset_ebp l_reset_esp : Label) : X86Assembler :=
  -- Store the function address in eax.
  let as := as.mov eax (dword_ptr esp 4)
  let as := as.push esi
  let as := as.push edi
  let as := as.push ebx
  let as := as.push ecx
  let as := as.push edx
  -- Store old ebp and esp on the stack.
  let as := as.push (dword_ptr_lbl l_ebp)
  let as := as.push (dword_ptr_lbl l_esp)
  -- Most recent ebp and esp are stored in member variables.
  let as := as.mov (dword_ptr_lbl l_ebp) ebp
  let as := as.mov (dword_ptr_lbl l_esp) esp
  -- Switch from the native stack to the AMX stack.
  let as := emit_get_amx_ptr as l_amx ecx
  let as := as.mov edx (dword_ptr ecx K.off_frm)
  let as := as.lea ebp (dword_ptr_idx ebx edx 0)
  let as := as.mov edx (dword_ptr ecx K.off_stk)
  let as := as.lea esp (dword_ptr_idx ebx edx 0)
  -- Set the stack registers as if the instruction was called from here.
  let as := as.lea ecx (dword_ptr esp (-4))
  let as := as.mov (dword_ptr_lbl l_reset_esp) ecx
  let as := as.mov (dword_ptr_lbl l_reset_ebp) ebp
  -- Call the function.
  let as := as.call_reg eax
  -- Keep the AMX stack registers up-to-date.
  let as := emit_get_amx_ptr as l_amx eax
  let as := as.mov edx ebp
  let as := as.sub edx ebx
  let as := as.mov (dword_ptr eax K.off_frm) edx
  let as := as.mov edx esp
  let as := as.sub edx ebx
  let as := as.mov (dword_ptr eax K.off_stk) edx
  -- Switch back to the native stack.
  let as := as.mov ebp (dword_ptr_lbl l_ebp)
  let as := as.mov esp (dword_ptr_lbl l_esp)
  let as := as.pop (dword_ptr_lbl l_esp)
  let as := as.pop (dword_ptr_lbl l_ebp)
  let as := as.pop edx
  let as := as.pop ecx
  let as := as.pop ebx
  let as := as.pop edi
  let as := as.pop esi
  let as := as.ret
  as

/-- The emitter of `void JIT_CDECL halt_helper(int error)`. -/
def emit_halt_helper (as : X86Assembler) (l_amx l_reset_ebp l_reset_esp : Label) :
    X86Assembler :=
  let as := as.mov eax (dword_ptr esp 4)
  let as := emit_get_amx_ptr as l_amx ecx
  let as := as.mov (dword_ptr ecx K.off_error) eax
  -- Reset stack so we can return right to call().
  let as := as.mov esp (dword_ptr_lbl l_reset_esp)
  let as := as.mov ebp (dword_ptr_lbl l_reset_ebp)
  -- Pop public arguments as it would otherwise be done by RETN.
  let as := as.pop eax
  let as := as.add esp (dword_ptr esp 0)
  let as := as.add esp (imm 4)
  let as := as.push eax
  let as := as.ret
  as

/-- The emitter of
`void JIT_CDECL jump_helper(void *address, void *stack_base, void *stack_ptr)`. -/
def emit_jump_helper (as : X86Assembler) (l_amx l_instr_map l_instr_map_size : Label) :
    X86Assembler :=
  let _ := l_amx
  let (L_do_jump, as) := as.newLabel
  let arg_address : Int := 4
  let arg_stack_base : Int := 8
  let arg_stack_ptr : Int := 12
  let as := as.mov eax (dword_ptr esp arg_address)
  -- Get pointer to the JIT code corresponding to the function.
  let as := as.push (dword_ptr_lbl l_instr_map_size)
  let as := as.push (dword_ptr_lbl l_instr_map)
  let as := as.push eax
  let as := as.call_ptr .get_instr_ptr
  let as := as.add esp (imm 12)
  -- If the address was not valid, continue as if no jump was initiated.
  let as := as.cmp eax (imm 0)
  let as := as.jne L_do_jump
  let as := as.ret
  let as := as.bind L_do_jump
  -- Jump to the destination address.
  let as := as.mov ebp (dword_ptr esp arg_stack_base)
  let as := as.mov esp (dword_ptr esp arg_stack_ptr)
  let as := as.jmp_reg eax
  as

/-- The emitter of
`cell JIT_CDECL sysreq_c_helper(int index, void *stack_base, void *stack_ptr)`. -/
def emit_sysreq_c_helper (as : X86Assembler) (l_amx l_sysreq_d : Label) : X86Assembler :=
  let (L_call, as) := as.newLabel
  let (L_return, as) := as.newLabel
  let arg_index : Int := 8
  let arg_stack_base : Int := 12
  let arg_stack_ptr : Int := 16
  let as := as.push ebp
  let as := as.mov ebp esp
  let as := as.push (dword_ptr ebp arg_index)
  let as := emit_get_amx_ptr as l_amx eax
  let as := as.push eax
  let as := as.call_ptr .get_native_addr
  let as := as.add esp (imm 8)
  let as := as.cmp eax (imm 0)
  let as := as.jne L_call
  let as := as.mov eax (imm K.AMX_ERR_NOTFOUND)
  let as := as.jmp L_return
  let as := as.bind L_call
  let as := as.push (dword_ptr ebp arg_stack_ptr)
  let as := as.push (dword_ptr ebp arg_stack_base)
  let as := as.push eax
  let as := as.call l_sysreq_d
  let as := as.add esp (imm 12)
  let as := as.bind L_return
  let as := as.mov esp ebp
  let as := as.pop ebp
  let as := as.ret
  as

/-- The emitter of
`cell sysreq_d_helper(void *address, void *stack_base, void *stack_ptr)`. -/
def emit_sysreq_d_helper (as : X86Assembler) (l_amx l_ebp l_esp : Label) : X86Assembler :=
  let as := as.mov eax (dword_ptr esp 4)
  let as := as.mov ebp (dword_ptr esp 8)
  let as := as.mov esp (dword_ptr esp 12)
  let as := as.mov ecx esp
  let as := as.mov esi (dword_ptr esp (-16))
  let as := emit_get_amx_ptr as l_amx edx
  -- Switch to the native stack.
  let as := as.sub ebp ebx
  let as := as.mov (dword_ptr edx K.off_frm) ebp
  let as := as.mov ebp (dword_ptr_lbl l_ebp)
  let as := as.sub esp ebx
  let as := as.mov (dword_ptr edx K.off_stk) esp
  let as := as.mov esp (dword_ptr_lbl l_esp)
  -- Call the native function.
  let as := as.push ecx
  let as := as.push edx
  let as := as.call_reg eax
  let as := as.add esp (imm 8)
  -- Switch back to the AMX stack.
  let as := emit_get_amx_ptr as l_amx edx
  let as := as.mov (dword_ptr_lbl l_ebp) ebp
  let as := as.mov ecx (dword_ptr edx K.off_frm)
  let as := as.lea ebp (dword_ptr_idx ebx ecx 0)
  let as := as.mov (dword_ptr_lbl l_esp) esp
  let as := as.mov ecx (dword_ptr edx K.off_stk)
  let as := as.lea esp (dword_ptr_idx ebx ecx 0)
  -- Alter the return address so that we return directly to the point of call.
  let as := as.push esi
  let as := as.ret
  as

/-- The function `rel_code_addr(amx, address)`. -/
def rel_code_addr (amx : AMXPtr) (address : Int) : Int := toCell (address - amx.code)

/-- The loop body of `collect_jump_targets` for one decoded instruction; the
set is a list of its members. -/
def collect_jump_targets_step (info : OpcodeInfo) (amx : AMXPtr) (refs : List Int)
    (instr : AMXInstruction) : List Int :=
  let opcode := instr.opcode
  if info.is_call opcode || info.is_jump opcode && instr.num_operands == 1 then
    refs ++ [rel_code_addr amx instr.operand]
  else if opcode = .OP_CASETBL then
    let n := instr.num_operands
    refs ++ ((List.range n).filter (fun i => i % 2 == 1)).map
      (fun i => rel_code_addr amx (instr.operand_at i))
  else if opcode = .OP_PROC then
    refs ++ [instr.address]
  else refs

/-- The function `collect_jump_targets(amx, refs)`. -/
def collect_jump_targets (info : OpcodeInfo) (amx : AMXPtr) (refs : List Int) : List Int :=
  amx.decoded.foldl (collect_jump_targets_step info amx) refs

end Emitters

/-! ## Memory

A flat little-endian byte memory; addresses are natural numbers, a 32-bit word
occupies four consecutive bytes. -/

/-- Byte-addressed memory. -/
abbrev Memory := Nat → Nat

def read8 (m : Memory) (a : Nat) : Nat := m a % 256

def write8 (m : Memory) (a v : Nat) : Memory :=
  fun x => if x = a then v % 256 else m x

def read16 (m : Memory) (a : Nat) : Nat := read8 m a + 256 * read8 m (a + 1)

def write16 (m : Memory) (a v : Nat) : Memory :=
  write8 (write8 m a v) (a + 1) (v / 256)

def read32 (m : Memory) (a : Nat) : Nat :=
  read8 m a + 256 * read8 m (a + 1) + 65536 * read8 m (a + 2) + 16777216 * read8 m (a + 3)

def write32 (m : Memory) (a v : Nat) : Memory :=
  write8 (write8 (write8 (write8 m a v) (a + 1) (v / 256)) (a + 2) (v / 65536))
    (a + 3) (v / 16777216)

/-- Store one `InstrMapEntry` record at `a`: the cell `amx_addr`, then the
pointer `jit_addr`. -/
def writeEntry (m : Memory) (a : Nat) (e : InstrMapEntry) : Memory :=
  write32 (write32 m a (toU32 e.amx_addr)) (a + 4) e.jit_addr

/-- Load the `InstrMapEntry` record at `a`. -/
def readEntry (m : Memory) (a : Nat) : InstrMapEntry :=
  ⟨toSigned (read32 m a), read32 m (a + 4)⟩

/-- The array of `n` records that starts at `a`. -/
def readMap (m : Memory) (a : Nat) : Nat → List InstrMapEntry
  | 0 => []
  | n + 1 => readEntry m a :: readMap m (a + 8) n

/-- The data words of a list of items, stored from address `a` on; the bytes
of the instructions are not represented. -/
def storeItems (enc : Instr → Nat) : List Item → Nat → Memory → Memory
  | [], _, m => m
  | it :: rest, a, m =>
    storeItems enc rest (a + it.size enc)
      (match it with
       | .dd v => write32 m a (toU32 v)
       | .dstruct e => writeEntry m a e
       | _ => m)

/-! ## The opcode translator -/

section Translator
open GpReg

/-- The class `AmxLabels`: the map from bytecode address to label. -/
structure AmxLabels where
  labels_ : List (Int × Label)

/-- The method `AmxLabels::get(as, address)`: the label of the address, made
on first use. -/
def AmxLabels.get (self : AmxLabels) (as : X86Assembler) (address : Int) :
    Label × AmxLabels × X86Assembler :=
  match self.labels_.lookup address with
  | some l => (l, self, as)
  | none =>
    let (l, as) := as.newLabel
    (l, ⟨self.labels_ ++ [(address, l)]⟩, as)

/-- The labels of `compile` that the opcode switch refers to. -/
structure HelperLabels where
  L_amx : Label
  L_jump_helper : Label
  L_sysreq_c_helper : Label
  L_sysreq_d_helper : Label
  L_do_halt : Label

/-- The case value scan of `OP_SWITCH`: the smallest and the largest case
value of the table (the values the source reaches through `min_value` and
`max_value`), `none` while the pointer is null. -/
def switch_min_max (cell_at : Int → Int) (operand : Int) (num_records : Nat) :
    Option Int × Option Int :=
  (List.range num_records).foldl
    (fun (acc : Option Int × Option Int) i =>
      let value := cell_at (operand + 4 + 8 * ((i : Int) + 1))
      let mn := match acc.1 with
        | none => some value
        | some m => if value < m then some value else some m
      let mx := match acc.2 with
        | none => some value
        | some m => if value > m then some value else some m
      (mn, mx))
    (none, none)

/-- The compare cascade of `OP_SWITCH`: one `cmp eax, value; je label` per
record. -/
def switch_cascade (amx : AMXPtr) (operand : Int) (num_records : Nat)
    (as : X86Assembler) (amx_labels : AmxLabels) : X86Assembler × AmxLabels :=
  (List.range num_records).foldl
    (fun (acc : X86Assembler × AmxLabels) i =>
      let dest := rel_code_addr amx (amx.cell_at (operand + 4 + 8 * ((i : Int) + 1) + 4))
      let as := acc.1.cmp eax (imm (amx.cell_at (operand + 4 + 8 * ((i : Int) + 1))))
      let (l, amx_labels, as) := acc.2.get as dest
      (as.je l, amx_labels))
    (as, amx_labels)

variable (K : AmxH)

/-- The `switch (instr.opcode().id())` of `compile`: the code emitted for one
instruction. The third component is the value the case leaves in `error`. -/
def translate (amx : AMXPtr) (L : HelperLabels) (instr : AMXInstruction)
    (as : X86Assembler) (amx_labels : AmxLabels) : X86Assembler × AmxLabels × Bool :=
  let ok (as : X86Assembler) : X86Assembler × AmxLabels × Bool := (as, amx_labels, false)
  let fail : X86Assembler × AmxLabels × Bool := (as, amx_labels, true)
  let jcc (f : X86Assembler → Label → X86Assembler) (compare : Option (Operand × Operand)) :
      X86Assembler × AmxLabels × Bool :=
    let dest := rel_code_addr amx instr.operand
    let (L_dest, amx_labels, as) := amx_labels.get as dest
    let as := match compare with
      | some (a, b) => as.cmp a b
      | none => as
    (f as L_dest, amx_labels, false)
  match instr.opcode with
  | .OP_LOAD_PRI => ok (as.mov eax (dword_ptr ebx instr.operand))
  | .OP_LOAD_ALT => ok (as.mov ecx (dword_ptr ebx instr.operand))
  | .OP_LOAD_S_PRI => ok (as.mov eax (dword_ptr ebp instr.operand))
  | .OP_LOAD_S_ALT => ok (as.mov ecx (dword_ptr ebp instr.operand))
  | .OP_LREF_PRI =>
    let as := as.mov edx (dword_ptr ebx instr.operand)
    ok (as.mov eax (dword_ptr_idx ebx edx 0))
  | .OP_LREF_ALT =>
    let as := as.mov edx (dword_ptr ebx instr.operand)
    ok (as.mov ecx (dword_ptr_idx ebx edx 0))
  | .OP_LREF_S_PRI =>
    let as := as.mov edx (dword_ptr ebp instr.operand)
    ok (as.mov eax (dword_ptr_idx ebx edx 0))
  | .OP_LREF_S_ALT =>
    let as := as.mov edx (dword_ptr ebp instr.operand)
    ok (as.mov ecx (dword_ptr_idx ebx edx 0))
  | .OP_LOAD_I => ok (as.mov eax (dword_ptr_idx ebx eax 0))
  | .OP_LODB_I =>
    if instr.operand = 1 then ok (as.movzx eax (byte_ptr_idx ebx eax))
    else if instr.operand = 2 then ok (as.movzx eax (word_ptr_idx ebx eax))
    else if instr.operand = 4 then ok (as.mov eax (dword_ptr_idx ebx eax 0))
    else fail
  | .OP_CONST_PRI =>
    if instr.operand = 0 then ok (as.xor_ eax eax)
    else ok (as.mov eax (imm instr.operand))
  | .OP_CONST_ALT =>
    if instr.operand = 0 then ok (as.xor_ ecx ecx)
    else ok (as.mov ecx (imm instr.operand))
  | .OP_ADDR_PRI =>
    let as := as.lea eax (dword_ptr ebp instr.operand)
    ok (as.sub eax ebx)
  | .OP_ADDR_ALT =>
    let as := as.lea ecx (dword_ptr ebp instr.operand)
    ok (as.sub ecx ebx)
  | .OP_STOR_PRI => ok (as.mov (dword_ptr ebx instr.operand) eax)
  | .OP_STOR_ALT => ok (as.mov (dword_ptr ebx instr.operand) ecx)
  | .OP_STOR_S_PRI => ok (as.mov (dword_ptr ebp instr.operand) eax)
  | .OP_STOR_S_ALT => ok (as.mov (dword_ptr ebp instr.operand) ecx)
  | .OP_SREF_PRI =>
    let as := as.mov edx (dword_ptr ebx instr.operand)
    ok (as.mov (dword_ptr_idx ebx edx 0) eax)
  | .OP_SREF_ALT =>
    let as := as.mov edx (dword_ptr ebx instr.operand)
    ok (as.mov (dword_ptr_idx ebx edx 0) ecx)
  | .OP_SREF_S_PRI =>
    let as := as.mov edx (dword_ptr ebp instr.operand)
    ok (as.mov (dword_ptr_idx ebx edx 0) eax)
  | .OP_SREF_S_ALT =>
    let as := as.mov edx (dword_ptr ebp instr.operand)
    ok (as.mov (dword_ptr_idx ebx edx 0) ecx)
  | .OP_STOR_I => ok (as.mov (dword_ptr_idx ebx ecx 0) eax)
  | .OP_STRB_I =>
    if instr.operand = 1 then ok (as.mov (byte_ptr_idx ebx ecx) al)
    else if instr.operand = 2 then ok (as.mov (word_ptr_idx ebx ecx) ax)
    else if instr.operand = 4 then ok (as.mov (dword_ptr_idx ebx ecx 0) eax)
    else fail
  | .OP_LIDX =>
    let as := as.lea edx (dword_ptr_idx ebx ecx 0)
    ok (as.mov eax (dword_ptr_idx edx eax 2))
  | .OP_LIDX_B =>
    let as := as.lea edx (dword_ptr_idx ebx ecx 0)
    ok (as.mov eax (dword_ptr_idx edx eax instr.operand))
  | .OP_IDXADDR => ok (as.lea eax (dword_ptr_idx ecx eax 2))
  | .OP_IDXADDR_B => ok (as.lea eax (dword_ptr_idx ecx eax instr.operand))
  | .OP_ALIGN_PRI =>
    -- the operand is compared with sizeof(cell) as an unsigned value
    if toU32 instr.operand < 4 then ok (as.xor_ eax (imm (4 - instr.operand)))
    else ok as
  | .OP_ALIGN_ALT =>
    if toU32 instr.operand < 4 then ok (as.xor_ ecx (imm (4 - instr.operand)))
    else ok as
  | .OP_LCTRL =>
    if instr.operand = 0 then
      let as := emit_get_amx_ptr as L.L_amx eax
      let as := as.mov eax (dword_ptr eax K.off_base)
      ok (as.mov eax (dword_ptr edx K.hdr_cod))
    else if instr.operand = 1 then
      let as := emit_get_amx_ptr as L.L_amx eax
      let as := as.mov eax (dword_ptr eax K.off_base)
      ok (as.mov eax (dword_ptr edx K.hdr_dat))
    else if instr.operand = 2 then
      let as := emit_get_amx_ptr as L.L_amx eax
      ok (as.mov eax (dword_ptr eax K.off_hea))
    else if instr.operand = 3 then
      let as := emit_get_amx_ptr as L.L_amx eax
      ok (as.mov eax (dword_ptr eax K.off_stp))
    else if instr.operand = 4 then
      let as := as.mov eax esp
      ok (as.sub eax ebx)
    else if instr.operand = 5 then
      let as := as.mov eax ebp
      ok (as.sub eax ebx)
    else if instr.operand = 6 then
      ok (as.mov eax (imm (instr.address + instr.size)))
    else if instr.operand = 7 then
      ok (as.mov eax (imm 1))
    else fail
  | .OP_SCTRL =>
    if instr.operand = 2 then
      let as := emit_get_amx_ptr as L.L_amx edx
      ok (as.mov (dword_ptr edx K.off_hea) eax)
    else if instr.operand = 4 then
      ok (as.lea esp (dword_ptr_idx ebx eax 0))
    else if instr.operand = 5 then
      ok (as.lea ebp (dword_ptr_idx ebx eax 0))
    else if instr.operand = 6 then
      let as := as.push esp
      let as := as.push ebp
      let as := as.push eax
      ok (as.call L.L_jump_helper)
    else fail
  | .OP_MOVE_PRI => ok (as.mov eax ecx)
  | .OP_MOVE_ALT => ok (as.mov ecx eax)
  | .OP_XCHG => ok (as.xchg eax ecx)
  | .OP_PUSH_PRI => ok (as.push eax)
  | .OP_PUSH_ALT => ok (as.push ecx)
  | .OP_PUSH_C => ok (as.push (imm instr.operand))
  | .OP_PUSH => ok (as.push (dword_ptr ebx instr.operand))
  | .OP_PUSH_S => ok (as.push (dword_ptr ebp instr.operand))
  | .OP_POP_PRI => ok (as.pop eax)
  | .OP_POP_ALT => ok (as.pop ecx)
  | .OP_STACK =>
    let as := as.mov ecx esp
    let as := as.sub ecx ebx
    if instr.operand ≥ 0 then ok (as.add esp (imm instr.operand))
    else ok (as.sub esp (imm (-instr.operand)))
  | .OP_HEAP =>
    let as := emit_get_amx_ptr as L.L_amx edx
    let as := as.mov ecx (dword_ptr edx K.off_hea)
    if instr.operand ≥ 0 then ok (as.add (dword_ptr edx K.off_hea) (imm instr.operand))
    else ok (as.sub (dword_ptr edx K.off_hea) (imm (-instr.operand)))
  | .OP_PROC =>
    let as := as.push ebp
    let as := as.mov ebp esp
    ok (as.sub (dword_ptr esp 0) ebx)
  | .OP_RET =>
    let as := as.pop ebp
    let as := as.add ebp ebx
    ok as.ret
  | .OP_RETN =>
    let as := as.pop ebp
    let as := as.add ebp ebx
    let as := as.pop edx
    let as := as.add esp (dword_ptr esp 0)
    let as := as.push edx
    ok (as.ret_imm 4)
  | .OP_CALL =>
    let dest := rel_code_addr amx instr.operand
    let (l, amx_labels, as) := amx_labels.get as dest
    (as.call l, amx_labels, false)
  | .OP_JUMP_PRI =>
    let as := as.push esp
    let as := as.push ebp
    let as := as.push eax
    ok (as.call L.L_jump_helper)
  | .OP_JUMP => jcc X86Assembler.jmp none
  | .OP_JZER => jcc X86Assembler.jz (some (eax, imm 0))
  | .OP_JNZ => jcc X86Assembler.jnz (some (eax, imm 0))
  | .OP_JEQ => jcc X86Assembler.je (some (eax, ecx))
  | .OP_JNEQ => jcc X86Assembler.jne (some (eax, ecx))
  | .OP_JLESS => jcc X86Assembler.jb (some (eax, ecx))
  | .OP_JLEQ => jcc X86Assembler.jbe (some (eax, ecx))
  | .OP_JGRTR => jcc X86Assembler.ja (some (eax, ecx))
  | .OP_JGEQ => jcc X86Assembler.jae (some (eax, ecx))
  | .OP_JSLESS => jcc X86Assembler.jl (some (eax, ecx))
  | .OP_JSLEQ => jcc X86Assembler.jle (some (eax, ecx))
  | .OP_JSGRTR => jcc X86Assembler.jg (some (eax, ecx))
  | .OP_JSGEQ => jcc X86Assembler.jge (some (eax, ecx))
  | .OP_SHL => ok (as.shl eax cl)
  | .OP_SHR => ok (as.shr eax cl)
  | .OP_SSHR => ok (as.sar eax cl)
  | .OP_SHL_C_PRI => ok (as.shl eax (imm (instr.operand % 256)))
  | .OP_SHL_C_ALT => ok (as.shl ecx (imm (instr.operand % 256)))
  | .OP_SHR_C_PRI => ok (as.shr eax (imm (instr.operand % 256)))
  | .OP_SHR_C_ALT => ok (as.shl ecx (imm (instr.operand % 256)))
  | .OP_SMUL =>
    let as := as.xor_ edx edx
    ok (as.imul1 ecx)
  | .OP_SDIV =>
    let as := as.xor_ edx edx
    let as := as.idiv ecx
    ok (as.mov ecx edx)
  | .OP_SDIV_ALT =>
    let as := as.xchg eax ecx
    let as := as.xor_ edx edx
    let as := as.idiv ecx
    ok (as.mov ecx edx)
  | .OP_UMUL =>
    let as := as.xor_ edx edx
    ok (as.mul ecx)
  | .OP_UDIV =>
    let as := as.xor_ edx edx
    let as := as.div ecx
    ok (as.mov ecx edx)
  | .OP_UDIV_ALT =>
    let as := as.xchg eax ecx
    let as := as.xor_ edx edx
    let as := as.div ecx
    ok (as.mov ecx edx)
  | .OP_ADD => ok (as.add eax ecx)
  | .OP_SUB => ok (as.sub eax ecx)
  | .OP_SUB_ALT =>
    let as := as.sub eax ecx
    ok (as.neg eax)
  | .OP_AND => ok (as.and_ eax ecx)
  | .OP_OR => ok (as.or_ eax ecx)
  | .OP_XOR => ok (as.xor_ eax ecx)
  | .OP_NOT =>
    let as := as.test eax eax
    let as := as.setz al
    ok (as.movzx eax al)
  | .OP_NEG => ok (as.neg eax)
  | .OP_INVERT => ok (as.not_ eax)
  | .OP_ADD_C =>
    if instr.operand ≥ 0 then ok (as.add eax (imm instr.operand))
    else ok (as.sub eax (imm (-instr.operand)))
  | .OP_SMUL_C => ok (as.imul2 eax (imm instr.operand))
  | .OP_ZERO_PRI => ok (as.xor_ eax eax)
  | .OP_ZERO_ALT => ok (as.xor_ ecx ecx)
  | .OP_ZERO => ok (as.mov (dword_ptr ebx instr.operand) (imm 0))
  | .OP_ZERO_S => ok (as.mov (dword_ptr ebp instr.operand) (imm 0))
  | .OP_SIGN_PRI => ok (as.movsx eax al)
  | .OP_SIGN_ALT => ok (as.movsx ecx cl)
  | .OP_EQ =>
    let as := as.cmp eax ecx
    let as := as.sete al
    ok (as.movzx eax al)
  | .OP_NEQ =>
    let as := as.cmp eax ecx
    let as := as.setne al
    ok (as.movzx eax al)
  | .OP_LESS =>
    let as := as.cmp eax ecx
    let as := as.setb al
    ok (as.movzx eax al)
  | .OP_LEQ =>
    let as := as.cmp eax ecx
    let as := as.setbe al
    ok (as.movzx eax al)
  | .OP_GRTR =>
    let as := as.cmp eax ecx
    let as := as.seta al
    ok (as.movzx eax al)
  | .OP_GEQ =>
    let as := as.cmp eax ecx
    let as := as.setae al
    ok (as.movzx eax al)
  | .OP_SLESS =>
    let as := as.cmp eax ecx
    let as := as.setl al
    ok (as.movzx eax al)
  | .OP_SLEQ =>
    let as := as.cmp eax ecx
    let as := as.setle al
    ok (as.movzx eax al)
  | .OP_SGRTR =>
    let as := as.cmp eax ecx
    let as := as.setg al
    ok (as.movzx eax al)
  | .OP_SGEQ =>
    let as := as.cmp eax ecx
    let as := as.setge al
    ok (as.movzx eax al)
  | .OP_EQ_C_PRI =>
    let as := as.cmp eax (imm instr.operand)
    let as := as.sete al
    ok (as.movzx eax al)
  | .OP_EQ_C_ALT =>
    let as := as.cmp ecx (imm instr.operand)
    let as := as.sete al
    ok (as.movzx eax al)
  | .OP_INC_PRI => ok (as.inc eax)
  | .OP_INC_ALT => ok (as.inc ecx)
  | .OP_INC => ok (as.inc (dword_ptr ebx instr.operand))
  | .OP_INC_S => ok (as.inc (dword_ptr ebp instr.operand))
  | .OP_INC_I => ok (as.inc (dword_ptr_idx ebx eax 0))
  | .OP_DEC_PRI => ok (as.dec eax)
  | .OP_DEC_ALT => ok (as.dec ecx)
  | .OP_DEC => ok (as.dec (dword_ptr ebx instr.operand))
  | .OP_DEC_S => ok (as.dec (dword_ptr ebp instr.operand))
  | .OP_DEC_I => ok (as.dec (dword_ptr_idx ebx eax 0))
  | .OP_MOVS =>
    let as := as.cld
    let as := as.lea esi (dword_ptr_idx ebx eax 0)
    let as := as.lea edi (dword_ptr_idx ebx ecx 0)
    let as := as.push ecx
    let as :=
      if instr.operand.tmod 4 = 0 then
        let as := as.mov ecx (imm (instr.operand.tdiv 4))
        as.rep_movsd
      else if instr.operand.tmod 2 = 0 then
        let as := as.mov ecx (imm (instr.operand.tdiv 2))
        as.rep_movsw
      else
        let as := as.mov ecx (imm instr.operand)
        as.rep_movsb
    ok (as.pop ecx)
  | .OP_CMPS =>
    let (L_above, as) := as.newLabel
    let (L_below, as) := as.newLabel
    let (L_equal, as) := as.newLabel
    let (L_continue, as) := as.newLabel
    let as := as.cld
    let as := as.lea edi (dword_ptr_idx ebx eax 0)
    let as := as.lea esi (dword_ptr_idx ebx ecx 0)
    let as := as.push ecx
    let as := as.mov ecx (imm instr.operand)
    let as := as.repe_cmpsb
    let as := as.pop ecx
    let as := as.ja L_above
    let as := as.jb L_below
    let as := as.jz L_equal
    let as := as.bind L_above
    let as := as.mov eax (imm 1)
    let as := as.jmp L_continue
    let as := as.bind L_below
    let as := as.mov eax (imm (-1))
    let as := as.jmp L_continue
    let as := as.bind L_equal
    let as := as.xor_ eax eax
    let as := as.bind L_continue
    ok as
  | .OP_FILL =>
    let as := as.cld
    let as := as.lea edi (dword_ptr_idx ebx ecx 0)
    let as := as.push ecx
    -- the operand is divided by sizeof(cell) as an unsigned value
    let as := as.mov ecx (imm ((toU32 instr.operand / 4 : Nat) : Int))
    let as := as.rep_stosd
    ok (as.pop ecx)
  | .OP_HALT =>
    let as := as.mov ecx (imm instr.operand)
    ok (as.jmp L.L_do_halt)
  | .OP_BOUNDS =>
    let (L_halt, as) := as.newLabel
    let (L_good, as) := as.newLabel
    let as := as.cmp eax (imm instr.operand)
    let as := as.jg L_halt
    let as := as.cmp eax (imm 0)
    let as := as.jl L_halt
    let as := as.jmp L_good
    let as := as.bind L_halt
    let as := as.mov ecx (imm K.AMX_ERR_BOUNDS)
    let as := as.jmp L.L_do_halt
    let as := as.bind L_good
    ok as
  | .OP_SYSREQ_PRI =>
    let as := as.push esp
    let as := as.push ebp
    let as := as.push eax
    ok (as.call L.L_sysreq_c_helper)
  | .OP_SYSREQ_C =>
    match amx.get_native_name instr.operand with
    | some native_name =>
      match intrinsics.lookup native_name with
      | some emit => ok (emit as)
      | none =>
        let as := as.push esp
        let as := as.push ebp
        let as := as.push (imm instr.operand)
        ok (as.call L.L_sysreq_c_helper)
    | none => fail
  | .OP_SYSREQ_D =>
    match amx.get_native_name (amx.find_native instr.operand) with
    | some native_name =>
      match intrinsics.lookup native_name with
      | some emit => ok (emit as)
      | none =>
        let as := as.push esp
        let as := as.push ebp
        let as := as.push (imm instr.operand)
        ok (as.call L.L_sysreq_d_helper)
    | none => fail
  | .OP_SWITCH =>
    -- case_table = operand + sizeof(cell); case_table[0].address is the default
    let default_case := rel_code_addr amx (amx.cell_at (instr.operand + 4 + 4))
    let num_records := amx.cell_at (instr.operand + 4)
    let (as, amx_labels) :=
      if num_records > 0 then
        let mm := switch_min_max amx.cell_at instr.operand num_records.toNat
        let as := as.cmp eax (imm (mm.1.getD 0))
        let (l, amx_labels, as) := amx_labels.get as default_case
        let as := as.jl l
        let as := as.cmp eax (imm (mm.2.getD 0))
        let (l, amx_labels, as) := amx_labels.get as default_case
        let as := as.jg l
        switch_cascade amx instr.operand num_records.toNat as amx_labels
      else (as, amx_labels)
    let (l, amx_labels, as) := amx_labels.get as default_case
    (as.jmp l, amx_labels, false)
  | .OP_CASETBL => ok as
  | .OP_SWAP_PRI => ok (as.xchg (dword_ptr esp 0) eax)
  | .OP_SWAP_ALT => ok (as.xchg (dword_ptr esp 0) ecx)
  | .OP_PUSH_ADR =>
    let as := as.lea edx (dword_ptr ebp instr.operand)
    let as := as.sub edx ebx
    ok (as.push edx)
  | .OP_NOP => ok as
  | .OP_BREAK => ok as
  | .OP_NONE => fail
  | .OP_JREL => fail
  | .OP_CALL_PRI => fail
  | .OP_FILE => fail
  | .OP_LINE => fail
  | .OP_SYMBOL => fail
  | .OP_SRANGE => fail
  | .OP_SYMTAG => fail

end Translator

/-! ## `AsmjitBackend::compile` -/

section Compile
variable (K : AmxH)

/-- The assembler and the labels of `compile` after the runtime header, the
reserved instruction map and the six trampolines have been emitted (the
statements of `compile` up to the creation of `L_do_halt`). -/
structure Prologue where
  as : X86Assembler
  L_exec_ptr : Label
  L_amx : Label
  L_ebp : Label
  L_esp : Label
  L_reset_ebp : Label
  L_reset_esp : Label
  L_instr_map_size : Label
  L_instr_map : Label
  L_exec_helper : Label
  L_exec : Label
  L_halt_helper : Label
  L_jump_helper : Label
  L_sysreq_d_helper : Label
  L_sysreq_c_helper : Label
  L_do_halt : Label

/-- The start of `compile`: the eight header slots, each behind its label, and
`reserve_instr_map`. -/
def compile_header (enc : Instr → Nat) (amx : AMXPtr) : X86Assembler :=
  let as : X86Assembler := ⟨enc, [], 0⟩
  let (L_exec_ptr, as) := as.newLabel
  let as := as.bind L_exec_ptr
  let as := as.dd 0
  let (L_amx, as) := as.newLabel
  let as := as.bind L_amx
  let as := as.dintptr amx.amx
  let (L_ebp, as) := as.newLabel
  let as := as.bind L_ebp
  let as := as.dd 0
  let (L_esp, as) := as.newLabel
  let as := as.bind L_esp
  let as := as.dd 0
  let (L_reset_ebp, as) := as.newLabel
  let as := as.bind L_reset_ebp
  let as := as.dd 0
  let (L_reset_esp, as) := as.newLabel
  let as := as.bind L_reset_esp
  let as := as.dd 0
  let (L_instr_map_size, as) := as.newLabel
  let as := as.bind L_instr_map_size
  let as := as.dd 0
  let (L_instr_map, as) := as.newLabel
  let as := as.bind L_instr_map
  let as := as.dd 0
  reserve_instr_map as amx

/-- The first part of `compile`: header slots, `reserve_instr_map`, the
trampolines, and the label `L_do_halt`. The header labels are the first eight
labels made. -/
def compile_prologue (enc : Instr → Nat) (amx : AMXPtr) : Prologue :=
  let as := compile_header enc amx
  let L_exec_ptr : Label := ⟨0⟩
  let L_amx : Label := ⟨1⟩
  let L_ebp : Label := ⟨2⟩
  let L_esp : Label := ⟨3⟩
  let L_reset_ebp : Label := ⟨4⟩
  let L_reset_esp : Label := ⟨5⟩
  let L_instr_map_size : Label := ⟨6⟩
  let L_instr_map : Label := ⟨7⟩
  let (L_exec_helper, as) := as.newLabel
  let as := as.bind L_exec_helper
  let as := emit_exec_helper K as L_amx L_ebp L_esp L_reset_ebp L_reset_esp
  let (L_exec, as) := as.newLabel
  let as := as.bind L_exec
  let as := emit_exec K as L_amx L_instr_map L_instr_map_size L_reset_ebp L_reset_esp
    L_exec_helper
  let (L_halt_helper, as) := as.newLabel
  let as := as.bind L_halt_helper
  let as := emit_halt_helper K as L_amx L_reset_ebp L_reset_esp
  let (L_jump_helper, as) := as.newLabel
  let as := as.bind L_jump_helper
  let as := emit_jump_helper as L_amx L_instr_map L_instr_map_size
  let (L_sysreq_d_helper, as) := as.newLabel
  let as := as.bind L_sysreq_d_helper
  let as := emit_sysreq_d_helper K as L_amx L_ebp L_esp
  let (L_sysreq_c_helper, as) := as.newLabel
  let as := as.bind L_sysreq_c_helper
  let as := emit_sysreq_c_helper K as L_amx L_sysreq_d_helper
  let (L_do_halt, as) := as.newLabel
  { as := as, L_exec_ptr := L_exec_ptr, L_amx := L_amx, L_ebp := L_ebp, L_esp := L_esp,
    L_reset_ebp := L_reset_ebp, L_reset_esp := L_reset_esp,
    L_instr_map_size := L_instr_map_size, L_instr_map := L_instr_map,
    L_exec_helper := L_exec_helper, L_exec := L_exec, L_halt_helper := L_halt_helper,
    L_jump_helper := L_jump_helper, L_sysreq_d_helper := L_sysreq_d_helper,
    L_sysreq_c_helper := L_sysreq_c_helper, L_do_halt := L_do_halt }

/-- The labels the opcode switch uses, taken from the prologue. -/
def Prologue.helpers (p : Prologue) : HelperLabels :=
  ⟨p.L_amx, p.L_jump_helper, p.L_sysreq_c_helper, p.L_sysreq_d_helper, p.L_do_halt⟩

/-- The variables of the translation loop of `compile`. `instr_map` is the side
vector of `(bytecode address, code offset)` pairs; `instr` is the instruction
decoded last. -/
structure LoopState where
  as : X86Assembler
  amx_labels : AmxLabels
  instr_map : List (Int × Nat)
  error : Bool
  instr : AMXInstruction

/-- One pass through the body of the translation loop, for the instruction
`instr` just decoded. -/
def compile_step (amx : AMXPtr) (L : HelperLabels) (jump_targets : List Int)
    (st : LoopState) (instr : AMXInstruction) : LoopState :=
  let cip := instr.address
  let as := st.as
  let as := if instr.opcode = .OP_PROC then as.align 16 else as
  let (as, amx_labels) :=
    if cip ∈ jump_targets then
      let (l, amx_labels, as) := st.amx_labels.get as cip
      (as.bind l, amx_labels)
    else (as, st.amx_labels)
  -- Add this instruction to the opcode map.
  let instr_map := st.instr_map ++ [(instr.address, as.getCodeSize)]
  let (as, amx_labels, error) := translate K amx L instr as amx_labels
  { as := as, amx_labels := amx_labels, instr_map := instr_map, error := error,
    instr := instr }

/-- The loop `while (!error && disas.decode(instr, &error))` over the
instructions the disassembler still has to hand out. -/
def compile_loop (amx : AMXPtr) (L : HelperLabels) (jump_targets : List Int) :
    List AMXInstruction → LoopState → LoopState
  | [], st => st
  | instr :: rest, st =>
    if st.error then st
    else compile_loop amx L jump_targets rest (compile_step K amx L jump_targets st instr)

/-- The object `AsmjitBackendOutput`: the block and its size. -/
structure AsmjitBackendOutput where
  code : Nat
  code_size : Nat
deriving DecidableEq, Repr

/-- What a run of `compile` leaves behind: the returned output (`none` for the
null pointer), the instructions the error handler was called with, the final
state of the assembler, the side vector, and the memory. -/
structure CompileResult where
  output : Option AsmjitBackendOutput
  handler_calls : List AMXInstruction
  as : X86Assembler
  instr_map : List (Int × Nat)
  mem : Memory

/-- The relocation loop at the end of `compile`: write one `InstrMapEntry` per
pair of the side vector, `entry++` after each. -/
def write_instr_map (code_ptr : Nat) : List (Int × Nat) → Nat → Memory → Memory
  | [], _, m => m
  | p :: rest, entry, m =>
    write_instr_map code_ptr rest (entry + 8) (writeEntry m entry ⟨p.1, p.2 + code_ptr⟩)

/-- The state of the translation loop when it ends, `L_do_halt` bound and its
two instructions emitted. When the code section ends in bytecode the
disassembler rejects, the last `decode` sets `error` and leaves the rejected
instruction in `instr`. -/
def compile_loop_result (info : OpcodeInfo) (enc : Instr → Nat) (amx : AMXPtr) : LoopState :=
  let p := compile_prologue K enc amx
  let jump_targets := collect_jump_targets info amx []
  let st0 : LoopState :=
    { as := p.as, amx_labels := ⟨[]⟩, instr_map := [], error := false,
      instr := ⟨0, .OP_NONE, []⟩ }
  let st := compile_loop K amx p.helpers jump_targets amx.decoded st0
  let st :=
    if st.error then st
    else match amx.malformed with
      | some bad => { st with error := true, instr := bad }
      | none => st
  let as := st.as.bind p.L_do_halt
  let as := as.push GpReg.ecx
  let as := as.call p.L_halt_helper
  { st with as := as }

/-- The function `AsmjitBackend::compile(amx, error_handler)`. `error_handler`
tells whether the handler pointer is non-null; `code_ptr` is the address at
which `as.make()` places the block and `mem` the memory before that. -/
def compile (info : OpcodeInfo) (enc : Instr → Nat) (amx : AMXPtr) (error_handler : Bool)
    (code_ptr : Nat) (mem : Memory) : CompileResult :=
  let st := compile_loop_result K info enc amx
  if st.error then
    { output := none,
      handler_calls := if error_handler then [st.instr] else [],
      as := st.as, instr_map := st.instr_map, mem := mem }
  else
    -- as.make(): the block is placed at code_ptr
    let mem := storeItems enc st.as.items code_ptr mem
    let code_size := st.as.getCodeSize
    let mem := write32 mem (code_ptr + 4 * RuntimeDataExecPtr)
      (read32 mem (code_ptr + 4 * RuntimeDataExecPtr) + code_ptr)
    let mem := write32 mem (code_ptr + 4 * RuntimeDataInstrMapPtr)
      (read32 mem (code_ptr + 4 * RuntimeDataInstrMapPtr) + code_ptr)
    let instr_map_ptr := read32 mem (code_ptr + 4 * RuntimeDataInstrMapPtr)
    let mem := write_instr_map code_ptr st.instr_map instr_map_ptr mem
    { output := some ⟨code_ptr, code_size⟩, handler_calls := [],
      as := st.as, instr_map := st.instr_map, mem := mem }

end Compile

/-! ## Auxiliary notions used by the statements -/

/-- The buffer of `b` is the buffer of `a` followed by more items, with the
same encoder. -/
def Extends (a b : X86Assembler) : Prop :=
  b.enc = a.enc ∧ ∃ more, b.items = a.items ++ more

/-- The sixteen items of the runtime header as `compile` leaves them: eight
bound labels, each followed by its slot. `x0` is the exec offset stored by
`emit_exec`, `n` the number of reserved map entries; the map offset is the
code size at the time of the reservation, the eight slots. -/
def header_items (x0 amxp n : Int) : List Item :=
  [.bind ⟨0⟩, .dd x0, .bind ⟨1⟩, .dd amxp, .bind ⟨2⟩, .dd 0, .bind ⟨3⟩, .dd 0,
   .bind ⟨4⟩, .dd 0, .bind ⟨5⟩, .dd 0, .bind ⟨6⟩, .dd n, .bind ⟨7⟩, .dd 32]

/-- An assembler with an empty buffer and `k` labels made. -/
def emptyAs (k : Nat) : X86Assembler := ⟨fun _ => 0, [], k⟩

/-- What `emit_exec_helper` appends in `compile`. -/
def exec_helper_items (K : AmxH) : List Item :=
  (emit_exec_helper K (emptyAs 9) ⟨1⟩ ⟨2⟩ ⟨3⟩ ⟨4⟩ ⟨5⟩).items

/-- What `emit_exec` appends in `compile`. -/
def exec_items (K : AmxH) : List Item :=
  (emit_exec K (emptyAs 10) ⟨1⟩ ⟨7⟩ ⟨6⟩ ⟨4⟩ ⟨5⟩ ⟨8⟩).items

/-- What `emit_halt_helper` appends in `compile`. -/
def halt_helper_items (K : AmxH) : List Item :=
  (emit_halt_helper K (emptyAs 19) ⟨1⟩ ⟨4⟩ ⟨5⟩).items

/-- What `emit_jump_helper` appends in `compile`. -/
def jump_helper_items : List Item :=
  (emit_jump_helper (emptyAs 20) ⟨1⟩ ⟨7⟩ ⟨6⟩).items

/-- What `emit_sysreq_d_helper` appends in `compile`. -/
def sysreq_d_helper_items (K : AmxH) : List Item :=
  (emit_sysreq_d_helper K (emptyAs 22) ⟨1⟩ ⟨2⟩ ⟨3⟩).items

/-- What `emit_sysreq_c_helper` appends in `compile`. -/
def sysreq_c_helper_items (K : AmxH) : List Item :=
  (emit_sysreq_c_helper K (emptyAs 23) ⟨1⟩ ⟨21⟩).items

/-- The six trampolines as they lie in the buffer, each after the binding of
its label. -/
def tramp_items (K : AmxH) : List Item :=
  (Item.bind ⟨8⟩ :: exec_helper_items K) ++ (Item.bind ⟨9⟩ :: exec_items K) ++
  (Item.bind ⟨18⟩ :: halt_helper_items K) ++ (Item.bind ⟨19⟩ :: jump_helper_items) ++
  (Item.bind ⟨21⟩ :: sysreq_d_helper_items K) ++ (Item.bind ⟨22⟩ :: sysreq_c_helper_items K)

/-- The state in which `compile` enters the translation loop. -/
def loop_init (K : AmxH) (enc : Instr → Nat) (amx : AMXPtr) : LoopState :=
  { as := (compile_prologue K enc amx).as, amx_labels := ⟨[]⟩, instr_map := [],
    error := false, instr := ⟨0, .OP_NONE, []⟩ }

/-- The state of the translation loop of `compile` after the instructions `l`
have been decoded and translated. -/
def loop_after (K : AmxH) (info : OpcodeInfo) (enc : Instr → Nat) (amx : AMXPtr)
    (l : List AMXInstruction) : LoopState :=
  compile_loop K amx (compile_prologue K enc amx).helpers (collect_jump_targets info amx [])
    l (loop_init K enc amx)

/-- The code offset of the first byte of `exec`: behind the header, the
reserved map of `n` entries and `exec_helper`. -/
def exec_offset (K : AmxH) (enc : Instr → Nat) (n : Nat) : Nat :=
  32 + 8 * n + itemsSize enc (exec_helper_items K)

/-- A sample instance of the `amx.h` constants (the packed 32-bit layout of
`AMX` and `AMX_HEADER`, the error codes and the flag of the AMX toolkit), used
where a statement is evaluated on concrete data. -/
def amx_h_32 : AmxH :=
  { off_base := 0, off_data := 4, off_frm := 20, off_hea := 24, off_hlw := 28,
    off_stk := 32, off_stp := 36, off_flags := 40, off_error := 76, off_paramcount := 80,
    hdr_cod := 12, hdr_dat := 16,
    AMX_ERR_NONE := 0, AMX_ERR_STACKERR := 3, AMX_ERR_BOUNDS := 4, AMX_ERR_STACKLOW := 7,
    AMX_ERR_HEAPLOW := 8, AMX_ERR_NOTFOUND := 19, AMX_ERR_INDEX := 20,
    AMX_FLAG_NTVREG := 4096 }

/-- A sample opcode classification: `CALL` is the call opcode, the thirteen
`JUMP`..`JSGEQ` opcodes are the jump opcodes. -/
def sample_info : OpcodeInfo :=
  { is_call := fun op => decide (op = .OP_CALL),
    is_jump := fun op => decide (op ∈ [AMXOpcodeID.OP_JUMP, .OP_JZER, .OP_JNZ, .OP_JEQ,
      .OP_JNEQ, .OP_JLESS, .OP_JLEQ, .OP_JGRTR, .OP_JGEQ, .OP_JSLESS, .OP_JSLEQ,
      .OP_JSGRTR, .OP_JSGEQ]) }

/-- A sample program handle: the code section `HALT 0; PROC; RETN` at address
`0x4000`, the AMX instance at `0x2000`, no natives. -/
def sample_amx : AMXPtr :=
  { amx := 8192, code := 16384,
    section_code := [⟨.OP_HALT, [0]⟩, ⟨.OP_PROC, []⟩, ⟨.OP_RETN, []⟩],
    malformed := none,
    get_native_name := fun _ => none,
    find_native := fun _ => -1,
    cell_at := fun _ => 0 }

/-- A sample encoder size function: every instruction takes five bytes. -/
def sample_enc : Instr → Nat := fun _ => 5

/-! ## The machine that runs the emitted code

A 32-bit x86 machine over the items of a code buffer placed at `base`. The
program counter is the index of an item; the address of item `i` is `base` plus
the size of the items before it. Registers hold values below `2^32`. The x87
instructions are not modelled: running one stops the machine with a fault. -/

/-- The arithmetic flags. -/
structure Flags where
  cf : Bool
  zf : Bool
  sf : Bool
  ovf : Bool
deriving DecidableEq, Repr

/-- Whether the machine runs, has left the block through a return or a jump to
`addr`, has called the function at `addr` outside the block, or has faulted. -/
inductive Status
  | running
  | exited (addr : Nat)
  | called_out (addr : Nat)
  | fault
deriving DecidableEq, Repr

/-- A call of one of the C functions, with its arguments. -/
structure CallEvent where
  fn : CFunction
  args : List Nat
deriving DecidableEq, Repr

/-- The machine state: registers, flags, direction flag, memory, program
counter, status, and the C calls made so far. -/
structure State where
  eax : Nat
  ecx : Nat
  edx : Nat
  ebx : Nat
  esp : Nat
  ebp : Nat
  esi : Nat
  edi : Nat
  flags : Flags
  df : Bool
  mem : Memory
  pc : Nat
  status : Status
  calls : List CallEvent

/-- The surroundings of the emitted code: what the registry callbacks
`get_public_addr` and `get_native_addr` answer for `(amx, index)`, and what a
cdecl call leaves in the caller-saved registers `ecx`, `edx` and in the flags
(unspecified by the calling convention, hence arbitrary). -/
structure Env where
  get_public_addr : Nat → Nat → Nat
  get_native_addr : Nat → Nat → Nat
  scratch_ecx : CFunction → List Nat → Nat
  scratch_edx : CFunction → List Nat → Nat
  scratch_flags : CFunction → List Nat → Flags

/-- A code buffer placed in memory: the encoder sizes, the items, the base
address, the surroundings. -/
structure Machine where
  enc : Instr → Nat
  items : List Item
  base : Nat
  env : Env

/-- Addition of 32-bit words. -/
def add32 (a b : Nat) : Nat := (a + b) % 4294967296

/-- Subtraction of 32-bit words. -/
def sub32 (a b : Nat) : Nat := (a + (4294967296 - b % 4294967296)) % 4294967296

namespace State

/-- The value of a register. -/
def reg (s : State) : GpReg → Nat
  | .eax => s.eax
  | .ecx => s.ecx
  | .edx => s.edx
  | .ebx => s.ebx
  | .esp => s.esp
  | .ebp => s.ebp
  | .esi => s.esi
  | .edi => s.edi

/-- Store a value in a register. -/
def setReg (s : State) (r : GpReg) (v : Nat) : State :=
  match r with
  | .eax => { s with eax := v }
  | .ecx => { s with ecx := v }
  | .edx => { s with edx := v }
  | .ebx => { s with ebx := v }
  | .esp => { s with esp := v }
  | .ebp => { s with ebp := v }
  | .esi => { s with esi := v }
  | .edi => { s with edi := v }

end State

/-- Index of the first item that binds label `l`. -/
def labelIndex : List Item → Label → Option Nat
  | [], _ => none
  | it :: rest, l =>
    match it with
    | .bind l1 => if l1 = l then some 0 else (labelIndex rest l).map (· + 1)
    | _ => (labelIndex rest l).map (· + 1)

/-- Address of item `i` of the buffer. -/
def codeAddr (M : Machine) (i : Nat) : Nat := M.base + itemsSize M.enc (M.items.take i)

/-- Index of the instruction that starts at address `v`, scanning the items
`l`, the first of which has address `a` and index `i`. -/
def findInstr (enc : Instr → Nat) : List Item → Nat → Nat → Nat → Option Nat
  | [], _, _, _ => none
  | it :: rest, a, i, v =>
    match it with
    | .instr x => if a = v then some i else findInstr enc rest (a + enc x) (i + 1) v
    | _ => findInstr enc rest (a + it.size enc) (i + 1) v

/-- Index of the instruction at address `v`, if `v` is the address of an
instruction of the block. -/
def codeIndex (M : Machine) (v : Nat) : Option Nat := findInstr M.enc M.items M.base 0 v

/-- Address a label stands for. -/
def labelAddr (M : Machine) (l : Label) : Nat :=
  match labelIndex M.items l with
  | some i => codeAddr M i
  | none => 0

/-- Effective address of a memory operand. -/
def ea (M : Machine) (s : State) (m : Mem) : Nat :=
  ((match m.label with | some l => labelAddr M l | none => 0) +
   (match m.base with | some r => s.reg r | none => 0) +
   (match m.index with | some r => s.reg r * 2 ^ m.shift.toNat | none => 0) +
   toU32 m.disp) % 4294967296

/-- Load from memory with the access size of the operand. -/
def loadSized (mem : Memory) (size a : Nat) : Nat :=
  if size = 1 then read8 mem a else if size = 2 then read16 mem a else read32 mem a

/-- Store to memory with the access size of the operand. -/
def storeSized (mem : Memory) (size a v : Nat) : Memory :=
  if size = 1 then write8 mem a v else if size = 2 then write16 mem a v else write32 mem a v

/-- Value of an operand. -/
def readOp (M : Machine) (s : State) : Operand → Nat
  | .reg r => s.reg r
  | .reg8 r => s.reg r % 256
  | .reg16 r => s.reg r % 65536
  | .imm v => toU32 v
  | .mem m => loadSized s.mem m.size (ea M s m)

/-- Store a value into an operand. -/
def writeOp (M : Machine) (s : State) (o : Operand) (v : Nat) : State :=
  match o with
  | .reg r => s.setReg r (v % 4294967296)
  | .reg8 r => s.setReg r (s.reg r / 256 * 256 + v % 256)
  | .reg16 r => s.setReg r (s.reg r / 65536 * 65536 + v % 65536)
  | .imm _ => { s with status := .fault }
  | .mem m => { s with mem := storeSized s.mem m.size (ea M s m) v }

/-- Width in bits of an operand. -/
def opBits : Operand → Nat
  | .reg8 _ => 8
  | .reg16 _ => 16
  | .mem m => 8 * m.size
  | _ => 32

/-- Flags after `a - b` (`sub`, `cmp`). -/
def subFlags (a b : Nat) : Flags :=
  { cf := decide (a < b),
    zf := decide (sub32 a b = 0),
    sf := decide (2147483648 ≤ sub32 a b),
    ovf := decide (toSigned a - toSigned b ≠ toSigned (sub32 a b)) }

/-- Flags after `a + b`. -/
def addFlags (a b : Nat) : Flags :=
  { cf := decide (4294967296 ≤ a + b),
    zf := decide (add32 a b = 0),
    sf := decide (2147483648 ≤ add32 a b),
    ovf := decide (toSigned a + toSigned b ≠ toSigned (add32 a b)) }

/-- Flags after a logical instruction with result `r`. -/
def logicFlags (r : Nat) : Flags :=
  { cf := false, zf := decide (r = 0), sf := decide (2147483648 ≤ r), ovf := false }

/-- Whether a condition code holds for given flags. -/
def Cond.holds (f : Flags) : Cond → Bool
  | .e => f.zf
  | .z => f.zf
  | .ne => !f.zf
  | .nz => !f.zf
  | .l => f.sf != f.ovf
  | .ge => f.sf == f.ovf
  | .le => f.zf || (f.sf != f.ovf)
  | .g => !f.zf && (f.sf == f.ovf)
  | .b => f.cf
  | .ae => !f.cf
  | .be => f.cf || f.zf
  | .a => !f.cf && !f.zf

/-- Continue at address `v`: inside the block at the instruction that starts
there, otherwise the machine has left the block. -/
def goto (M : Machine) (s : State) (v : Nat) : State :=
  match codeIndex M v with
  | some i => { s with pc := i }
  | none => { s with status := .exited v }

/-- Continue at a label. -/
def gotoLabel (M : Machine) (s : State) (l : Label) : State :=
  match labelIndex M.items l with
  | some i => { s with pc := i }
  | none => { s with status := .fault }

/-- Push a 32-bit word. -/
def push32 (s : State) (v : Nat) : State :=
  { s with esp := sub32 s.esp 4, mem := write32 s.mem (sub32 s.esp 4) v }

/-- The answer of a C function, as a 32-bit word. `get_instr_ptr` is the
function of the source file, run on the array its arguments point to. -/
def cResult (M : Machine) (s : State) (f : CFunction) (args : List Nat) : Nat :=
  match f with
  | .get_public_addr => M.env.get_public_addr (args.getD 0 0) (args.getD 1 0) % 4294967296
  | .get_native_addr => M.env.get_native_addr (args.getD 0 0) (args.getD 1 0) % 4294967296
  | .get_instr_ptr =>
    get_instr_ptr (toSigned (args.getD 0 0)) (readMap s.mem (args.getD 1 0) (args.getD 2 0))
      (args.getD 2 0) % 4294967296

/-- Number of arguments of a C function. -/
def CFunction.arity : CFunction → Nat
  | .get_public_addr => 2
  | .get_native_addr => 2
  | .get_instr_ptr => 3

/-- The cdecl arguments found on the stack. -/
def stackArgs (s : State) (n : Nat) : List Nat :=
  (List.range n).map (fun k => read32 s.mem (add32 s.esp (4 * k)))

/-- The bytes `[src, src + n)` copied to `[dst, dst + n)`, lowest address
first (the direction the string instructions take after `cld`). -/
def copyBytes (mem : Memory) : Nat → Nat → Nat → Memory
  | 0, _, _ => mem
  | n + 1, src, dst =>
    copyBytes (write8 mem (dst % 4294967296) (read8 mem (src % 4294967296))) n (src + 1) (dst + 1)

/-- The loop of `repe cmpsb`: compare `[esi]` with `[edi]` while the count
is not zero, stop after the first difference. Returns the remaining count, the
number of bytes stepped over and the flags of the last comparison. -/
def cmpBytes (mem : Memory) : Nat → Nat → Nat → Nat → Flags → Nat × Nat × Flags
  | 0, _, _, k, f => (0, k, f)
  | n + 1, si, di, k, _ =>
    let a := read8 mem (si % 4294967296)
    let b := read8 mem (di % 4294967296)
    let f : Flags :=
      { cf := decide (a < b), zf := decide (a = b),
        sf := decide (128 ≤ (a + (256 - b)) % 256),
        ovf := decide ((if a < 128 then (a : Int) else a - 256) -
                 (if b < 128 then (b : Int) else b - 256) ≠
                 (if (a + (256 - b)) % 256 < 128 then (((a + (256 - b)) % 256 : Nat) : Int)
                  else ((a + (256 - b)) % 256 : Nat) - 256)) }
    if a = b then cmpBytes mem n (si + 1) (di + 1) (k + 1) f else (n, k + 1, f)

/-- The loop of `rep stosd`: store `v` at `n` consecutive words from `dst`. -/
def fillWords (mem : Memory) (v : Nat) : Nat → Nat → Memory
  | 0, _ => mem
  | n + 1, dst => fillWords (write32 mem (dst % 4294967296) v) v n (dst + 4)

/-- Sign extension of the low `bits` bits of `v` to 32 bits. -/
def signExtend (bits v : Nat) : Nat :=
  if v % 2 ^ bits < 2 ^ (bits - 1) then v % 2 ^ bits
  else v % 2 ^ bits + (4294967296 - 2 ^ bits)

/-- Effect of a two-operand instruction. -/
def execBin (M : Machine) (s : State) (op : BinOp) (dst src : Operand) : State :=
  let a := readOp M s dst
  let b := readOp M s src
  match op with
  | .mov => writeOp M s dst b
  | .movzx => writeOp M s dst b
  | .movsx => writeOp M s dst (signExtend (opBits src) b)
  | .add => { writeOp M s dst (add32 a b) with flags := addFlags a b }
  | .sub => { writeOp M s dst (sub32 a b) with flags := subFlags a b }
  | .cmp => { s with flags := subFlags a b }
  | .and_ => { writeOp M s dst (a &&& b) with flags := logicFlags (a &&& b) }
  | .or_ => { writeOp M s dst (a ||| b) with flags := logicFlags (a ||| b) }
  | .xor_ => { writeOp M s dst (a ^^^ b) with flags := logicFlags (a ^^^ b) }
  | .test => { s with flags := logicFlags (a &&& b) }
  | .xchg => writeOp M (writeOp M s dst b) src a
  | .imul2 =>
    { writeOp M s dst (toU32 (toSigned a * toSigned b)) with
      flags := { s.flags with
        cf := decide (toSigned a * toSigned b ≠ toSigned (toU32 (toSigned a * toSigned b))),
        ovf := decide (toSigned a * toSigned b ≠ toSigned (toU32 (toSigned a * toSigned b))) } }
  | .shl =>
    if b % 32 = 0 then s
    else { writeOp M s dst ((a * 2 ^ (b % 32)) % 4294967296) with
           flags := { logicFlags ((a * 2 ^ (b % 32)) % 4294967296) with
             cf := decide ((a * 2 ^ (b % 32)) / 4294967296 % 2 = 1), ovf := s.flags.ovf } }
  | .shr =>
    if b % 32 = 0 then s
    else { writeOp M s dst (a / 2 ^ (b % 32)) with
           flags := { logicFlags (a / 2 ^ (b % 32)) with
             cf := decide (a / 2 ^ (b % 32 - 1) % 2 = 1), ovf := s.flags.ovf } }
  | .sar =>
    if b % 32 = 0 then s
    else { writeOp M s dst (toU32 (toSigned a / 2 ^ (b % 32))) with
           flags := { logicFlags (toU32 (toSigned a / 2 ^ (b % 32))) with
             cf := decide (toU32 (toSigned a / 2 ^ (b % 32 - 1)) % 2 = 1), ovf := s.flags.ovf } }

/-- Effect of a one-operand instruction. Division faults on a zero divisor and
on a quotient that does not fit the register. -/
def execUn (M : Machine) (s : State) (op : UnOp) (dst : Operand) : State :=
  let a := readOp M s dst
  match op with
  | .push => push32 s a
  | .pop =>
    let v := read32 s.mem s.esp
    writeOp M { s with esp := add32 s.esp 4 } dst v
  | .not_ => writeOp M s dst (4294967295 - a % 4294967296)
  | .neg => { writeOp M s dst (sub32 0 a) with flags := subFlags 0 a }
  | .inc => { writeOp M s dst (add32 a 1) with
              flags := { addFlags a 1 with cf := s.flags.cf } }
  | .dec => { writeOp M s dst (sub32 a 1) with
              flags := { subFlags a 1 with cf := s.flags.cf } }
  | .imul1 =>
    let p := toSigned s.eax * toSigned a
    { s with eax := toU32 p, edx := toU32 (p / 4294967296),
             flags := { s.flags with cf := decide (p ≠ toSigned (toU32 p)),
                                     ovf := decide (p ≠ toSigned (toU32 p)) } }
  | .mul =>
    let p := s.eax * a
    { s with eax := p % 4294967296, edx := p / 4294967296 % 4294967296,
             flags := { s.flags with cf := decide (4294967296 ≤ p),
                                     ovf := decide (4294967296 ≤ p) } }
  | .div =>
    let d := s.edx * 4294967296 + s.eax
    if a = 0 ∨ 4294967296 ≤ d / a then { s with status := .fault }
    else { s with eax := d / a, edx := d % a }
  | .idiv =>
    let d : Int :=
      if s.edx < 2147483648 then ((s.edx * 4294967296 + s.eax : Nat) : Int)
      else ((s.edx * 4294967296 + s.eax : Nat) : Int) - 18446744073709551616
    let q := d.tdiv (toSigned a)
    if toSigned a = 0 ∨ q < -2147483648 ∨ 2147483648 ≤ q then { s with status := .fault }
    else { s with eax := toU32 q, edx := toU32 (d.tmod (toSigned a)) }

/-- Effect of a string instruction (direction flag clear). -/
def execStr (s : State) (op : StrOp) : State :=
  if s.df then { s with status := .fault }
  else
    match op with
    | .rep_movsb =>
      { s with mem := copyBytes s.mem s.ecx s.esi s.edi, esi := add32 s.esi s.ecx,
               edi := add32 s.edi s.ecx, ecx := 0 }
    | .rep_movsw =>
      { s with mem := copyBytes s.mem (2 * s.ecx) s.esi s.edi, esi := add32 s.esi (2 * s.ecx),
               edi := add32 s.edi (2 * s.ecx), ecx := 0 }
    | .rep_movsd =>
      { s with mem := copyBytes s.mem (4 * s.ecx) s.esi s.edi, esi := add32 s.esi (4 * s.ecx),
               edi := add32 s.edi (4 * s.ecx), ecx := 0 }
    | .repe_cmpsb =>
      let r := cmpBytes s.mem s.ecx s.esi s.edi 0 s.flags
      { s with ecx := r.1, esi := add32 s.esi r.2.1, edi := add32 s.edi r.2.1,
               flags := r.2.2 }
    | .rep_stosd =>
      { s with mem := fillWords s.mem s.eax s.ecx s.edi, edi := add32 s.edi (4 * s.ecx),
               ecx := 0 }

/-- Effect of one instruction; `s.pc` is already the index of the next item. -/
def execInstr (M : Machine) (s : State) : Instr → State
  | .bin op dst src => execBin M s op dst src
  | .un op dst => execUn M s op dst
  | .lea dst src => writeOp M s dst (ea M s src)
  | .imul3 dst src k =>
    { writeOp M s dst (toU32 (toSigned (readOp M s src) * toSigned (readOp M s k))) with
      flags := { s.flags with
        cf := decide (toSigned (readOp M s src) * toSigned (readOp M s k) ≠
          toSigned (toU32 (toSigned (readOp M s src) * toSigned (readOp M s k)))),
        ovf := decide (toSigned (readOp M s src) * toSigned (readOp M s k) ≠
          toSigned (toU32 (toSigned (readOp M s src) * toSigned (readOp M s k)))) } }
  | .set c dst => writeOp M s dst (if c.holds s.flags then 1 else 0)
  | .jmp l => gotoLabel M s l
  | .jmp_reg r => goto M s (s.reg r)
  | .j c l => if c.holds s.flags then gotoLabel M s l else s
  | .call l => gotoLabel M (push32 s (codeAddr M s.pc)) l
  | .call_reg r =>
    match codeIndex M (s.reg r) with
    | some i => { push32 s (codeAddr M s.pc) with pc := i }
    | none => { push32 s (codeAddr M s.pc) with status := .called_out (s.reg r) }
  | .call_ptr f =>
    let args := stackArgs s f.arity
    { s with eax := cResult M s f args,
             ecx := M.env.scratch_ecx f args % 4294967296,
             edx := M.env.scratch_edx f args % 4294967296,
             flags := M.env.scratch_flags f args,
             mem := write32 s.mem (sub32 s.esp 4) (codeAddr M s.pc),
             calls := s.calls ++ [⟨f, args⟩] }
  | .ret => goto M { s with esp := add32 s.esp 4 } (read32 s.mem s.esp)
  | .ret_imm n => goto M { s with esp := add32 s.esp (4 + n) } (read32 s.mem s.esp)
  | .cld => { s with df := false }
  | .str op => execStr s op
  | .fpu_mem _ _ => { s with status := .fault }
  | .fpu _ => { s with status := .fault }

/-- One step of the machine. A label binding and an alignment pad do nothing;
a data item cannot be run. -/
def step (M : Machine) (s : State) : State :=
  match s.status with
  | .running =>
    match M.items[s.pc]? with
    | some (.instr i) => execInstr M { s with pc := s.pc + 1 } i
    | some (.bind _) => { s with pc := s.pc + 1 }
    | some (.align _) => { s with pc := s.pc + 1 }
    | _ => { s with status := .fault }
  | _ => s

/-- The machine after `n` steps. -/
def run (M : Machine) : Nat → State → State
  | 0, s => s
  | n + 1, s => run M n (step M s)

/-- Index in the buffer of the `k`-th item of the trampolines, behind the 16
header items and the `n` reserved map entries. -/
def tpc (n k : Nat) : Nat := 16 + n + k

/-- Address of the field at offset `off` of the record at `A`. -/
def amxField (A : Nat) (off : Int) : Nat := (A + toU32 off) % 4294967296

/-- The buffer of `M` has the shape `compile` gives it for a program of `n`
instructions (header, reserved map, trampolines, translated code), every
instruction has a positive encoded size, and the block lies inside the 32-bit
address space. -/
structure Loaded (K : AmxH) (M : Machine) (n : Nat) : Prop where
  items : ∃ (x0 a : Int) (body : List Item), M.items =
    header_items x0 a n ++ (List.replicate n (Item.dstruct ⟨0, 0⟩) ++ (tramp_items K ++ body))
  enc_pos : ∀ x, 0 < M.enc x
  fits : M.base + itemsSize M.enc M.items < 4294967296

/-! ## Calls of `exec` -/

/-- The words at `a` and at `b` do not overlap. -/
def Apart (a b : Nat) : Prop := a + 4 ≤ b ∨ b + 4 ≤ a

/-- The word at `a` lies outside `[lo, hi)`. -/
def Outside (lo hi a : Nat) : Prop := a + 4 ≤ lo ∨ hi ≤ a

instance (a b : Nat) : Decidable (Apart a b) :=
  inferInstanceAs (Decidable (a + 4 ≤ b ∨ b + 4 ≤ a))

instance (lo hi a : Nat) : Decidable (Outside lo hi a) :=
  inferInstanceAs (Decidable (a + 4 ≤ lo ∨ hi ≤ a))

/-- The offsets of the `AMX` fields the trampolines touch. -/
def amx_fields (K : AmxH) : List Int :=
  [K.off_base, K.off_data, K.off_frm, K.off_hea, K.off_hlw, K.off_stk, K.off_stp, K.off_flags,
   K.off_error, K.off_paramcount]

/-- The machine is at the first instruction of `exec`, called from outside the
block: `[esp]` holds the return address of the caller, the `l_amx` slot of the
header holds `A`, there is room for the frames of `exec` and `exec_helper`
below `esp`, and neither the header nor the fields of the `AMX` record at `A`
lie in the part of the host stack the call uses. -/
structure ExecEntry (K : AmxH) (M : Machine) (n : Nat) (s : State) (A : Nat) : Prop where
  pc : s.pc = tpc n 38
  running : s.status = .running
  frame_lo : 64 ≤ s.esp
  frame_hi : s.esp + 12 ≤ 4294967296
  amx : read32 s.mem (M.base + 4) = A
  caller : codeIndex M (read32 s.mem s.esp) = none
  header : M.base + 32 ≤ s.esp - 64 ∨ s.esp + 12 ≤ M.base
  record : ∀ off, off ∈ amx_fields K → Outside (s.esp - 64) (s.esp + 12) (amxField A off)

/-- State `t` is the return of the call of `exec` entered in state `s`, with
`code` in `eax`: the machine has left the block through the return address
that was on top of the stack, which is popped, and no C function was called. -/
def ExecFails (s : State) (code : Nat) (t : State) : Prop :=
  t.status = .exited (read32 s.mem s.esp) ∧ t.eax = code ∧ t.esp = s.esp + 4 ∧
    t.calls = s.calls

/-- The field at offset `off` of the `AMX` record at `A`. -/
def field (mem : Memory) (A : Nat) (off : Int) : Nat := read32 mem (amxField A off)

/-- The pointer to the data section that `emit_get_amx_data_ptr` leaves in its
register: the field `data`, or `base + hdr->dat` when `data` is null. -/
def data_ptr (K : AmxH) (mem : Memory) (A : Nat) : Nat :=
  if field mem A K.off_data = 0 then
    add32 (field mem A K.off_base) (read32 mem (amxField (field mem A K.off_base) K.hdr_dat))
  else field mem A K.off_data

/-- The call of `exec` entered in state `s` returns `code` without calling a C
function and leaves the fields `stk` and `paramcount` as they were. -/
def ExecRejects (K : AmxH) (M : Machine) (s : State) (A : Nat) (code : Int) : Prop :=
  ∃ k, ExecFails s (toU32 code) (run M k s) ∧
    field (run M k s).mem A K.off_stk = field s.mem A K.off_stk ∧
    field (run M k s).mem A K.off_paramcount = field s.mem A K.off_paramcount

/-- The call of `exec` entered in state `s` returns `code` without calling a C
function and leaves the field `error` as it was. -/
def ExecLeavesError (K : AmxH) (M : Machine) (s : State) (A : Nat) (code : Int) : Prop :=
  ∃ k, ExecFails s (toU32 code) (run M k s) ∧
    field (run M k s).mem A K.off_error = field s.mem A K.off_error

/-- The memory after the prologue of `exec`, entered in state `s`, has saved
`ebp`, `esi` and `ebx` on the host stack. -/
def exec_saves (s : State) : Memory :=
  write32 (write32 (write32 s.mem (s.esp - 4) s.ebp) (s.esp - 20) s.esi) (s.esp - 24) s.ebx

/-- The host address of the top of the `AMX` stack once `exec` has pushed the
size of the arguments: `data + (stk - 4)`. -/
def exec_top (K : AmxH) (s : State) (A : Nat) : Nat :=
  data_ptr K s.mem A + (field s.mem A K.off_stk - 4)

/-- What `get_public_addr` answers for the index `exec` is called with. -/
def exec_public (M : Machine) (s : State) (A : Nat) : Nat :=
  M.env.get_public_addr A (read32 s.mem (s.esp + 4)) % 4294967296

/-- What `get_instr_ptr` answers for that address in the instruction map the
header points to. -/
def exec_target (M : Machine) (s : State) (A : Nat) : Nat :=
  get_instr_ptr (toSigned (exec_public M s A))
    (readMap s.mem (read32 s.mem (M.base + 28)) (read32 s.mem (M.base + 24)))
    (read32 s.mem (M.base + 24)) % 4294967296

/-- The number of steps from the first instruction of `exec` to the first
instruction of the public: the prologue (three steps longer when `data` is
null), the checks, and the way through `exec_helper`. -/
def exec_call_steps (K : AmxH) (s : State) (A : Nat) : Nat :=
  (if field s.mem A K.off_data = 0 then 14 else 11) + 68

/-- A call of `exec` that passes the checks and finds its public, and the
layout of the memory it works on: the `AMX` stack has room for the size cell,
a return address and the frame of the public; the fields of the `AMX` record
are distinct words outside the header and outside the used part of the `AMX`
stack; that part of the `AMX` stack lies outside the header and the host
frame; the instruction map lies outside the host frame and the field `error`;
and the old value of the `l_reset_ebp` slot is null or the address of a word
outside the host frame, the header and the field `error`. -/
structure ExecPass (K : AmxH) (M : Machine) (n : Nat) (s : State) (A : Nat) : Prop where
  entry : ExecEntry K M n s A
  hea_stk : toSigned (field s.mem A K.off_hea) < toSigned (field s.mem A K.off_stk)
  hlw_hea : toSigned (field s.mem A K.off_hlw) ≤ toSigned (field s.mem A K.off_hea)
  stk_stp : toSigned (field s.mem A K.off_stk) ≤ toSigned (field s.mem A K.off_stp)
  natives : field s.mem A K.off_flags &&& toU32 K.AMX_FLAG_NTVREG ≠ 0
  found : exec_public M s A ≠ 0
  hdr : Outside (s.esp - 64) (s.esp + 12) (amxField (field s.mem A K.off_base) K.hdr_dat)
  params : field s.mem A K.off_paramcount < 536870912
  stk_lo : 4 ≤ field s.mem A K.off_stk
  top_lo : 16 ≤ exec_top K s A
  top_hi : exec_top K s A + 4 * field s.mem A K.off_paramcount + 8 ≤ 4294967296
  record_header : ∀ off, off ∈ amx_fields K → Outside M.base (M.base + 32) (amxField A off)
  record_apart : (amx_fields K).Pairwise (fun f g => Apart (amxField A f) (amxField A g))
  stack_frame : exec_top K s A + 4 * field s.mem A K.off_paramcount + 8 ≤ s.esp - 64 ∨
    s.esp + 12 ≤ exec_top K s A - 16
  stack_header : exec_top K s A + 4 * field s.mem A K.off_paramcount + 8 ≤ M.base ∨
    M.base + 32 ≤ exec_top K s A - 16
  stack_record : ∀ off, off ∈ amx_fields K →
    Outside (exec_top K s A - 16) (exec_top K s A + 4 * field s.mem A K.off_paramcount + 8)
      (amxField A off)
  map_frame : s.esp + 12 ≤ read32 s.mem (M.base + 28) ∨
    read32 s.mem (M.base + 28) + 8 * read32 s.mem (M.base + 24) ≤ s.esp - 64
  map_error : amxField A K.off_error + 4 ≤ read32 s.mem (M.base + 28) ∨
    read32 s.mem (M.base + 28) + 8 * read32 s.mem (M.base + 24) ≤ amxField A K.off_error
  stray : read32 s.mem (M.base + 16) = 0 ∨
    (Outside (s.esp - 64) (s.esp + 12) (read32 s.mem (M.base + 16)) ∧
     Outside M.base (M.base + 32) (read32 s.mem (M.base + 16)) ∧
     Apart (amxField A K.off_error) (read32 s.mem (M.base + 16)))

/-- The called code comes back: `j` steps after `exec_helper` has called the
public the machine is at the instruction behind that call, and the bytes of
the host frame of the call and of the header slots `l_amx`, `l_ebp` and
`l_esp` are as they were at the call. -/
structure ComesBack (K : AmxH) (M : Machine) (n : Nat) (s : State) (A : Nat) (j : Nat) :
    Prop where
  pc : (run M (exec_call_steps K s A + j) s).pc = tpc n 20
  running : (run M (exec_call_steps K s A + j) s).status = .running
  frame : ∀ x, s.esp - 64 ≤ x → x < s.esp + 12 →
    (run M (exec_call_steps K s A + j) s).mem x = (run M (exec_call_steps K s A) s).mem x
  slots : ∀ x, M.base + 4 ≤ x → x < M.base + 16 →
    (run M (exec_call_steps K s A + j) s).mem x = (run M (exec_call_steps K s A) s).mem x

/-- The items the opcode switch of `compile` emits for one instruction, with
the labels of the prologue of `compile`. -/
def translated (K : AmxH) (enc : Instr → Nat) (amx : AMXPtr) (instr : AMXInstruction) :
    List Item :=
  (translate K amx (compile_prologue K enc amx).helpers instr (emptyAs 0) ⟨[]⟩).1.items

/-- The items `code` lie in the buffer of `M` from index `i` on. -/
def CodeAt (M : Machine) (i : Nat) (code : List Item) : Prop :=
  ∀ q, q < code.length → M.items[i + q]? = code[q]?

/-- The called code reaches `code`: `j` steps after `exec_helper` has called the
public the machine is about to run the items `code`, with at most one more
cell on the `AMX` stack than at the call, and the bytes of the host frame, of
the header slots and of the two cells the call left on the `AMX` stack are as
they were at the call. -/
structure ReachesCode (K : AmxH) (M : Machine) (n : Nat) (s : State) (A : Nat)
    (code : List Item) (j : Nat) : Prop where
  running : (run M (exec_call_steps K s A + j) s).status = .running
  code : CodeAt M (run M (exec_call_steps K s A + j) s).pc code
  esp_lo : exec_top K s A - 8 ≤ (run M (exec_call_steps K s A + j) s).esp
  esp_hi : (run M (exec_call_steps K s A + j) s).esp ≤ exec_top K s A - 4
  frame : ∀ x, s.esp - 64 ≤ x → x < s.esp + 12 →
    (run M (exec_call_steps K s A + j) s).mem x = (run M (exec_call_steps K s A) s).mem x
  slots : ∀ x, M.base + 4 ≤ x → x < M.base + 24 →
    (run M (exec_call_steps K s A + j) s).mem x = (run M (exec_call_steps K s A) s).mem x
  cells : ∀ x, exec_top K s A - 4 ≤ x → x < exec_top K s A + 4 →
    (run M (exec_call_steps K s A + j) s).mem x = (run M (exec_call_steps K s A) s).mem x

/-- A sample of the surroundings: public 0 is the function at bytecode address
8, there are no other publics and no natives, and a C call leaves zeros in the
scratch registers. -/
def sample_env : Env :=
  { get_public_addr := fun _ i => if i = 0 then 8 else 0,
    get_native_addr := fun _ _ => 0,
    scratch_ecx := fun _ _ => 0,
    scratch_edx := fun _ _ => 0,
    scratch_flags := fun _ _ => ⟨false, false, false, false⟩ }

/-- The sample program compiled, its block placed at `0x10000`. -/
def sample_compiled : CompileResult :=
  compile amx_h_32 sample_info sample_enc sample_amx false 65536 (fun _ => 0)

/-- The machine that runs the compiled sample program. -/
def sample_machine : Machine :=
  ⟨sample_enc, sample_compiled.as.items, 65536, sample_env⟩

/-- The memory after the sample program was compiled, with the fields `hea`,
`hlw`, `stk`, `stp`, `flags` and `error` of the `AMX` record at `0x2000` set
and the return address `0x1000` of the caller of `exec` on top of the host
stack at `0x100000`. -/
def sample_mem (hea hlw stk stp flags error : Nat) : Memory :=
  write32 (write32 (write32 (write32 (write32 (write32 (write32 sample_compiled.mem
    (8192 + 24) hea) (8192 + 28) hlw) (8192 + 32) stk) (8192 + 36) stp) (8192 + 40) flags)
    (8192 + 76) error) 1048576 4096

/-- The sample memory for a call that passes the checks: the `AMX` record has
`data = 0x8000`, `frm = stk = 1024`, `hea = 256`, `hlw = 128`, `stp = 8192`,
the natives-registered flag, `error = 0` and `paramcount = 0`; the host calls
`exec (0, retval)`; the word at `retval` holds `0xAAAA`; the slot
`l_reset_ebp` holds `reset_ebp`. -/
def sample_pass_mem (retval reset_ebp : Nat) : Memory :=
  write32 (write32 (write32 (write32 (write32 (write32
    (sample_mem 256 128 1024 8192 4096 0) (8192 + 4) 32768) (8192 + 20) 1024)
    (1048576 + 4) 0) (1048576 + 8) retval) retval 43690) (65536 + 16) reset_ebp

/-- The state in which the host calls `exec` of the sample program. -/
def sample_state (mem : Memory) : State :=
  ⟨0, 0, 0, 0, 1048576, 0, 0, 0, ⟨false, false, false, false⟩, false, mem, tpc 3 38,
   .running, []⟩

/-- The surroundings of the sample with a public table that is out of step with
the code: public 0 is at bytecode address 4, where no instruction starts. -/
def stale_env : Env :=
  { sample_env with get_public_addr := fun _ i => if i = 0 then 4 else 0 }

/-- The machine that runs the compiled sample program in `stale_env`. -/
def stale_machine : Machine :=
  ⟨sample_enc, sample_compiled.as.items, 65536, stale_env⟩

/-- A program handle whose second instruction, `LODB_I 3`, has no translation:
the code section `HALT 0; LODB_I 3; PROC`. -/
def failing_amx : AMXPtr :=
  { sample_amx with section_code := [⟨.OP_HALT, [0]⟩, ⟨.OP_LODB_I, [3]⟩, ⟨.OP_PROC, []⟩] }

/-- The items one pass of the opcode switch of `compile` appends to the buffer
of `as` for the instruction `instr`. -/
def emitted (K : AmxH) (amx : AMXPtr) (L : HelperLabels) (instr : AMXInstruction)
    (as : X86Assembler) (amx_labels : AmxLabels) : List Item :=
  (translate K amx L instr as amx_labels).1.items.drop as.items.length

/-- The label the opcode switch branches to for the bytecode address
`operand - code`. -/
def dest_label (amx : AMXPtr) (instr : AMXInstruction) (as : X86Assembler)
    (amx_labels : AmxLabels) : Label :=
  (amx_labels.get as (rel_code_addr amx instr.operand)).1

/-- The conditional jumps of the AMX in the words of the specification: whether
the jump `op` is taken for given `PRI` and `ALT` (32-bit words); `none` for
every other opcode. -/
def spec_jump_taken (op : AMXOpcodeID) (pri alt : Nat) : Option Bool :=
  match op with
  | .OP_JZER => some (decide (pri = 0))
  | .OP_JNZ => some (decide (pri ≠ 0))
  | .OP_JEQ => some (decide (pri = alt))
  | .OP_JNEQ => some (decide (pri ≠ alt))
  | .OP_JLESS => some (decide (pri < alt))
  | .OP_JLEQ => some (decide (pri ≤ alt))
  | .OP_JGRTR => some (decide (pri > alt))
  | .OP_JGEQ => some (decide (pri ≥ alt))
  | .OP_JSLESS => some (decide (toSigned pri < toSigned alt))
  | .OP_JSLEQ => some (decide (toSigned pri ≤ toSigned alt))
  | .OP_JSGRTR => some (decide (toSigned pri > toSigned alt))
  | .OP_JSGEQ => some (decide (toSigned pri ≥ toSigned alt))
  | _ => none

/-- A small machine: the buffer `items` at address `0x1000`, every instruction
five bytes long, in the surroundings of the sample. -/
def snippet_machine (items : List Item) : Machine := ⟨sample_enc, items, 4096, sample_env⟩

/-- A state of a small machine at item 0, with `PRI` (`eax`) and `ALT`
(`ecx`) given, the other registers zero, the stack pointer at `0x8000`. -/
def snippet_state (pri alt : Nat) : State :=
  ⟨pri, alt, 0, 0, 32768, 0, 0, 0, ⟨false, false, false, false⟩, false, fun _ => 0, 0,
   .running, []⟩

/-- The helper labels of the compiled sample program. -/
def sample_helpers : HelperLabels := (compile_prologue amx_h_32 sample_enc sample_amx).helpers

/-- The code of `SMUL` alone in a small machine. -/
def smul_machine : Machine :=
  snippet_machine (emitted amx_h_32 sample_amx sample_helpers ⟨0, .OP_SMUL, []⟩ (emptyAs 0) ⟨[]⟩)

/-- The code of `SDIV` alone in a small machine. -/
def sdiv_machine : Machine :=
  snippet_machine (emitted amx_h_32 sample_amx sample_helpers ⟨0, .OP_SDIV, []⟩ (emptyAs 0) ⟨[]⟩)

/-- The code of `UDIV` alone in a small machine. -/
def udiv_machine : Machine :=
  snippet_machine (emitted amx_h_32 sample_amx sample_helpers ⟨0, .OP_UDIV, []⟩ (emptyAs 0) ⟨[]⟩)

/-- The code of `SHR_C_ALT 1` alone in a small machine. -/
def shr_c_alt_machine : Machine :=
  snippet_machine
    (emitted amx_h_32 sample_amx sample_helpers ⟨0, .OP_SHR_C_ALT, [1]⟩ (emptyAs 0) ⟨[]⟩)

/-- The code of `JSLESS` in a small machine, followed by one instruction and
the binding of the target label. -/
def jsless_machine : Machine :=
  snippet_machine
    (emitted amx_h_32 sample_amx sample_helpers ⟨0, .OP_JSLESS, [16400]⟩ (emptyAs 0) ⟨[]⟩ ++
      [.instr (.bin .mov (.reg .edx) (.reg .edx)),
       .bind (dest_label sample_amx ⟨0, .OP_JSLESS, [16400]⟩ (emptyAs 0) ⟨[]⟩)])

/-- The code of `BOUNDS 9` in a small machine made with 26 labels in use,
followed by the code of `L_do_halt`. -/
def bounds_machine : Machine :=
  snippet_machine
    (emitted amx_h_32 sample_amx sample_helpers ⟨0, .OP_BOUNDS, [9]⟩ (emptyAs 26) ⟨[]⟩ ++
      [.bind sample_helpers.L_do_halt, .instr (.un .push (.reg .ecx)),
       .instr (.call ⟨18⟩)])

/-- The labels the items of a buffer bind, in order. -/
def binds : List Item → List Label
  | [] => []
  | .bind l :: rest => l :: binds rest
  | _ :: rest => binds rest

/-- The names of the table `intrinsics`. -/
def intrinsic_names : List String := intrinsics.map Prod.fst

/-- A program handle with two natives, `floatadd` (index 0, address `0x5000`)
and `print` (index 1, address `0x6000`); the code section is
`HALT 0; PROC; JUMP_PRI; SYSREQ_PRI; SYSREQ_C 1; SYSREQ_D 0x6000; LCTRL 0;
LCTRL 1; RETN`. -/
def natives_amx : AMXPtr :=
  { sample_amx with
    section_code := [⟨.OP_HALT, [0]⟩, ⟨.OP_PROC, []⟩, ⟨.OP_JUMP_PRI, []⟩, ⟨.OP_SYSREQ_PRI, []⟩,
      ⟨.OP_SYSREQ_C, [1]⟩, ⟨.OP_SYSREQ_D, [24576]⟩, ⟨.OP_LCTRL, [0]⟩, ⟨.OP_LCTRL, [1]⟩,
      ⟨.OP_RETN, []⟩],
    get_native_name := fun i => if i = 0 then some "floatadd" else if i = 1 then some "print"
      else none,
    find_native := fun a => if a = 20480 then 0 else if a = 24576 then 1 else -1 }

/-- The surroundings of the sample program with natives: native 0 is at
`0x5000`, native 1 at `0x6000`, no other index resolves. -/
def natives_env : Env :=
  { sample_env with
    get_native_addr := fun _ i => if i = 0 then 20480 else if i = 1 then 24576 else 0 }

/-- The sample program with natives compiled, its block placed at `0x10000`. -/
def natives_compiled : CompileResult :=
  compile amx_h_32 sample_info sample_enc natives_amx false 65536 (fun _ => 0)

/-- The machine that runs the compiled sample program with natives. -/
def natives_machine : Machine :=
  ⟨sample_enc, natives_compiled.as.items, 65536, natives_env⟩

/-- The memory after the sample program with natives was compiled, with the
field `base` of the `AMX` record at `0x2000` pointing to a header at `0x3000`
whose fields `cod` and `dat` hold 56 and 120, and with the slots `l_ebp` and
`l_esp` of the runtime header holding the frame and the top of a host stack
at `0x100000`. -/
def natives_mem : Memory :=
  write32 (write32 (write32 (write32 (write32 natives_compiled.mem 8192 12288)
    (12288 + 12) 56) (12288 + 16) 120) (65536 + 8) 1048592) (65536 + 12) 1048576

/-- A state of the machine of the sample program with natives inside the
translated code: at item `pc`, with `PRI` in `eax` and a given `edx`, `ALT`
zero, the data section at `0x8000`, the `AMX` stack pointer at `0x9000` and
the frame at `0x9010`. -/
def natives_state (pc pri edx : Nat) : State :=
  ⟨pri, 0, edx, 32768, 36864, 36880, 0, 0, ⟨false, false, false, false⟩, false, natives_mem,
   pc, .running, []⟩

/-- The code of `PROC` followed by the code of `RETN` in a small machine. -/
def proc_retn_machine : Machine :=
  snippet_machine
    (emitted amx_h_32 sample_amx sample_helpers ⟨0, .OP_PROC, []⟩ (emptyAs 0) ⟨[]⟩ ++
     emitted amx_h_32 sample_amx sample_helpers ⟨4, .OP_RETN, []⟩ (emptyAs 0) ⟨[]⟩)

/-- A state of a small machine at item 0 as a `CALL` leaves it: the data
section at `0x1000`, the frame at `0x9000`, the stack pointer at `0x8000`,
where the return address `0x5000` lies below the count cell, which holds 8. -/
def called_state : State :=
  ⟨0, 0, 0, 4096, 32768, 36864, 0, 0, ⟨false, false, false, false⟩, false,
   write32 (write32 (fun _ => 0) 32768 20480) 32772 8, 0, .running, []⟩

/-- The code of `MOVS 6` followed by the code of `CMPS 6` in a small
machine. -/
def movs_cmps_machine : Machine :=
  snippet_machine
    (emitted amx_h_32 sample_amx sample_helpers ⟨0, .OP_MOVS, [((6 : Nat) : Int)]⟩ (emptyAs 0)
      ⟨[]⟩ ++
     emitted amx_h_32 sample_amx sample_helpers ⟨8, .OP_CMPS, [((6 : Nat) : Int)]⟩ (emptyAs 0)
      ⟨[]⟩)

/-- A state of a small machine at item 0 with the data section at `0x2000`,
`PRI = 16`, `ALT = 64`, the stack pointer at `0x8000`, and the eight bytes
`1, 2, 3, 4, 5, 6, 7, 8` at `data[PRI]`. -/
def copy_state : State :=
  ⟨16, 64, 0, 8192, 32768, 0, 0, 0, ⟨false, false, false, false⟩, false,
   write32 (write32 (fun _ => 0) (8192 + 16) 67305985) (8192 + 20) 134678021, 0, .running, []⟩

/-- The value of the `i`-th case record of the table that a `SWITCH` with the
given operand reads (`case_table[i + 1].value`). -/
def case_value (amx : AMXPtr) (operand : Int) (i : Nat) : Int :=
  amx.cell_at (operand + 4 + 8 * ((i : Int) + 1))

/-- The address of the `i`-th case record (`case_table[i + 1].address`). -/
def case_address (amx : AMXPtr) (operand : Int) (i : Nat) : Int :=
  amx.cell_at (operand + 4 + 8 * ((i : Int) + 1) + 4)

/-- The address of the default record (`case_table[0].address`). -/
def case_default (amx : AMXPtr) (operand : Int) : Int := amx.cell_at (operand + 4 + 4)

/-- The number of case records the `SWITCH` reads, none when the cell is not
positive. -/
def case_count (amx : AMXPtr) (operand : Int) : Nat := (amx.cell_at (operand + 4)).toNat

/-- The case records of a `SWITCH`, as pairs of value and address. -/
def case_records (amx : AMXPtr) (operand : Int) : List (Int × Int) :=
  (List.range (case_count amx operand)).map
    (fun i => (case_value amx operand i, case_address amx operand i))

/-- The target of a switch in the words of the specification: the address of
the first record whose value equals `PRI`, the default address when no record
value equals `PRI`. -/
def spec_switch_target (records : List (Int × Int)) (d : Int) (pri : Int) : Int :=
  match records.find? (fun r => decide (r.1 = pri)) with
  | some r => r.2
  | none => d

/-- The label a label table holds for a bytecode address. -/
def label_of (t : AmxLabels) (address : Int) : Label := (t.labels_.lookup address).getD ⟨0⟩

/-- A compare cascade: `cmp eax, value; je label` for each pair. -/
def cascade_items (recs : List (Int × Label)) : List Item :=
  recs.flatMap (fun r => [.instr (.bin .cmp (.reg .eax) (.imm r.1)), .instr (.j .e r.2)])

/-- A program handle with a case table: the code section at `0x4000` is
`SWITCH 0x4008; CASETBL ...`, and the image holds at `0x4008` the table with
three records, `10 -> code + 40`, `20 -> code + 60`, `30 -> code + 80`, and the
default address `code + 100`. -/
def switch_amx : AMXPtr :=
  { sample_amx with
    section_code := [⟨.OP_SWITCH, [16392]⟩,
      ⟨.OP_CASETBL, [3, 16484, 10, 16424, 20, 16444, 30, 16464]⟩],
    cell_at := fun x =>
      if x = 16396 then 3 else if x = 16400 then 16484
      else if x = 16404 then 10 else if x = 16408 then 16424
      else if x = 16412 then 20 else if x = 16416 then 16444
      else if x = 16420 then 30 else if x = 16424 then 16464 else 0 }

/-- The code of the `SWITCH` of `switch_amx` alone in a small machine. -/
def switch_machine : Machine :=
  snippet_machine
    (emitted amx_h_32 switch_amx sample_helpers ⟨0, .OP_SWITCH, [16392]⟩ (emptyAs 0) ⟨[]⟩)

/-- What a native function that was called out of the block leaves behind when
it returns: its answer, the scratch registers `ecx` and `edx`, the flags and
the memory. -/
structure NativeReturn where
  result : Nat
  ecx : Nat
  edx : Nat
  flags : Flags
  mem : Memory

/-- The return of a cdecl function the machine has called out of the block
with `call reg`: `eax` holds the answer, `ecx`, `edx`, the flags and the
memory are what the function left, the return address is popped, and the
callee-saved registers `ebx`, `esi`, `edi` and `ebp` are as at the call. The
machine goes on at the item behind the call, where `pc` points already. -/
def native_returns (s : State) (r : NativeReturn) : State :=
  match s.status with
  | .called_out _ =>
    { s with eax := r.result % 4294967296, ecx := r.ecx % 4294967296,
             edx := r.edx % 4294967296, flags := r.flags, mem := r.mem,
             esp := add32 s.esp 4, status := .running }
  | _ => s

/-- One more record of the compare cascade of `SWITCH`. -/
def switch_cascade_step (amx : AMXPtr) (operand : Int) (acc : X86Assembler × AmxLabels)
    (k : Nat) : X86Assembler × AmxLabels :=
  (((acc.2.get (acc.1.cmp GpReg.eax (imm (case_value amx operand k)))
      (rel_code_addr amx (case_address amx operand k))).2.2.je
    (acc.2.get (acc.1.cmp GpReg.eax (imm (case_value amx operand k)))
      (rel_code_addr amx (case_address amx operand k))).1),
   (acc.2.get (acc.1.cmp GpReg.eax (imm (case_value amx operand k)))
      (rel_code_addr amx (case_address amx operand k))).2.1)
/-! ## Definitions for the comparisons, the block instructions and the registers -/

/-- The comparisons of the AMX in the words of the specification: whether the
relation of `op` holds for given `PRI` and `ALT` (32-bit words) and the
operand `v`, taken as a 32-bit cell; `none` for every other opcode. -/
def spec_relation (op : AMXOpcodeID) (pri alt : Nat) (v : Int) : Option Bool :=
  match op with
  | .OP_EQ => some (decide (pri = alt))
  | .OP_NEQ => some (decide (pri ≠ alt))
  | .OP_LESS => some (decide (pri < alt))
  | .OP_LEQ => some (decide (pri ≤ alt))
  | .OP_GRTR => some (decide (pri > alt))
  | .OP_GEQ => some (decide (pri ≥ alt))
  | .OP_SLESS => some (decide (toSigned pri < toSigned alt))
  | .OP_SLEQ => some (decide (toSigned pri ≤ toSigned alt))
  | .OP_SGRTR => some (decide (toSigned pri > toSigned alt))
  | .OP_SGEQ => some (decide (toSigned pri ≥ toSigned alt))
  | .OP_EQ_C_PRI => some (decide (pri = toU32 v))
  | .OP_EQ_C_ALT => some (decide (alt = toU32 v))
  | _ => none

/-- The code of `SLESS` alone in a small machine. -/
def sless_machine : Machine :=
  snippet_machine (emitted amx_h_32 sample_amx sample_helpers ⟨0, .OP_SLESS, []⟩ (emptyAs 0) ⟨[]⟩)

/-- The string instruction and the repeat count the source chooses for
`MOVS n`: `n / 4` double words when `n` is a multiple of 4, else `n / 2`
words when `n` is even, else `n` bytes. -/
def movs_unit (n : Nat) : StrOp × Nat :=
  if n % 4 = 0 then (.rep_movsd, n / 4) else if n % 2 = 0 then (.rep_movsw, n / 2)
  else (.rep_movsb, n)

/-- The code of `CMPS 4` alone in a small machine. -/
def cmps_machine : Machine :=
  snippet_machine
    (emitted amx_h_32 sample_amx sample_helpers ⟨0, .OP_CMPS, [((4 : Nat) : Int)]⟩ (emptyAs 0)
      ⟨[]⟩)

/-- A state of a small machine at item 0 with the data section at `0x2000`,
`PRI = 16`, `ALT = 64`, the stack pointer at `0x8000`, the bytes `1, 2, 3, 4`
at `data[PRI]` and the bytes `1, 2, 9, 4` at `data[ALT]`. -/
def differ_state : State :=
  ⟨16, 64, 0, 8192, 32768, 0, 0, 0, ⟨false, false, false, false⟩, false,
   write32 (write32 (fun _ => 0) (8192 + 16) 67305985) (8192 + 64) 67699201, 0, .running, []⟩

/-- The register an operand names, whole (`eax`) or in part (`al`, `ax`). -/
def Operand.regOf : Operand → Option GpReg
  | .reg r => some r
  | .reg8 r => some r
  | .reg16 r => some r
  | .imm _ => none
  | .mem _ => none

/-- Whether the register `r` is a destination of the instruction, named by
the destination operand or implied by the mnemonic: `edx:eax` for the
one-operand multiplications and divisions, `esp` for the stack instructions,
the calls and the returns, `ecx`, `esi`, `edi` for the string instructions,
and the caller-saved `eax`, `ecx`, `edx` for a call of a C function. -/
def Instr.writes (x : Instr) (r : GpReg) : Bool :=
  match x with
  | .bin op dst src =>
    match op with
    | .cmp => false
    | .test => false
    | .xchg => decide (dst.regOf = some r) || decide (src.regOf = some r)
    | _ => decide (dst.regOf = some r)
  | .un op dst =>
    match op with
    | .push => decide (r = .esp)
    | .pop => decide (r = .esp) || decide (dst.regOf = some r)
    | .imul1 => decide (r = .eax) || decide (r = .edx)
    | .mul => decide (r = .eax) || decide (r = .edx)
    | .idiv => decide (r = .eax) || decide (r = .edx)
    | .div => decide (r = .eax) || decide (r = .edx)
    | _ => decide (dst.regOf = some r)
  | .lea dst _ => decide (dst.regOf = some r)
  | .imul3 dst _ _ => decide (dst.regOf = some r)
  | .set _ dst => decide (dst.regOf = some r)
  | .jmp _ => false
  | .jmp_reg _ => false
  | .j _ _ => false
  | .call _ => decide (r = .esp)
  | .call_reg _ => decide (r = .esp)
  | .call_ptr _ => decide (r = .eax) || decide (r = .ecx) || decide (r = .edx)
  | .ret => decide (r = .esp)
  | .ret_imm _ => decide (r = .esp)
  | .cld => false
  | .str op =>
    match op with
    | .rep_stosd => decide (r = .ecx) || decide (r = .edi)
    | _ => decide (r = .ecx) || decide (r = .esi) || decide (r = .edi)
  | .fpu_mem _ _ => false
  | .fpu _ => false

/-- The instructions of a buffer that have `ebx` as a destination. -/
def ebx_writers : List Item → List Instr
  | [] => []
  | .instr x :: rest => if x.writes .ebx then x :: ebx_writers rest else ebx_writers rest
  | _ :: rest => ebx_writers rest

/-- The code of `FILL 8` alone in a small machine. -/
def fill_machine : Machine :=
  snippet_machine (emitted amx_h_32 sample_amx sample_helpers ⟨0, .OP_FILL, [8]⟩ (emptyAs 0) ⟨[]⟩)

/-- A state of a small machine at item 0 with the data section at `0x2000`,
`PRI = 7`, `ALT = 64` and the stack pointer at `0x8000`. -/
def fill_state : State :=
  ⟨7, 64, 0, 8192, 32768, 0, 0, 0, ⟨false, false, false, false⟩, false, fun _ => 0, 0,
   .running, []⟩

/-! ### Binary search lemmas -/

theorem StrictAsc.mono {m : List InstrMapEntry} {n : Nat} (h : StrictAsc m n)
    {i j : Nat} (hij : i ≤ j) (hj : j < n) :
    (entryAt m i).amx_addr ≤ (entryAt m j).amx_addr := by
  rcases Nat.lt_or_eq_of_le hij with h1 | h1
  · exact le_of_lt (h i j h1 hj)
  · subst h1; exact le_refl _

theorem lower_bound_loop_spec (m : List InstrMapEntry) (n : Nat)
    (hs : StrictAsc m n) (a : Int) :
    ∀ (fuel first len : Nat), len ≤ fuel → first + len ≤ n →
      (∀ i, i < first → (entryAt m i).amx_addr < a) →
      (∀ i, first + len ≤ i → i < n → a ≤ (entryAt m i).amx_addr) →
      let r := lower_bound_loop m ⟨a, 0⟩ fuel first len
      r ≤ n ∧ (∀ i, i < r → (entryAt m i).amx_addr < a) ∧
        (∀ i, r ≤ i → i < n → a ≤ (entryAt m i).amx_addr) := by
  intro fuel
  induction fuel with
  | zero =>
    intro first len hl hn hlo hhi
    have : len = 0 := by omega
    subst this
    simp only [lower_bound_loop]
    exact ⟨by omega, hlo, fun i h1 h2 => hhi i (by omega) h2⟩
  | succ fuel ih =>
    intro first len hl hn hlo hhi
    simp only [lower_bound_loop]
    by_cases h0 : len = 0
    · subst h0
      simp only [if_true]
      exact ⟨by omega, hlo, fun i h1 h2 => hhi i (by omega) h2⟩
    · simp only [h0, if_false]
      by_cases hc : CompareInstrMapEntries (entryAt m (first + len / 2)) ⟨a, 0⟩ = true
      · simp only [hc, if_true]
        have hc1 : (entryAt m (first + len / 2)).amx_addr < a := by
          simpa [CompareInstrMapEntries] using hc
        apply ih
        · omega
        · omega
        · intro i hi
          have := hs.mono (i := i) (j := first + len / 2) (by omega) (by omega)
          omega
        · intro i h1 h2
          exact hhi i (by omega) h2
      · simp only [hc, if_false]
        have hc1 : a ≤ (entryAt m (first + len / 2)).amx_addr := by
          simpa [CompareInstrMapEntries] using hc
        apply ih
        · omega
        · omega
        · exact hlo
        · intro i h1 h2
          have := hs.mono (i := first + len / 2) (j := i) (by omega) h2
          omega

theorem upper_bound_loop_spec (m : List InstrMapEntry) (n : Nat)
    (hs : StrictAsc m n) (a : Int) :
    ∀ (fuel first len : Nat), len ≤ fuel → first + len ≤ n →
      (∀ i, i < first → (entryAt m i).amx_addr ≤ a) →
      (∀ i, first + len ≤ i → i < n → a < (entryAt m i).amx_addr) →
      let r := upper_bound_loop m ⟨a, 0⟩ fuel first len
      r ≤ n ∧ (∀ i, i < r → (entryAt m i).amx_addr ≤ a) ∧
        (∀ i, r ≤ i → i < n → a < (entryAt m i).amx_addr) := by
  intro fuel
  induction fuel with
  | zero =>
    intro first len hl hn hlo hhi
    have : len = 0 := by omega
    subst this
    simp only [upper_bound_loop]
    exact ⟨by omega, hlo, fun i h1 h2 => hhi i (by omega) h2⟩
  | succ fuel ih =>
    intro first len hl hn hlo hhi
    simp only [upper_bound_loop]
    by_cases h0 : len = 0
    · subst h0
      simp only [if_true]
      exact ⟨by omega, hlo, fun i h1 h2 => hhi i (by omega) h2⟩
    · simp only [h0, if_false]
      by_cases hc : CompareInstrMapEntries ⟨a, 0⟩ (entryAt m (first + len / 2)) = true
      · simp only [hc, if_true]
        have hc1 : a < (entryAt m (first + len / 2)).amx_addr := by
          simpa [CompareInstrMapEntries] using hc
        apply ih
        · omega
        · omega
        · exact hlo
        · intro i h1 h2
          have := hs.mono (i := first + len / 2) (j := i) (by omega) h2
          omega
      · simp only [hc, if_false]
        have hc1 : (entryAt m (first + len / 2)).amx_addr ≤ a := by
          simpa [CompareInstrMapEntries] using hc
        apply ih
        · omega
        · omega
        · intro i hi
          have := hs.mono (i := i) (j := first + len / 2) (by omega) (by omega)
          omega
        · intro i h1 h2
          exact hhi i (by omega) h2

/-- Index form of the lookup contract. -/
theorem get_instr_ptr_index (address : Int) (m : List InstrMapEntry) (n : Nat)
    (hs : StrictAsc m n) :
    (∀ i, i < n → (entryAt m i).amx_addr = address →
        get_instr_ptr address m n = (entryAt m i).jit_addr) ∧
    ((∀ i, i < n → (entryAt m i).amx_addr ≠ address) →
        get_instr_ptr address m n = 0) := by
  have hl := lower_bound_loop_spec m n hs address n 0 n (le_refl _) (by omega)
    (fun i hi => absurd hi (Nat.not_lt_zero _)) (fun i h1 h2 => by omega)
  have hu := upper_bound_loop_spec m n hs address n 0 n (le_refl _) (by omega)
    (fun i hi => absurd hi (Nat.not_lt_zero _)) (fun i h1 h2 => by omega)
  simp only at hl hu
  obtain ⟨hl1, hl2, hl3⟩ := hl
  obtain ⟨hu1, hu2, hu3⟩ := hu
  constructor
  · intro i hi he
    have h1 : lower_bound_loop m ⟨address, 0⟩ n 0 n = i := by
      rcases Nat.lt_trichotomy (lower_bound_loop m ⟨address, 0⟩ n 0 n) i with h | h | h
      · have := hl3 (lower_bound_loop m ⟨address, 0⟩ n 0 n) (le_refl _) (by omega)
        have := hs _ _ h hi
        omega
      · exact h
      · have := hl2 i h
        omega
    have h2 : upper_bound_loop m ⟨address, 0⟩ n 0 n ≠ i := by
      intro h
      have := hu3 i (by omega) hi
      omega
    simp only [get_instr_ptr, equal_range, h1]
    rw [if_pos]
    exact fun h => h2 h.symm
  · intro hne
    have h1 : lower_bound_loop m ⟨address, 0⟩ n 0 n =
        upper_bound_loop m ⟨address, 0⟩ n 0 n := by
      rcases Nat.lt_trichotomy (lower_bound_loop m ⟨address, 0⟩ n 0 n)
        (upper_bound_loop m ⟨address, 0⟩ n 0 n) with h | h | h
      · have a1 := hl3 (lower_bound_loop m ⟨address, 0⟩ n 0 n) (le_refl _) (by omega)
        have a2 := hu2 _ h
        exact absurd (le_antisymm a2 a1) (hne _ (by omega))
      · exact h
      · have a1 := hu3 (upper_bound_loop m ⟨address, 0⟩ n 0 n) (le_refl _) (by omega)
        have a2 := hl2 _ h
        omega
    simp only [get_instr_ptr, equal_range, h1]
    simp

theorem entryAt_of_lt (m : List InstrMapEntry) (i : Nat) (h : i < m.length) :
    entryAt m i = m.get ⟨i, h⟩ := by
  simp [entryAt, List.getD, List.getElem?_eq_getElem h]

theorem strictAsc_of_pairwise (m : List InstrMapEntry)
    (h : m.Pairwise (fun a b => a.amx_addr < b.amx_addr)) :
    StrictAsc m m.length := by
  intro i j hij hj
  rw [entryAt_of_lt m i (by omega), entryAt_of_lt m j hj]
  exact List.pairwise_iff_get.mp h ⟨i, by omega⟩ ⟨j, hj⟩ hij

/-- C1: on an instruction map sorted strictly ascending by `amx_addr`,
`get_instr_ptr` returns the `jit_addr` of the entry whose `amx_addr` is the
address looked up when there is one, and the null pointer `0` when no entry has
that `amx_addr`. -/
theorem get_instr_ptr_sorted (address : Int) (instr_map : List InstrMapEntry)
    (hsorted : instr_map.Pairwise (fun a b => a.amx_addr < b.amx_addr)) :
    (∀ e, e ∈ instr_map → e.amx_addr = address →
        get_instr_ptr address instr_map instr_map.length = e.jit_addr) ∧
    ((∀ e, e ∈ instr_map → e.amx_addr ≠ address) →
        get_instr_ptr address instr_map instr_map.length = 0) := by
  have hi := get_instr_ptr_index address instr_map instr_map.length
    (strictAsc_of_pairwise instr_map hsorted)
  constructor
  · intro e he hea
    obtain ⟨i, hi1, hi2⟩ := List.getElem_of_mem he
    have := hi.1 i hi1 (by rw [entryAt_of_lt instr_map i hi1]; simpa [hi2] using hea)
    rw [this, entryAt_of_lt instr_map i hi1]
    simp [hi2]
  · intro hne
    apply hi.2
    intro i hi1
    rw [entryAt_of_lt instr_map i hi1]
    exact hne _ (List.get_mem _ _ _)

/-- Witness of C1 on a three-entry map: a hit and a miss. -/
theorem get_instr_ptr_sorted_witness :
    get_instr_ptr 8 [⟨0, 100⟩, ⟨8, 112⟩, ⟨12, 130⟩] 3 = 112 ∧
    get_instr_ptr 4 [⟨0, 100⟩, ⟨8, 112⟩, ⟨12, 130⟩] 3 = 0 := by
  have hs : List.Pairwise (fun a b : InstrMapEntry => a.amx_addr < b.amx_addr)
      [⟨0, 100⟩, ⟨8, 112⟩, ⟨12, 130⟩] := by decide
  exact ⟨(get_instr_ptr_sorted 8 _ hs).1 ⟨8, 112⟩ (by decide) rfl,
         (get_instr_ptr_sorted 4 _ hs).2 (by decide)⟩

/-! ### The emitters only append to the code buffer -/

theorem Extends.refl (a : X86Assembler) : Extends a a := ⟨rfl, [], by simp⟩

theorem Extends.trans {a b c : X86Assembler} (h1 : Extends a b) (h2 : Extends b c) :
    Extends a c := by
  obtain ⟨e1, m1, h1⟩ := h1
  obtain ⟨e2, m2, h2⟩ := h2
  exact ⟨e2.trans e1, m1 ++ m2, by rw [h2, h1, List.append_assoc]⟩

theorem Extends.emit (a : X86Assembler) (it : Item) : Extends a (a.emit it) :=
  ⟨rfl, [it], rfl⟩

theorem Extends.emit_of {a b : X86Assembler} (h : Extends a b) (it : Item) :
    Extends a (b.emit it) := h.trans (Extends.emit b it)

theorem Extends.newLabel_of {a b : X86Assembler} (h : Extends a b) :
    Extends a b.newLabel.2 := h.trans ⟨rfl, [], by simp [X86Assembler.newLabel]⟩

@[simp] theorem X86Assembler.emit_items (a : X86Assembler) (it : Item) :
    (a.emit it).items = a.items ++ [it] := rfl

@[simp] theorem X86Assembler.emit_enc (a : X86Assembler) (it : Item) :
    (a.emit it).enc = a.enc := rfl

@[simp] theorem X86Assembler.newLabel_items (a : X86Assembler) :
    a.newLabel.2.items = a.items := rfl

@[simp] theorem X86Assembler.newLabel_enc (a : X86Assembler) :
    a.newLabel.2.enc = a.enc := rfl

@[simp] theorem AmxLabels.get_items (self : AmxLabels) (as : X86Assembler) (address : Int) :
    (self.get as address).2.2.items = as.items := by
  unfold AmxLabels.get
  split <;> rfl

@[simp] theorem AmxLabels.get_enc (self : AmxLabels) (as : X86Assembler) (address : Int) :
    (self.get as address).2.2.enc = as.enc := by
  unfold AmxLabels.get
  split <;> rfl

theorem AmxLabels.get_extends (self : AmxLabels) (as : X86Assembler) (address : Int) :
    Extends as (self.get as address).2.2 :=
  ⟨by simp, [], by simp⟩

theorem intrinsics_extends (name : String) (emit : X86Assembler → X86Assembler)
    (h : intrinsics.lookup name = some emit) (as : X86Assembler) : Extends as (emit as) := by
  have hm : emit = emit_float ∨ emit = emit_floatabs ∨ emit = emit_floatadd ∨
      emit = emit_floatsub ∨ emit = emit_floatmul ∨ emit = emit_floatdiv ∨
      emit = emit_floatsqroot ∨ emit = emit_floatlog := by
    simp only [intrinsics, List.lookup] at h
    repeat (first | (split at h; simp at h; simp [h]) | simp at h)
  rcases hm with h | h | h | h | h | h | h | h <;> subst h <;>
    simp [Extends, emit_float, emit_floatabs, emit_floatadd, emit_floatsub, emit_floatmul,
      emit_floatdiv, emit_floatsqroot, emit_floatlog, X86Assembler.fild, X86Assembler.fld,
      X86Assembler.fstp, X86Assembler.fadd, X86Assembler.fsub, X86Assembler.fmul,
      X86Assembler.fdiv, X86Assembler.fabs, X86Assembler.fsqrt, X86Assembler.fld1,
      X86Assembler.fyl2x, X86Assembler.fdivrp, X86Assembler.sub, X86Assembler.mov,
      X86Assembler.add]

theorem switch_cascade_extends (amx : AMXPtr) (operand : Int) (n : Nat)
    (as : X86Assembler) (amx_labels : AmxLabels) :
    Extends as (switch_cascade amx operand n as amx_labels).1 := by
  unfold switch_cascade
  suffices h : ∀ (l : List Nat) (acc : X86Assembler × AmxLabels), Extends as acc.1 →
      Extends as (l.foldl (fun (acc : X86Assembler × AmxLabels) i =>
        let dest := rel_code_addr amx (amx.cell_at (operand + 4 + 8 * ((i : Int) + 1) + 4))
        let as := acc.1.cmp GpReg.eax (imm (amx.cell_at (operand + 4 + 8 * ((i : Int) + 1))))
        let (l, amx_labels, as) := acc.2.get as dest
        (as.je l, amx_labels)) acc).1 from h _ _ (Extends.refl _)
  intro l
  induction l with
  | nil => intro acc h; simpa using h
  | cons i l ih =>
    intro acc h
    simp only [List.foldl_cons]
    apply ih
    refine h.trans ?_
    simp [Extends, X86Assembler.cmp, X86Assembler.je]

theorem translate_extends (K : AmxH) (amx : AMXPtr) (L : HelperLabels)
    (instr : AMXInstruction) (as : X86Assembler) (amx_labels : AmxLabels) :
    Extends as (translate K amx L instr as amx_labels).1 := by
  rcases instr with ⟨address, opcode, operands⟩
  cases opcode <;> simp only [translate]
  case OP_SYSREQ_C =>
    split
    · split
      · exact intrinsics_extends _ _ (by assumption) _
      · simp [Extends, X86Assembler.push, X86Assembler.call]
    · exact Extends.refl _
  case OP_SYSREQ_D =>
    split
    · split
      · exact intrinsics_extends _ _ (by assumption) _
      · simp [Extends, X86Assembler.push, X86Assembler.call]
    · exact Extends.refl _
  case OP_SWITCH =>
    simp only [X86Assembler.jmp]
    apply Extends.emit_of
    refine Extends.trans ?_ (AmxLabels.get_extends _ _ _)
    split
    · refine Extends.trans ?_ (switch_cascade_extends _ _ _ _ _)
      simp [Extends, X86Assembler.cmp, X86Assembler.jl, X86Assembler.jg]
    · exact Extends.refl _
  all_goals
    first
    | (simp [Extends, emit_get_amx_ptr,
    X86Assembler.mov, X86Assembler.movzx, X86Assembler.movsx, X86Assembler.lea,
    X86Assembler.push, X86Assembler.pop, X86Assembler.add, X86Assembler.sub,
    X86Assembler.cmp, X86Assembler.and_, X86Assembler.or_, X86Assembler.xor_,
    X86Assembler.test, X86Assembler.xchg, X86Assembler.not_, X86Assembler.neg,
    X86Assembler.inc, X86Assembler.dec, X86Assembler.imul1, X86Assembler.imul2,
    X86Assembler.imul3, X86Assembler.mul, X86Assembler.idiv, X86Assembler.div,
    X86Assembler.shl, X86Assembler.shr, X86Assembler.sar, X86Assembler.sete,
    X86Assembler.setne, X86Assembler.setz, X86Assembler.setl, X86Assembler.setle,
    X86Assembler.setg, X86Assembler.setge, X86Assembler.setb, X86Assembler.setbe,
    X86Assembler.seta, X86Assembler.setae, X86Assembler.jmp, X86Assembler.jmp_reg,
    X86Assembler.je, X86Assembler.jne, X86Assembler.jz, X86Assembler.jnz,
    X86Assembler.jl, X86Assembler.jle, X86Assembler.jg, X86Assembler.jge,
    X86Assembler.jb, X86Assembler.jbe, X86Assembler.ja, X86Assembler.jae,
    X86Assembler.call, X86Assembler.call_reg, X86Assembler.call_ptr, X86Assembler.ret,
    X86Assembler.ret_imm, X86Assembler.cld, X86Assembler.rep_movsd,
    X86Assembler.rep_movsw, X86Assembler.rep_movsb, X86Assembler.repe_cmpsb,
    X86Assembler.rep_stosd, X86Assembler.bind]; done)
    | (split_ifs <;> simp [Extends, emit_get_amx_ptr,
    X86Assembler.mov, X86Assembler.movzx, X86Assembler.lea,
    X86Assembler.push, X86Assembler.add, X86Assembler.sub,
    X86Assembler.xor_, X86Assembler.call, X86Assembler.rep_movsd, X86Assembler.cld,
    X86Assembler.rep_movsw, X86Assembler.rep_movsb, X86Assembler.pop])
/-! ### Memory lemmas -/

theorem read8_lt (m : Memory) (a : Nat) : read8 m a < 256 := Nat.mod_lt _ (by decide)

theorem read32_lt (m : Memory) (a : Nat) : read32 m a < 4294967296 := by
  have h0 := read8_lt m a
  have h1 := read8_lt m (a + 1)
  have h2 := read8_lt m (a + 2)
  have h3 := read8_lt m (a + 3)
  unfold read32
  omega

theorem read8_write8_same (m : Memory) (a v : Nat) : read8 (write8 m a v) a = v % 256 := by
  simp [read8, write8]

theorem read8_write8_ne (m : Memory) (a b v : Nat) (h : a ≠ b) :
    read8 (write8 m b v) a = read8 m a := by
  simp [read8, write8, h]

theorem read8_write32_ne (m : Memory) (a b v : Nat) (h : a < b ∨ b + 4 ≤ a) :
    read8 (write32 m b v) a = read8 m a := by
  unfold write32
  rw [read8_write8_ne _ _ _ _ (by omega), read8_write8_ne _ _ _ _ (by omega),
    read8_write8_ne _ _ _ _ (by omega), read8_write8_ne _ _ _ _ (by omega)]

theorem read32_write32_same (m : Memory) (a v : Nat) :
    read32 (write32 m a v) a = v % 4294967296 := by
  unfold read32 write32
  rw [read8_write8_ne _ _ _ _ (by omega), read8_write8_ne _ _ _ _ (by omega),
    read8_write8_ne _ _ _ _ (by omega), read8_write8_same,
    read8_write8_ne _ _ _ _ (by omega), read8_write8_ne _ _ _ _ (by omega),
    read8_write8_same,
    read8_write8_ne _ _ _ _ (by omega), read8_write8_same, read8_write8_same]
  omega

theorem read32_write32_ne (m : Memory) (a b v : Nat) (h : a + 4 ≤ b ∨ b + 4 ≤ a) :
    read32 (write32 m b v) a = read32 m a := by
  unfold read32
  rw [read8_write32_ne _ _ _ _ (by omega), read8_write32_ne _ _ _ _ (by omega),
    read8_write32_ne _ _ _ _ (by omega), read8_write32_ne _ _ _ _ (by omega)]

theorem read32_congr (m1 m2 : Memory) (a : Nat)
    (h : ∀ x, a ≤ x → x < a + 4 → m1 x = m2 x) : read32 m1 a = read32 m2 a := by
  unfold read32 read8
  rw [h a (by omega) (by omega), h (a + 1) (by omega) (by omega),
    h (a + 2) (by omega) (by omega), h (a + 3) (by omega) (by omega)]

theorem write8_below (m : Memory) (a v x : Nat) (h : x ≠ a) : write8 m a v x = m x := by
  simp [write8, h]

theorem write32_outside (m : Memory) (a v x : Nat) (h : x < a ∨ a + 4 ≤ x) :
    write32 m a v x = m x := by
  unfold write32
  rw [write8_below _ _ _ _ (by omega), write8_below _ _ _ _ (by omega),
    write8_below _ _ _ _ (by omega), write8_below _ _ _ _ (by omega)]

theorem writeEntry_outside (m : Memory) (a x : Nat) (e : InstrMapEntry)
    (h : x < a ∨ a + 8 ≤ x) : writeEntry m a e x = m x := by
  unfold writeEntry
  rw [write32_outside _ _ _ _ (by omega), write32_outside _ _ _ _ (by omega)]

theorem toU32_lt (x : Int) : toU32 x < 4294967296 := by
  unfold toU32
  omega

theorem toSigned_toU32 (x : Int) (h0 : -2147483648 ≤ x) (h1 : x < 2147483648) :
    toSigned (toU32 x) = x := by
  unfold toSigned toU32
  split <;> omega

theorem readEntry_writeEntry (m : Memory) (a : Nat) (e : InstrMapEntry) :
    readEntry (writeEntry m a e) a = ⟨toSigned (toU32 e.amx_addr), e.jit_addr % 4294967296⟩ := by
  unfold readEntry writeEntry
  rw [read32_write32_same, read32_write32_ne _ _ _ _ (by omega), read32_write32_same]
  have := toU32_lt e.amx_addr
  rw [Nat.mod_eq_of_lt this]

theorem storeItems_below (enc : Instr → Nat) (l : List Item) :
    ∀ (a : Nat) (m : Memory) (x : Nat), x < a → storeItems enc l a m x = m x := by
  induction l with
  | nil => intro a m x _; rfl
  | cons it rest ih =>
    intro a m x hx
    simp only [storeItems]
    rw [ih _ _ _ (by omega)]
    cases it with
    | dd v => exact write32_outside _ _ _ _ (Or.inl hx)
    | dstruct e => exact writeEntry_outside _ _ _ _ (Or.inl hx)
    | instr i => rfl
    | bind l => rfl
    | align p => rfl

theorem itemsSize_nil (enc : Instr → Nat) : itemsSize enc [] = 0 := rfl

theorem itemsSize_cons (enc : Instr → Nat) (it : Item) (l : List Item) :
    itemsSize enc (it :: l) = it.size enc + itemsSize enc l := rfl

theorem Item.size_bind (enc : Instr → Nat) (l : Label) : (Item.bind l).size enc = 0 := rfl

theorem Item.size_dd (enc : Instr → Nat) (v : Int) : (Item.dd v).size enc = 4 := rfl

theorem Item.size_dstruct (enc : Instr → Nat) (e : InstrMapEntry) :
    (Item.dstruct e).size enc = 8 := rfl

theorem Item.size_instr (enc : Instr → Nat) (i : Instr) : (Item.instr i).size enc = enc i := rfl

theorem Item.size_align (enc : Instr → Nat) (p : Nat) : (Item.align p).size enc = p := rfl

theorem itemsSize_append (enc : Instr → Nat) (l1 l2 : List Item) :
    itemsSize enc (l1 ++ l2) = itemsSize enc l1 + itemsSize enc l2 := by
  induction l1 with
  | nil => simp [itemsSize]
  | cons it rest ih => simp [itemsSize, ih, Nat.add_assoc]

theorem storeItems_append (enc : Instr → Nat) (l1 l2 : List Item) :
    ∀ (a : Nat) (m : Memory), storeItems enc (l1 ++ l2) a m =
      storeItems enc l2 (a + itemsSize enc l1) (storeItems enc l1 a m) := by
  induction l1 with
  | nil => intro a m; simp [storeItems, itemsSize]
  | cons it rest ih =>
    intro a m
    rw [List.cons_append]
    simp only [storeItems, itemsSize]
    rw [ih, Nat.add_assoc]

theorem write_instr_map_below (code_ptr : Nat) (l : List (Int × Nat)) :
    ∀ (entry : Nat) (m : Memory) (x : Nat), x < entry →
      write_instr_map code_ptr l entry m x = m x := by
  induction l with
  | nil => intro e m x _; rfl
  | cons p rest ih =>
    intro e m x hx
    simp only [write_instr_map]
    rw [ih _ _ _ (by omega)]
    exact writeEntry_outside _ _ _ _ (Or.inl hx)

theorem readMap_write_instr_map (code_ptr : Nat) (l : List (Int × Nat)) :
    ∀ (entry : Nat) (m : Memory),
      readMap (write_instr_map code_ptr l entry m) entry l.length =
        l.map (fun p => ⟨toSigned (toU32 p.1), (p.2 + code_ptr) % 4294967296⟩) := by
  induction l with
  | nil => intro e m; rfl
  | cons p rest ih =>
    intro e m
    simp only [write_instr_map, List.length_cons, readMap, List.map_cons]
    rw [ih]
    congr 1
    have h : readEntry (write_instr_map code_ptr rest (e + 8)
        (writeEntry m e ⟨p.1, p.2 + code_ptr⟩)) e =
        readEntry (writeEntry m e ⟨p.1, p.2 + code_ptr⟩) e := by
      unfold readEntry
      rw [read32_congr _ _ e (fun x _ h2 => write_instr_map_below _ _ _ _ _ (by omega)),
        read32_congr _ _ (e + 4) (fun x _ h2 => write_instr_map_below _ _ _ _ _ (by omega))]
    rw [h, readEntry_writeEntry]

/-! ### The translation loop -/

theorem Extends.size_le {a b : X86Assembler} (h : Extends a b) :
    a.getCodeSize ≤ b.getCodeSize := by
  obtain ⟨he, more, hm⟩ := h
  unfold X86Assembler.getCodeSize
  rw [hm, he, itemsSize_append]
  omega

theorem align_extends (as : X86Assembler) (m : Nat) : Extends as (as.align m) :=
  Extends.emit _ _

theorem compile_step_extends (K : AmxH) (amx : AMXPtr) (L : HelperLabels)
    (jt : List Int) (st : LoopState) (instr : AMXInstruction) :
    Extends st.as (compile_step K amx L jt st instr).as := by
  unfold compile_step
  simp only
  refine Extends.trans ?_ (translate_extends K amx L instr _ _)
  split <;> split <;>
    first
    | exact Extends.refl _
    | simp [Extends, X86Assembler.align, X86Assembler.bind]

theorem compile_loop_extends (K : AmxH) (amx : AMXPtr) (L : HelperLabels) (jt : List Int) :
    ∀ (l : List AMXInstruction) (st : LoopState),
      Extends st.as (compile_loop K amx L jt l st).as := by
  intro l
  induction l with
  | nil => intro st; exact Extends.refl _
  | cons instr rest ih =>
    intro st
    simp only [compile_loop]
    split
    · exact Extends.refl _
    · exact (compile_step_extends K amx L jt st instr).trans (ih _)

theorem compile_loop_of_error (K : AmxH) (amx : AMXPtr) (L : HelperLabels) (jt : List Int)
    (l : List AMXInstruction) (st : LoopState) (h : st.error = true) :
    compile_loop K amx L jt l st = st := by
  cases l with
  | nil => rfl
  | cons i r => simp [compile_loop, h]

theorem compile_loop_append (K : AmxH) (amx : AMXPtr) (L : HelperLabels) (jt : List Int) :
    ∀ (l1 l2 : List AMXInstruction) (st : LoopState),
      compile_loop K amx L jt (l1 ++ l2) st =
        compile_loop K amx L jt l2 (compile_loop K amx L jt l1 st) := by
  intro l1
  induction l1 with
  | nil => intro l2 st; rfl
  | cons i r ih =>
    intro l2 st
    simp only [List.cons_append, compile_loop]
    split
    · rename_i h
      rw [compile_loop_of_error K amx L jt l2 st h]
    · exact ih _ _

/-- When the loop ends without an error, no state on the way had one. -/
theorem compile_loop_no_error (K : AmxH) (amx : AMXPtr) (L : HelperLabels) (jt : List Int) :
    ∀ (l : List AMXInstruction) (st : LoopState),
      (compile_loop K amx L jt l st).error = false → st.error = false := by
  intro l
  induction l with
  | nil => intro st h; exact h
  | cons i r ih =>
    intro st h
    simp only [compile_loop] at h
    split at h
    · rename_i he; rw [he] at h; exact absurd h (by simp)
    · rename_i he; simpa using he

/-- The side vector after an error-free loop: one pair per instruction, in
order, with the instruction address in the first component. -/
theorem compile_loop_instr_map_fst (K : AmxH) (amx : AMXPtr) (L : HelperLabels)
    (jt : List Int) :
    ∀ (l : List AMXInstruction) (st : LoopState),
      (compile_loop K amx L jt l st).error = false →
      (compile_loop K amx L jt l st).instr_map.map Prod.fst =
        st.instr_map.map Prod.fst ++ l.map AMXInstruction.address := by
  intro l
  induction l with
  | nil => intro st _; simp [compile_loop]
  | cons i r ih =>
    intro st h
    have h0 := compile_loop_no_error K amx L jt _ _ h
    simp only [compile_loop, h0] at h ⊢
    rw [if_neg (by simp)] at h ⊢
    rw [ih _ h]
    simp [compile_step]

/-- The pre-translation part of a loop pass: the pad and the label binding. -/
theorem compile_step_shape (K : AmxH) (amx : AMXPtr) (L : HelperLabels)
    (jt : List Int) (st : LoopState) (instr : AMXInstruction) :
    ∃ (pre : List Item) (as0 : X86Assembler) (lbl0 : AmxLabels),
      as0.enc = st.as.enc ∧ as0.items = st.as.items ++ pre ∧
      (∀ it, it ∈ pre → (∃ pad, it = Item.align pad) ∨ (∃ l, it = Item.bind l)) ∧
      (compile_step K amx L jt st instr).as = (translate K amx L instr as0 lbl0).1 ∧
      (compile_step K amx L jt st instr).instr_map =
        st.instr_map ++ [(instr.address, itemsSize st.as.enc (st.as.items ++ pre))] := by
  unfold compile_step
  simp only
  by_cases hp : instr.opcode = AMXOpcodeID.OP_PROC <;> by_cases hj : instr.address ∈ jt <;>
    simp only [hp, hj, if_true, if_false]
  · refine ⟨[Item.align ((16 - st.as.getCodeSize % 16) % 16),
      Item.bind (st.amx_labels.get (st.as.align 16) instr.address).1], _, _, ?_, ?_, ?_, rfl, ?_⟩
    · simp [X86Assembler.bind, X86Assembler.align]
    · simp [X86Assembler.bind, X86Assembler.align]
    · intro it hit
      simp at hit
      rcases hit with h | h
      · exact Or.inl ⟨_, h⟩
      · exact Or.inr ⟨_, h⟩
    · simp [X86Assembler.getCodeSize, X86Assembler.bind, X86Assembler.align]
  · refine ⟨[Item.align ((16 - st.as.getCodeSize % 16) % 16)], _, _, ?_, ?_, ?_, rfl, ?_⟩
    · simp [X86Assembler.align]
    · simp [X86Assembler.align]
    · intro it hit
      simp at hit
      exact Or.inl ⟨_, hit⟩
    · simp [X86Assembler.getCodeSize, X86Assembler.align]
  · refine ⟨[Item.bind (st.amx_labels.get st.as instr.address).1], _, _, ?_, ?_, ?_, rfl, ?_⟩
    · simp [X86Assembler.bind]
    · simp [X86Assembler.bind]
    · intro it hit
      simp at hit
      exact Or.inr ⟨_, hit⟩
    · simp [X86Assembler.getCodeSize, X86Assembler.bind]
  · refine ⟨[], _, _, rfl, ?_, ?_, rfl, ?_⟩
    · simp
    · intro it hit
      simp at hit
    · simp [X86Assembler.getCodeSize]

/-! ### Shape of the buffer after the prologue -/

theorem foldl_dstruct (d : InstrMapEntry) :
    ∀ (l : List Nat) (as : X86Assembler),
      l.foldl (fun as _ => as.dstruct d) as =
        { as with items := as.items ++ List.replicate l.length (Item.dstruct d) } := by
  intro l
  induction l with
  | nil => intro as; simp
  | cons x r ih =>
    intro as
    rw [List.foldl_cons, ih]
    simp only [List.length_cons, List.replicate_succ,
      X86Assembler.dstruct, X86Assembler.emit, List.append_assoc, List.singleton_append]


theorem emit_exec_helper_eq (K : AmxH) (as : X86Assembler) (l1 l2 l3 l4 l5 : Label) :
    emit_exec_helper K as l1 l2 l3 l4 l5 =
      { as with items := as.items ++
          (emit_exec_helper K (emptyAs as.numLabels) l1 l2 l3 l4 l5).items } := by
  simp [emit_exec_helper, emit_get_amx_ptr, emptyAs, X86Assembler.mov, X86Assembler.push,
    X86Assembler.pop, X86Assembler.lea, X86Assembler.sub, X86Assembler.call_reg,
    X86Assembler.ret, X86Assembler.emit]

set_option maxRecDepth 8192 in
theorem emit_exec_eq (K : AmxH) (as : X86Assembler) (l1 l2 l3 l4 l5 l6 : Label) :
    emit_exec K as l1 l2 l3 l4 l5 l6 =
      { enc := as.enc,
        items := setWordAt as.enc as.items 0 as.getCodeSize ++
          (emit_exec K (emptyAs as.numLabels) l1 l2 l3 l4 l5 l6).items,
        numLabels := as.numLabels + 8 } := by
  simp [emit_exec, emit_get_amx_ptr, emit_get_amx_data_ptr, emptyAs, set_runtime_data,
    setWordAt.eq_1, RuntimeDataExecPtr, X86Assembler.newLabel, X86Assembler.bind,
    X86Assembler.mov, X86Assembler.push, X86Assembler.pop, X86Assembler.sub,
    X86Assembler.add, X86Assembler.cmp, X86Assembler.and_, X86Assembler.imul3,
    X86Assembler.xchg, X86Assembler.jmp, X86Assembler.jl, X86Assembler.jge,
    X86Assembler.jle, X86Assembler.jne, X86Assembler.je, X86Assembler.jnz,
    X86Assembler.call, X86Assembler.call_ptr, X86Assembler.ret, X86Assembler.emit]

theorem emit_halt_helper_eq (K : AmxH) (as : X86Assembler) (l1 l2 l3 : Label) :
    emit_halt_helper K as l1 l2 l3 =
      { as with items := as.items ++
          (emit_halt_helper K (emptyAs as.numLabels) l1 l2 l3).items } := by
  simp [emit_halt_helper, emit_get_amx_ptr, emptyAs, X86Assembler.mov, X86Assembler.push,
    X86Assembler.pop, X86Assembler.add, X86Assembler.ret, X86Assembler.emit]

theorem emit_jump_helper_eq (as : X86Assembler) (l1 l2 l3 : Label) :
    emit_jump_helper as l1 l2 l3 =
      { enc := as.enc,
        items := as.items ++ (emit_jump_helper (emptyAs as.numLabels) l1 l2 l3).items,
        numLabels := as.numLabels + 1 } := by
  simp [emit_jump_helper, emptyAs, X86Assembler.newLabel, X86Assembler.bind,
    X86Assembler.mov, X86Assembler.push, X86Assembler.add, X86Assembler.cmp,
    X86Assembler.jne, X86Assembler.jmp_reg, X86Assembler.call_ptr, X86Assembler.ret,
    X86Assembler.emit]

theorem emit_sysreq_d_helper_eq (K : AmxH) (as : X86Assembler) (l1 l2 l3 : Label) :
    emit_sysreq_d_helper K as l1 l2 l3 =
      { as with items := as.items ++
          (emit_sysreq_d_helper K (emptyAs as.numLabels) l1 l2 l3).items } := by
  simp [emit_sysreq_d_helper, emit_get_amx_ptr, emptyAs, X86Assembler.mov,
    X86Assembler.push, X86Assembler.lea, X86Assembler.sub, X86Assembler.add,
    X86Assembler.call_reg, X86Assembler.ret, X86Assembler.emit]

theorem emit_sysreq_c_helper_eq (K : AmxH) (as : X86Assembler) (l1 l2 : Label) :
    emit_sysreq_c_helper K as l1 l2 =
      { enc := as.enc,
        items := as.items ++ (emit_sysreq_c_helper K (emptyAs as.numLabels) l1 l2).items,
        numLabels := as.numLabels + 2 } := by
  simp [emit_sysreq_c_helper, emit_get_amx_ptr, emptyAs, X86Assembler.newLabel,
    X86Assembler.bind, X86Assembler.mov, X86Assembler.push, X86Assembler.pop,
    X86Assembler.add, X86Assembler.cmp, X86Assembler.jne, X86Assembler.jmp,
    X86Assembler.call, X86Assembler.call_ptr, X86Assembler.ret, X86Assembler.emit]

theorem compile_header_eq (enc : Instr → Nat) (amx : AMXPtr) :
    compile_header enc amx =
      { enc := enc,
        items := header_items 0 amx.amx amx.decoded.length ++
          List.replicate amx.decoded.length (Item.dstruct ⟨0, 0⟩),
        numLabels := 8 } := by
  simp only [compile_header, reserve_instr_map, foldl_dstruct, X86Assembler.newLabel,
    X86Assembler.bind, X86Assembler.dd, X86Assembler.dintptr, X86Assembler.emit,
    List.nil_append, List.cons_append, List.append_assoc, List.length_range, header_items,
    set_runtime_data, X86Assembler.getCodeSize, RuntimeDataInstrMapSize, RuntimeDataInstrMapPtr]
  simp [setWordAt, itemsSize, Item.size]

/-- The buffer after the prologue: the header (with the exec offset in slot
0), the reserved map, the six trampolines. -/
theorem compile_prologue_as (K : AmxH) (enc : Instr → Nat) (amx : AMXPtr) :
    (compile_prologue K enc amx).as =
      { enc := enc,
        items := header_items
            (itemsSize enc (header_items 0 amx.amx amx.decoded.length ++
              (List.replicate amx.decoded.length (Item.dstruct ⟨0, 0⟩) ++
                Item.bind ⟨8⟩ :: (exec_helper_items K ++ [Item.bind ⟨9⟩])) : List Item) : Nat)
            amx.amx amx.decoded.length ++
          (List.replicate amx.decoded.length (Item.dstruct ⟨0, 0⟩) ++ tramp_items K),
        numLabels := 26 } := by
  simp only [compile_prologue, compile_header_eq, X86Assembler.newLabel, X86Assembler.bind,
    X86Assembler.emit]
  rw [emit_exec_helper_eq, emit_exec_eq, emit_halt_helper_eq,
    emit_jump_helper_eq, emit_sysreq_d_helper_eq, emit_sysreq_c_helper_eq]
  simp only [X86Assembler.getCodeSize, header_items, List.cons_append, setWordAt, if_true,
    List.append_assoc, List.nil_append, List.append_eq, Nat.reduceAdd, tramp_items,
    exec_helper_items, exec_items, halt_helper_items, jump_helper_items,
    sysreq_d_helper_items, sysreq_c_helper_items, List.singleton_append]

theorem emit_exec_helper_numLabels (K : AmxH) (as : X86Assembler) (l1 l2 l3 l4 l5 : Label) :
    (emit_exec_helper K as l1 l2 l3 l4 l5).numLabels = as.numLabels := by
  rw [emit_exec_helper_eq]

theorem emit_exec_numLabels (K : AmxH) (as : X86Assembler) (l1 l2 l3 l4 l5 l6 : Label) :
    (emit_exec K as l1 l2 l3 l4 l5 l6).numLabels = as.numLabels + 8 := by
  rw [emit_exec_eq]

theorem emit_halt_helper_numLabels (K : AmxH) (as : X86Assembler) (l1 l2 l3 : Label) :
    (emit_halt_helper K as l1 l2 l3).numLabels = as.numLabels := by
  rw [emit_halt_helper_eq]

theorem emit_jump_helper_numLabels (as : X86Assembler) (l1 l2 l3 : Label) :
    (emit_jump_helper as l1 l2 l3).numLabels = as.numLabels + 1 := by
  rw [emit_jump_helper_eq]

theorem emit_sysreq_d_helper_numLabels (K : AmxH) (as : X86Assembler) (l1 l2 l3 : Label) :
    (emit_sysreq_d_helper K as l1 l2 l3).numLabels = as.numLabels := by
  rw [emit_sysreq_d_helper_eq]

theorem emit_sysreq_c_helper_numLabels (K : AmxH) (as : X86Assembler) (l1 l2 : Label) :
    (emit_sysreq_c_helper K as l1 l2).numLabels = as.numLabels + 2 := by
  rw [emit_sysreq_c_helper_eq]

theorem compile_prologue_helpers (K : AmxH) (enc : Instr → Nat) (amx : AMXPtr) :
    (compile_prologue K enc amx).helpers = ⟨⟨1⟩, ⟨19⟩, ⟨22⟩, ⟨21⟩, ⟨25⟩⟩ := by
  simp only [compile_prologue, Prologue.helpers, compile_header_eq, X86Assembler.newLabel,
    X86Assembler.bind, X86Assembler.emit, emit_exec_helper_numLabels, emit_exec_numLabels,
    emit_halt_helper_numLabels, emit_jump_helper_numLabels, emit_sysreq_d_helper_numLabels,
    emit_sysreq_c_helper_numLabels, Nat.reduceAdd]

theorem compile_prologue_L_halt_helper (K : AmxH) (enc : Instr → Nat) (amx : AMXPtr) :
    (compile_prologue K enc amx).L_halt_helper = ⟨18⟩ := by
  simp only [compile_prologue, compile_header_eq, X86Assembler.newLabel,
    X86Assembler.bind, X86Assembler.emit, emit_exec_helper_numLabels, emit_exec_numLabels,
    Nat.reduceAdd]

theorem compile_prologue_L_do_halt (K : AmxH) (enc : Instr → Nat) (amx : AMXPtr) :
    (compile_prologue K enc amx).L_do_halt = ⟨25⟩ := by
  simp only [compile_prologue, compile_header_eq, X86Assembler.newLabel,
    X86Assembler.bind, X86Assembler.emit, emit_exec_helper_numLabels, emit_exec_numLabels,
    emit_halt_helper_numLabels, emit_jump_helper_numLabels, emit_sysreq_d_helper_numLabels,
    emit_sysreq_c_helper_numLabels, Nat.reduceAdd]
/-! ### What `compile` leaves in memory -/

theorem compile_step_instr_map (K : AmxH) (amx : AMXPtr) (L : HelperLabels)
    (jt : List Int) (st : LoopState) (instr : AMXInstruction) :
    ∃ more, (compile_step K amx L jt st instr).instr_map = st.instr_map ++ more := by
  obtain ⟨pre, as0, lbl0, _, _, _, _, h⟩ := compile_step_shape K amx L jt st instr
  exact ⟨_, h⟩

theorem compile_loop_instr_map (K : AmxH) (amx : AMXPtr) (L : HelperLabels) (jt : List Int) :
    ∀ (l : List AMXInstruction) (st : LoopState),
      ∃ more, (compile_loop K amx L jt l st).instr_map = st.instr_map ++ more := by
  intro l
  induction l with
  | nil => intro st; exact ⟨[], by simp [compile_loop]⟩
  | cons i r ih =>
    intro st
    simp only [compile_loop]
    split
    · exact ⟨[], by simp⟩
    · obtain ⟨m1, h1⟩ := compile_step_instr_map K amx L jt st i
      obtain ⟨m2, h2⟩ := ih (compile_step K amx L jt st i)
      exact ⟨m1 ++ m2, by rw [h2, h1, List.append_assoc]⟩

/-- The initial state of the translation loop. -/
theorem disassemble_length (l : List RawInstr) : ∀ ip, (disassemble ip l).length = l.length := by
  induction l with
  | nil => intro ip; rfl
  | cons r rest ih => intro ip; simp [disassemble, ih]

theorem disassemble_ge (l : List RawInstr) :
    ∀ ip i, i ∈ disassemble ip l → ip ≤ i.address := by
  induction l with
  | nil => intro ip i h; simp [disassemble] at h
  | cons r rest ih =>
    intro ip i h
    simp only [disassemble, List.mem_cons] at h
    rcases h with h | h
    · subst h; exact le_refl _
    · have := ih _ _ h
      omega

theorem disassemble_pairwise (l : List RawInstr) :
    ∀ ip, (disassemble ip l).Pairwise (fun a b => a.address < b.address) := by
  induction l with
  | nil => intro ip; simp [disassemble]
  | cons r rest ih =>
    intro ip
    simp only [disassemble, List.pairwise_cons]
    refine ⟨?_, ih _⟩
    intro b hb
    have := disassemble_ge _ _ _ hb
    omega

theorem header_items_size (enc : Instr → Nat) (x0 a n : Int) :
    itemsSize enc (header_items x0 a n) = 32 := by
  simp [header_items, itemsSize, Item.size]

theorem itemsSize_replicate_dstruct (enc : Instr → Nat) (e : InstrMapEntry) (n : Nat) :
    itemsSize enc (List.replicate n (Item.dstruct e)) = 8 * n := by
  induction n with
  | zero => simp [itemsSize]
  | succ k ih => simp [List.replicate_succ, itemsSize, Item.size, ih]; omega

/-- The header slots right after `as.make()` has placed a buffer that starts
with the header. -/
theorem header_store (enc : Instr → Nat) (x0 a n : Int) (rest : List Item) (B : Nat)
    (mem : Memory) :
    read32 (storeItems enc (header_items x0 a n ++ rest) B mem) (B + 0) = toU32 x0 ∧
    read32 (storeItems enc (header_items x0 a n ++ rest) B mem) (B + 4) = toU32 a ∧
    read32 (storeItems enc (header_items x0 a n ++ rest) B mem) (B + 8) = 0 ∧
    read32 (storeItems enc (header_items x0 a n ++ rest) B mem) (B + 12) = 0 ∧
    read32 (storeItems enc (header_items x0 a n ++ rest) B mem) (B + 16) = 0 ∧
    read32 (storeItems enc (header_items x0 a n ++ rest) B mem) (B + 20) = 0 ∧
    read32 (storeItems enc (header_items x0 a n ++ rest) B mem) (B + 24) = toU32 n ∧
    read32 (storeItems enc (header_items x0 a n ++ rest) B mem) (B + 28) = 32 := by
  have hx := toU32_lt x0
  have ha := toU32_lt a
  have hn := toU32_lt n
  have h0 : toU32 0 = 0 := by decide
  have h32 : toU32 32 = 32 := by decide
  rw [storeItems_append, header_items_size]
  have hb : ∀ x, x + 4 ≤ B + 32 → read32 (storeItems enc rest (B + 32)
      (storeItems enc (header_items x0 a n) B mem)) x =
      read32 (storeItems enc (header_items x0 a n) B mem) x := fun x hx =>
    read32_congr _ _ _ (fun y _ h2 => storeItems_below _ _ _ _ _ (by omega))
  rw [hb _ (by omega), hb _ (by omega), hb _ (by omega), hb _ (by omega), hb _ (by omega),
    hb _ (by omega), hb _ (by omega), hb _ (by omega)]
  simp only [header_items, storeItems, Item.size, Nat.add_zero, h0, h32]
  simp (disch := omega) only [read32_write32_same, read32_write32_ne, Nat.add_assoc,
    Nat.reduceAdd, Nat.mod_eq_of_lt hx, Nat.mod_eq_of_lt ha, Nat.mod_eq_of_lt hn,
    Nat.reduceMod, and_self]

theorem compile_loop_result_eq (K : AmxH) (info : OpcodeInfo) (enc : Instr → Nat)
    (amx : AMXPtr) (h : (compile_loop_result K info enc amx).error = false) :
    (loop_after K info enc amx amx.decoded).error = false ∧
    (compile_loop_result K info enc amx).instr_map =
      (loop_after K info enc amx amx.decoded).instr_map ∧
    (compile_loop_result K info enc amx).as.enc =
      (loop_after K info enc amx amx.decoded).as.enc ∧
    (compile_loop_result K info enc amx).as.items =
      (loop_after K info enc amx amx.decoded).as.items ++
        [Item.bind ⟨25⟩, Item.instr (.un .push (.reg .ecx)), Item.instr (.call ⟨18⟩)] := by
  unfold compile_loop_result at h ⊢
  simp only [compile_prologue_L_do_halt, compile_prologue_L_halt_helper] at h ⊢
  have hl : loop_after K info enc amx amx.decoded =
      compile_loop K amx (compile_prologue K enc amx).helpers
        (collect_jump_targets info amx []) amx.decoded
        { as := (compile_prologue K enc amx).as, amx_labels := ⟨[]⟩, instr_map := [],
          error := false, instr := ⟨0, .OP_NONE, []⟩ } := rfl
  rw [← hl] at h ⊢
  by_cases he : (loop_after K info enc amx amx.decoded).error = true
  · simp [he] at h
  · have he2 : (loop_after K info enc amx amx.decoded).error = false := by simpa using he
    cases hm : amx.malformed with
    | some bad => simp [he2, hm] at h
    | none =>
      simp [he2, hm, X86Assembler.bind, X86Assembler.push, X86Assembler.call]

theorem loop_after_enc (K : AmxH) (info : OpcodeInfo) (enc : Instr → Nat) (amx : AMXPtr)
    (l : List AMXInstruction) : (loop_after K info enc amx l).as.enc = enc := by
  have h := (compile_loop_extends K amx (compile_prologue K enc amx).helpers
    (collect_jump_targets info amx []) l (loop_init K enc amx)).1
  unfold loop_after
  rw [h]
  simp [loop_init, compile_prologue_as]

theorem exec_offset_eq (K : AmxH) (enc : Instr → Nat) (a : Int) (n : Nat) :
    itemsSize enc (header_items 0 a n ++
      (List.replicate n (Item.dstruct ⟨0, 0⟩) ++
        Item.bind ⟨8⟩ :: (exec_helper_items K ++ [Item.bind ⟨9⟩]))) = exec_offset K enc n := by
  rw [itemsSize_append, itemsSize_append, header_items_size, itemsSize_replicate_dstruct,
    itemsSize_cons, itemsSize_append, itemsSize_cons, itemsSize_nil, Item.size_bind,
    Item.size_bind]
  unfold exec_offset
  omega

/-- The buffer in the translation loop starts with the header, the reserved
map and the trampolines. -/
theorem loop_after_items (K : AmxH) (info : OpcodeInfo) (enc : Instr → Nat) (amx : AMXPtr)
    (l : List AMXInstruction) :
    ∃ body : List Item, (loop_after K info enc amx l).as.items =
      header_items (exec_offset K enc amx.decoded.length : Nat) amx.amx amx.decoded.length ++
        (List.replicate amx.decoded.length (Item.dstruct ⟨0, 0⟩) ++ (tramp_items K ++ body)) := by
  obtain ⟨_, more, h⟩ := compile_loop_extends K amx (compile_prologue K enc amx).helpers
    (collect_jump_targets info amx []) l (loop_init K enc amx)
  refine ⟨more, ?_⟩
  unfold loop_after
  rw [h]
  simp only [loop_init, compile_prologue_as, List.append_assoc, exec_offset_eq]

theorem compile_ok (K : AmxH) (info : OpcodeInfo) (enc : Instr → Nat) (amx : AMXPtr)
    (eh : Bool) (B : Nat) (mem : Memory)
    (hok : (compile K info enc amx eh B mem).output ≠ none) :
    (compile_loop_result K info enc amx).error = false := by
  by_cases he : (compile_loop_result K info enc amx).error = true
  · simp [compile, he] at hok
  · simpa using he

theorem loop_after_instr_map_fst (K : AmxH) (info : OpcodeInfo) (enc : Instr → Nat)
    (amx : AMXPtr) (l : List AMXInstruction)
    (h : (loop_after K info enc amx l).error = false) :
    (loop_after K info enc amx l).instr_map.map Prod.fst = l.map AMXInstruction.address := by
  have := compile_loop_instr_map_fst K amx (compile_prologue K enc amx).helpers
    (collect_jump_targets info amx []) l (loop_init K enc amx) h
  simpa [loop_after, loop_init] using this

/-- The header and the instruction map in memory after a successful
`compile` whose block lies inside the 32-bit address space. -/
theorem compile_map_in_memory (K : AmxH) (info : OpcodeInfo) (enc : Instr → Nat)
    (amx : AMXPtr) (eh : Bool) (B : Nat) (mem : Memory)
    (hok : (compile K info enc amx eh B mem).output ≠ none)
    (hfit : B + (compile K info enc amx eh B mem).as.getCodeSize < 4294967296) :
    (compile K info enc amx eh B mem).instr_map =
      (loop_after K info enc amx amx.decoded).instr_map ∧
    (loop_after K info enc amx amx.decoded).instr_map.length = amx.decoded.length ∧
    read32 (compile K info enc amx eh B mem).mem (B + 24) = amx.decoded.length ∧
    read32 (compile K info enc amx eh B mem).mem (B + 28) = B + 32 ∧
    readMap (compile K info enc amx eh B mem).mem (B + 32) amx.decoded.length =
      (loop_after K info enc amx amx.decoded).instr_map.map
        (fun p => ⟨toSigned (toU32 p.1), (p.2 + B) % 4294967296⟩) := by
  have he := compile_ok K info enc amx eh B mem hok
  obtain ⟨hle, him, henc, hit⟩ := compile_loop_result_eq K info enc amx he
  obtain ⟨body, hbody⟩ := loop_after_items K info enc amx amx.decoded
  have hlen : (loop_after K info enc amx amx.decoded).instr_map.length = amx.decoded.length := by
    have := congrArg List.length (loop_after_instr_map_fst K info enc amx amx.decoded hle)
    simpa using this
  have hitems : (compile_loop_result K info enc amx).as.items =
      header_items (exec_offset K enc amx.decoded.length : Nat) amx.amx amx.decoded.length ++
        (List.replicate amx.decoded.length (Item.dstruct ⟨0, 0⟩) ++ (tramp_items K ++ body) ++
          [Item.bind ⟨25⟩, Item.instr (.un .push (.reg .ecx)), Item.instr (.call ⟨18⟩)]) := by
    rw [hit, hbody]; simp only [List.append_assoc]
  have hsz : 32 + 8 * amx.decoded.length ≤ (compile_loop_result K info enc amx).as.getCodeSize := by
    unfold X86Assembler.getCodeSize
    rw [hitems, itemsSize_append, itemsSize_append, itemsSize_append, header_items_size,
      itemsSize_replicate_dstruct]
    omega
  have hcs : (compile K info enc amx eh B mem).as = (compile_loop_result K info enc amx).as := by
    simp [compile, he]
  rw [hcs] at hfit
  have hm : (compile K info enc amx eh B mem).mem =
      write_instr_map B (compile_loop_result K info enc amx).instr_map
        (read32 (write32 (write32 (storeItems enc (compile_loop_result K info enc amx).as.items B mem)
            (B + 4 * RuntimeDataExecPtr)
            (read32 (storeItems enc (compile_loop_result K info enc amx).as.items B mem)
              (B + 4 * RuntimeDataExecPtr) + B))
          (B + 4 * RuntimeDataInstrMapPtr)
          (read32 (write32 (storeItems enc (compile_loop_result K info enc amx).as.items B mem)
            (B + 4 * RuntimeDataExecPtr)
            (read32 (storeItems enc (compile_loop_result K info enc amx).as.items B mem)
              (B + 4 * RuntimeDataExecPtr) + B)) (B + 4 * RuntimeDataInstrMapPtr) + B))
          (B + 4 * RuntimeDataInstrMapPtr))
        (write32 (write32 (storeItems enc (compile_loop_result K info enc amx).as.items B mem)
            (B + 4 * RuntimeDataExecPtr)
            (read32 (storeItems enc (compile_loop_result K info enc amx).as.items B mem)
              (B + 4 * RuntimeDataExecPtr) + B))
          (B + 4 * RuntimeDataInstrMapPtr)
          (read32 (write32 (storeItems enc (compile_loop_result K info enc amx).as.items B mem)
            (B + 4 * RuntimeDataExecPtr)
            (read32 (storeItems enc (compile_loop_result K info enc amx).as.items B mem)
              (B + 4 * RuntimeDataExecPtr) + B)) (B + 4 * RuntimeDataInstrMapPtr) + B)) := by
    simp [compile, he]
  have hi : (compile K info enc amx eh B mem).instr_map =
      (loop_after K info enc amx amx.decoded).instr_map := by
    simp [compile, he, him]
  obtain ⟨h0, h1, h2, h3, h4, h5, h6, h7⟩ := header_store enc
    (exec_offset K enc amx.decoded.length : Nat) amx.amx amx.decoded.length
    (List.replicate amx.decoded.length (Item.dstruct ⟨0, 0⟩) ++ (tramp_items K ++ body) ++
          [Item.bind ⟨25⟩, Item.instr (.un .push (.reg .ecx)), Item.instr (.call ⟨18⟩)]) B mem
  rw [← hitems] at h0 h6 h7
  have hn : toU32 (amx.decoded.length : Int) = amx.decoded.length := by
    unfold toU32; omega
  have hp : read32 (write32 (write32 (storeItems enc (compile_loop_result K info enc amx).as.items B mem)
            (B + 4 * RuntimeDataExecPtr)
            (read32 (storeItems enc (compile_loop_result K info enc amx).as.items B mem)
              (B + 4 * RuntimeDataExecPtr) + B))
          (B + 4 * RuntimeDataInstrMapPtr)
          (read32 (write32 (storeItems enc (compile_loop_result K info enc amx).as.items B mem)
            (B + 4 * RuntimeDataExecPtr)
            (read32 (storeItems enc (compile_loop_result K info enc amx).as.items B mem)
              (B + 4 * RuntimeDataExecPtr) + B)) (B + 4 * RuntimeDataInstrMapPtr) + B))
          (B + 4 * RuntimeDataInstrMapPtr) = B + 32 := by
    simp only [RuntimeDataExecPtr, RuntimeDataInstrMapPtr, Nat.mul_zero, Nat.reduceMul]
    rw [read32_write32_same, read32_write32_ne _ _ _ _ (by omega), h7]
    omega
  rw [hp] at hm
  refine ⟨hi, hlen, ?_, ?_, ?_⟩
  · rw [hm, read32_congr _ _ (B + 24) (fun x _ h2 => write_instr_map_below _ _ _ _ _ (by omega))]
    simp only [RuntimeDataExecPtr, RuntimeDataInstrMapPtr, Nat.mul_zero, Nat.reduceMul]
    rw [read32_write32_ne _ _ _ _ (by omega), read32_write32_ne _ _ _ _ (by omega), h6, hn]
  · rw [hm, read32_congr _ _ (B + 28) (fun x _ h2 => write_instr_map_below _ _ _ _ _ (by omega))]
    simp only [RuntimeDataExecPtr, RuntimeDataInstrMapPtr, Nat.mul_zero, Nat.reduceMul]
    rw [read32_write32_same, read32_write32_ne _ _ _ _ (by omega), h7]
    omega
  · rw [hm, him, ← hlen, readMap_write_instr_map]

/-! ### C2, C3: the instruction map written by `compile` -/

theorem loop_after_take_error (K : AmxH) (info : OpcodeInfo) (enc : Instr → Nat)
    (amx : AMXPtr) (l1 l2 : List AMXInstruction)
    (h : (loop_after K info enc amx (l1 ++ l2)).error = false) :
    (loop_after K info enc amx l1).error = false := by
  unfold loop_after at h ⊢
  rw [compile_loop_append] at h
  exact compile_loop_no_error K amx _ _ l2 _ h

/-- Position of the `k`-th translation in the buffer of the loop, and the
`k`-th pair of the side vector. -/
theorem loop_after_entry (K : AmxH) (info : OpcodeInfo) (enc : Instr → Nat) (amx : AMXPtr)
    (l1 l2 : List AMXInstruction) (instr : AMXInstruction)
    (h : (loop_after K info enc amx (l1 ++ instr :: l2)).error = false) :
    ∃ pre body after,
      (loop_after K info enc amx (l1 ++ instr :: l2)).as.items =
        (loop_after K info enc amx l1).as.items ++ pre ++ body ++ after ∧
      (∀ it, it ∈ pre → (∃ pad, it = Item.align pad) ∨ (∃ l, it = Item.bind l)) ∧
      (∃ as0 lbl0, as0.enc = enc ∧
        as0.items = (loop_after K info enc amx l1).as.items ++ pre ∧
        (translate K amx (compile_prologue K enc amx).helpers instr as0 lbl0).1.items =
          as0.items ++ body) ∧
      (loop_after K info enc amx (l1 ++ instr :: l2)).instr_map.getD l1.length (0, 0) =
        (instr.address,
          itemsSize enc ((loop_after K info enc amx l1).as.items ++ pre)) := by
  have h1 := loop_after_take_error K info enc amx l1 (instr :: l2) h
  have henc := loop_after_enc K info enc amx l1
  have hlen : (loop_after K info enc amx l1).instr_map.length = l1.length := by
    have := congrArg List.length (loop_after_instr_map_fst K info enc amx l1 h1)
    simpa using this
  obtain ⟨pre, as0, lbl0, e0, i0, hpre, hst, him⟩ := compile_step_shape K amx
    (compile_prologue K enc amx).helpers (collect_jump_targets info amx [])
    (loop_after K info enc amx l1) instr
  obtain ⟨_, body, hbody⟩ := translate_extends K amx (compile_prologue K enc amx).helpers
    instr as0 lbl0
  have hsplit : loop_after K info enc amx (l1 ++ instr :: l2) =
      compile_loop K amx (compile_prologue K enc amx).helpers
        (collect_jump_targets info amx []) l2
        (compile_step K amx (compile_prologue K enc amx).helpers
          (collect_jump_targets info amx []) (loop_after K info enc amx l1) instr) := by
    unfold loop_after
    rw [compile_loop_append]
    simp only [compile_loop]
    have : (compile_loop K amx (compile_prologue K enc amx).helpers
        (collect_jump_targets info amx []) l1 (loop_init K enc amx)).error = false := h1
    rw [this]
    simp
  obtain ⟨_, after, hafter⟩ := compile_loop_extends K amx (compile_prologue K enc amx).helpers
    (collect_jump_targets info amx []) l2
    (compile_step K amx (compile_prologue K enc amx).helpers
      (collect_jump_targets info amx []) (loop_after K info enc amx l1) instr)
  obtain ⟨more, hmore⟩ := compile_loop_instr_map K amx (compile_prologue K enc amx).helpers
    (collect_jump_targets info amx []) l2
    (compile_step K amx (compile_prologue K enc amx).helpers
      (collect_jump_targets info amx []) (loop_after K info enc amx l1) instr)
  refine ⟨pre, body, after, ?_, hpre, ⟨as0, lbl0, e0.trans henc, i0, hbody⟩, ?_⟩
  · rw [hsplit, hafter, hst, hbody, i0]
  · rw [hsplit, hmore, him, henc]
    rw [List.getD_eq_getElem?_getD, List.append_assoc,
      List.getElem?_append_right (by omega), hlen]
    simp

theorem compile_as_items (K : AmxH) (info : OpcodeInfo) (enc : Instr → Nat)
    (amx : AMXPtr) (eh : Bool) (B : Nat) (mem : Memory)
    (hok : (compile K info enc amx eh B mem).output ≠ none) :
    (compile K info enc amx eh B mem).as.enc = enc ∧
    (compile K info enc amx eh B mem).as.items =
      (loop_after K info enc amx amx.decoded).as.items ++
        [Item.bind ⟨25⟩, Item.instr (.un .push (.reg .ecx)), Item.instr (.call ⟨18⟩)] := by
  have he := compile_ok K info enc amx eh B mem hok
  obtain ⟨_, _, henc, hit⟩ := compile_loop_result_eq K info enc amx he
  have hcs : (compile K info enc amx eh B mem).as = (compile_loop_result K info enc amx).as := by
    simp [compile, he]
  rw [hcs]
  exact ⟨henc.trans (loop_after_enc K info enc amx amx.decoded), hit⟩

/-- The instruction map as the runtime finds it: the array whose address is in
header slot `RuntimeDataInstrMapPtr` and whose length is in slot
`RuntimeDataInstrMapSize` of the block at `B`. -/
theorem compile_runtime_map (K : AmxH) (info : OpcodeInfo) (enc : Instr → Nat)
    (amx : AMXPtr) (eh : Bool) (B : Nat) (mem : Memory)
    (hok : (compile K info enc amx eh B mem).output ≠ none)
    (hfit : B + (compile K info enc amx eh B mem).as.getCodeSize < 4294967296) :
    readMap (compile K info enc amx eh B mem).mem
      (read32 (compile K info enc amx eh B mem).mem (B + 4 * RuntimeDataInstrMapPtr))
      (read32 (compile K info enc amx eh B mem).mem (B + 4 * RuntimeDataInstrMapSize)) =
    (loop_after K info enc amx amx.decoded).instr_map.map
        (fun p => ⟨toSigned (toU32 p.1), (p.2 + B) % 4294967296⟩) := by
  obtain ⟨_, _, h6, h7, hm⟩ := compile_map_in_memory K info enc amx eh B mem hok hfit
  simp only [RuntimeDataInstrMapPtr, RuntimeDataInstrMapSize, Nat.reduceMul]
  rw [h6, h7, hm]

/-- C2: after a successful `compile` (the block inside the 32-bit address
space, the code section below 2 GiB so that its addresses are cells), every
pair of consecutive entries of the instruction map written by `compile` has
strictly ascending `amx_addr`. -/
theorem compile_instr_map_strictly_ascending (K : AmxH) (info : OpcodeInfo)
    (enc : Instr → Nat) (amx : AMXPtr) (eh : Bool) (B : Nat) (mem : Memory)
    (hok : (compile K info enc amx eh B mem).output ≠ none)
    (hfit : B + (compile K info enc amx eh B mem).as.getCodeSize < 4294967296)
    (hcode : ∀ i, i ∈ amx.decoded → i.address < 2147483648) :
    List.Chain' (fun i j : InstrMapEntry => i.amx_addr < j.amx_addr)
      (readMap (compile K info enc amx eh B mem).mem
        (read32 (compile K info enc amx eh B mem).mem (B + 4 * RuntimeDataInstrMapPtr))
        (read32 (compile K info enc amx eh B mem).mem (B + 4 * RuntimeDataInstrMapSize))) := by
  rw [compile_runtime_map K info enc amx eh B mem hok hfit]
  apply List.Pairwise.chain'
  rw [List.pairwise_map]
  have he := compile_ok K info enc amx eh B mem hok
  obtain ⟨hle, _, _, _⟩ := compile_loop_result_eq K info enc amx he
  have hfst := loop_after_instr_map_fst K info enc amx amx.decoded hle
  have hp : (amx.decoded.map AMXInstruction.address).Pairwise (· < ·) := by
    rw [List.pairwise_map]
    exact disassemble_pairwise _ _
  rw [← hfst, List.pairwise_map] at hp
  refine hp.imp_of_mem ?_
  intro a b ha hb hab
  have hin : ∀ p, p ∈ (loop_after K info enc amx amx.decoded).instr_map →
      0 ≤ p.1 ∧ p.1 < 2147483648 := by
    intro p hp
    have : p.1 ∈ (loop_after K info enc amx amx.decoded).instr_map.map Prod.fst :=
      List.mem_map_of_mem _ hp
    rw [hfst, List.mem_map] at this
    obtain ⟨i, hi, hia⟩ := this
    rw [← hia]
    exact ⟨disassemble_ge _ _ _ hi, hcode i hi⟩
  obtain ⟨a0, a1⟩ := hin a ha
  obtain ⟨b0, b1⟩ := hin b hb
  simp only
  rw [toSigned_toU32 _ (by omega) a1, toSigned_toU32 _ (by omega) b1]
  exact hab

set_option maxRecDepth 100000 in
theorem sample_compile_ok :
    (compile amx_h_32 sample_info sample_enc sample_amx false 65536 (fun _ => 0)).output
      ≠ none := by decide

set_option maxRecDepth 100000 in
theorem sample_compile_fit :
    65536 + (compile amx_h_32 sample_info sample_enc sample_amx false 65536
      (fun _ => 0)).as.getCodeSize < 4294967296 := by decide

theorem sample_code_small : ∀ i, i ∈ sample_amx.decoded → i.address < 2147483648 := by
  decide

set_option maxRecDepth 100000 in
/-- Witness of C2: the sample program compiles and its three-entry map is
ascending. -/
theorem compile_instr_map_strictly_ascending_witness :
    List.Chain' (fun i j : InstrMapEntry => i.amx_addr < j.amx_addr)
      (readMap (compile amx_h_32 sample_info sample_enc sample_amx false 65536 (fun _ => 0)).mem
        (read32 (compile amx_h_32 sample_info sample_enc sample_amx false 65536 (fun _ => 0)).mem
          (65536 + 4 * RuntimeDataInstrMapPtr))
        (read32 (compile amx_h_32 sample_info sample_enc sample_amx false 65536 (fun _ => 0)).mem
          (65536 + 4 * RuntimeDataInstrMapSize))) :=
  compile_instr_map_strictly_ascending amx_h_32 sample_info sample_enc sample_amx false 65536
    (fun _ => 0) sample_compile_ok sample_compile_fit sample_code_small

/-- C3: after a successful `compile` with code base `B`, the instruction map
holds one entry per decoded instruction, in decode order; the `k`-th entry has
the bytecode address of the `k`-th instruction and, as `jit_addr`, `B` plus the
size of everything that lies in the buffer before the translation of that
instruction: what the loop had emitted for the first `k` instructions, then the
alignment pad and the label binding of this one. -/
theorem compile_instr_map_entries (K : AmxH) (info : OpcodeInfo)
    (enc : Instr → Nat) (amx : AMXPtr) (eh : Bool) (B : Nat) (mem : Memory)
    (hok : (compile K info enc amx eh B mem).output ≠ none)
    (hfit : B + (compile K info enc amx eh B mem).as.getCodeSize < 4294967296)
    (hcode : ∀ i, i ∈ amx.decoded → i.address < 2147483648) :
    (readMap (compile K info enc amx eh B mem).mem
        (read32 (compile K info enc amx eh B mem).mem (B + 4 * RuntimeDataInstrMapPtr))
        (read32 (compile K info enc amx eh B mem).mem (B + 4 * RuntimeDataInstrMapSize))).length
      = amx.decoded.length ∧
    ∀ (k : Nat) (hk : k < amx.decoded.length),
      ∃ pre body after,
        (compile K info enc amx eh B mem).as.items =
          (loop_after K info enc amx (amx.decoded.take k)).as.items ++ pre ++ body ++ after ∧
        (∀ it, it ∈ pre → (∃ pad, it = Item.align pad) ∨ (∃ l, it = Item.bind l)) ∧
        (∃ as0 lbl0, as0.enc = enc ∧
          as0.items = (loop_after K info enc amx (amx.decoded.take k)).as.items ++ pre ∧
          (translate K amx (compile_prologue K enc amx).helpers (amx.decoded.get ⟨k, hk⟩)
            as0 lbl0).1.items = as0.items ++ body) ∧
        entryAt (readMap (compile K info enc amx eh B mem).mem
            (read32 (compile K info enc amx eh B mem).mem (B + 4 * RuntimeDataInstrMapPtr))
            (read32 (compile K info enc amx eh B mem).mem (B + 4 * RuntimeDataInstrMapSize))) k =
          ⟨(amx.decoded.get ⟨k, hk⟩).address,
            B + itemsSize enc
              ((loop_after K info enc amx (amx.decoded.take k)).as.items ++ pre)⟩ := by
  rw [compile_runtime_map K info enc amx eh B mem hok hfit]
  obtain ⟨_, hlen, _, _, _⟩ := compile_map_in_memory K info enc amx eh B mem hok hfit
  obtain ⟨cenc, citems⟩ := compile_as_items K info enc amx eh B mem hok
  have he := compile_ok K info enc amx eh B mem hok
  obtain ⟨hle, _, _, _⟩ := compile_loop_result_eq K info enc amx he
  refine ⟨by simpa using hlen, ?_⟩
  intro k hk
  have hsplit : amx.decoded = amx.decoded.take k ++ amx.decoded.get ⟨k, hk⟩ ::
      amx.decoded.drop (k + 1) := by
    rw [List.get_eq_getElem, List.getElem_cons_drop, List.take_append_drop]
  have hle2 : (loop_after K info enc amx (amx.decoded.take k ++ amx.decoded.get ⟨k, hk⟩ ::
      amx.decoded.drop (k + 1))).error = false := by rw [← hsplit]; exact hle
  obtain ⟨pre, body, after, hitems, hpre, htr, hent⟩ := loop_after_entry K info enc amx
    (amx.decoded.take k) (amx.decoded.drop (k + 1)) (amx.decoded.get ⟨k, hk⟩) hle2
  rw [← hsplit] at hitems hent
  have htk : (amx.decoded.take k).length = k := by
    rw [List.length_take]; omega
  rw [htk] at hent
  refine ⟨pre, body, after ++ [Item.bind ⟨25⟩, Item.instr (.un .push (.reg .ecx)),
    Item.instr (.call ⟨18⟩)], ?_, hpre, htr, ?_⟩
  · rw [citems, hitems]; simp only [List.append_assoc]
  · have hk2 : k < (loop_after K info enc amx amx.decoded).instr_map.length := by omega
    have hget : (loop_after K info enc amx amx.decoded).instr_map[k] =
        ((amx.decoded.get ⟨k, hk⟩).address,
          itemsSize enc ((loop_after K info enc amx (amx.decoded.take k)).as.items ++ pre)) := by
      rw [← hent, List.getD_eq_getElem?_getD, List.getElem?_eq_getElem hk2]
      rfl
    have hmem : amx.decoded.get ⟨k, hk⟩ ∈ amx.decoded := List.get_mem _ _ _
    have ha0 := disassemble_ge _ _ _ hmem
    have ha1 := hcode _ hmem
    -- the recorded offset lies inside the final buffer
    have hsz : itemsSize enc ((loop_after K info enc amx (amx.decoded.take k)).as.items ++ pre)
        ≤ (compile K info enc amx eh B mem).as.getCodeSize := by
      unfold X86Assembler.getCodeSize
      rw [cenc, citems, hitems]
      simp only [itemsSize_append]
      omega
    unfold entryAt
    rw [List.getD_eq_getElem?_getD, List.getElem?_map, List.getElem?_eq_getElem hk2, hget]
    simp only [Option.map_some', Option.getD_some]
    rw [toSigned_toU32 _ (by omega) ha1, Nat.mod_eq_of_lt (by omega), Nat.add_comm]

set_option maxRecDepth 100000 in
/-- Witness of C3 on the sample program: the map has three entries. -/
theorem compile_instr_map_entries_witness :
    (readMap (compile amx_h_32 sample_info sample_enc sample_amx false 65536 (fun _ => 0)).mem
      (read32 (compile amx_h_32 sample_info sample_enc sample_amx false 65536 (fun _ => 0)).mem
        (65536 + 4 * RuntimeDataInstrMapPtr))
      (read32 (compile amx_h_32 sample_info sample_enc sample_amx false 65536 (fun _ => 0)).mem
        (65536 + 4 * RuntimeDataInstrMapSize))).length = 3 :=
  (compile_instr_map_entries amx_h_32 sample_info sample_enc sample_amx false 65536
    (fun _ => 0) sample_compile_ok sample_compile_fit sample_code_small).1

/-! ### The machine on the compiled buffer -/

set_option maxRecDepth 100000 in
/-- The items of the six trampolines, written out. -/
theorem tramp_items_eq (K : AmxH) : tramp_items K =
  [
   Item.bind ⟨8⟩,
   Item.instr (Instr.bin BinOp.mov (Operand.reg GpReg.eax) (Operand.mem (dword_ptr GpReg.esp 4))),
   Item.instr (Instr.un UnOp.push (Operand.reg GpReg.esi)),
   Item.instr (Instr.un UnOp.push (Operand.reg GpReg.edi)),
   Item.instr (Instr.un UnOp.push (Operand.reg GpReg.ebx)),
   Item.instr (Instr.un UnOp.push (Operand.reg GpReg.ecx)),
   Item.instr (Instr.un UnOp.push (Operand.reg GpReg.edx)),
   Item.instr (Instr.un UnOp.push (Operand.mem (dword_ptr_lbl ⟨2⟩))),
   Item.instr (Instr.un UnOp.push (Operand.mem (dword_ptr_lbl ⟨3⟩))),
   Item.instr (Instr.bin BinOp.mov (Operand.mem (dword_ptr_lbl ⟨2⟩)) (Operand.reg GpReg.ebp)),
   Item.instr (Instr.bin BinOp.mov (Operand.mem (dword_ptr_lbl ⟨3⟩)) (Operand.reg GpReg.esp)),
   Item.instr (Instr.bin BinOp.mov (Operand.reg GpReg.ecx) (Operand.mem (dword_ptr_lbl ⟨1⟩))),
   Item.instr (Instr.bin BinOp.mov (Operand.reg GpReg.edx) (Operand.mem (dword_ptr GpReg.ecx K.off_frm))),
   Item.instr (Instr.lea (Operand.reg GpReg.ebp) (dword_ptr_idx GpReg.ebx GpReg.edx 0)),
   Item.instr (Instr.bin BinOp.mov (Operand.reg GpReg.edx) (Operand.mem (dword_ptr GpReg.ecx K.off_stk))),
   Item.instr (Instr.lea (Operand.reg GpReg.esp) (dword_ptr_idx GpReg.ebx GpReg.edx 0)),
   Item.instr (Instr.lea (Operand.reg GpReg.ecx) (dword_ptr GpReg.esp (-4))),
   Item.instr (Instr.bin BinOp.mov (Operand.mem (dword_ptr_lbl ⟨5⟩)) (Operand.reg GpReg.ecx)),
   Item.instr (Instr.bin BinOp.mov (Operand.mem (dword_ptr_lbl ⟨4⟩)) (Operand.reg GpReg.ebp)),
   Item.instr (Instr.call_reg GpReg.eax),
   Item.instr (Instr.bin BinOp.mov (Operand.reg GpReg.eax) (Operand.mem (dword_ptr_lbl ⟨1⟩))),
   Item.instr (Instr.bin BinOp.mov (Operand.reg GpReg.edx) (Operand.reg GpReg.ebp)),
   Item.instr (Instr.bin BinOp.sub (Operand.reg GpReg.edx) (Operand.reg GpReg.ebx)),
   Item.instr (Instr.bin BinOp.mov (Operand.mem (dword_ptr GpReg.eax K.off_frm)) (Operand.reg GpReg.edx)),
   Item.instr (Instr.bin BinOp.mov (Operand.reg GpReg.edx) (Operand.reg GpReg.esp)),
   Item.instr (Instr.bin BinOp.sub (Operand.reg GpReg.edx) (Operand.reg GpReg.ebx)),
   Item.instr (Instr.bin BinOp.mov (Operand.mem (dword_ptr GpReg.eax K.off_stk)) (Operand.reg GpReg.edx)),
   Item.instr (Instr.bin BinOp.mov (Operand.reg GpReg.ebp) (Operand.mem (dword_ptr_lbl ⟨2⟩))),
   Item.instr (Instr.bin BinOp.mov (Operand.reg GpReg.esp) (Operand.mem (dword_ptr_lbl ⟨3⟩))),
   Item.instr (Instr.un UnOp.pop (Operand.mem (dword_ptr_lbl ⟨3⟩))),
   Item.instr (Instr.un UnOp.pop (Operand.mem (dword_ptr_lbl ⟨2⟩))),
   Item.instr (Instr.un UnOp.pop (Operand.reg GpReg.edx)),
   Item.instr (Instr.un UnOp.pop (Operand.reg GpReg.ecx)),
   Item.instr (Instr.un UnOp.pop (Operand.reg GpReg.ebx)),
   Item.instr (Instr.un UnOp.pop (Operand.reg GpReg.edi)),
   Item.instr (Instr.un UnOp.pop (Operand.reg GpReg.esi)),
   Item.instr Instr.ret,
   Item.bind ⟨9⟩,
   Item.instr (Instr.un UnOp.push (Operand.reg GpReg.ebp)),
   Item.instr (Instr.bin BinOp.mov (Operand.reg GpReg.ebp) (Operand.reg GpReg.esp)),
   Item.instr (Instr.bin BinOp.sub (Operand.reg GpReg.esp) (imm 12)),
   Item.instr (Instr.un UnOp.push (Operand.reg GpReg.esi)),
   Item.instr (Instr.bin BinOp.mov (Operand.reg GpReg.esi) (Operand.mem (dword_ptr_lbl ⟨1⟩))),
   Item.instr (Instr.un UnOp.push (Operand.reg GpReg.ebx)),
   Item.instr (Instr.bin BinOp.mov (Operand.reg GpReg.eax) (Operand.mem (dword_ptr_lbl ⟨1⟩))),
   Item.instr (Instr.bin BinOp.mov (Operand.reg GpReg.ebx) (Operand.mem (dword_ptr GpReg.eax K.off_data))),
   Item.instr (Instr.bin BinOp.cmp (Operand.reg GpReg.ebx) (imm 0)),
   Item.instr (Instr.j Cond.nz ⟨17⟩),
   Item.instr (Instr.bin BinOp.mov (Operand.reg GpReg.ebx) (Operand.mem (dword_ptr GpReg.eax K.off_base))),
   Item.instr (Instr.bin BinOp.mov (Operand.reg GpReg.eax) (Operand.mem (dword_ptr GpReg.ebx K.hdr_dat))),
   Item.instr (Instr.bin BinOp.add (Operand.reg GpReg.ebx) (Operand.reg GpReg.eax)),
   Item.bind ⟨17⟩,
   Item.instr (Instr.bin BinOp.mov (Operand.reg GpReg.ecx) (Operand.mem (dword_ptr GpReg.esi K.off_hea))),
   Item.instr (Instr.bin BinOp.mov (Operand.reg GpReg.edx) (Operand.mem (dword_ptr GpReg.esi K.off_stk))),
   Item.instr (Instr.bin BinOp.cmp (Operand.reg GpReg.ecx) (Operand.reg GpReg.edx)),
   Item.instr (Instr.j Cond.l ⟨11⟩),
   Item.instr (Instr.bin BinOp.mov (Operand.reg GpReg.eax) (imm K.AMX_ERR_STACKERR)),
   Item.instr (Instr.jmp ⟨16⟩),
   Item.bind ⟨11⟩,
   Item.instr (Instr.bin BinOp.mov (Operand.reg GpReg.ecx) (Operand.mem (dword_ptr GpReg.esi K.off_hea))),
   Item.instr (Instr.bin BinOp.mov (Operand.reg GpReg.edx) (Operand.mem (dword_ptr GpReg.esi K.off_hlw))),
   Item.instr (Instr.bin BinOp.cmp (Operand.reg GpReg.ecx) (Operand.reg GpReg.edx)),
   Item.instr (Instr.j Cond.ge ⟨12⟩),
   Item.instr (Instr.bin BinOp.mov (Operand.reg GpReg.eax) (imm K.AMX_ERR_HEAPLOW)),
   Item.instr (Instr.jmp ⟨16⟩),
   Item.bind ⟨12⟩,
   Item.instr (Instr.bin BinOp.mov (Operand.reg GpReg.ecx) (Operand.mem (dword_ptr GpReg.esi K.off_stk))),
   Item.instr (Instr.bin BinOp.mov (Operand.reg GpReg.edx) (Operand.mem (dword_ptr GpReg.esi K.off_stp))),
   Item.instr (Instr.bin BinOp.cmp (Operand.reg GpReg.ecx) (Operand.reg GpReg.edx)),
   Item.instr (Instr.j Cond.le ⟨13⟩),
   Item.instr (Instr.bin BinOp.mov (Operand.reg GpReg.eax) (imm K.AMX_ERR_STACKLOW)),
   Item.instr (Instr.jmp ⟨16⟩),
   Item.bind ⟨13⟩,
   Item.instr (Instr.bin BinOp.mov (Operand.reg GpReg.ecx) (Operand.mem (dword_ptr GpReg.esi K.off_flags))),
   Item.instr (Instr.bin BinOp.and_ (Operand.reg GpReg.ecx) (imm K.AMX_FLAG_NTVREG)),
   Item.instr (Instr.bin BinOp.cmp (Operand.reg GpReg.ecx) (imm 0)),
   Item.instr (Instr.j Cond.ne ⟨14⟩),
   Item.instr (Instr.bin BinOp.mov (Operand.reg GpReg.eax) (imm K.AMX_ERR_NOTFOUND)),
   Item.instr (Instr.jmp ⟨16⟩),
   Item.bind ⟨14⟩,
   Item.instr (Instr.bin BinOp.mov (Operand.mem (dword_ptr GpReg.esi K.off_error)) (imm K.AMX_ERR_NONE)),
   Item.instr (Instr.un UnOp.push (Operand.mem (dword_ptr GpReg.ebp 8))),
   Item.instr (Instr.bin BinOp.mov (Operand.reg GpReg.eax) (Operand.mem (dword_ptr_lbl ⟨1⟩))),
   Item.instr (Instr.un UnOp.push (Operand.reg GpReg.eax)),
   Item.instr (Instr.call_ptr CFunction.get_public_addr),
   Item.instr (Instr.bin BinOp.add (Operand.reg GpReg.esp) (imm 8)),
   Item.instr (Instr.bin BinOp.cmp (Operand.reg GpReg.eax) (imm 0)),
   Item.instr (Instr.j Cond.ne ⟨10⟩),
   Item.instr (Instr.bin BinOp.mov (Operand.reg GpReg.eax) (imm K.AMX_ERR_INDEX)),
   Item.instr (Instr.jmp ⟨16⟩),
   Item.bind ⟨10⟩,
   Item.instr (Instr.un UnOp.push (Operand.mem (dword_ptr_lbl ⟨6⟩))),
   Item.instr (Instr.un UnOp.push (Operand.mem (dword_ptr_lbl ⟨7⟩))),
   Item.instr (Instr.un UnOp.push (Operand.reg GpReg.eax)),
   Item.instr (Instr.call_ptr CFunction.get_instr_ptr),
   Item.instr (Instr.bin BinOp.add (Operand.reg GpReg.esp) (imm 12)),
   Item.instr (Instr.bin BinOp.mov (Operand.mem (dword_ptr GpReg.ebp (-4))) (Operand.reg GpReg.eax)),
   Item.instr (Instr.bin BinOp.mov (Operand.reg GpReg.eax) (Operand.mem (dword_ptr GpReg.esi K.off_paramcount))),
   Item.instr (Instr.imul3 (Operand.reg GpReg.eax) (Operand.reg GpReg.eax) (imm 4)),
   Item.instr (Instr.bin BinOp.mov (Operand.reg GpReg.ecx) (Operand.mem (dword_ptr GpReg.esi K.off_stk))),
   Item.instr (Instr.bin BinOp.sub (Operand.reg GpReg.ecx) (imm 4)),
   Item.instr (Instr.bin BinOp.mov (Operand.mem (dword_ptr_idx GpReg.ebx GpReg.ecx 0)) (Operand.reg GpReg.eax)),
   Item.instr (Instr.bin BinOp.mov (Operand.mem (dword_ptr GpReg.esi K.off_stk)) (Operand.reg GpReg.ecx)),
   Item.instr (Instr.bin BinOp.mov (Operand.mem (dword_ptr GpReg.esi K.off_paramcount)) (imm 0)),
   Item.instr (Instr.bin BinOp.mov (Operand.reg GpReg.eax) (Operand.mem (dword_ptr_lbl ⟨4⟩))),
   Item.instr (Instr.bin BinOp.mov (Operand.mem (dword_ptr GpReg.ebp (-8))) (Operand.reg GpReg.eax)),
   Item.instr (Instr.bin BinOp.mov (Operand.reg GpReg.eax) (Operand.mem (dword_ptr_lbl ⟨5⟩))),
   Item.instr (Instr.bin BinOp.mov (Operand.mem (dword_ptr GpReg.ebp (-12))) (Operand.reg GpReg.eax)),
   Item.instr (Instr.un UnOp.push (Operand.mem (dword_ptr GpReg.ebp (-4)))),
   Item.instr (Instr.call ⟨8⟩),
   Item.instr (Instr.bin BinOp.add (Operand.reg GpReg.esp) (imm 4)),
   Item.instr (Instr.bin BinOp.mov (Operand.reg GpReg.ecx) (Operand.mem (dword_ptr GpReg.esp 12))),
   Item.instr (Instr.bin BinOp.cmp (Operand.reg GpReg.ecx) (imm 0)),
   Item.instr (Instr.j Cond.e ⟨15⟩),
   Item.instr (Instr.bin BinOp.mov (Operand.mem (dword_ptr GpReg.ecx 0)) (Operand.reg GpReg.eax)),
   Item.bind ⟨15⟩,
   Item.instr (Instr.bin BinOp.mov (Operand.reg GpReg.eax) (Operand.mem (dword_ptr GpReg.ebp (-8)))),
   Item.instr (Instr.bin BinOp.mov (Operand.mem (dword_ptr_lbl ⟨4⟩)) (Operand.reg GpReg.eax)),
   Item.instr (Instr.bin BinOp.mov (Operand.reg GpReg.eax) (Operand.mem (dword_ptr GpReg.ebp (-12)))),
   Item.instr (Instr.bin BinOp.mov (Operand.mem (dword_ptr_lbl ⟨5⟩)) (Operand.reg GpReg.eax)),
   Item.instr (Instr.bin BinOp.mov (Operand.reg GpReg.eax) (imm K.AMX_ERR_NONE)),
   Item.instr (Instr.bin BinOp.xchg (Operand.reg GpReg.eax) (Operand.mem (dword_ptr GpReg.esi K.off_error))),
   Item.bind ⟨16⟩,
   Item.instr (Instr.un UnOp.pop (Operand.reg GpReg.ebx)),
   Item.instr (Instr.un UnOp.pop (Operand.reg GpReg.esi)),
   Item.instr (Instr.bin BinOp.mov (Operand.reg GpReg.esp) (Operand.reg GpReg.ebp)),
   Item.instr (Instr.un UnOp.pop (Operand.reg GpReg.ebp)),
   Item.instr Instr.ret,
   Item.bind ⟨18⟩,
   Item.instr (Instr.bin BinOp.mov (Operand.reg GpReg.eax) (Operand.mem (dword_ptr GpReg.esp 4))),
   Item.instr (Instr.bin BinOp.mov (Operand.reg GpReg.ecx) (Operand.mem (dword_ptr_lbl ⟨1⟩))),
   Item.instr (Instr.bin BinOp.mov (Operand.mem (dword_ptr GpReg.ecx K.off_error)) (Operand.reg GpReg.eax)),
   Item.instr (Instr.bin BinOp.mov (Operand.reg GpReg.esp) (Operand.mem (dword_ptr_lbl ⟨5⟩))),
   Item.instr (Instr.bin BinOp.mov (Operand.reg GpReg.ebp) (Operand.mem (dword_ptr_lbl ⟨4⟩))),
   Item.instr (Instr.un UnOp.pop (Operand.reg GpReg.eax)),
   Item.instr (Instr.bin BinOp.add (Operand.reg GpReg.esp) (Operand.mem (dword_ptr GpReg.esp 0))),
   Item.instr (Instr.bin BinOp.add (Operand.reg GpReg.esp) (imm 4)),
   Item.instr (Instr.un UnOp.push (Operand.reg GpReg.eax)),
   Item.instr Instr.ret,
   Item.bind ⟨19⟩,
   Item.instr (Instr.bin BinOp.mov (Operand.reg GpReg.eax) (Operand.mem (dword_ptr GpReg.esp 4))),
   Item.instr (Instr.un UnOp.push (Operand.mem (dword_ptr_lbl ⟨6⟩))),
   Item.instr (Instr.un UnOp.push (Operand.mem (dword_ptr_lbl ⟨7⟩))),
   Item.instr (Instr.un UnOp.push (Operand.reg GpReg.eax)),
   Item.instr (Instr.call_ptr CFunction.get_instr_ptr),
   Item.instr (Instr.bin BinOp.add (Operand.reg GpReg.esp) (imm 12)),
   Item.instr (Instr.bin BinOp.cmp (Operand.reg GpReg.eax) (imm 0)),
   Item.instr (Instr.j Cond.ne ⟨20⟩),
   Item.instr Instr.ret,
   Item.bind ⟨20⟩,
   Item.instr (Instr.bin BinOp.mov (Operand.reg GpReg.ebp) (Operand.mem (dword_ptr GpReg.esp 8))),
   Item.instr (Instr.bin BinOp.mov (Operand.reg GpReg.esp) (Operand.mem (dword_ptr GpReg.esp 12))),
   Item.instr (Instr.jmp_reg GpReg.eax),
   Item.bind ⟨21⟩,
   Item.instr (Instr.bin BinOp.mov (Operand.reg GpReg.eax) (Operand.mem (dword_ptr GpReg.esp 4))),
   Item.instr (Instr.bin BinOp.mov (Operand.reg GpReg.ebp) (Operand.mem (dword_ptr GpReg.esp 8))),
   Item.instr (Instr.bin BinOp.mov (Operand.reg GpReg.esp) (Operand.mem (dword_ptr GpReg.esp 12))),
   Item.instr (Instr.bin BinOp.mov (Operand.reg GpReg.ecx) (Operand.reg GpReg.esp)),
   Item.instr (Instr.bin BinOp.mov (Operand.reg GpReg.esi) (Operand.mem (dword_ptr GpReg.esp (-16)))),
   Item.instr (Instr.bin BinOp.mov (Operand.reg GpReg.edx) (Operand.mem (dword_ptr_lbl ⟨1⟩))),
   Item.instr (Instr.bin BinOp.sub (Operand.reg GpReg.ebp) (Operand.reg GpReg.ebx)),
   Item.instr (Instr.bin BinOp.mov (Operand.mem (dword_ptr GpReg.edx K.off_frm)) (Operand.reg GpReg.ebp)),
   Item.instr (Instr.bin BinOp.mov (Operand.reg GpReg.ebp) (Operand.mem (dword_ptr_lbl ⟨2⟩))),
   Item.instr (Instr.bin BinOp.sub (Operand.reg GpReg.esp) (Operand.reg GpReg.ebx)),
   Item.instr (Instr.bin BinOp.mov (Operand.mem (dword_ptr GpReg.edx K.off_stk)) (Operand.reg GpReg.esp)),
   Item.instr (Instr.bin BinOp.mov (Operand.reg GpReg.esp) (Operand.mem (dword_ptr_lbl ⟨3⟩))),
   Item.instr (Instr.un UnOp.push (Operand.reg GpReg.ecx)),
   Item.instr (Instr.un UnOp.push (Operand.reg GpReg.edx)),
   Item.instr (Instr.call_reg GpReg.eax),
   Item.instr (Instr.bin BinOp.add (Operand.reg GpReg.esp) (imm 8)),
   Item.instr (Instr.bin BinOp.mov (Operand.reg GpReg.edx) (Operand.mem (dword_ptr_lbl ⟨1⟩))),
   Item.instr (Instr.bin BinOp.mov (Operand.mem (dword_ptr_lbl ⟨2⟩)) (Operand.reg GpReg.ebp)),
   Item.instr (Instr.bin BinOp.mov (Operand.reg GpReg.ecx) (Operand.mem (dword_ptr GpReg.edx K.off_frm))),
   Item.instr (Instr.lea (Operand.reg GpReg.ebp) (dword_ptr_idx GpReg.ebx GpReg.ecx 0)),
   Item.instr (Instr.bin BinOp.mov (Operand.mem (dword_ptr_lbl ⟨3⟩)) (Operand.reg GpReg.esp)),
   Item.instr (Instr.bin BinOp.mov (Operand.reg GpReg.ecx) (Operand.mem (dword_ptr GpReg.edx K.off_stk))),
   Item.instr (Instr.lea (Operand.reg GpReg.esp) (dword_ptr_idx GpReg.ebx GpReg.ecx 0)),
   Item.instr (Instr.un UnOp.push (Operand.reg GpReg.esi)),
   Item.instr Instr.ret,
   Item.bind ⟨22⟩,
   Item.instr (Instr.un UnOp.push (Operand.reg GpReg.ebp)),
   Item.instr (Instr.bin BinOp.mov (Operand.reg GpReg.ebp) (Operand.reg GpReg.esp)),
   Item.instr (Instr.un UnOp.push (Operand.mem (dword_ptr GpReg.ebp 8))),
   Item.instr (Instr.bin BinOp.mov (Operand.reg GpReg.eax) (Operand.mem (dword_ptr_lbl ⟨1⟩))),
   Item.instr (Instr.un UnOp.push (Operand.reg GpReg.eax)),
   Item.instr (Instr.call_ptr CFunction.get_native_addr),
   Item.instr (Instr.bin BinOp.add (Operand.reg GpReg.esp) (imm 8)),
   Item.instr (Instr.bin BinOp.cmp (Operand.reg GpReg.eax) (imm 0)),
   Item.instr (Instr.j Cond.ne ⟨23⟩),
   Item.instr (Instr.bin BinOp.mov (Operand.reg GpReg.eax) (imm K.AMX_ERR_NOTFOUND)),
   Item.instr (Instr.jmp ⟨24⟩),
   Item.bind ⟨23⟩,
   Item.instr (Instr.un UnOp.push (Operand.mem (dword_ptr GpReg.ebp 16))),
   Item.instr (Instr.un UnOp.push (Operand.mem (dword_ptr GpReg.ebp 12))),
   Item.instr (Instr.un UnOp.push (Operand.reg GpReg.eax)),
   Item.instr (Instr.call ⟨21⟩),
   Item.instr (Instr.bin BinOp.add (Operand.reg GpReg.esp) (imm 12)),
   Item.bind ⟨24⟩,
   Item.instr (Instr.bin BinOp.mov (Operand.reg GpReg.esp) (Operand.reg GpReg.ebp)),
   Item.instr (Instr.un UnOp.pop (Operand.reg GpReg.ebp)),
   Item.instr Instr.ret
  ] := by
  simp only [tramp_items, exec_helper_items, exec_items, halt_helper_items, jump_helper_items,
    sysreq_d_helper_items, sysreq_c_helper_items, emit_exec_helper, emit_exec, emit_halt_helper,
    emit_jump_helper, emit_sysreq_d_helper, emit_sysreq_c_helper, emit_get_amx_ptr,
    emit_get_amx_data_ptr, emptyAs, set_runtime_data, setWordAt, X86Assembler.newLabel,
    X86Assembler.bind, X86Assembler.mov, X86Assembler.push, X86Assembler.pop, X86Assembler.sub,
    X86Assembler.add, X86Assembler.cmp, X86Assembler.and_, X86Assembler.imul3, X86Assembler.lea,
    X86Assembler.xchg, X86Assembler.jmp, X86Assembler.jl, X86Assembler.jge, X86Assembler.jmp_reg,
    X86Assembler.jle, X86Assembler.jne, X86Assembler.je, X86Assembler.jnz, X86Assembler.call_reg,
    X86Assembler.call, X86Assembler.call_ptr, X86Assembler.ret, X86Assembler.emit,
    List.nil_append, List.cons_append, List.append_assoc, Nat.reduceAdd, List.singleton_append]

theorem tramp_items_length (K : AmxH) : (tramp_items K).length = 201 := by
  rw [tramp_items_eq]; rfl

theorem header_items_length (x0 a n : Int) : (header_items x0 a n).length = 16 := rfl

theorem getElem?_append_add {α : Type} (l1 l2 : List α) (k : Nat) :
    (l1 ++ l2)[l1.length + k]? = l2[k]? := by
  rw [List.getElem?_append_right (Nat.le_add_right _ _), Nat.add_sub_cancel_left]

/-- Fetching an item of the trampolines. -/
theorem Loaded.fetch {K : AmxH} {M : Machine} {n : Nat} (h : Loaded K M n) (k : Nat)
    (hk : k < 201) : M.items[tpc n k]? = (tramp_items K)[k]? := by
  obtain ⟨x0, a, body, hi⟩ := h.items
  have e1 := getElem?_append_add (header_items x0 a n)
    (List.replicate n (Item.dstruct ⟨0, 0⟩) ++ (tramp_items K ++ body)) (n + k)
  have e2 := getElem?_append_add (List.replicate n (Item.dstruct ⟨0, 0⟩))
    (tramp_items K ++ body) k
  rw [header_items_length] at e1
  rw [List.length_replicate] at e2
  rw [hi, tpc, Nat.add_assoc, e1, e2,
    List.getElem?_append_left (by rw [tramp_items_length]; exact hk)]

theorem labelIndex_append_some (l1 l2 : List Item) (l : Label) (j : Nat)
    (h : labelIndex l1 l = some j) : labelIndex (l1 ++ l2) l = some j := by
  induction l1 generalizing j with
  | nil => simp [labelIndex] at h
  | cons it rest ih =>
    rw [List.cons_append]
    cases it with
    | bind l1 =>
      simp only [labelIndex] at h ⊢
      split
      · rename_i he; simpa [he] using h
      · rename_i he
        simp only [he, if_false] at h
        cases hr : labelIndex rest l with
        | none => simp [hr] at h
        | some j2 => rw [ih j2 hr]; simpa [hr] using h
    | instr x =>
      simp only [labelIndex] at h ⊢
      cases hr : labelIndex rest l with
      | none => simp [hr] at h
      | some j2 => rw [ih j2 hr]; simpa [hr] using h
    | dd x =>
      simp only [labelIndex] at h ⊢
      cases hr : labelIndex rest l with
      | none => simp [hr] at h
      | some j2 => rw [ih j2 hr]; simpa [hr] using h
    | dstruct x =>
      simp only [labelIndex] at h ⊢
      cases hr : labelIndex rest l with
      | none => simp [hr] at h
      | some j2 => rw [ih j2 hr]; simpa [hr] using h
    | align x =>
      simp only [labelIndex] at h ⊢
      cases hr : labelIndex rest l with
      | none => simp [hr] at h
      | some j2 => rw [ih j2 hr]; simpa [hr] using h

theorem labelIndex_append_none (l1 l2 : List Item) (l : Label)
    (h : labelIndex l1 l = none) :
    labelIndex (l1 ++ l2) l = (labelIndex l2 l).map (l1.length + ·) := by
  induction l1 with
  | nil => simp
  | cons it rest ih =>
    rw [List.cons_append]
    cases it with
    | bind l1 =>
      simp only [labelIndex] at h ⊢
      split
      · rename_i he; simp [he] at h
      · rename_i he
        simp only [he, if_false, Option.map_eq_none'] at h
        rw [ih h]
        cases labelIndex l2 l <;> simp; omega
    | instr x =>
      simp only [labelIndex, Option.map_eq_none'] at h ⊢
      rw [ih h]
      cases labelIndex l2 l <;> simp; omega
    | dd x =>
      simp only [labelIndex, Option.map_eq_none'] at h ⊢
      rw [ih h]
      cases labelIndex l2 l <;> simp; omega
    | dstruct x =>
      simp only [labelIndex, Option.map_eq_none'] at h ⊢
      rw [ih h]
      cases labelIndex l2 l <;> simp; omega
    | align x =>
      simp only [labelIndex, Option.map_eq_none'] at h ⊢
      rw [ih h]
      cases labelIndex l2 l <;> simp; omega

theorem labelIndex_replicate_dstruct (n : Nat) (e : InstrMapEntry) (l : Label) :
    labelIndex (List.replicate n (Item.dstruct e)) l = none := by
  induction n with
  | zero => rfl
  | succ k ih => simp [List.replicate_succ, labelIndex, ih]

theorem labelIndex_header_none (x0 a n : Int) (l : Label) (h : 8 ≤ l.id) :
    labelIndex (header_items x0 a n) l = none := by
  rcases l with ⟨i⟩
  simp only at h
  simp only [header_items, labelIndex, Label.mk.injEq]
  simp only [show ¬ (0 = i) by omega, show ¬ (1 = i) by omega, show ¬ (2 = i) by omega,
    show ¬ (3 = i) by omega, show ¬ (4 = i) by omega, show ¬ (5 = i) by omega,
    show ¬ (6 = i) by omega, show ¬ (7 = i) by omega, if_false, Option.map_none']

/-- Index of a label bound inside the trampolines. -/
theorem Loaded.label {K : AmxH} {M : Machine} {n : Nat} (h : Loaded K M n) (l : Label)
    (j : Nat) (hl : 8 ≤ l.id) (hj : labelIndex (tramp_items K) l = some j) :
    labelIndex M.items l = some (tpc n j) := by
  obtain ⟨x0, a, body, hi⟩ := h.items
  rw [hi, labelIndex_append_none _ _ _ (labelIndex_header_none _ _ _ _ hl),
    labelIndex_append_none _ _ _ (labelIndex_replicate_dstruct _ _ _),
    labelIndex_append_some _ _ _ _ hj]
  simp [tpc, header_items_length]
  omega

theorem findInstr_at (enc : Instr → Nat) (hpos : ∀ x, 0 < enc x) :
    ∀ (l : List Item) (a i0 k : Nat) (x : Instr), l[k]? = some (Item.instr x) →
      findInstr enc l a i0 (a + itemsSize enc (l.take k)) = some (i0 + k) := by
  intro l
  induction l with
  | nil => intro a i0 k x h; simp at h
  | cons it rest ih =>
    intro a i0 k x h
    cases k with
    | zero =>
      simp only [List.getElem?_cons_zero, Option.some.injEq] at h
      subst h
      simp [findInstr, itemsSize]
    | succ k =>
      simp only [List.getElem?_cons_succ] at h
      have hr := ih (a + it.size enc) (i0 + 1) k x h
      simp only [List.take_succ_cons, itemsSize_cons]
      rw [← Nat.add_assoc]
      cases it with
      | instr y =>
        have := hpos y
        simp only [findInstr, Item.size] at hr ⊢
        rw [if_neg (by omega), hr]; congr 1; omega
      | bind y => simp only [findInstr]; rw [hr]; congr 1; omega
      | dd y => simp only [findInstr]; rw [hr]; congr 1; omega
      | dstruct y => simp only [findInstr]; rw [hr]; congr 1; omega
      | align y => simp only [findInstr]; rw [hr]; congr 1; omega

theorem codeIndex_codeAddr (M : Machine) (hpos : ∀ x, 0 < M.enc x) (i : Nat) (x : Instr)
    (h : M.items[i]? = some (Item.instr x)) : codeIndex M (codeAddr M i) = some i := by
  have := findInstr_at M.enc hpos M.items M.base 0 i x h
  simpa [codeIndex, codeAddr] using this

theorem itemsSize_take_le (enc : Instr → Nat) (l : List Item) (k : Nat) :
    itemsSize enc (l.take k) ≤ itemsSize enc l := by
  have := itemsSize_append enc (l.take k) (l.drop k)
  rw [List.take_append_drop] at this
  omega

theorem Loaded.codeAddr_lt {K : AmxH} {M : Machine} {n : Nat} (h : Loaded K M n) (i : Nat) :
    codeAddr M i < 4294967296 := by
  have := itemsSize_take_le M.enc M.items i
  have := h.fits
  unfold codeAddr
  omega

theorem Loaded.codeIndex_tramp {K : AmxH} {M : Machine} {n : Nat} (h : Loaded K M n)
    (k : Nat) (x : Instr) (hk : k < 201) (hx : (tramp_items K)[k]? = some (Item.instr x)) :
    codeIndex M (codeAddr M (tpc n k)) = some (tpc n k) :=
  codeIndex_codeAddr M h.enc_pos _ x (by rw [h.fetch k hk, hx])

/-- Addresses of the header slots. -/
theorem Loaded.labelAddr_header {K : AmxH} {M : Machine} {n : Nat} (h : Loaded K M n) :
    labelAddr M ⟨0⟩ = M.base ∧ labelAddr M ⟨1⟩ = M.base + 4 ∧ labelAddr M ⟨2⟩ = M.base + 8 ∧
    labelAddr M ⟨3⟩ = M.base + 12 ∧ labelAddr M ⟨4⟩ = M.base + 16 ∧
    labelAddr M ⟨5⟩ = M.base + 20 ∧ labelAddr M ⟨6⟩ = M.base + 24 ∧
    labelAddr M ⟨7⟩ = M.base + 28 := by
  obtain ⟨x0, a, body, hi⟩ := h.items
  have hl : ∀ (i j : Nat), labelIndex (header_items x0 a n) ⟨i⟩ = some j →
      labelIndex M.items ⟨i⟩ = some j := fun i j hj => by
    rw [hi]; exact labelIndex_append_some _ _ _ _ hj
  have ht : ∀ j, j ≤ 16 → M.items.take j = (header_items x0 a n).take j := fun j hj => by
    rw [hi, List.take_append_of_le_length (by rw [header_items_length]; exact hj)]
  refine ⟨?_, ?_, ?_, ?_, ?_, ?_, ?_, ?_⟩
  · simp only [labelAddr, hl 0 0 rfl, codeAddr, ht 0 (by omega)]; rfl
  · simp only [labelAddr, hl 1 2 rfl, codeAddr, ht 2 (by omega)]; rfl
  · simp only [labelAddr, hl 2 4 rfl, codeAddr, ht 4 (by omega)]; rfl
  · simp only [labelAddr, hl 3 6 rfl, codeAddr, ht 6 (by omega)]; rfl
  · simp only [labelAddr, hl 4 8 rfl, codeAddr, ht 8 (by omega)]; rfl
  · simp only [labelAddr, hl 5 10 rfl, codeAddr, ht 10 (by omega)]; rfl
  · simp only [labelAddr, hl 6 12 rfl, codeAddr, ht 12 (by omega)]; rfl
  · simp only [labelAddr, hl 7 14 rfl, codeAddr, ht 14 (by omega)]; rfl

theorem Loaded.base_lt {K : AmxH} {M : Machine} {n : Nat} (h : Loaded K M n) :
    M.base + 32 < 4294967296 := by
  obtain ⟨x0, a, body, hi⟩ := h.items
  have := h.fits
  rw [hi, itemsSize_append, header_items_size] at this
  have := (tramp_items_length K)
  have hp : 0 < itemsSize M.enc (tramp_items K) := by
    have := h.enc_pos (Instr.bin BinOp.mov (Operand.reg GpReg.eax) (Operand.mem (dword_ptr GpReg.esp 4)))
    rw [tramp_items_eq, itemsSize_cons, itemsSize_cons, Item.size_instr]
    omega
  rw [itemsSize_append, itemsSize_append] at *
  omega



theorem toSigned_eq (x : Nat) (h : x < 4294967296) :
    toSigned x = if x < 2147483648 then (x : Int) else (x : Int) - 4294967296 := by
  unfold toSigned
  rw [Nat.mod_eq_of_lt h]

theorem sub32_lt (a b : Nat) : sub32 a b < 4294967296 := Nat.mod_lt _ (by decide)

theorem add32_lt (a b : Nat) : add32 a b < 4294967296 := Nat.mod_lt _ (by decide)

theorem sub32_cases (a b : Nat) (ha : a < 4294967296) (hb : b < 4294967296) :
    (b ≤ a ∧ sub32 a b = a - b) ∨ (a < b ∧ sub32 a b = a + 4294967296 - b) := by
  unfold sub32
  rw [Nat.mod_eq_of_lt hb]
  omega

theorem signed_aux (a b r : Nat) (sa sb sr : Int)
    (ha : a < 4294967296) (hb : b < 4294967296) (hs : r < 4294967296)
    (ea : sa = if a < 2147483648 then (a : Int) else (a : Int) - 4294967296)
    (eb : sb = if b < 2147483648 then (b : Int) else (b : Int) - 4294967296)
    (er : sr = if r < 2147483648 then (r : Int) else (r : Int) - 4294967296)
    (hr : (r : Int) = a - b ∨ (r : Int) = a + 4294967296 - b) :
    (decide (2147483648 ≤ r) != decide (sa - sb ≠ sr)) = decide (sa < sb) := by
  have key : sa < sb ↔ ((2147483648 ≤ r ∧ sa - sb = sr) ∨ (r < 2147483648 ∧ sa - sb ≠ sr)) := by
    split at ea <;> split at eb <;> split at er <;> omega
  by_cases h4 : 2147483648 ≤ r <;> by_cases h5 : sa - sb = sr <;> by_cases h6 : sa < sb <;>
    simp [h4, h5, h6] <;> omega

theorem subFlags_signed (a b : Nat) (ha : a < 4294967296) (hb : b < 4294967296) :
    ((subFlags a b).sf != (subFlags a b).ovf) = decide (toSigned a < toSigned b) := by
  have hc := sub32_cases a b ha hb
  have hr : (sub32 a b : Int) = a - b ∨ (sub32 a b : Int) = a + 4294967296 - b := by
    rcases hc with ⟨h1, h2⟩ | ⟨h1, h2⟩
    · left; omega
    · right; omega
  simp only [subFlags]
  exact signed_aux a b (sub32 a b) _ _ _ ha hb (sub32_lt a b) (toSigned_eq a ha) (toSigned_eq b hb)
    (toSigned_eq _ (sub32_lt a b)) hr

theorem subFlags_zf (a b : Nat) (ha : a < 4294967296) (hb : b < 4294967296) :
    (subFlags a b).zf = decide (a = b) := by
  have hc := sub32_cases a b ha hb
  simp only [subFlags]
  generalize sub32 a b = r at *
  by_cases h : a = b <;> simp [h] <;> omega

theorem cond_l_sub (a b : Nat) (ha : a < 4294967296) (hb : b < 4294967296) :
    Cond.holds (subFlags a b) .l = decide (toSigned a < toSigned b) := by
  simp only [Cond.holds, subFlags_signed a b ha hb]

theorem cond_ge_sub (a b : Nat) (ha : a < 4294967296) (hb : b < 4294967296) :
    Cond.holds (subFlags a b) .ge = decide (toSigned b ≤ toSigned a) := by
  have h := subFlags_signed a b ha hb
  simp only [Cond.holds]
  by_cases h1 : toSigned a < toSigned b
  · have : ¬ (toSigned b ≤ toSigned a) := by omega
    simp only [h1, this, decide_True, decide_False] at h ⊢
    cases hsf : (subFlags a b).sf <;> cases hov : (subFlags a b).ovf <;> simp_all
  · have : toSigned b ≤ toSigned a := by omega
    simp only [h1, this, decide_True, decide_False] at h ⊢
    cases hsf : (subFlags a b).sf <;> cases hov : (subFlags a b).ovf <;> simp_all

theorem cond_le_sub (a b : Nat) (ha : a < 4294967296) (hb : b < 4294967296) :
    Cond.holds (subFlags a b) .le = decide (toSigned a ≤ toSigned b) := by
  have h := subFlags_signed a b ha hb
  have hz := subFlags_zf a b ha hb
  simp only [Cond.holds, h, hz]
  have e1 := toSigned_eq a ha
  have e2 := toSigned_eq b hb
  by_cases h1 : a = b
  · subst h1; simp
  · by_cases h2 : toSigned a < toSigned b
    · have : toSigned a ≤ toSigned b := by omega
      simp [h1, h2, this]
    · have : ¬ toSigned a ≤ toSigned b := by
        split at e1 <;> split at e2 <;> omega
      simp [h1, h2, this]

theorem cond_ne_sub (a b : Nat) (ha : a < 4294967296) (hb : b < 4294967296) :
    Cond.holds (subFlags a b) .ne = decide (a ≠ b) := by
  simp only [Cond.holds, subFlags_zf a b ha hb]
  by_cases h : a = b <;> simp [h]

theorem cond_nz_sub (a b : Nat) (ha : a < 4294967296) (hb : b < 4294967296) :
    Cond.holds (subFlags a b) .nz = decide (a ≠ b) := by
  simp only [Cond.holds, subFlags_zf a b ha hb]
  by_cases h : a = b <;> simp [h]

theorem cond_e_sub (a b : Nat) (ha : a < 4294967296) (hb : b < 4294967296) :
    Cond.holds (subFlags a b) .e = decide (a = b) := by
  simp only [Cond.holds, subFlags_zf a b ha hb]

theorem sub32_eq (a b : Nat) (h1 : b ≤ a) (h2 : a < 4294967296) : sub32 a b = a - b := by
  have hb : b < 4294967296 := by omega
  rcases sub32_cases a b h2 hb with h | h
  · exact h.2
  · omega

theorem add32_eq (a b : Nat) (h : a + b < 4294967296) : add32 a b = a + b := by
  unfold add32
  exact Nat.mod_eq_of_lt h

theorem run_add (M : Machine) (a b : Nat) (s : State) :
    run M (a + b) s = run M b (run M a s) := by
  induction a generalizing s with
  | zero => simp [run]
  | succ k ih => rw [Nat.add_right_comm, run, ih, run]

theorem run_succ (M : Machine) (k : Nat) (s : State) :
    run M (k + 1) s = run M k (step M s) := rfl

theorem run_zero (M : Machine) (s : State) : run M 0 s = s := rfl

theorem read32_write32_eq (m : Memory) (a b v : Nat) (h : a = b) (hv : v < 4294967296) :
    read32 (write32 m b v) a = v := by
  subst h
  rw [read32_write32_same, Nat.mod_eq_of_lt hv]

theorem toU32_zero : toU32 0 = 0 := by decide

theorem toU32_natCast (n : Nat) : toU32 (n : Int) = n % 4294967296 := by
  unfold toU32; omega


set_option maxRecDepth 100000 in
set_option maxHeartbeats 4000000 in
/-- The items of `exec_helper`, `exec` and `halt_helper` in a loaded buffer. -/
theorem Loaded.fetch_all {K : AmxH} {M : Machine} {n : Nat} (h : Loaded K M n) :
    M.items[tpc n 0]? = some (Item.bind ⟨8⟩) ∧
    M.items[tpc n 1]? = some (Item.instr (Instr.bin BinOp.mov (Operand.reg GpReg.eax) (Operand.mem (dword_ptr GpReg.esp 4)))) ∧
    M.items[tpc n 2]? = some (Item.instr (Instr.un UnOp.push (Operand.reg GpReg.esi))) ∧
    M.items[tpc n 3]? = some (Item.instr (Instr.un UnOp.push (Operand.reg GpReg.edi))) ∧
    M.items[tpc n 4]? = some (Item.instr (Instr.un UnOp.push (Operand.reg GpReg.ebx))) ∧
    M.items[tpc n 5]? = some (Item.instr (Instr.un UnOp.push (Operand.reg GpReg.ecx))) ∧
    M.items[tpc n 6]? = some (Item.instr (Instr.un UnOp.push (Operand.reg GpReg.edx))) ∧
    M.items[tpc n 7]? = some (Item.instr (Instr.un UnOp.push (Operand.mem (dword_ptr_lbl ⟨2⟩)))) ∧
    M.items[tpc n 8]? = some (Item.instr (Instr.un UnOp.push (Operand.mem (dword_ptr_lbl ⟨3⟩)))) ∧
    M.items[tpc n 9]? = some (Item.instr (Instr.bin BinOp.mov (Operand.mem (dword_ptr_lbl ⟨2⟩)) (Operand.reg GpReg.ebp))) ∧
    M.items[tpc n 10]? = some (Item.instr (Instr.bin BinOp.mov (Operand.mem (dword_ptr_lbl ⟨3⟩)) (Operand.reg GpReg.esp))) ∧
    M.items[tpc n 11]? = some (Item.instr (Instr.bin BinOp.mov (Operand.reg GpReg.ecx) (Operand.mem (dword_ptr_lbl ⟨1⟩)))) ∧
    M.items[tpc n 12]? = some (Item.instr (Instr.bin BinOp.mov (Operand.reg GpReg.edx) (Operand.mem (dword_ptr GpReg.ecx K.off_frm)))) ∧
    M.items[tpc n 13]? = some (Item.instr (Instr.lea (Operand.reg GpReg.ebp) (dword_ptr_idx GpReg.ebx GpReg.edx 0))) ∧
    M.items[tpc n 14]? = some (Item.instr (Instr.bin BinOp.mov (Operand.reg GpReg.edx) (Operand.mem (dword_ptr GpReg.ecx K.off_stk)))) ∧
    M.items[tpc n 15]? = some (Item.instr (Instr.lea (Operand.reg GpReg.esp) (dword_ptr_idx GpReg.ebx GpReg.edx 0))) ∧
    M.items[tpc n 16]? = some (Item.instr (Instr.lea (Operand.reg GpReg.ecx) (dword_ptr GpReg.esp (-4)))) ∧
    M.items[tpc n 17]? = some (Item.instr (Instr.bin BinOp.mov (Operand.mem (dword_ptr_lbl ⟨5⟩)) (Operand.reg GpReg.ecx))) ∧
    M.items[tpc n 18]? = some (Item.instr (Instr.bin BinOp.mov (Operand.mem (dword_ptr_lbl ⟨4⟩)) (Operand.reg GpReg.ebp))) ∧
    M.items[tpc n 19]? = some (Item.instr (Instr.call_reg GpReg.eax)) ∧
    M.items[tpc n 20]? = some (Item.instr (Instr.bin BinOp.mov (Operand.reg GpReg.eax) (Operand.mem (dword_ptr_lbl ⟨1⟩)))) ∧
    M.items[tpc n 21]? = some (Item.instr (Instr.bin BinOp.mov (Operand.reg GpReg.edx) (Operand.reg GpReg.ebp))) ∧
    M.items[tpc n 22]? = some (Item.instr (Instr.bin BinOp.sub (Operand.reg GpReg.edx) (Operand.reg GpReg.ebx))) ∧
    M.items[tpc n 23]? = some (Item.instr (Instr.bin BinOp.mov (Operand.mem (dword_ptr GpReg.eax K.off_frm)) (Operand.reg GpReg.edx))) ∧
    M.items[tpc n 24]? = some (Item.instr (Instr.bin BinOp.mov (Operand.reg GpReg.edx) (Operand.reg GpReg.esp))) ∧
    M.items[tpc n 25]? = some (Item.instr (Instr.bin BinOp.sub (Operand.reg GpReg.edx) (Operand.reg GpReg.ebx))) ∧
    M.items[tpc n 26]? = some (Item.instr (Instr.bin BinOp.mov (Operand.mem (dword_ptr GpReg.eax K.off_stk)) (Operand.reg GpReg.edx))) ∧
    M.items[tpc n 27]? = some (Item.instr (Instr.bin BinOp.mov (Operand.reg GpReg.ebp) (Operand.mem (dword_ptr_lbl ⟨2⟩)))) ∧
    M.items[tpc n 28]? = some (Item.instr (Instr.bin BinOp.mov (Operand.reg GpReg.esp) (Operand.mem (dword_ptr_lbl ⟨3⟩)))) ∧
    M.items[tpc n 29]? = some (Item.instr (Instr.un UnOp.pop (Operand.mem (dword_ptr_lbl ⟨3⟩)))) ∧
    M.items[tpc n 30]? = some (Item.instr (Instr.un UnOp.pop (Operand.mem (dword_ptr_lbl ⟨2⟩)))) ∧
    M.items[tpc n 31]? = some (Item.instr (Instr.un UnOp.pop (Operand.reg GpReg.edx))) ∧
    M.items[tpc n 32]? = some (Item.instr (Instr.un UnOp.pop (Operand.reg GpReg.ecx))) ∧
    M.items[tpc n 33]? = some (Item.instr (Instr.un UnOp.pop (Operand.reg GpReg.ebx))) ∧
    M.items[tpc n 34]? = some (Item.instr (Instr.un UnOp.pop (Operand.reg GpReg.edi))) ∧
    M.items[tpc n 35]? = some (Item.instr (Instr.un UnOp.pop (Operand.reg GpReg.esi))) ∧
    M.items[tpc n 36]? = some (Item.instr Instr.ret) ∧
    M.items[tpc n 37]? = some (Item.bind ⟨9⟩) ∧
    M.items[tpc n 38]? = some (Item.instr (Instr.un UnOp.push (Operand.reg GpReg.ebp))) ∧
    M.items[tpc n 39]? = some (Item.instr (Instr.bin BinOp.mov (Operand.reg GpReg.ebp) (Operand.reg GpReg.esp))) ∧
    M.items[tpc n 40]? = some (Item.instr (Instr.bin BinOp.sub (Operand.reg GpReg.esp) (imm 12))) ∧
    M.items[tpc n 41]? = some (Item.instr (Instr.un UnOp.push (Operand.reg GpReg.esi))) ∧
    M.items[tpc n 42]? = some (Item.instr (Instr.bin BinOp.mov (Operand.reg GpReg.esi) (Operand.mem (dword_ptr_lbl ⟨1⟩)))) ∧
    M.items[tpc n 43]? = some (Item.instr (Instr.un UnOp.push (Operand.reg GpReg.ebx))) ∧
    M.items[tpc n 44]? = some (Item.instr (Instr.bin BinOp.mov (Operand.reg GpReg.eax) (Operand.mem (dword_ptr_lbl ⟨1⟩)))) ∧
    M.items[tpc n 45]? = some (Item.instr (Instr.bin BinOp.mov (Operand.reg GpReg.ebx) (Operand.mem (dword_ptr GpReg.eax K.off_data)))) ∧
    M.items[tpc n 46]? = some (Item.instr (Instr.bin BinOp.cmp (Operand.reg GpReg.ebx) (imm 0))) ∧
    M.items[tpc n 47]? = some (Item.instr (Instr.j Cond.nz ⟨17⟩)) ∧
    M.items[tpc n 48]? = some (Item.instr (Instr.bin BinOp.mov (Operand.reg GpReg.ebx) (Operand.mem (dword_ptr GpReg.eax K.off_base)))) ∧
    M.items[tpc n 49]? = some (Item.instr (Instr.bin BinOp.mov (Operand.reg GpReg.eax) (Operand.mem (dword_ptr GpReg.ebx K.hdr_dat)))) ∧
    M.items[tpc n 50]? = some (Item.instr (Instr.bin BinOp.add (Operand.reg GpReg.ebx) (Operand.reg GpReg.eax))) ∧
    M.items[tpc n 51]? = some (Item.bind ⟨17⟩) ∧
    M.items[tpc n 52]? = some (Item.instr (Instr.bin BinOp.mov (Operand.reg GpReg.ecx) (Operand.mem (dword_ptr GpReg.esi K.off_hea)))) ∧
    M.items[tpc n 53]? = some (Item.instr (Instr.bin BinOp.mov (Operand.reg GpReg.edx) (Operand.mem (dword_ptr GpReg.esi K.off_stk)))) ∧
    M.items[tpc n 54]? = some (Item.instr (Instr.bin BinOp.cmp (Operand.reg GpReg.ecx) (Operand.reg GpReg.edx))) ∧
    M.items[tpc n 55]? = some (Item.instr (Instr.j Cond.l ⟨11⟩)) ∧
    M.items[tpc n 56]? = some (Item.instr (Instr.bin BinOp.mov (Operand.reg GpReg.eax) (imm K.AMX_ERR_STACKERR))) ∧
    M.items[tpc n 57]? = some (Item.instr (Instr.jmp ⟨16⟩)) ∧
    M.items[tpc n 58]? = some (Item.bind ⟨11⟩) ∧
    M.items[tpc n 59]? = some (Item.instr (Instr.bin BinOp.mov (Operand.reg GpReg.ecx) (Operand.mem (dword_ptr GpReg.esi K.off_hea)))) ∧
    M.items[tpc n 60]? = some (Item.instr (Instr.bin BinOp.mov (Operand.reg GpReg.edx) (Operand.mem (dword_ptr GpReg.esi K.off_hlw)))) ∧
    M.items[tpc n 61]? = some (Item.instr (Instr.bin BinOp.cmp (Operand.reg GpReg.ecx) (Operand.reg GpReg.edx))) ∧
    M.items[tpc n 62]? = some (Item.instr (Instr.j Cond.ge ⟨12⟩)) ∧
    M.items[tpc n 63]? = some (Item.instr (Instr.bin BinOp.mov (Operand.reg GpReg.eax) (imm K.AMX_ERR_HEAPLOW))) ∧
    M.items[tpc n 64]? = some (Item.instr (Instr.jmp ⟨16⟩)) ∧
    M.items[tpc n 65]? = some (Item.bind ⟨12⟩) ∧
    M.items[tpc n 66]? = some (Item.instr (Instr.bin BinOp.mov (Operand.reg GpReg.ecx) (Operand.mem (dword_ptr GpReg.esi K.off_stk)))) ∧
    M.items[tpc n 67]? = some (Item.instr (Instr.bin BinOp.mov (Operand.reg GpReg.edx) (Operand.mem (dword_ptr GpReg.esi K.off_stp)))) ∧
    M.items[tpc n 68]? = some (Item.instr (Instr.bin BinOp.cmp (Operand.reg GpReg.ecx) (Operand.reg GpReg.edx))) ∧
    M.items[tpc n 69]? = some (Item.instr (Instr.j Cond.le ⟨13⟩)) ∧
    M.items[tpc n 70]? = some (Item.instr (Instr.bin BinOp.mov (Operand.reg GpReg.eax) (imm K.AMX_ERR_STACKLOW))) ∧
    M.items[tpc n 71]? = some (Item.instr (Instr.jmp ⟨16⟩)) ∧
    M.items[tpc n 72]? = some (Item.bind ⟨13⟩) ∧
    M.items[tpc n 73]? = some (Item.instr (Instr.bin BinOp.mov (Operand.reg GpReg.ecx) (Operand.mem (dword_ptr GpReg.esi K.off_flags)))) ∧
    M.items[tpc n 74]? = some (Item.instr (Instr.bin BinOp.and_ (Operand.reg GpReg.ecx) (imm K.AMX_FLAG_NTVREG))) ∧
    M.items[tpc n 75]? = some (Item.instr (Instr.bin BinOp.cmp (Operand.reg GpReg.ecx) (imm 0))) ∧
    M.items[tpc n 76]? = some (Item.instr (Instr.j Cond.ne ⟨14⟩)) ∧
    M.items[tpc n 77]? = some (Item.instr (Instr.bin BinOp.mov (Operand.reg GpReg.eax) (imm K.AMX_ERR_NOTFOUND))) ∧
    M.items[tpc n 78]? = some (Item.instr (Instr.jmp ⟨16⟩)) ∧
    M.items[tpc n 79]? = some (Item.bind ⟨14⟩) ∧
    M.items[tpc n 80]? = some (Item.instr (Instr.bin BinOp.mov (Operand.mem (dword_ptr GpReg.esi K.off_error)) (imm K.AMX_ERR_NONE))) ∧
    M.items[tpc n 81]? = some (Item.instr (Instr.un UnOp.push (Operand.mem (dword_ptr GpReg.ebp 8)))) ∧
    M.items[tpc n 82]? = some (Item.instr (Instr.bin BinOp.mov (Operand.reg GpReg.eax) (Operand.mem (dword_ptr_lbl ⟨1⟩)))) ∧
    M.items[tpc n 83]? = some (Item.instr (Instr.un UnOp.push (Operand.reg GpReg.eax))) ∧
    M.items[tpc n 84]? = some (Item.instr (Instr.call_ptr CFunction.get_public_addr)) ∧
    M.items[tpc n 85]? = some (Item.instr (Instr.bin BinOp.add (Operand.reg GpReg.esp) (imm 8))) ∧
    M.items[tpc n 86]? = some (Item.instr (Instr.bin BinOp.cmp (Operand.reg GpReg.eax) (imm 0))) ∧
    M.items[tpc n 87]? = some (Item.instr (Instr.j Cond.ne ⟨10⟩)) ∧
    M.items[tpc n 88]? = some (Item.instr (Instr.bin BinOp.mov (Operand.reg GpReg.eax) (imm K.AMX_ERR_INDEX))) ∧
    M.items[tpc n 89]? = some (Item.instr (Instr.jmp ⟨16⟩)) ∧
    M.items[tpc n 90]? = some (Item.bind ⟨10⟩) ∧
    M.items[tpc n 91]? = some (Item.instr (Instr.un UnOp.push (Operand.mem (dword_ptr_lbl ⟨6⟩)))) ∧
    M.items[tpc n 92]? = some (Item.instr (Instr.un UnOp.push (Operand.mem (dword_ptr_lbl ⟨7⟩)))) ∧
    M.items[tpc n 93]? = some (Item.instr (Instr.un UnOp.push (Operand.reg GpReg.eax))) ∧
    M.items[tpc n 94]? = some (Item.instr (Instr.call_ptr CFunction.get_instr_ptr)) ∧
    M.items[tpc n 95]? = some (Item.instr (Instr.bin BinOp.add (Operand.reg GpReg.esp) (imm 12))) ∧
    M.items[tpc n 96]? = some (Item.instr (Instr.bin BinOp.mov (Operand.mem (dword_ptr GpReg.ebp (-4))) (Operand.reg GpReg.eax))) ∧
    M.items[tpc n 97]? = some (Item.instr (Instr.bin BinOp.mov (Operand.reg GpReg.eax) (Operand.mem (dword_ptr GpReg.esi K.off_paramcount)))) ∧
    M.items[tpc n 98]? = some (Item.instr (Instr.imul3 (Operand.reg GpReg.eax) (Operand.reg GpReg.eax) (imm 4))) ∧
    M.items[tpc n 99]? = some (Item.instr (Instr.bin BinOp.mov (Operand.reg GpReg.ecx) (Operand.mem (dword_ptr GpReg.esi K.off_stk)))) ∧
    M.items[tpc n 100]? = some (Item.instr (Instr.bin BinOp.sub (Operand.reg GpReg.ecx) (imm 4))) ∧
    M.items[tpc n 101]? = some (Item.instr (Instr.bin BinOp.mov (Operand.mem (dword_ptr_idx GpReg.ebx GpReg.ecx 0)) (Operand.reg GpReg.eax))) ∧
    M.items[tpc n 102]? = some (Item.instr (Instr.bin BinOp.mov (Operand.mem (dword_ptr GpReg.esi K.off_stk)) (Operand.reg GpReg.ecx))) ∧
    M.items[tpc n 103]? = some (Item.instr (Instr.bin BinOp.mov (Operand.mem (dword_ptr GpReg.esi K.off_paramcount)) (imm 0))) ∧
    M.items[tpc n 104]? = some (Item.instr (Instr.bin BinOp.mov (Operand.reg GpReg.eax) (Operand.mem (dword_ptr_lbl ⟨4⟩)))) ∧
    M.items[tpc n 105]? = some (Item.instr (Instr.bin BinOp.mov (Operand.mem (dword_ptr GpReg.ebp (-8))) (Operand.reg GpReg.eax))) ∧
    M.items[tpc n 106]? = some (Item.instr (Instr.bin BinOp.mov (Operand.reg GpReg.eax) (Operand.mem (dword_ptr_lbl ⟨5⟩)))) ∧
    M.items[tpc n 107]? = some (Item.instr (Instr.bin BinOp.mov (Operand.mem (dword_ptr GpReg.ebp (-12))) (Operand.reg GpReg.eax))) ∧
    M.items[tpc n 108]? = some (Item.instr (Instr.un UnOp.push (Operand.mem (dword_ptr GpReg.ebp (-4))))) ∧
    M.items[tpc n 109]? = some (Item.instr (Instr.call ⟨8⟩)) ∧
    M.items[tpc n 110]? = some (Item.instr (Instr.bin BinOp.add (Operand.reg GpReg.esp) (imm 4))) ∧
    M.items[tpc n 111]? = some (Item.instr (Instr.bin BinOp.mov (Operand.reg GpReg.ecx) (Operand.mem (dword_ptr GpReg.esp 12)))) ∧
    M.items[tpc n 112]? = some (Item.instr (Instr.bin BinOp.cmp (Operand.reg GpReg.ecx) (imm 0))) ∧
    M.items[tpc n 113]? = some (Item.instr (Instr.j Cond.e ⟨15⟩)) ∧
    M.items[tpc n 114]? = some (Item.instr (Instr.bin BinOp.mov (Operand.mem (dword_ptr GpReg.ecx 0)) (Operand.reg GpReg.eax))) ∧
    M.items[tpc n 115]? = some (Item.bind ⟨15⟩) ∧
    M.items[tpc n 116]? = some (Item.instr (Instr.bin BinOp.mov (Operand.reg GpReg.eax) (Operand.mem (dword_ptr GpReg.ebp (-8))))) ∧
    M.items[tpc n 117]? = some (Item.instr (Instr.bin BinOp.mov (Operand.mem (dword_ptr_lbl ⟨4⟩)) (Operand.reg GpReg.eax))) ∧
    M.items[tpc n 118]? = some (Item.instr (Instr.bin BinOp.mov (Operand.reg GpReg.eax) (Operand.mem (dword_ptr GpReg.ebp (-12))))) ∧
    M.items[tpc n 119]? = some (Item.instr (Instr.bin BinOp.mov (Operand.mem (dword_ptr_lbl ⟨5⟩)) (Operand.reg GpReg.eax))) ∧
    M.items[tpc n 120]? = some (Item.instr (Instr.bin BinOp.mov (Operand.reg GpReg.eax) (imm K.AMX_ERR_NONE))) ∧
    M.items[tpc n 121]? = some (Item.instr (Instr.bin BinOp.xchg (Operand.reg GpReg.eax) (Operand.mem (dword_ptr GpReg.esi K.off_error)))) ∧
    M.items[tpc n 122]? = some (Item.bind ⟨16⟩) ∧
    M.items[tpc n 123]? = some (Item.instr (Instr.un UnOp.pop (Operand.reg GpReg.ebx))) ∧
    M.items[tpc n 124]? = some (Item.instr (Instr.un UnOp.pop (Operand.reg GpReg.esi))) ∧
    M.items[tpc n 125]? = some (Item.instr (Instr.bin BinOp.mov (Operand.reg GpReg.esp) (Operand.reg GpReg.ebp))) ∧
    M.items[tpc n 126]? = some (Item.instr (Instr.un UnOp.pop (Operand.reg GpReg.ebp))) ∧
    M.items[tpc n 127]? = some (Item.instr Instr.ret) ∧
    M.items[tpc n 128]? = some (Item.bind ⟨18⟩) ∧
    M.items[tpc n 129]? = some (Item.instr (Instr.bin BinOp.mov (Operand.reg GpReg.eax) (Operand.mem (dword_ptr GpReg.esp 4)))) ∧
    M.items[tpc n 130]? = some (Item.instr (Instr.bin BinOp.mov (Operand.reg GpReg.ecx) (Operand.mem (dword_ptr_lbl ⟨1⟩)))) ∧
    M.items[tpc n 131]? = some (Item.instr (Instr.bin BinOp.mov (Operand.mem (dword_ptr GpReg.ecx K.off_error)) (Operand.reg GpReg.eax))) ∧
    M.items[tpc n 132]? = some (Item.instr (Instr.bin BinOp.mov (Operand.reg GpReg.esp) (Operand.mem (dword_ptr_lbl ⟨5⟩)))) ∧
    M.items[tpc n 133]? = some (Item.instr (Instr.bin BinOp.mov (Operand.reg GpReg.ebp) (Operand.mem (dword_ptr_lbl ⟨4⟩)))) ∧
    M.items[tpc n 134]? = some (Item.instr (Instr.un UnOp.pop (Operand.reg GpReg.eax))) ∧
    M.items[tpc n 135]? = some (Item.instr (Instr.bin BinOp.add (Operand.reg GpReg.esp) (Operand.mem (dword_ptr GpReg.esp 0)))) ∧
    M.items[tpc n 136]? = some (Item.instr (Instr.bin BinOp.add (Operand.reg GpReg.esp) (imm 4))) ∧
    M.items[tpc n 137]? = some (Item.instr (Instr.un UnOp.push (Operand.reg GpReg.eax))) ∧
    M.items[tpc n 138]? = some (Item.instr Instr.ret) := by
  rw [h.fetch 0 (by decide), h.fetch 1 (by decide), h.fetch 2 (by decide), h.fetch 3 (by decide), h.fetch 4 (by decide), h.fetch 5 (by decide), h.fetch 6 (by decide), h.fetch 7 (by decide)]
  rw [h.fetch 8 (by decide), h.fetch 9 (by decide), h.fetch 10 (by decide), h.fetch 11 (by decide), h.fetch 12 (by decide), h.fetch 13 (by decide), h.fetch 14 (by decide), h.fetch 15 (by decide)]
  rw [h.fetch 16 (by decide), h.fetch 17 (by decide), h.fetch 18 (by decide), h.fetch 19 (by decide), h.fetch 20 (by decide), h.fetch 21 (by decide), h.fetch 22 (by decide), h.fetch 23 (by decide)]
  rw [h.fetch 24 (by decide), h.fetch 25 (by decide), h.fetch 26 (by decide), h.fetch 27 (by decide), h.fetch 28 (by decide), h.fetch 29 (by decide), h.fetch 30 (by decide), h.fetch 31 (by decide)]
  rw [h.fetch 32 (by decide), h.fetch 33 (by decide), h.fetch 34 (by decide), h.fetch 35 (by decide), h.fetch 36 (by decide), h.fetch 37 (by decide), h.fetch 38 (by decide), h.fetch 39 (by decide)]
  rw [h.fetch 40 (by decide), h.fetch 41 (by decide), h.fetch 42 (by decide), h.fetch 43 (by decide), h.fetch 44 (by decide), h.fetch 45 (by decide), h.fetch 46 (by decide), h.fetch 47 (by decide)]
  rw [h.fetch 48 (by decide), h.fetch 49 (by decide), h.fetch 50 (by decide), h.fetch 51 (by decide), h.fetch 52 (by decide), h.fetch 53 (by decide), h.fetch 54 (by decide), h.fetch 55 (by decide)]
  rw [h.fetch 56 (by decide), h.fetch 57 (by decide), h.fetch 58 (by decide), h.fetch 59 (by decide), h.fetch 60 (by decide), h.fetch 61 (by decide), h.fetch 62 (by decide), h.fetch 63 (by decide)]
  rw [h.fetch 64 (by decide), h.fetch 65 (by decide), h.fetch 66 (by decide), h.fetch 67 (by decide), h.fetch 68 (by decide), h.fetch 69 (by decide), h.fetch 70 (by decide), h.fetch 71 (by decide)]
  rw [h.fetch 72 (by decide), h.fetch 73 (by decide), h.fetch 74 (by decide), h.fetch 75 (by decide), h.fetch 76 (by decide), h.fetch 77 (by decide), h.fetch 78 (by decide), h.fetch 79 (by decide)]
  rw [h.fetch 80 (by decide), h.fetch 81 (by decide), h.fetch 82 (by decide), h.fetch 83 (by decide), h.fetch 84 (by decide), h.fetch 85 (by decide), h.fetch 86 (by decide), h.fetch 87 (by decide)]
  rw [h.fetch 88 (by decide), h.fetch 89 (by decide), h.fetch 90 (by decide), h.fetch 91 (by decide), h.fetch 92 (by decide), h.fetch 93 (by decide), h.fetch 94 (by decide), h.fetch 95 (by decide)]
  rw [h.fetch 96 (by decide), h.fetch 97 (by decide), h.fetch 98 (by decide), h.fetch 99 (by decide), h.fetch 100 (by decide), h.fetch 101 (by decide), h.fetch 102 (by decide), h.fetch 103 (by decide)]
  rw [h.fetch 104 (by decide), h.fetch 105 (by decide), h.fetch 106 (by decide), h.fetch 107 (by decide), h.fetch 108 (by decide), h.fetch 109 (by decide), h.fetch 110 (by decide), h.fetch 111 (by decide)]
  rw [h.fetch 112 (by decide), h.fetch 113 (by decide), h.fetch 114 (by decide), h.fetch 115 (by decide), h.fetch 116 (by decide), h.fetch 117 (by decide), h.fetch 118 (by decide), h.fetch 119 (by decide)]
  rw [h.fetch 120 (by decide), h.fetch 121 (by decide), h.fetch 122 (by decide), h.fetch 123 (by decide), h.fetch 124 (by decide), h.fetch 125 (by decide), h.fetch 126 (by decide), h.fetch 127 (by decide)]
  rw [h.fetch 128 (by decide), h.fetch 129 (by decide), h.fetch 130 (by decide), h.fetch 131 (by decide), h.fetch 132 (by decide), h.fetch 133 (by decide), h.fetch 134 (by decide), h.fetch 135 (by decide)]
  rw [h.fetch 136 (by decide), h.fetch 137 (by decide), h.fetch 138 (by decide)]
  rw [tramp_items_eq]
  repeat' constructor

theorem tpc_add (n k j : Nat) : tpc n k + j = tpc n (k + j) := by
  unfold tpc; omega

set_option maxRecDepth 100000 in
/-- Indices of the labels bound inside `exec_helper`, `exec` and `halt_helper`. -/
theorem Loaded.labels {K : AmxH} {M : Machine} {n : Nat} (h : Loaded K M n) :
    labelIndex M.items ⟨8⟩ = some (tpc n 0) ∧ labelIndex M.items ⟨9⟩ = some (tpc n 37) ∧
    labelIndex M.items ⟨10⟩ = some (tpc n 90) ∧ labelIndex M.items ⟨11⟩ = some (tpc n 58) ∧
    labelIndex M.items ⟨12⟩ = some (tpc n 65) ∧ labelIndex M.items ⟨13⟩ = some (tpc n 72) ∧
    labelIndex M.items ⟨14⟩ = some (tpc n 79) ∧ labelIndex M.items ⟨15⟩ = some (tpc n 115) ∧
    labelIndex M.items ⟨16⟩ = some (tpc n 122) ∧ labelIndex M.items ⟨17⟩ = some (tpc n 51) ∧
    labelIndex M.items ⟨18⟩ = some (tpc n 128) := by
  have e := tramp_items_eq K
  refine ⟨?_, ?_, ?_, ?_, ?_, ?_, ?_, ?_, ?_, ?_, ?_⟩ <;>
    exact h.label _ _ (by decide) (by rw [e]; rfl)

theorem ea_dword_ptr (M : Machine) (s : State) (r : GpReg) (d : Int) :
    ea M s (dword_ptr r d) = amxField (s.reg r) d := by
  simp [ea, dword_ptr, amxField]

theorem ea_of_label (M : Machine) (s : State) (l : Label) (h : labelAddr M l < 4294967296) :
    ea M s (dword_ptr_lbl l) = labelAddr M l := by
  simp [ea, dword_ptr_lbl, toU32, Nat.mod_eq_of_lt h]

theorem Loaded.ea_lbl {K : AmxH} {M : Machine} {n : Nat} (h : Loaded K M n) (s : State) :
    ea M s (dword_ptr_lbl ⟨1⟩) = M.base + 4 ∧ ea M s (dword_ptr_lbl ⟨2⟩) = M.base + 8 ∧
    ea M s (dword_ptr_lbl ⟨3⟩) = M.base + 12 ∧ ea M s (dword_ptr_lbl ⟨4⟩) = M.base + 16 ∧
    ea M s (dword_ptr_lbl ⟨5⟩) = M.base + 20 ∧ ea M s (dword_ptr_lbl ⟨6⟩) = M.base + 24 ∧
    ea M s (dword_ptr_lbl ⟨7⟩) = M.base + 28 := by
  have hb := h.base_lt
  obtain ⟨-, h1, h2, h3, h4, h5, h6, h7⟩ := h.labelAddr_header
  refine ⟨?_, ?_, ?_, ?_, ?_, ?_, ?_⟩ <;> rw [ea_of_label _ _ _ (by omega)] <;> assumption

theorem loadSized_4 (m : Memory) (a : Nat) : loadSized m 4 a = read32 m a := by
  simp [loadSized]

theorem storeSized_4 (m : Memory) (a v : Nat) : storeSized m 4 a v = write32 m a v := by
  simp [storeSized]

theorem dword_ptr_size (r : GpReg) (d : Int) : (dword_ptr r d).size = 4 := rfl
theorem dword_ptr_lbl_size (l : Label) : (dword_ptr_lbl l).size = 4 := rfl


theorem read32_mod (m : Memory) (a : Nat) : read32 m a % 4294967296 = read32 m a :=
  Nat.mod_eq_of_lt (read32_lt m a)

theorem toU32_lit : toU32 0 = 0 ∧ toU32 4 = 4 ∧ toU32 8 = 8 ∧ toU32 12 = 12 := by decide

theorem amxField_lit (x : Nat) :
    (x < 4294967296 → amxField x 0 = x) ∧
    (x + 4 < 4294967296 → amxField x 4 = x + 4) ∧
    (x + 8 < 4294967296 → amxField x 8 = x + 8) ∧
    (x + 12 < 4294967296 → amxField x 12 = x + 12) ∧
    (4 ≤ x → x < 4294967296 → amxField x (-4) = x - 4) ∧
    (8 ≤ x → x < 4294967296 → amxField x (-8) = x - 8) ∧
    (12 ≤ x → x < 4294967296 → amxField x (-12) = x - 12) := by
  have e1 : toU32 (-4) = 4294967292 := by decide
  have e2 : toU32 (-8) = 4294967288 := by decide
  have e3 : toU32 (-12) = 4294967284 := by decide
  simp only [amxField, toU32_lit, e1, e2, e3]
  refine ⟨?_, ?_, ?_, ?_, ?_, ?_, ?_⟩ <;> intros <;> omega

theorem amxField_lt (x : Nat) (d : Int) : amxField x d < 4294967296 := Nat.mod_lt _ (by decide)


theorem and_toU32_lt (a : Nat) (x : Int) : a &&& toU32 x < 4294967296 :=
  Nat.and_lt_two_pow a (n := 32) (toU32_lt x)

theorem and_mod (a : Nat) (x : Int) : (a &&& toU32 x) % 4294967296 = a &&& toU32 x :=
  Nat.mod_eq_of_lt (and_toU32_lt a x)

theorem cond_ne_and (a : Nat) (x : Int) :
    Cond.holds (subFlags (a &&& toU32 x) 0) .ne = decide (a &&& toU32 x ≠ 0) :=
  cond_ne_sub _ _ (and_toU32_lt a x) (by decide)

theorem sub_add_lit (x a b : Nat) (h : b ≤ a) (h2 : a ≤ x) : x - a + b = x - (a - b) := by
  omega

theorem goto_none (M : Machine) (s : State) (v : Nat) (h : codeIndex M v = none) :
    goto M s v = { s with status := .exited v } := by
  simp [goto, h]


theorem run_peel (M : Machine) (a b : Nat) (s t : State) (h : run M a s = t) :
    run M (a + b) s = run M b t := by
  rw [run_add, h]

theorem sub32_mod (a b : Nat) : sub32 a b % 4294967296 = sub32 a b :=
  Nat.mod_eq_of_lt (sub32_lt a b)

theorem add32_mod (a b : Nat) : add32 a b % 4294967296 = add32 a b :=
  Nat.mod_eq_of_lt (add32_lt a b)


/-! ## The pre-condition checks of `exec` -/

/-- The prologue of `exec` up to the first check: the frame is set up, `ebp`,
`esi` and `ebx` are saved, `esi` holds the `AMX` pointer and `ebx` the pointer
to the data section. -/
theorem exec_prologue {K : AmxH} {M : Machine} {n : Nat} (h : Loaded K M n)
    (eax ecx edx ebx sp ebp esi edi : Nat) (flags : Flags) (df : Bool) (mem : Memory)
    (calls : List CallEvent) (A : Nat)
    (hsp : 24 ≤ sp) (hsp2 : sp + 4 < 4294967296)
    (hA : read32 mem (M.base + 4) = A) (h1 : Outside (sp - 24) sp (M.base + 4)) :
    ∃ e f, run M (if field (write32 (write32 (write32 mem (sp - 4) ebp) (sp - 20) esi)
          (sp - 24) ebx) A K.off_data = 0 then 14 else 11)
        ⟨eax, ecx, edx, ebx, sp, ebp, esi, edi, flags, df, mem, tpc n 38, .running, calls⟩ =
      ⟨e, ecx, edx,
       data_ptr K (write32 (write32 (write32 mem (sp - 4) ebp) (sp - 20) esi) (sp - 24) ebx) A,
       sp - 24, sp - 4, A, edi, f, df,
       write32 (write32 (write32 mem (sp - 4) ebp) (sp - 20) esi) (sp - 24) ebx,
       tpc n 52, .running, calls⟩ := by
  have hb := h.base_lt
  have hAlt : A < 4294967296 := hA ▸ read32_lt _ _
  unfold Outside at h1
  unfold data_ptr field
  by_cases hd : read32 (write32 (write32 (write32 mem (sp - 4) ebp) (sp - 20) esi) (sp - 24) ebx)
      (amxField A K.off_data) = 0
  · rw [if_pos hd, if_pos hd]
    apply Exists.intro; apply Exists.intro
    simp (disch := first | omega | exact read32_lt _ _ | exact toU32_lt _) only [run, step,
      h.fetch_all, h.labels, h.ea_lbl, execInstr, execBin, execUn, readOp, writeOp,
      State.reg, State.setReg, push32, tpc_add, Nat.reduceAdd, ea_dword_ptr,
      loadSized_4, storeSized_4, dword_ptr_size, dword_ptr_lbl_size, sub32_eq, add32_eq, imm,
      toU32_lit, Nat.mod_eq_of_lt, read32_mod, read32_write32_ne, read32_write32_same,
      Nat.reduceSub, Nat.sub_sub, amxField_lit, gotoLabel, cond_nz_sub, decide_eq_true_eq,
      ne_eq, not_false_eq_true, not_true_eq_false, if_true, if_false, decide_True,
      decide_False, Bool.false_eq_true, sub_add_lit, Nat.sub_zero, Nat.add_assoc, add32_mod, hA, hd]
    rfl
  · rw [if_neg hd, if_neg hd]
    apply Exists.intro; apply Exists.intro
    simp (disch := first | omega | exact read32_lt _ _ | exact toU32_lt _) only [run, step,
      h.fetch_all, h.labels, h.ea_lbl, execInstr, execBin, execUn, readOp, writeOp,
      State.reg, State.setReg, push32, tpc_add, Nat.reduceAdd, ea_dword_ptr,
      loadSized_4, storeSized_4, dword_ptr_size, dword_ptr_lbl_size, sub32_eq, add32_eq, imm,
      toU32_lit, Nat.mod_eq_of_lt, read32_mod, read32_write32_ne, read32_write32_same,
      Nat.reduceSub, Nat.sub_sub, amxField_lit, gotoLabel, cond_nz_sub, decide_eq_true_eq,
      ne_eq, not_false_eq_true, not_true_eq_false, if_true, if_false, decide_True,
      decide_False, Bool.false_eq_true, sub_add_lit, Nat.sub_zero, Nat.add_assoc, hA, hd]
    rfl

theorem exec_check_stackerr {K : AmxH} {M : Machine} {n : Nat} (h : Loaded K M n)
    (eax ecx edx ebx sp edi : Nat) (flags : Flags) (df : Bool) (m : Memory)
    (calls : List CallEvent) (A ret : Nat)
    (hsp : 24 ≤ sp) (hsp2 : sp + 4 < 4294967296)
    (hret : read32 m sp = ret) (hout : codeIndex M ret = none)
    (hc : toSigned (read32 m (amxField A K.off_stk)) ≤ toSigned (read32 m (amxField A K.off_hea))) :
    ∃ c d f, run M 12 ⟨eax, ecx, edx, ebx, sp - 24, sp - 4, A, edi, flags, df, m, tpc n 52,
        .running, calls⟩ =
      ⟨toU32 K.AMX_ERR_STACKERR, c, d, read32 m (sp - 24), sp + 4, read32 m (sp - 4),
       read32 m (sp - 20), edi, f, df, m, tpc n 128, .exited ret, calls⟩ := by
  apply Exists.intro; apply Exists.intro; apply Exists.intro
  have hn : ¬ toSigned (read32 m (amxField A K.off_hea)) < toSigned (read32 m (amxField A K.off_stk)) := by omega
  simp (disch := first | omega | exact read32_lt _ _ | exact toU32_lt _) only [run, step,
    h.fetch_all, h.labels, h.ea_lbl, execInstr, execBin, execUn, readOp, writeOp,
    State.reg, State.setReg, push32, tpc_add, Nat.reduceAdd, ea_dword_ptr,
    loadSized_4, storeSized_4, dword_ptr_size, dword_ptr_lbl_size, sub32_eq, add32_eq, imm,
    toU32_lit, Nat.mod_eq_of_lt, read32_mod, read32_write32_ne, read32_write32_same,
    Nat.reduceSub, Nat.sub_sub, amxField_lit, gotoLabel, cond_l_sub, cond_ge_sub, cond_le_sub,
    cond_nz_sub, cond_ne_sub, cond_e_sub, and_mod, cond_ne_and, decide_eq_true_eq, ne_eq, not_false_eq_true,
    not_true_eq_false, if_true, if_false, decide_True, decide_False, Bool.false_eq_true, goto,
    sub_add_lit, Nat.sub_zero, Nat.add_assoc, hret, hout, hn]
  rfl

theorem exec_check_heaplow {K : AmxH} {M : Machine} {n : Nat} (h : Loaded K M n)
    (eax ecx edx ebx sp edi : Nat) (flags : Flags) (df : Bool) (m : Memory)
    (calls : List CallEvent) (A ret : Nat)
    (hsp : 24 ≤ sp) (hsp2 : sp + 4 < 4294967296)
    (hret : read32 m sp = ret) (hout : codeIndex M ret = none)
    (hc : toSigned (read32 m (amxField A K.off_hea)) < toSigned (read32 m (amxField A K.off_stk)))
    (hc1 : toSigned (read32 m (amxField A K.off_hea)) < toSigned (read32 m (amxField A K.off_hlw))) :
    ∃ c d f, run M 17 ⟨eax, ecx, edx, ebx, sp - 24, sp - 4, A, edi, flags, df, m, tpc n 52,
        .running, calls⟩ =
      ⟨toU32 K.AMX_ERR_HEAPLOW, c, d, read32 m (sp - 24), sp + 4, read32 m (sp - 4),
       read32 m (sp - 20), edi, f, df, m, tpc n 128, .exited ret, calls⟩ := by
  apply Exists.intro; apply Exists.intro; apply Exists.intro
  have hn : ¬ toSigned (read32 m (amxField A K.off_hlw)) ≤ toSigned (read32 m (amxField A K.off_hea)) := by omega
  rw [show (17 : Nat) = 9 + 8 from rfl, run_peel M 9 8 _ _ (by
    simp (disch := first | omega | exact read32_lt _ _ | exact toU32_lt _) only [run, step,
      h.fetch_all, h.labels, h.ea_lbl, execInstr, execBin, execUn, readOp, writeOp,
      State.reg, State.setReg, push32, tpc_add, Nat.reduceAdd, ea_dword_ptr,
      loadSized_4, storeSized_4, dword_ptr_size, dword_ptr_lbl_size, sub32_eq, add32_eq, imm,
      toU32_lit, Nat.mod_eq_of_lt, read32_mod, read32_write32_ne, read32_write32_same,
      Nat.reduceSub, Nat.sub_sub, amxField_lit, gotoLabel, cond_l_sub, cond_ge_sub, cond_le_sub,
      cond_nz_sub, cond_ne_sub, cond_e_sub, and_mod, cond_ne_and, decide_eq_true_eq, ne_eq, not_false_eq_true,
      not_true_eq_false, if_true, if_false, decide_True, decide_False, Bool.false_eq_true, goto,
      sub_add_lit, Nat.sub_zero, Nat.add_assoc, hret, hout, hc, hn]
    rfl)]
  simp (disch := first | omega | exact read32_lt _ _ | exact toU32_lt _) only [run, step,
    h.fetch_all, h.labels, h.ea_lbl, execInstr, execBin, execUn, readOp, writeOp,
    State.reg, State.setReg, push32, tpc_add, Nat.reduceAdd, ea_dword_ptr,
    loadSized_4, storeSized_4, dword_ptr_size, dword_ptr_lbl_size, sub32_eq, add32_eq, imm,
    toU32_lit, Nat.mod_eq_of_lt, read32_mod, read32_write32_ne, read32_write32_same,
    Nat.reduceSub, Nat.sub_sub, amxField_lit, gotoLabel, cond_l_sub, cond_ge_sub, cond_le_sub,
    cond_nz_sub, cond_ne_sub, cond_e_sub, and_mod, cond_ne_and, decide_eq_true_eq, ne_eq, not_false_eq_true,
    not_true_eq_false, if_true, if_false, decide_True, decide_False, Bool.false_eq_true, goto,
    sub_add_lit, Nat.sub_zero, Nat.add_assoc, hret, hout, hc, hn]
  rfl

theorem exec_check_stacklow {K : AmxH} {M : Machine} {n : Nat} (h : Loaded K M n)
    (eax ecx edx ebx sp edi : Nat) (flags : Flags) (df : Bool) (m : Memory)
    (calls : List CallEvent) (A ret : Nat)
    (hsp : 24 ≤ sp) (hsp2 : sp + 4 < 4294967296)
    (hret : read32 m sp = ret) (hout : codeIndex M ret = none)
    (hc : toSigned (read32 m (amxField A K.off_hea)) < toSigned (read32 m (amxField A K.off_stk)))
    (hc1 : toSigned (read32 m (amxField A K.off_hlw)) ≤ toSigned (read32 m (amxField A K.off_hea)))
    (hc2 : toSigned (read32 m (amxField A K.off_stp)) < toSigned (read32 m (amxField A K.off_stk))) :
    ∃ c d f, run M 22 ⟨eax, ecx, edx, ebx, sp - 24, sp - 4, A, edi, flags, df, m, tpc n 52,
        .running, calls⟩ =
      ⟨toU32 K.AMX_ERR_STACKLOW, c, d, read32 m (sp - 24), sp + 4, read32 m (sp - 4),
       read32 m (sp - 20), edi, f, df, m, tpc n 128, .exited ret, calls⟩ := by
  apply Exists.intro; apply Exists.intro; apply Exists.intro
  have hn : ¬ toSigned (read32 m (amxField A K.off_stk)) ≤ toSigned (read32 m (amxField A K.off_stp)) := by omega
  rw [show (22 : Nat) = 10 + 12 from rfl, run_peel M 10 12 _ _ (by
    simp (disch := first | omega | exact read32_lt _ _ | exact toU32_lt _) only [run, step,
      h.fetch_all, h.labels, h.ea_lbl, execInstr, execBin, execUn, readOp, writeOp,
      State.reg, State.setReg, push32, tpc_add, Nat.reduceAdd, ea_dword_ptr,
      loadSized_4, storeSized_4, dword_ptr_size, dword_ptr_lbl_size, sub32_eq, add32_eq, imm,
      toU32_lit, Nat.mod_eq_of_lt, read32_mod, read32_write32_ne, read32_write32_same,
      Nat.reduceSub, Nat.sub_sub, amxField_lit, gotoLabel, cond_l_sub, cond_ge_sub, cond_le_sub,
      cond_nz_sub, cond_ne_sub, cond_e_sub, and_mod, cond_ne_and, decide_eq_true_eq, ne_eq, not_false_eq_true,
      not_true_eq_false, if_true, if_false, decide_True, decide_False, Bool.false_eq_true, goto,
      sub_add_lit, Nat.sub_zero, Nat.add_assoc, hret, hout, hc, hc1, hn]
    rfl)]
  simp (disch := first | omega | exact read32_lt _ _ | exact toU32_lt _) only [run, step,
    h.fetch_all, h.labels, h.ea_lbl, execInstr, execBin, execUn, readOp, writeOp,
    State.reg, State.setReg, push32, tpc_add, Nat.reduceAdd, ea_dword_ptr,
    loadSized_4, storeSized_4, dword_ptr_size, dword_ptr_lbl_size, sub32_eq, add32_eq, imm,
    toU32_lit, Nat.mod_eq_of_lt, read32_mod, read32_write32_ne, read32_write32_same,
    Nat.reduceSub, Nat.sub_sub, amxField_lit, gotoLabel, cond_l_sub, cond_ge_sub, cond_le_sub,
    cond_nz_sub, cond_ne_sub, cond_e_sub, and_mod, cond_ne_and, decide_eq_true_eq, ne_eq, not_false_eq_true,
    not_true_eq_false, if_true, if_false, decide_True, decide_False, Bool.false_eq_true, goto,
    sub_add_lit, Nat.sub_zero, Nat.add_assoc, hret, hout, hc, hc1, hn]
  rfl

theorem exec_check_notfound {K : AmxH} {M : Machine} {n : Nat} (h : Loaded K M n)
    (eax ecx edx ebx sp edi : Nat) (flags : Flags) (df : Bool) (m : Memory)
    (calls : List CallEvent) (A ret : Nat)
    (hsp : 24 ≤ sp) (hsp2 : sp + 4 < 4294967296)
    (hret : read32 m sp = ret) (hout : codeIndex M ret = none)
    (hc : toSigned (read32 m (amxField A K.off_hea)) < toSigned (read32 m (amxField A K.off_stk)))
    (hc1 : toSigned (read32 m (amxField A K.off_hlw)) ≤ toSigned (read32 m (amxField A K.off_hea)))
    (hc2 : toSigned (read32 m (amxField A K.off_stk)) ≤ toSigned (read32 m (amxField A K.off_stp)))
    (hc3 : read32 m (amxField A K.off_flags) &&& toU32 K.AMX_FLAG_NTVREG = 0) :
    ∃ c d f, run M 27 ⟨eax, ecx, edx, ebx, sp - 24, sp - 4, A, edi, flags, df, m, tpc n 52,
        .running, calls⟩ =
      ⟨toU32 K.AMX_ERR_NOTFOUND, c, d, read32 m (sp - 24), sp + 4, read32 m (sp - 4),
       read32 m (sp - 20), edi, f, df, m, tpc n 128, .exited ret, calls⟩ := by
  apply Exists.intro; apply Exists.intro; apply Exists.intro
  rw [show (27 : Nat) = 10 + 17 from rfl, run_peel M 10 17 _ _ (by
    simp (disch := first | omega | exact read32_lt _ _ | exact toU32_lt _) only [run, step,
      h.fetch_all, h.labels, h.ea_lbl, execInstr, execBin, execUn, readOp, writeOp,
      State.reg, State.setReg, push32, tpc_add, Nat.reduceAdd, ea_dword_ptr,
      loadSized_4, storeSized_4, dword_ptr_size, dword_ptr_lbl_size, sub32_eq, add32_eq, imm,
      toU32_lit, Nat.mod_eq_of_lt, read32_mod, read32_write32_ne, read32_write32_same,
      Nat.reduceSub, Nat.sub_sub, amxField_lit, gotoLabel, cond_l_sub, cond_ge_sub, cond_le_sub,
      cond_nz_sub, cond_ne_sub, cond_e_sub, and_mod, cond_ne_and, decide_eq_true_eq, ne_eq, not_false_eq_true,
      not_true_eq_false, if_true, if_false, decide_True, decide_False, Bool.false_eq_true, goto,
      sub_add_lit, Nat.sub_zero, Nat.add_assoc, hret, hout, hc, hc1, hc2, hc3]
    rfl)]
  rw [show (17 : Nat) = 9 + 8 from rfl, run_peel M 9 8 _ _ (by
    simp (disch := first | omega | exact read32_lt _ _ | exact toU32_lt _) only [run, step,
      h.fetch_all, h.labels, h.ea_lbl, execInstr, execBin, execUn, readOp, writeOp,
      State.reg, State.setReg, push32, tpc_add, Nat.reduceAdd, ea_dword_ptr,
      loadSized_4, storeSized_4, dword_ptr_size, dword_ptr_lbl_size, sub32_eq, add32_eq, imm,
      toU32_lit, Nat.mod_eq_of_lt, read32_mod, read32_write32_ne, read32_write32_same,
      Nat.reduceSub, Nat.sub_sub, amxField_lit, gotoLabel, cond_l_sub, cond_ge_sub, cond_le_sub,
      cond_nz_sub, cond_ne_sub, cond_e_sub, and_mod, cond_ne_and, decide_eq_true_eq, ne_eq, not_false_eq_true,
      not_true_eq_false, if_true, if_false, decide_True, decide_False, Bool.false_eq_true, goto,
      sub_add_lit, Nat.sub_zero, Nat.add_assoc, hret, hout, hc, hc1, hc2, hc3]
    rfl)]
  simp (disch := first | omega | exact read32_lt _ _ | exact toU32_lt _) only [run, step,
    h.fetch_all, h.labels, h.ea_lbl, execInstr, execBin, execUn, readOp, writeOp,
    State.reg, State.setReg, push32, tpc_add, Nat.reduceAdd, ea_dword_ptr,
    loadSized_4, storeSized_4, dword_ptr_size, dword_ptr_lbl_size, sub32_eq, add32_eq, imm,
    toU32_lit, Nat.mod_eq_of_lt, read32_mod, read32_write32_ne, read32_write32_same,
    Nat.reduceSub, Nat.sub_sub, amxField_lit, gotoLabel, cond_l_sub, cond_ge_sub, cond_le_sub,
    cond_nz_sub, cond_ne_sub, cond_e_sub, and_mod, cond_ne_and, decide_eq_true_eq, ne_eq, not_false_eq_true,
    not_true_eq_false, if_true, if_false, decide_True, decide_False, Bool.false_eq_true, goto,
    sub_add_lit, Nat.sub_zero, Nat.add_assoc, hret, hout, hc, hc1, hc2, hc3]
  rfl

theorem exec_check_pass {K : AmxH} {M : Machine} {n : Nat} (h : Loaded K M n)
    (eax ecx edx ebx sp edi : Nat) (flags : Flags) (df : Bool) (m : Memory)
    (calls : List CallEvent) (A : Nat)
    (hc : toSigned (read32 m (amxField A K.off_hea)) < toSigned (read32 m (amxField A K.off_stk)))
    (hc1 : toSigned (read32 m (amxField A K.off_hlw)) ≤ toSigned (read32 m (amxField A K.off_hea)))
    (hc2 : toSigned (read32 m (amxField A K.off_stk)) ≤ toSigned (read32 m (amxField A K.off_stp)))
    (hc3 : read32 m (amxField A K.off_flags) &&& toU32 K.AMX_FLAG_NTVREG ≠ 0) :
    ∃ c d f, run M 20 ⟨eax, ecx, edx, ebx, sp - 24, sp - 4, A, edi, flags, df, m, tpc n 52,
        .running, calls⟩ =
      ⟨eax, c, d, ebx, sp - 24, sp - 4, A, edi, f, df, m, tpc n 80, .running, calls⟩ := by
  apply Exists.intro; apply Exists.intro; apply Exists.intro
  rw [show (20 : Nat) = 10 + 10 from rfl, run_peel M 10 10 _ _ (by
    simp (disch := first | omega | exact read32_lt _ _ | exact toU32_lt _) only [run, step,
      h.fetch_all, h.labels, h.ea_lbl, execInstr, execBin, execUn, readOp, writeOp,
      State.reg, State.setReg, push32, tpc_add, Nat.reduceAdd, ea_dword_ptr,
      loadSized_4, storeSized_4, dword_ptr_size, dword_ptr_lbl_size, sub32_eq, add32_eq, imm,
      toU32_lit, Nat.mod_eq_of_lt, read32_mod, read32_write32_ne, read32_write32_same,
      Nat.reduceSub, Nat.sub_sub, amxField_lit, gotoLabel, cond_l_sub, cond_ge_sub, cond_le_sub,
      cond_nz_sub, cond_ne_sub, cond_e_sub, and_mod, cond_ne_and, decide_eq_true_eq, ne_eq, not_false_eq_true,
      not_true_eq_false, if_true, if_false, decide_True, decide_False, Bool.false_eq_true, goto,
      sub_add_lit, Nat.sub_zero, Nat.add_assoc, hc, hc1, hc2, hc3]
    rfl)]
  simp (disch := first | omega | exact read32_lt _ _ | exact toU32_lt _) only [run, step,
    h.fetch_all, h.labels, h.ea_lbl, execInstr, execBin, execUn, readOp, writeOp,
    State.reg, State.setReg, push32, tpc_add, Nat.reduceAdd, ea_dword_ptr,
    loadSized_4, storeSized_4, dword_ptr_size, dword_ptr_lbl_size, sub32_eq, add32_eq, imm,
    toU32_lit, Nat.mod_eq_of_lt, read32_mod, read32_write32_ne, read32_write32_same,
    Nat.reduceSub, Nat.sub_sub, amxField_lit, gotoLabel, cond_l_sub, cond_ge_sub, cond_le_sub,
    cond_nz_sub, cond_ne_sub, cond_e_sub, and_mod, cond_ne_and, decide_eq_true_eq, ne_eq, not_false_eq_true,
    not_true_eq_false, if_true, if_false, decide_True, decide_False, Bool.false_eq_true, goto,
    sub_add_lit, Nat.sub_zero, Nat.add_assoc, hc, hc1, hc2, hc3]
  rfl
/-! ## `exec`: the pre-condition failures (C4, C5) -/

theorem exec_saves_read (s : State) (a : Nat) (hsp : 64 ≤ s.esp)
    (ho : Outside (s.esp - 64) (s.esp + 12) a) : read32 (exec_saves s) a = read32 s.mem a := by
  unfold Outside at ho
  unfold exec_saves
  rw [read32_write32_ne _ _ _ _ (by omega), read32_write32_ne _ _ _ _ (by omega),
    read32_write32_ne _ _ _ _ (by omega)]

theorem exec_saves_ret (s : State) (hsp : 64 ≤ s.esp) :
    read32 (exec_saves s) s.esp = read32 s.mem s.esp := by
  unfold exec_saves
  rw [read32_write32_ne _ _ _ _ (by omega), read32_write32_ne _ _ _ _ (by omega),
    read32_write32_ne _ _ _ _ (by omega)]

theorem ExecEntry.field_saved {K : AmxH} {M : Machine} {n : Nat} {s : State} {A : Nat}
    (he : ExecEntry K M n s A) (off : Int) (hoff : off ∈ amx_fields K) :
    read32 (exec_saves s) (amxField A off) = field s.mem A off :=
  exec_saves_read s _ he.frame_lo (he.record off hoff)

/-- A check path that ends in the epilogue of `exec`, put behind the prologue. -/
theorem exec_fail_glue {K : AmxH} {M : Machine} {n : Nat} (h : Loaded K M n) (s : State)
    (A : Nat) (he : ExecEntry K M n s A) (code j : Nat)
    (hchk : ∀ e b f, ∃ c d g, run M j ⟨e, s.ecx, s.edx, b, s.esp - 24, s.esp - 4, A, s.edi, f,
        s.df, exec_saves s, tpc n 52, .running, s.calls⟩ =
      ⟨code, c, d, read32 (exec_saves s) (s.esp - 24), s.esp + 4,
       read32 (exec_saves s) (s.esp - 4), read32 (exec_saves s) (s.esp - 20), s.edi, g, s.df,
       exec_saves s, tpc n 128, .exited (read32 s.mem s.esp), s.calls⟩) :
    ∃ k, ExecFails s code (run M k s) ∧ (run M k s).mem = exec_saves s := by
  have hlo := he.frame_lo
  have hhi := he.frame_hi
  have hhd := he.header
  have hpc := he.pc
  have hr := he.running
  have hA := he.amx
  obtain ⟨eax, ecx, edx, ebx, esp, ebp, esi, edi, flags, df, mem, pc, status, calls⟩ := s
  simp only at hlo hhi hhd hpc hr hA hchk
  subst hpc hr
  obtain ⟨e, f, hk⟩ := exec_prologue h eax ecx edx ebx esp ebp esi edi flags df mem calls A
    (by omega) (by omega) hA (by unfold Outside; omega)
  generalize (if field (write32 (write32 (write32 mem (esp - 4) ebp) (esp - 20) esi)
    (esp - 24) ebx) A K.off_data = 0 then 14 else 11) = kp at hk
  obtain ⟨c, d, g, hj⟩ := hchk e _ f
  refine ⟨kp + j, ?_⟩
  rw [run_add, hk]
  simp only [exec_saves] at hj
  rw [hj]
  exact ⟨⟨rfl, rfl, rfl, rfl⟩, rfl⟩

theorem exec_fail_stackerr {K : AmxH} {M : Machine} {n : Nat} (h : Loaded K M n) (s : State)
    (A : Nat) (he : ExecEntry K M n s A)
    (hc : toSigned (field s.mem A K.off_stk) ≤ toSigned (field s.mem A K.off_hea)) :
    ∃ k, ExecFails s (toU32 K.AMX_ERR_STACKERR) (run M k s) ∧ (run M k s).mem = exec_saves s := by
  have hlo := he.frame_lo
  have hhi := he.frame_hi
  refine exec_fail_glue h s A he _ 12 (fun e b f =>
    exec_check_stackerr h e s.ecx s.edx b s.esp s.edi f s.df (exec_saves s) s.calls A _
      (by omega) (by omega) (exec_saves_ret s hlo) he.caller (by rw [he.field_saved K.off_stk (by simp [amx_fields]), he.field_saved K.off_hea (by simp [amx_fields])]; exact hc))

theorem exec_fail_heaplow {K : AmxH} {M : Machine} {n : Nat} (h : Loaded K M n) (s : State)
    (A : Nat) (he : ExecEntry K M n s A)
    (hc : toSigned (field s.mem A K.off_hea) < toSigned (field s.mem A K.off_stk))
    (hc1 : toSigned (field s.mem A K.off_hea) < toSigned (field s.mem A K.off_hlw)) :
    ∃ k, ExecFails s (toU32 K.AMX_ERR_HEAPLOW) (run M k s) ∧ (run M k s).mem = exec_saves s := by
  have hlo := he.frame_lo
  have hhi := he.frame_hi
  refine exec_fail_glue h s A he _ 17 (fun e b f =>
    exec_check_heaplow h e s.ecx s.edx b s.esp s.edi f s.df (exec_saves s) s.calls A _
      (by omega) (by omega) (exec_saves_ret s hlo) he.caller (by rw [he.field_saved K.off_hea (by simp [amx_fields]), he.field_saved K.off_stk (by simp [amx_fields])]; exact hc) (by rw [he.field_saved K.off_hea (by simp [amx_fields]), he.field_saved K.off_hlw (by simp [amx_fields])]; exact hc1))

theorem exec_fail_stacklow {K : AmxH} {M : Machine} {n : Nat} (h : Loaded K M n) (s : State)
    (A : Nat) (he : ExecEntry K M n s A)
    (hc : toSigned (field s.mem A K.off_hea) < toSigned (field s.mem A K.off_stk))
    (hc1 : toSigned (field s.mem A K.off_hlw) ≤ toSigned (field s.mem A K.off_hea))
    (hc2 : toSigned (field s.mem A K.off_stp) < toSigned (field s.mem A K.off_stk)) :
    ∃ k, ExecFails s (toU32 K.AMX_ERR_STACKLOW) (run M k s) ∧ (run M k s).mem = exec_saves s := by
  have hlo := he.frame_lo
  have hhi := he.frame_hi
  refine exec_fail_glue h s A he _ 22 (fun e b f =>
    exec_check_stacklow h e s.ecx s.edx b s.esp s.edi f s.df (exec_saves s) s.calls A _
      (by omega) (by omega) (exec_saves_ret s hlo) he.caller (by rw [he.field_saved K.off_hea (by simp [amx_fields]), he.field_saved K.off_stk (by simp [amx_fields])]; exact hc)
      (by rw [he.field_saved K.off_hlw (by simp [amx_fields]), he.field_saved K.off_hea (by simp [amx_fields])]; exact hc1) (by rw [he.field_saved K.off_stp (by simp [amx_fields]), he.field_saved K.off_stk (by simp [amx_fields])]; exact hc2))

theorem exec_fail_notfound {K : AmxH} {M : Machine} {n : Nat} (h : Loaded K M n) (s : State)
    (A : Nat) (he : ExecEntry K M n s A)
    (hc : toSigned (field s.mem A K.off_hea) < toSigned (field s.mem A K.off_stk))
    (hc1 : toSigned (field s.mem A K.off_hlw) ≤ toSigned (field s.mem A K.off_hea))
    (hc2 : toSigned (field s.mem A K.off_stk) ≤ toSigned (field s.mem A K.off_stp))
    (hc3 : field s.mem A K.off_flags &&& toU32 K.AMX_FLAG_NTVREG = 0) :
    ∃ k, ExecFails s (toU32 K.AMX_ERR_NOTFOUND) (run M k s) ∧ (run M k s).mem = exec_saves s := by
  have hlo := he.frame_lo
  have hhi := he.frame_hi
  refine exec_fail_glue h s A he _ 27 (fun e b f =>
    exec_check_notfound h e s.ecx s.edx b s.esp s.edi f s.df (exec_saves s) s.calls A _
      (by omega) (by omega) (exec_saves_ret s hlo) he.caller (by rw [he.field_saved K.off_hea (by simp [amx_fields]), he.field_saved K.off_stk (by simp [amx_fields])]; exact hc)
      (by rw [he.field_saved K.off_hlw (by simp [amx_fields]), he.field_saved K.off_hea (by simp [amx_fields])]; exact hc1) (by rw [he.field_saved K.off_stk (by simp [amx_fields]), he.field_saved K.off_stp (by simp [amx_fields])]; exact hc2)
      (by rw [he.field_saved K.off_flags (by simp [amx_fields])]; exact hc3))

theorem ExecEntry.rejects {K : AmxH} {M : Machine} {n : Nat} {s : State} {A : Nat}
    (he : ExecEntry K M n s A) (code : Int)
    (hx : ∃ k, ExecFails s (toU32 code) (run M k s) ∧ (run M k s).mem = exec_saves s) :
    ExecRejects K M s A code := by
  obtain ⟨k, hf, hm⟩ := hx
  refine ⟨k, hf, ?_, ?_⟩
  · unfold field; rw [hm]; exact he.field_saved _ (by simp [amx_fields])
  · unfold field; rw [hm]; exact he.field_saved _ (by simp [amx_fields])

/-- C4: `exec` checks its pre-conditions in the order `hea >= stk`
(`AMX_ERR_STACKERR`), `hea < hlw` (`AMX_ERR_HEAPLOW`), `stk > stp`
(`AMX_ERR_STACKLOW`), natives-registered flag clear (`AMX_ERR_NOTFOUND`), the
fields compared as signed cells, and returns the code of the first check that
fails; on each of these paths no C function is called (no public is looked up)
and the fields `stk` and `paramcount` are as they were. -/
theorem exec_precondition_order {K : AmxH} {M : Machine} {n : Nat} (h : Loaded K M n)
    (s : State) (A : Nat) (he : ExecEntry K M n s A) :
    (toSigned (field s.mem A K.off_stk) ≤ toSigned (field s.mem A K.off_hea) →
      ExecRejects K M s A K.AMX_ERR_STACKERR) ∧
    (toSigned (field s.mem A K.off_hea) < toSigned (field s.mem A K.off_stk) →
      toSigned (field s.mem A K.off_hea) < toSigned (field s.mem A K.off_hlw) →
      ExecRejects K M s A K.AMX_ERR_HEAPLOW) ∧
    (toSigned (field s.mem A K.off_hea) < toSigned (field s.mem A K.off_stk) →
      toSigned (field s.mem A K.off_hlw) ≤ toSigned (field s.mem A K.off_hea) →
      toSigned (field s.mem A K.off_stp) < toSigned (field s.mem A K.off_stk) →
      ExecRejects K M s A K.AMX_ERR_STACKLOW) ∧
    (toSigned (field s.mem A K.off_hea) < toSigned (field s.mem A K.off_stk) →
      toSigned (field s.mem A K.off_hlw) ≤ toSigned (field s.mem A K.off_hea) →
      toSigned (field s.mem A K.off_stk) ≤ toSigned (field s.mem A K.off_stp) →
      field s.mem A K.off_flags &&& toU32 K.AMX_FLAG_NTVREG = 0 →
      ExecRejects K M s A K.AMX_ERR_NOTFOUND) :=
  ⟨fun hc => he.rejects _ (exec_fail_stackerr h s A he hc),
   fun hc hc1 => he.rejects _ (exec_fail_heaplow h s A he hc hc1),
   fun hc hc1 hc2 => he.rejects _ (exec_fail_stacklow h s A he hc hc1 hc2),
   fun hc hc1 hc2 hc3 => he.rejects _ (exec_fail_notfound h s A he hc hc1 hc2 hc3)⟩

/-- The buffer of a successful `compile` has the shape the machine expects. -/
theorem compile_loaded (K : AmxH) (info : OpcodeInfo) (enc : Instr → Nat) (amx : AMXPtr)
    (eh : Bool) (B : Nat) (mem : Memory) (env : Env)
    (hok : (compile K info enc amx eh B mem).output ≠ none)
    (hfit : B + (compile K info enc amx eh B mem).as.getCodeSize < 4294967296)
    (hpos : ∀ x, 0 < enc x) :
    Loaded K ⟨enc, (compile K info enc amx eh B mem).as.items, B, env⟩ amx.decoded.length := by
  obtain ⟨henc, hit⟩ := compile_as_items K info enc amx eh B mem hok
  obtain ⟨body, hbody⟩ := loop_after_items K info enc amx amx.decoded
  refine ⟨⟨(exec_offset K enc amx.decoded.length : Nat), amx.amx, body ++ [Item.bind ⟨25⟩, Item.instr (.un .push (.reg .ecx)),
    Item.instr (.call ⟨18⟩)], ?_⟩, hpos, ?_⟩
  · show (compile K info enc amx eh B mem).as.items = _
    rw [hit, hbody]
    simp only [List.append_assoc]
  · show B + itemsSize enc (compile K info enc amx eh B mem).as.items < 4294967296
    unfold X86Assembler.getCodeSize at hfit
    rw [henc] at hfit
    exact hfit

theorem sample_loaded : Loaded amx_h_32 sample_machine 3 :=
  compile_loaded amx_h_32 sample_info sample_enc sample_amx false 65536 (fun _ => 0) sample_env
    sample_compile_ok sample_compile_fit (fun _ => Nat.succ_pos 4)

set_option maxRecDepth 1000000 in
theorem sample_entry_stackerr :
    ExecEntry amx_h_32 sample_machine 3 (sample_state (sample_mem 4096 512 1024 8192 4096 0))
      8192 :=
  ⟨rfl, rfl, by decide, by decide, by decide, by decide, by decide, by decide⟩

set_option maxRecDepth 1000000 in
/-- Witness of C4: in the sample state with `hea = 4096` and `stk = 1024`,
`exec` returns `AMX_ERR_STACKERR`. -/
theorem exec_precondition_order_witness :
    ExecRejects amx_h_32 sample_machine (sample_state (sample_mem 4096 512 1024 8192 4096 0))
      8192 3 :=
  (exec_precondition_order sample_loaded _ 8192 sample_entry_stackerr).1 (by decide)

theorem ExecEntry.leaves_error {K : AmxH} {M : Machine} {n : Nat} {s : State} {A : Nat}
    (he : ExecEntry K M n s A) (code : Int)
    (hx : ∃ k, ExecFails s (toU32 code) (run M k s) ∧ (run M k s).mem = exec_saves s) :
    ExecLeavesError K M s A code := by
  obtain ⟨k, hf, hm⟩ := hx
  refine ⟨k, hf, ?_⟩
  unfold field; rw [hm]; exact he.field_saved _ (by simp [amx_fields])

set_option maxRecDepth 1000000 in
/-- C5, counterexample: in the sample state with `hea = 4096`, `stk = 1024`
and `error = 0`, `exec` returns `AMX_ERR_STACKERR` (3) after 26 steps and the
field `error` is still 0. -/
theorem exec_failure_error_counterexample :
    ExecFails (sample_state (sample_mem 4096 512 1024 8192 4096 0)) 3
      (run sample_machine 26 (sample_state (sample_mem 4096 512 1024 8192 4096 0))) ∧
    field (run sample_machine 26 (sample_state (sample_mem 4096 512 1024 8192 4096 0))).mem
      8192 amx_h_32.off_error = 0 :=
  ⟨⟨by decide, by decide, by decide, by decide⟩, by decide⟩

/-- C5, amended: on every pre-condition failure path `exec` returns the error
code and leaves the field `error` of the `AMX` record as it was on entry. -/
theorem exec_failure_keeps_error {K : AmxH} {M : Machine} {n : Nat} (h : Loaded K M n)
    (s : State) (A : Nat) (he : ExecEntry K M n s A) :
    (toSigned (field s.mem A K.off_stk) ≤ toSigned (field s.mem A K.off_hea) →
      ExecLeavesError K M s A K.AMX_ERR_STACKERR) ∧
    (toSigned (field s.mem A K.off_hea) < toSigned (field s.mem A K.off_stk) →
      toSigned (field s.mem A K.off_hea) < toSigned (field s.mem A K.off_hlw) →
      ExecLeavesError K M s A K.AMX_ERR_HEAPLOW) ∧
    (toSigned (field s.mem A K.off_hea) < toSigned (field s.mem A K.off_stk) →
      toSigned (field s.mem A K.off_hlw) ≤ toSigned (field s.mem A K.off_hea) →
      toSigned (field s.mem A K.off_stp) < toSigned (field s.mem A K.off_stk) →
      ExecLeavesError K M s A K.AMX_ERR_STACKLOW) ∧
    (toSigned (field s.mem A K.off_hea) < toSigned (field s.mem A K.off_stk) →
      toSigned (field s.mem A K.off_hlw) ≤ toSigned (field s.mem A K.off_hea) →
      toSigned (field s.mem A K.off_stk) ≤ toSigned (field s.mem A K.off_stp) →
      field s.mem A K.off_flags &&& toU32 K.AMX_FLAG_NTVREG = 0 →
      ExecLeavesError K M s A K.AMX_ERR_NOTFOUND) :=
  ⟨fun hc => he.leaves_error _ (exec_fail_stackerr h s A he hc),
   fun hc hc1 => he.leaves_error _ (exec_fail_heaplow h s A he hc hc1),
   fun hc hc1 hc2 => he.leaves_error _ (exec_fail_stacklow h s A he hc hc1 hc2),
   fun hc hc1 hc2 hc3 => he.leaves_error _ (exec_fail_notfound h s A he hc hc1 hc2 hc3)⟩

set_option maxRecDepth 1000000 in
theorem sample_entry_heaplow :
    ExecEntry amx_h_32 sample_machine 3 (sample_state (sample_mem 256 512 1024 8192 4096 5))
      8192 :=
  ⟨rfl, rfl, by decide, by decide, by decide, by decide, by decide, by decide⟩

set_option maxRecDepth 1000000 in
/-- Witness of C5 (amended): in the sample state with `hea = 256`, `hlw = 512`
and `error = 5`, `exec` returns `AMX_ERR_HEAPLOW` and `error` stays 5. -/
theorem exec_failure_keeps_error_witness :
    ExecLeavesError amx_h_32 sample_machine (sample_state (sample_mem 256 512 1024 8192 4096 5))
      8192 8 :=
  (exec_failure_keeps_error sample_loaded _ 8192 sample_entry_heaplow).2.1 (by decide)
    (by decide)

/-! ## The way back from the called code -/

theorem Outside.rw {lo hi a : Nat} (h : Outside lo hi a) :
    (∀ (m : Memory) (b v : Nat), lo ≤ b → b + 4 ≤ hi →
      read32 (write32 m b v) a = read32 m a) ∧
    (∀ (m : Memory) (b v : Nat), lo ≤ b → b + 4 ≤ hi →
      read32 (write32 m a v) b = read32 m b) := by
  unfold Outside at h
  exact ⟨fun m b v h1 h2 => read32_write32_ne _ _ _ _ (by omega),
         fun m b v h1 h2 => read32_write32_ne _ _ _ _ (by omega)⟩

theorem Apart.rws {a b : Nat} (h : Apart a b) :
    (∀ (m : Memory) (v : Nat), read32 (write32 m b v) a = read32 m a) ∧
    (∀ (m : Memory) (v : Nat), read32 (write32 m a v) b = read32 m b) := by
  unfold Apart at h
  exact ⟨fun m v => read32_write32_ne _ _ _ _ (by omega),
         fun m v => read32_write32_ne _ _ _ _ (by omega)⟩

theorem Loaded.ret_addrs {K : AmxH} {M : Machine} {n : Nat} (h : Loaded K M n) :
    codeIndex M (codeAddr M (tpc n 110)) = some (tpc n 110) ∧
    codeIndex M (codeAddr M (tpc n 20)) = some (tpc n 20) :=
  ⟨codeIndex_codeAddr M h.enc_pos _ (Instr.bin .add (.reg .esp) (imm 4))
     (by simp only [h.fetch_all]),
   codeIndex_codeAddr M h.enc_pos _ (Instr.bin .mov (.reg .eax) (.mem (dword_ptr_lbl ⟨1⟩)))
     (by simp only [h.fetch_all])⟩

theorem codeAddr_mod {K : AmxH} {M : Machine} {n : Nat} (h : Loaded K M n) (i : Nat) :
    codeAddr M i % 4294967296 = codeAddr M i := Nat.mod_eq_of_lt (h.codeAddr_lt i)

/-- From the return of the called code into `exec_helper` to the return of
`exec`, when the word `exec` takes for `retval` is null: `exec` returns what
the field `error` held and clears it, and the four slots are restored. -/
theorem exec_return_null {K : AmxH} {M : Machine} {n : Nat} (h : Loaded K M n)
    (eax ecx edx ebx esp ebp esi edi : Nat) (flags : Flags) (df : Bool) (m : Memory)
    (calls : List CallEvent) (sp A err R4 R5 S2 S3 w20 w24 w40 w44 w48 w52 w4 ret : Nat)
    (hsp : 64 ≤ sp) (hsp2 : sp + 12 ≤ 4294967296) (hA : A < 4294967296)
    (hhd : M.base + 32 ≤ sp - 64 ∨ sp + 12 ≤ M.base)
    (s1 : read32 m (M.base + 4) = A) (s2 : read32 m (M.base + 8) = sp - 4)
    (s3 : read32 m (M.base + 12) = sp - 60)
    (f0 : read32 m sp = ret) (f4 : read32 m (sp - 4) = w4) (f12 : read32 m (sp - 12) = R4)
    (f16 : read32 m (sp - 16) = R5) (f20 : read32 m (sp - 20) = w20)
    (f24 : read32 m (sp - 24) = w24) (f32 : read32 m (sp - 32) = codeAddr M (tpc n 110))
    (f36 : read32 m (sp - 36) = A) (f40 : read32 m (sp - 40) = w40)
    (f44 : read32 m (sp - 44) = w44) (f48 : read32 m (sp - 48) = w48)
    (f52 : read32 m (sp - 52) = w52) (f56 : read32 m (sp - 56) = S2)
    (f60 : read32 m (sp - 60) = S3)
    (ferr : read32 m (amxField A K.off_error) = err)
    (hout : codeIndex M ret = none)
    (o1 : Outside (sp - 64) (sp + 12) (amxField A K.off_frm))
    (o2 : Outside (sp - 64) (sp + 12) (amxField A K.off_stk))
    (o3 : Outside (sp - 64) (sp + 12) (amxField A K.off_error))
    (p1 : Outside M.base (M.base + 32) (amxField A K.off_frm))
    (p2 : Outside M.base (M.base + 32) (amxField A K.off_stk))
    (p3 : Outside M.base (M.base + 32) (amxField A K.off_error))
    (a1 : Apart (amxField A K.off_error) (amxField A K.off_frm))
    (a2 : Apart (amxField A K.off_error) (amxField A K.off_stk))
    (hR4 : R4 = 0) :
    ∃ t, run M 34 ⟨eax, ecx, edx, ebx, esp, ebp, esi, edi, flags, df, m, tpc n 20,
        .running, calls⟩ = t ∧ t.status = .exited ret ∧ t.eax = err ∧ t.esp = sp + 4 ∧
      t.calls = calls ∧
      read32 t.mem (M.base + 16) = R4 ∧ read32 t.mem (M.base + 20) = R5 ∧
      read32 t.mem (M.base + 8) = S2 ∧ read32 t.mem (M.base + 12) = S3 ∧
      read32 t.mem (amxField A K.off_error) = toU32 K.AMX_ERR_NONE := by
  have hb := h.base_lt
  have herr : err < 4294967296 := ferr ▸ read32_lt _ _
  have hR4lt : R4 < 4294967296 := f12 ▸ read32_lt _ _
  have hR5lt : R5 < 4294967296 := f16 ▸ read32_lt _ _
  have hS2lt : S2 < 4294967296 := f56 ▸ read32_lt _ _
  have hS3lt : S3 < 4294967296 := f60 ▸ read32_lt _ _
  have h20 : w20 < 4294967296 := f20 ▸ read32_lt _ _
  have h24 : w24 < 4294967296 := f24 ▸ read32_lt _ _
  have h40 : w40 < 4294967296 := f40 ▸ read32_lt _ _
  have h44 : w44 < 4294967296 := f44 ▸ read32_lt _ _
  have h48 : w48 < 4294967296 := f48 ▸ read32_lt _ _
  have h52 : w52 < 4294967296 := f52 ▸ read32_lt _ _
  have h4 : w4 < 4294967296 := f4 ▸ read32_lt _ _
  have ro1 := o1.rw
  have ro2 := o2.rw
  have ro3 := o3.rw
  have rp1 := p1.rw
  have rp2 := p2.rw
  have rp3 := p3.rw
  have ra1 := a1.rws
  have ra2 := a2.rws
  apply Exists.intro
  constructor
  · rewrite [show (34 : Nat) = 8 + 26 from rfl, run_peel M 8 26 _ _ (by
      simp (disch := first | omega | exact read32_lt _ _ | exact toU32_lt _) only [
        run, step, h.fetch_all, h.labels, h.ea_lbl, execInstr, execBin, execUn, readOp, writeOp,
        State.reg, State.setReg, push32, tpc_add, Nat.reduceAdd, ea_dword_ptr, loadSized_4,
        storeSized_4, dword_ptr_size, dword_ptr_lbl_size, sub32_eq, add32_eq, imm, toU32_lit,
        Nat.mod_eq_of_lt, read32_mod, sub32_mod, add32_mod, read32_write32_ne,
        read32_write32_same, Nat.reduceSub, Nat.sub_sub, amxField_lit, gotoLabel, cond_e_sub,
        cond_ne_sub, decide_eq_true_eq, ne_eq, not_false_eq_true, not_true_eq_false, if_true,
        if_false, decide_True, decide_False, Bool.false_eq_true, goto, sub_add_lit, Nat.sub_zero,
        Nat.add_assoc, h.ret_addrs, codeAddr_mod h, s1, s2, s3, f0, f4, f12, f16, f20, f24, f32,
        f36, f40, f44, f48, f52, f56, f60, ferr, hout, hR4, ro1, ro2, ro3, rp1, rp2, rp3, ra1,
        ra2]
      rfl)]
    rewrite [show (26 : Nat) = 9 + 17 from rfl, run_peel M 9 17 _ _ (by
      simp (disch := first | omega | exact read32_lt _ _ | exact toU32_lt _) only [
        run, step, h.fetch_all, h.labels, h.ea_lbl, execInstr, execBin, execUn, readOp, writeOp,
        State.reg, State.setReg, push32, tpc_add, Nat.reduceAdd, ea_dword_ptr, loadSized_4,
        storeSized_4, dword_ptr_size, dword_ptr_lbl_size, sub32_eq, add32_eq, imm, toU32_lit,
        Nat.mod_eq_of_lt, read32_mod, sub32_mod, add32_mod, read32_write32_ne,
        read32_write32_same, Nat.reduceSub, Nat.sub_sub, amxField_lit, gotoLabel, cond_e_sub,
        cond_ne_sub, decide_eq_true_eq, ne_eq, not_false_eq_true, not_true_eq_false, if_true,
        if_false, decide_True, decide_False, Bool.false_eq_true, goto, sub_add_lit, Nat.sub_zero,
        Nat.add_assoc, h.ret_addrs, codeAddr_mod h, s1, s2, s3, f0, f4, f12, f16, f20, f24, f32,
        f36, f40, f44, f48, f52, f56, f60, ferr, hout, hR4, ro1, ro2, ro3, rp1, rp2, rp3, ra1,
        ra2]
      rfl)]
    rewrite [show (17 : Nat) = 8 + 9 from rfl, run_peel M 8 9 _ _ (by
      simp (disch := first | omega | exact read32_lt _ _ | exact toU32_lt _) only [
        run, step, h.fetch_all, h.labels, h.ea_lbl, execInstr, execBin, execUn, readOp, writeOp,
        State.reg, State.setReg, push32, tpc_add, Nat.reduceAdd, ea_dword_ptr, loadSized_4,
        storeSized_4, dword_ptr_size, dword_ptr_lbl_size, sub32_eq, add32_eq, imm, toU32_lit,
        Nat.mod_eq_of_lt, read32_mod, sub32_mod, add32_mod, read32_write32_ne,
        read32_write32_same, Nat.reduceSub, Nat.sub_sub, amxField_lit, gotoLabel, cond_e_sub,
        cond_ne_sub, decide_eq_true_eq, ne_eq, not_false_eq_true, not_true_eq_false, if_true,
        if_false, decide_True, decide_False, Bool.false_eq_true, goto, sub_add_lit, Nat.sub_zero,
        Nat.add_assoc, h.ret_addrs, codeAddr_mod h, s1, s2, s3, f0, f4, f12, f16, f20, f24, f32,
        f36, f40, f44, f48, f52, f56, f60, ferr, hout, hR4, ro1, ro2, ro3, rp1, rp2, rp3, ra1,
        ra2]
      rfl)]
    simp (disch := first | omega | exact read32_lt _ _ | exact toU32_lt _) only [
      run, step, h.fetch_all, h.labels, h.ea_lbl, execInstr, execBin, execUn, readOp, writeOp,
      State.reg, State.setReg, push32, tpc_add, Nat.reduceAdd, ea_dword_ptr, loadSized_4,
      storeSized_4, dword_ptr_size, dword_ptr_lbl_size, sub32_eq, add32_eq, imm, toU32_lit,
      Nat.mod_eq_of_lt, read32_mod, sub32_mod, add32_mod, read32_write32_ne, read32_write32_same,
      Nat.reduceSub, Nat.sub_sub, amxField_lit, gotoLabel, cond_e_sub, cond_ne_sub,
      decide_eq_true_eq, ne_eq, not_false_eq_true, not_true_eq_false, if_true, if_false,
      decide_True, decide_False, Bool.false_eq_true, goto, sub_add_lit, Nat.sub_zero,
      Nat.add_assoc, h.ret_addrs, codeAddr_mod h, s1, s2, s3, f0, f4, f12, f16, f20, f24, f32,
      f36, f40, f44, f48, f52, f56, f60, ferr, hout, hR4, ro1, ro2, ro3, rp1, rp2, rp3, ra1, ra2]
    rfl
  · simp (disch := first | omega | exact toU32_lt _) only [read32_write32_ne, read32_write32_same, Nat.mod_eq_of_lt, and_self, amxField_lit, ro1, ro2,
      ro3, rp1, rp2, rp3, ra1, ra2, hR4]

/-- The same when that word is not null: the value `exec_helper` returned, the
`AMX` pointer, is stored at the address the word holds. -/
theorem exec_return_stray {K : AmxH} {M : Machine} {n : Nat} (h : Loaded K M n)
    (eax ecx edx ebx esp ebp esi edi : Nat) (flags : Flags) (df : Bool) (m : Memory)
    (calls : List CallEvent) (sp A err R4 R5 S2 S3 w20 w24 w40 w44 w48 w52 w4 ret : Nat)
    (hsp : 64 ≤ sp) (hsp2 : sp + 12 ≤ 4294967296) (hA : A < 4294967296)
    (hhd : M.base + 32 ≤ sp - 64 ∨ sp + 12 ≤ M.base)
    (s1 : read32 m (M.base + 4) = A) (s2 : read32 m (M.base + 8) = sp - 4)
    (s3 : read32 m (M.base + 12) = sp - 60)
    (f0 : read32 m sp = ret) (f4 : read32 m (sp - 4) = w4) (f12 : read32 m (sp - 12) = R4)
    (f16 : read32 m (sp - 16) = R5) (f20 : read32 m (sp - 20) = w20)
    (f24 : read32 m (sp - 24) = w24) (f32 : read32 m (sp - 32) = codeAddr M (tpc n 110))
    (f36 : read32 m (sp - 36) = A) (f40 : read32 m (sp - 40) = w40)
    (f44 : read32 m (sp - 44) = w44) (f48 : read32 m (sp - 48) = w48)
    (f52 : read32 m (sp - 52) = w52) (f56 : read32 m (sp - 56) = S2)
    (f60 : read32 m (sp - 60) = S3)
    (ferr : read32 m (amxField A K.off_error) = err)
    (hout : codeIndex M ret = none)
    (o1 : Outside (sp - 64) (sp + 12) (amxField A K.off_frm))
    (o2 : Outside (sp - 64) (sp + 12) (amxField A K.off_stk))
    (o3 : Outside (sp - 64) (sp + 12) (amxField A K.off_error))
    (p1 : Outside M.base (M.base + 32) (amxField A K.off_frm))
    (p2 : Outside M.base (M.base + 32) (amxField A K.off_stk))
    (p3 : Outside M.base (M.base + 32) (amxField A K.off_error))
    (a1 : Apart (amxField A K.off_error) (amxField A K.off_frm))
    (a2 : Apart (amxField A K.off_error) (amxField A K.off_stk))
    (hR4 : R4 ≠ 0)
    (x1 : Outside (sp - 64) (sp + 12) R4) (x2 : Outside M.base (M.base + 32) R4)
    (x3 : Apart (amxField A K.off_error) R4) :
    ∃ t, run M 35 ⟨eax, ecx, edx, ebx, esp, ebp, esi, edi, flags, df, m, tpc n 20,
        .running, calls⟩ = t ∧ t.status = .exited ret ∧ t.eax = err ∧ t.esp = sp + 4 ∧
      t.calls = calls ∧
      read32 t.mem (M.base + 16) = R4 ∧ read32 t.mem (M.base + 20) = R5 ∧
      read32 t.mem (M.base + 8) = S2 ∧ read32 t.mem (M.base + 12) = S3 ∧
      read32 t.mem (amxField A K.off_error) = toU32 K.AMX_ERR_NONE ∧
      read32 t.mem R4 = A := by
  have hb := h.base_lt
  have herr : err < 4294967296 := ferr ▸ read32_lt _ _
  have hR4lt : R4 < 4294967296 := f12 ▸ read32_lt _ _
  have hR5lt : R5 < 4294967296 := f16 ▸ read32_lt _ _
  have hS2lt : S2 < 4294967296 := f56 ▸ read32_lt _ _
  have hS3lt : S3 < 4294967296 := f60 ▸ read32_lt _ _
  have h20 : w20 < 4294967296 := f20 ▸ read32_lt _ _
  have h24 : w24 < 4294967296 := f24 ▸ read32_lt _ _
  have h40 : w40 < 4294967296 := f40 ▸ read32_lt _ _
  have h44 : w44 < 4294967296 := f44 ▸ read32_lt _ _
  have h48 : w48 < 4294967296 := f48 ▸ read32_lt _ _
  have h52 : w52 < 4294967296 := f52 ▸ read32_lt _ _
  have h4 : w4 < 4294967296 := f4 ▸ read32_lt _ _
  have ro1 := o1.rw
  have ro2 := o2.rw
  have ro3 := o3.rw
  have rp1 := p1.rw
  have rp2 := p2.rw
  have rp3 := p3.rw
  have ra1 := a1.rws
  have ra2 := a2.rws
  have rx1 := x1.rw
  have rx2 := x2.rw
  have rx3 := x3.rws
  apply Exists.intro
  constructor
  · rewrite [show (35 : Nat) = 8 + 27 from rfl, run_peel M 8 27 _ _ (by
      simp (disch := first | omega | exact read32_lt _ _ | exact toU32_lt _) only [
        run, step, h.fetch_all, h.labels, h.ea_lbl, execInstr, execBin, execUn, readOp, writeOp,
        State.reg, State.setReg, push32, tpc_add, Nat.reduceAdd, ea_dword_ptr, loadSized_4,
        storeSized_4, dword_ptr_size, dword_ptr_lbl_size, sub32_eq, add32_eq, imm, toU32_lit,
        Nat.mod_eq_of_lt, read32_mod, sub32_mod, add32_mod, read32_write32_ne,
        read32_write32_same, Nat.reduceSub, Nat.sub_sub, amxField_lit, gotoLabel, cond_e_sub,
        cond_ne_sub, decide_eq_true_eq, ne_eq, not_false_eq_true, not_true_eq_false, if_true,
        if_false, decide_True, decide_False, Bool.false_eq_true, goto, sub_add_lit, Nat.sub_zero,
        Nat.add_assoc, h.ret_addrs, codeAddr_mod h, s1, s2, s3, f0, f4, f12, f16, f20, f24, f32,
        f36, f40, f44, f48, f52, f56, f60, ferr, hout, hR4, ro1, ro2, ro3, rp1, rp2, rp3, ra1,
        ra2, rx1, rx2, rx3]
      rfl)]
    rewrite [show (27 : Nat) = 9 + 18 from rfl, run_peel M 9 18 _ _ (by
      simp (disch := first | omega | exact read32_lt _ _ | exact toU32_lt _) only [
        run, step, h.fetch_all, h.labels, h.ea_lbl, execInstr, execBin, execUn, readOp, writeOp,
        State.reg, State.setReg, push32, tpc_add, Nat.reduceAdd, ea_dword_ptr, loadSized_4,
        storeSized_4, dword_ptr_size, dword_ptr_lbl_size, sub32_eq, add32_eq, imm, toU32_lit,
        Nat.mod_eq_of_lt, read32_mod, sub32_mod, add32_mod, read32_write32_ne,
        read32_write32_same, Nat.reduceSub, Nat.sub_sub, amxField_lit, gotoLabel, cond_e_sub,
        cond_ne_sub, decide_eq_true_eq, ne_eq, not_false_eq_true, not_true_eq_false, if_true,
        if_false, decide_True, decide_False, Bool.false_eq_true, goto, sub_add_lit, Nat.sub_zero,
        Nat.add_assoc, h.ret_addrs, codeAddr_mod h, s1, s2, s3, f0, f4, f12, f16, f20, f24, f32,
        f36, f40, f44, f48, f52, f56, f60, ferr, hout, hR4, ro1, ro2, ro3, rp1, rp2, rp3, ra1,
        ra2, rx1, rx2, rx3]
      rfl)]
    rewrite [show (18 : Nat) = 9 + 9 from rfl, run_peel M 9 9 _ _ (by
      simp (disch := first | omega | exact read32_lt _ _ | exact toU32_lt _) only [
        run, step, h.fetch_all, h.labels, h.ea_lbl, execInstr, execBin, execUn, readOp, writeOp,
        State.reg, State.setReg, push32, tpc_add, Nat.reduceAdd, ea_dword_ptr, loadSized_4,
        storeSized_4, dword_ptr_size, dword_ptr_lbl_size, sub32_eq, add32_eq, imm, toU32_lit,
        Nat.mod_eq_of_lt, read32_mod, sub32_mod, add32_mod, read32_write32_ne,
        read32_write32_same, Nat.reduceSub, Nat.sub_sub, amxField_lit, gotoLabel, cond_e_sub,
        cond_ne_sub, decide_eq_true_eq, ne_eq, not_false_eq_true, not_true_eq_false, if_true,
        if_false, decide_True, decide_False, Bool.false_eq_true, goto, sub_add_lit, Nat.sub_zero,
        Nat.add_assoc, h.ret_addrs, codeAddr_mod h, s1, s2, s3, f0, f4, f12, f16, f20, f24, f32,
        f36, f40, f44, f48, f52, f56, f60, ferr, hout, hR4, ro1, ro2, ro3, rp1, rp2, rp3, ra1,
        ra2, rx1, rx2, rx3]
      rfl)]
    simp (disch := first | omega | exact read32_lt _ _ | exact toU32_lt _) only [
      run, step, h.fetch_all, h.labels, h.ea_lbl, execInstr, execBin, execUn, readOp, writeOp,
      State.reg, State.setReg, push32, tpc_add, Nat.reduceAdd, ea_dword_ptr, loadSized_4,
      storeSized_4, dword_ptr_size, dword_ptr_lbl_size, sub32_eq, add32_eq, imm, toU32_lit,
      Nat.mod_eq_of_lt, read32_mod, sub32_mod, add32_mod, read32_write32_ne, read32_write32_same,
      Nat.reduceSub, Nat.sub_sub, amxField_lit, gotoLabel, cond_e_sub, cond_ne_sub,
      decide_eq_true_eq, ne_eq, not_false_eq_true, not_true_eq_false, if_true, if_false,
      decide_True, decide_False, Bool.false_eq_true, goto, sub_add_lit, Nat.sub_zero,
      Nat.add_assoc, h.ret_addrs, codeAddr_mod h, s1, s2, s3, f0, f4, f12, f16, f20, f24, f32,
      f36, f40, f44, f48, f52, f56, f60, ferr, hout, hR4, ro1, ro2, ro3, rp1, rp2, rp3, ra1, ra2,
      rx1, rx2, rx3]
    rfl
  · simp (disch := first | omega | exact toU32_lt _) only [read32_write32_ne, read32_write32_same, Nat.mod_eq_of_lt, and_self, amxField_lit, ro1, ro2,
      ro3, rp1, rp2, rp3, ra1, ra2, rx1, rx2, rx3]

/-- From the return of the called code into `exec_helper` to the return of
`exec_helper` into `exec`: the slots `l_ebp` and `l_esp` hold again what
`exec_helper` found in them. -/
theorem exec_helper_return {K : AmxH} {M : Machine} {n : Nat} (h : Loaded K M n)
    (eax ecx edx ebx esp ebp esi edi : Nat) (flags : Flags) (df : Bool) (m : Memory)
    (calls : List CallEvent) (sp A err R4 R5 S2 S3 w20 w24 w40 w44 w48 w52 w4 ret : Nat)
    (hsp : 64 ≤ sp) (hsp2 : sp + 12 ≤ 4294967296) (hA : A < 4294967296)
    (hhd : M.base + 32 ≤ sp - 64 ∨ sp + 12 ≤ M.base)
    (s1 : read32 m (M.base + 4) = A) (s2 : read32 m (M.base + 8) = sp - 4)
    (s3 : read32 m (M.base + 12) = sp - 60)
    (f0 : read32 m sp = ret) (f4 : read32 m (sp - 4) = w4) (f12 : read32 m (sp - 12) = R4)
    (f16 : read32 m (sp - 16) = R5) (f20 : read32 m (sp - 20) = w20)
    (f24 : read32 m (sp - 24) = w24) (f32 : read32 m (sp - 32) = codeAddr M (tpc n 110))
    (f36 : read32 m (sp - 36) = A) (f40 : read32 m (sp - 40) = w40)
    (f44 : read32 m (sp - 44) = w44) (f48 : read32 m (sp - 48) = w48)
    (f52 : read32 m (sp - 52) = w52) (f56 : read32 m (sp - 56) = S2)
    (f60 : read32 m (sp - 60) = S3)
    (ferr : read32 m (amxField A K.off_error) = err)
    (hout : codeIndex M ret = none)
    (o1 : Outside (sp - 64) (sp + 12) (amxField A K.off_frm))
    (o2 : Outside (sp - 64) (sp + 12) (amxField A K.off_stk))
    (o3 : Outside (sp - 64) (sp + 12) (amxField A K.off_error))
    (p1 : Outside M.base (M.base + 32) (amxField A K.off_frm))
    (p2 : Outside M.base (M.base + 32) (amxField A K.off_stk))
    (p3 : Outside M.base (M.base + 32) (amxField A K.off_error))
    (a1 : Apart (amxField A K.off_error) (amxField A K.off_frm))
    (a2 : Apart (amxField A K.off_error) (amxField A K.off_stk)) :
    ∃ t, run M 17 ⟨eax, ecx, edx, ebx, esp, ebp, esi, edi, flags, df, m, tpc n 20,
        .running, calls⟩ = t ∧ t.pc = tpc n 110 ∧ t.status = .running ∧
      read32 t.mem (M.base + 8) = S2 ∧ read32 t.mem (M.base + 12) = S3 := by
  have hb := h.base_lt
  have herr : err < 4294967296 := ferr ▸ read32_lt _ _
  have hR4lt : R4 < 4294967296 := f12 ▸ read32_lt _ _
  have hR5lt : R5 < 4294967296 := f16 ▸ read32_lt _ _
  have hS2lt : S2 < 4294967296 := f56 ▸ read32_lt _ _
  have hS3lt : S3 < 4294967296 := f60 ▸ read32_lt _ _
  have h20 : w20 < 4294967296 := f20 ▸ read32_lt _ _
  have h24 : w24 < 4294967296 := f24 ▸ read32_lt _ _
  have h40 : w40 < 4294967296 := f40 ▸ read32_lt _ _
  have h44 : w44 < 4294967296 := f44 ▸ read32_lt _ _
  have h48 : w48 < 4294967296 := f48 ▸ read32_lt _ _
  have h52 : w52 < 4294967296 := f52 ▸ read32_lt _ _
  have h4 : w4 < 4294967296 := f4 ▸ read32_lt _ _
  have ro1 := o1.rw
  have ro2 := o2.rw
  have ro3 := o3.rw
  have rp1 := p1.rw
  have rp2 := p2.rw
  have rp3 := p3.rw
  have ra1 := a1.rws
  have ra2 := a2.rws
  apply Exists.intro
  constructor
  · rewrite [show (17 : Nat) = 8 + 9 from rfl, run_peel M 8 9 _ _ (by
      simp (disch := first | omega | exact read32_lt _ _ | exact toU32_lt _) only [
        run, step, h.fetch_all, h.labels, h.ea_lbl, execInstr, execBin, execUn, readOp, writeOp,
        State.reg, State.setReg, push32, tpc_add, Nat.reduceAdd, ea_dword_ptr, loadSized_4,
        storeSized_4, dword_ptr_size, dword_ptr_lbl_size, sub32_eq, add32_eq, imm, toU32_lit,
        Nat.mod_eq_of_lt, read32_mod, sub32_mod, add32_mod, read32_write32_ne,
        read32_write32_same, Nat.reduceSub, Nat.sub_sub, amxField_lit, gotoLabel, cond_e_sub,
        cond_ne_sub, decide_eq_true_eq, ne_eq, not_false_eq_true, not_true_eq_false, if_true,
        if_false, decide_True, decide_False, Bool.false_eq_true, goto, sub_add_lit, Nat.sub_zero,
        Nat.add_assoc, h.ret_addrs, codeAddr_mod h, s1, s2, s3, f0, f4, f12, f16, f20, f24, f32,
        f36, f40, f44, f48, f52, f56, f60, ferr, hout, ro1, ro2, ro3, rp1, rp2, rp3, ra1, ra2]
      rfl)]
    simp (disch := first | omega | exact read32_lt _ _ | exact toU32_lt _) only [
      run, step, h.fetch_all, h.labels, h.ea_lbl, execInstr, execBin, execUn, readOp, writeOp,
      State.reg, State.setReg, push32, tpc_add, Nat.reduceAdd, ea_dword_ptr, loadSized_4,
      storeSized_4, dword_ptr_size, dword_ptr_lbl_size, sub32_eq, add32_eq, imm, toU32_lit,
      Nat.mod_eq_of_lt, read32_mod, sub32_mod, add32_mod, read32_write32_ne, read32_write32_same,
      Nat.reduceSub, Nat.sub_sub, amxField_lit, gotoLabel, cond_e_sub, cond_ne_sub,
      decide_eq_true_eq, ne_eq, not_false_eq_true, not_true_eq_false, if_true, if_false,
      decide_True, decide_False, Bool.false_eq_true, goto, sub_add_lit, Nat.sub_zero,
      Nat.add_assoc, h.ret_addrs, codeAddr_mod h, s1, s2, s3, f0, f4, f12, f16, f20, f24, f32,
      f36, f40, f44, f48, f52, f56, f60, ferr, hout, ro1, ro2, ro3, rp1, rp2, rp3, ra1, ra2]
    rfl
  · simp (disch := first | omega | exact toU32_lt _) only [read32_write32_ne, read32_write32_same, Nat.mod_eq_of_lt, and_self, amxField_lit, ro1, ro2,
      ro3, rp1, rp2, rp3, ra1, ra2]
/-! ## `exec` from the end of the checks to the call of the public -/

theorem sub_add_lit2 (x a b : Nat) (h : a ≤ b) (h2 : a ≤ x) : x - a + b = x + (b - a) := by
  omega

theorem ea_dword_ptr_idx (M : Machine) (s : State) (b i : GpReg) :
    ea M s (dword_ptr_idx b i 0) = add32 (s.reg b) (s.reg i) := by
  simp [ea, dword_ptr_idx, add32, toU32]

theorem dword_ptr_idx_size (b i : GpReg) (k : Int) : (dword_ptr_idx b i k).size = 4 := rfl

theorem stackArgs_2 (s : State) :
    stackArgs s 2 = [read32 s.mem (add32 s.esp 0), read32 s.mem (add32 s.esp 4)] := rfl

theorem stackArgs_3 (s : State) :
    stackArgs s 3 = [read32 s.mem (add32 s.esp 0), read32 s.mem (add32 s.esp 4),
      read32 s.mem (add32 s.esp 8)] := rfl

theorem cResult_public (M : Machine) (s : State) (a b : Nat) :
    cResult M s .get_public_addr [a, b] = M.env.get_public_addr a b % 4294967296 := rfl

theorem cResult_instr_ptr (M : Machine) (s : State) (a b c : Nat) :
    cResult M s .get_instr_ptr [a, b, c] =
      get_instr_ptr (toSigned a) (readMap s.mem b c) c % 4294967296 := rfl

theorem toSigned_lit : toSigned 0 = 0 ∧ toSigned 4 = 4 := by decide

theorem imul_4 (x : Nat) (h : x < 536870912) : toU32 (toSigned x * 4) = 4 * x := by
  have e : toSigned x = (x : Int) := by
    unfold toSigned
    rw [Nat.mod_eq_of_lt (by omega)]
    simp; omega
  rw [e]
  unfold toU32
  omega

theorem readMap_write32 (m : Memory) (b v p : Nat) :
    ∀ (n : Nat), (b + 4 ≤ p ∨ p + 8 * n ≤ b) → readMap (write32 m b v) p n = readMap m p n := by
  intro n
  induction n generalizing p with
  | zero => intro _; rfl
  | succ k ih =>
    intro h
    simp only [readMap, readEntry]
    rw [ih (p + 8) (by omega), read32_write32_ne _ _ _ _ (by omega),
      read32_write32_ne _ _ _ _ (by omega)]

set_option maxHeartbeats 4000000 in
/-- From the end of the checks of `exec` to the first instruction of the
public, entered through `call eax` in `exec_helper`: the registers of the
called code, the two header slots `exec_helper` sets, the resets, and what the
host stack and the `AMX` stack hold. -/
theorem exec_forward {K : AmxH} {M : Machine} {n : Nat} (h : Loaded K M n)
    (eax ecx edx D sp edi : Nat) (flags : Flags) (df : Bool) (m : Memory)
    (calls : List CallEvent)
    (A idx pub N P E pcnt stk frm R4 R5 S2 S3 T i w4 w20 w24 ret : Nat)
    (hsp : 64 ≤ sp) (hsp2 : sp + 12 ≤ 4294967296) (hA : A < 4294967296)
    (hD : D < 4294967296)
    (hhd : M.base + 32 ≤ sp - 64 ∨ sp + 12 ≤ M.base)
    (s1 : read32 m (M.base + 4) = A) (s2 : read32 m (M.base + 8) = S2)
    (s3 : read32 m (M.base + 12) = S3) (s4 : read32 m (M.base + 16) = R4)
    (s5 : read32 m (M.base + 20) = R5) (s6 : read32 m (M.base + 24) = N)
    (s7 : read32 m (M.base + 28) = P)
    (f0 : read32 m sp = ret) (f4 : read32 m (sp - 4) = w4) (f20 : read32 m (sp - 20) = w20)
    (f24 : read32 m (sp - 24) = w24)
    (fidx : read32 m (sp + 4) = idx)
    (fpc : read32 m (amxField A K.off_paramcount) = pcnt)
    (fstk : read32 m (amxField A K.off_stk) = stk)
    (ffrm : read32 m (amxField A K.off_frm) = frm)
    (hpub : M.env.get_public_addr A idx % 4294967296 = pub) (hpub0 : pub ≠ 0)
    (hE : get_instr_ptr (toSigned pub) (readMap m P N) N % 4294967296 = E)
    (hi : codeIndex M E = some i)
    (hpc : pcnt < 536870912) (hstk : 4 ≤ stk) (hT : D + (stk - 4) = T) (hT4 : 4 ≤ T)
    (hT2 : T < 4294967296)
    (mF : sp + 12 ≤ P ∨ P + 8 * N ≤ sp - 64)
    (mE : amxField A K.off_error + 4 ≤ P ∨ P + 8 * N ≤ amxField A K.off_error)
    (oe : Outside (sp - 64) (sp + 12) (amxField A K.off_error))
    (oc : Outside (sp - 64) (sp + 12) (amxField A K.off_paramcount))
    (ok : Outside (sp - 64) (sp + 12) (amxField A K.off_stk))
    (or_ : Outside (sp - 64) (sp + 12) (amxField A K.off_frm))
    (oT : Outside (sp - 64) (sp + 12) T) (oT4 : Outside (sp - 64) (sp + 12) (T - 4))
    (pe : Outside M.base (M.base + 32) (amxField A K.off_error))
    (pc : Outside M.base (M.base + 32) (amxField A K.off_paramcount))
    (pk : Outside M.base (M.base + 32) (amxField A K.off_stk))
    (pr : Outside M.base (M.base + 32) (amxField A K.off_frm))
    (pT : Outside M.base (M.base + 32) T) (pT4 : Outside M.base (M.base + 32) (T - 4))
    (ace : Apart (amxField A K.off_paramcount) (amxField A K.off_error))
    (ake : Apart (amxField A K.off_stk) (amxField A K.off_error))
    (are : Apart (amxField A K.off_frm) (amxField A K.off_error))
    (akc : Apart (amxField A K.off_stk) (amxField A K.off_paramcount))
    (arc : Apart (amxField A K.off_frm) (amxField A K.off_paramcount))
    (ark : Apart (amxField A K.off_frm) (amxField A K.off_stk))
    (aTe : Apart T (amxField A K.off_error)) (aTc : Apart T (amxField A K.off_paramcount))
    (aTk : Apart T (amxField A K.off_stk)) (aTr : Apart T (amxField A K.off_frm))
    (aUe : Apart (T - 4) (amxField A K.off_error))
    (aUc : Apart (T - 4) (amxField A K.off_paramcount))
    (aUk : Apart (T - 4) (amxField A K.off_stk)) (aUr : Apart (T - 4) (amxField A K.off_frm)) :
    ∃ t, run M 48 ⟨eax, ecx, edx, D, sp - 24, sp - 4, A, edi, flags, df, m, tpc n 80,
        .running, calls⟩ = t ∧ t.eax = E ∧ t.ebx = D ∧ t.esp = T - 4 ∧ t.ebp = add32 D frm ∧ t.pc = i ∧
      t.status = .running ∧
      t.calls = calls ++ [⟨.get_public_addr, [A, idx]⟩, ⟨.get_instr_ptr, [pub, P, N]⟩] ∧
      read32 t.mem (M.base + 4) = A ∧ read32 t.mem (M.base + 8) = sp - 4 ∧
      read32 t.mem (M.base + 12) = sp - 60 ∧ read32 t.mem (M.base + 16) = add32 D frm ∧
      read32 t.mem (M.base + 20) = T - 4 ∧
      read32 t.mem sp = ret ∧ read32 t.mem (sp - 12) = R4 ∧ read32 t.mem (sp - 16) = R5 ∧
      read32 t.mem (sp - 32) = codeAddr M (tpc n 110) ∧ read32 t.mem (sp - 36) = A ∧
      read32 t.mem (sp - 56) = S2 ∧ read32 t.mem (sp - 60) = S3 ∧
      read32 t.mem (amxField A K.off_error) = toU32 K.AMX_ERR_NONE ∧
      read32 t.mem (amxField A K.off_stk) = stk - 4 ∧
      read32 t.mem (amxField A K.off_paramcount) = 0 ∧
      read32 t.mem T = 4 * pcnt ∧ read32 t.mem (T - 4) = codeAddr M (tpc n 20) := by
  have hb := h.base_lt
  have hw4 : w4 < 4294967296 := f4 ▸ read32_lt _ _
  have hw20 : w20 < 4294967296 := f20 ▸ read32_lt _ _
  have hw24 : w24 < 4294967296 := f24 ▸ read32_lt _ _
  have hR4 : R4 < 4294967296 := s4 ▸ read32_lt _ _
  have hR5 : R5 < 4294967296 := s5 ▸ read32_lt _ _
  have hS2 : S2 < 4294967296 := s2 ▸ read32_lt _ _
  have hS3 : S3 < 4294967296 := s3 ▸ read32_lt _ _
  have hN : N < 4294967296 := s6 ▸ read32_lt _ _
  have hP : P < 4294967296 := s7 ▸ read32_lt _ _
  have hidx : idx < 4294967296 := fidx ▸ read32_lt _ _
  have hpublt : pub < 4294967296 := hpub ▸ Nat.mod_lt _ (by decide)
  have hElt : E < 4294967296 := hE ▸ Nat.mod_lt _ (by decide)
  have hstklt : stk < 4294967296 := fstk ▸ read32_lt _ _
  have hfrmlt : frm < 4294967296 := ffrm ▸ read32_lt _ _
  have rh1 := (show Outside (sp - 64) (sp + 12) (M.base + 4) by unfold Outside; omega).rw
  have rh2 := (show Outside (sp - 64) (sp + 12) (M.base + 8) by unfold Outside; omega).rw
  have rh3 := (show Outside (sp - 64) (sp + 12) (M.base + 12) by unfold Outside; omega).rw
  have rh4 := (show Outside (sp - 64) (sp + 12) (M.base + 16) by unfold Outside; omega).rw
  have rh5 := (show Outside (sp - 64) (sp + 12) (M.base + 20) by unfold Outside; omega).rw
  have rh6 := (show Outside (sp - 64) (sp + 12) (M.base + 24) by unfold Outside; omega).rw
  have rh7 := (show Outside (sp - 64) (sp + 12) (M.base + 28) by unfold Outside; omega).rw
  have rmF : ∀ (m : Memory) (b v : Nat), sp - 64 ≤ b → b + 4 ≤ sp + 12 →
      readMap (write32 m b v) P N = readMap m P N :=
    fun m b v h1 h2 => readMap_write32 m b v P N (by omega)
  have rmE : ∀ (m : Memory) (v : Nat),
      readMap (write32 m (amxField A K.off_error) v) P N = readMap m P N :=
    fun m v => readMap_write32 m _ v P N mE
  clear hhd mF mE
  have roe := oe.rw
  have roc := oc.rw
  have rok := ok.rw
  have ror := or_.rw
  have roT := oT.rw
  have roT4 := oT4.rw
  have rpe := pe.rw
  have rpc := pc.rw
  have rpk := pk.rw
  have rpr := pr.rw
  have rpT := pT.rw
  have rpT4 := pT4.rw
  have race := ace.rws
  have rake := ake.rws
  have rare := are.rws
  have rakc := akc.rws
  have rarc := arc.rws
  have rark := ark.rws
  have raTe := aTe.rws
  have raTc := aTc.rws
  have raTk := aTk.rws
  have raTr := aTr.rws
  have raUe := aUe.rws
  have raUc := aUc.rws
  have raUk := aUk.rws
  have raUr := aUr.rws
  apply Exists.intro
  constructor
  · rewrite [show (48 : Nat) = 9 + 39 from rfl, run_peel M 9 39 _ _ (by
      simp (disch := first | omega | exact read32_lt _ _ | exact toU32_lt _) only [
        run, step, h.fetch_all, h.labels, h.ea_lbl, execInstr, execBin, execUn, readOp, writeOp,
        State.reg, State.setReg, push32, tpc_add, Nat.reduceAdd, ea_dword_ptr, loadSized_4,
        storeSized_4, dword_ptr_size, dword_ptr_lbl_size, sub32_eq, add32_eq, imm, toU32_lit,
        Nat.mod_eq_of_lt, read32_mod, sub32_mod, add32_mod, read32_write32_ne,
        read32_write32_same, Nat.reduceSub, Nat.sub_sub, amxField_lit, gotoLabel, cond_e_sub,
        cond_ne_sub, decide_eq_true_eq, ne_eq, not_false_eq_true, not_true_eq_false, if_true,
        if_false, decide_True, decide_False, Bool.false_eq_true, goto, sub_add_lit, Nat.sub_zero,
        Nat.add_assoc, h.ret_addrs, codeAddr_mod h, dword_ptr_idx_size, sub_add_lit2,
        ea_dword_ptr_idx, stackArgs_2, stackArgs_3, cResult_public, cResult_instr_ptr,
        CFunction.arity, Nat.add_zero, toSigned_lit, imul_4, readMap_write32, s1, s2, s3, s4, s5,
        s6, s7, f0, f4, f20, f24, fidx, fpc, fstk, ffrm, hpub, hpub0, hE, hi, hT, rh1, rh2, rh3,
        rh4, rh5, rh6, rh7, rmF, rmE, roe, roc, rok, ror, roT, roT4, rpe, rpc, rpk, rpr, rpT,
        rpT4, race, rake, rare, rakc, rarc, rark, raTe, raTc, raTk, raTr, raUe, raUc, raUk, raUr]
      rfl)]
    rewrite [show (39 : Nat) = 7 + 32 from rfl, run_peel M 7 32 _ _ (by
      simp (disch := first | omega | exact read32_lt _ _ | exact toU32_lt _) only [
        run, step, h.fetch_all, h.labels, h.ea_lbl, execInstr, execBin, execUn, readOp, writeOp,
        State.reg, State.setReg, push32, tpc_add, Nat.reduceAdd, ea_dword_ptr, loadSized_4,
        storeSized_4, dword_ptr_size, dword_ptr_lbl_size, sub32_eq, add32_eq, imm, toU32_lit,
        Nat.mod_eq_of_lt, read32_mod, sub32_mod, add32_mod, read32_write32_ne,
        read32_write32_same, Nat.reduceSub, Nat.sub_sub, amxField_lit, gotoLabel, cond_e_sub,
        cond_ne_sub, decide_eq_true_eq, ne_eq, not_false_eq_true, not_true_eq_false, if_true,
        if_false, decide_True, decide_False, Bool.false_eq_true, goto, sub_add_lit, Nat.sub_zero,
        Nat.add_assoc, h.ret_addrs, codeAddr_mod h, dword_ptr_idx_size, sub_add_lit2,
        ea_dword_ptr_idx, stackArgs_2, stackArgs_3, cResult_public, cResult_instr_ptr,
        CFunction.arity, Nat.add_zero, toSigned_lit, imul_4, readMap_write32, s1, s2, s3, s4, s5,
        s6, s7, f0, f4, f20, f24, fidx, fpc, fstk, ffrm, hpub, hpub0, hE, hi, hT, rh1, rh2, rh3,
        rh4, rh5, rh6, rh7, rmF, rmE, roe, roc, rok, ror, roT, roT4, rpe, rpc, rpk, rpr, rpT,
        rpT4, race, rake, rare, rakc, rarc, rark, raTe, raTc, raTk, raTr, raUe, raUc, raUk, raUr]
      rfl)]
    rewrite [show (32 : Nat) = 6 + 26 from rfl, run_peel M 6 26 _ _ (by
      simp (disch := first | omega | exact read32_lt _ _ | exact toU32_lt _) only [
        run, step, h.fetch_all, h.labels, h.ea_lbl, execInstr, execBin, execUn, readOp, writeOp,
        State.reg, State.setReg, push32, tpc_add, Nat.reduceAdd, ea_dword_ptr, loadSized_4,
        storeSized_4, dword_ptr_size, dword_ptr_lbl_size, sub32_eq, add32_eq, imm, toU32_lit,
        Nat.mod_eq_of_lt, read32_mod, sub32_mod, add32_mod, read32_write32_ne,
        read32_write32_same, Nat.reduceSub, Nat.sub_sub, amxField_lit, gotoLabel, cond_e_sub,
        cond_ne_sub, decide_eq_true_eq, ne_eq, not_false_eq_true, not_true_eq_false, if_true,
        if_false, decide_True, decide_False, Bool.false_eq_true, goto, sub_add_lit, Nat.sub_zero,
        Nat.add_assoc, h.ret_addrs, codeAddr_mod h, dword_ptr_idx_size, sub_add_lit2,
        ea_dword_ptr_idx, stackArgs_2, stackArgs_3, cResult_public, cResult_instr_ptr,
        CFunction.arity, Nat.add_zero, toSigned_lit, imul_4, readMap_write32, s1, s2, s3, s4, s5,
        s6, s7, f0, f4, f20, f24, fidx, fpc, fstk, ffrm, hpub, hpub0, hE, hi, hT, rh1, rh2, rh3,
        rh4, rh5, rh6, rh7, rmF, rmE, roe, roc, rok, ror, roT, roT4, rpe, rpc, rpk, rpr, rpT,
        rpT4, race, rake, rare, rakc, rarc, rark, raTe, raTc, raTk, raTr, raUe, raUc, raUk, raUr]
      rfl)]
    rewrite [show (26 : Nat) = 7 + 19 from rfl, run_peel M 7 19 _ _ (by
      simp (disch := first | omega | exact read32_lt _ _ | exact toU32_lt _) only [
        run, step, h.fetch_all, h.labels, h.ea_lbl, execInstr, execBin, execUn, readOp, writeOp,
        State.reg, State.setReg, push32, tpc_add, Nat.reduceAdd, ea_dword_ptr, loadSized_4,
        storeSized_4, dword_ptr_size, dword_ptr_lbl_size, sub32_eq, add32_eq, imm, toU32_lit,
        Nat.mod_eq_of_lt, read32_mod, sub32_mod, add32_mod, read32_write32_ne,
        read32_write32_same, Nat.reduceSub, Nat.sub_sub, amxField_lit, gotoLabel, cond_e_sub,
        cond_ne_sub, decide_eq_true_eq, ne_eq, not_false_eq_true, not_true_eq_false, if_true,
        if_false, decide_True, decide_False, Bool.false_eq_true, goto, sub_add_lit, Nat.sub_zero,
        Nat.add_assoc, h.ret_addrs, codeAddr_mod h, dword_ptr_idx_size, sub_add_lit2,
        ea_dword_ptr_idx, stackArgs_2, stackArgs_3, cResult_public, cResult_instr_ptr,
        CFunction.arity, Nat.add_zero, toSigned_lit, imul_4, readMap_write32, s1, s2, s3, s4, s5,
        s6, s7, f0, f4, f20, f24, fidx, fpc, fstk, ffrm, hpub, hpub0, hE, hi, hT, rh1, rh2, rh3,
        rh4, rh5, rh6, rh7, rmF, rmE, roe, roc, rok, ror, roT, roT4, rpe, rpc, rpk, rpr, rpT,
        rpT4, race, rake, rare, rakc, rarc, rark, raTe, raTc, raTk, raTr, raUe, raUc, raUk, raUr]
      rfl)]
    rewrite [show (19 : Nat) = 6 + 13 from rfl, run_peel M 6 13 _ _ (by
      simp (disch := first | omega | exact read32_lt _ _ | exact toU32_lt _) only [
        run, step, h.fetch_all, h.labels, h.ea_lbl, execInstr, execBin, execUn, readOp, writeOp,
        State.reg, State.setReg, push32, tpc_add, Nat.reduceAdd, ea_dword_ptr, loadSized_4,
        storeSized_4, dword_ptr_size, dword_ptr_lbl_size, sub32_eq, add32_eq, imm, toU32_lit,
        Nat.mod_eq_of_lt, read32_mod, sub32_mod, add32_mod, read32_write32_ne,
        read32_write32_same, Nat.reduceSub, Nat.sub_sub, amxField_lit, gotoLabel, cond_e_sub,
        cond_ne_sub, decide_eq_true_eq, ne_eq, not_false_eq_true, not_true_eq_false, if_true,
        if_false, decide_True, decide_False, Bool.false_eq_true, goto, sub_add_lit, Nat.sub_zero,
        Nat.add_assoc, h.ret_addrs, codeAddr_mod h, dword_ptr_idx_size, sub_add_lit2,
        ea_dword_ptr_idx, stackArgs_2, stackArgs_3, cResult_public, cResult_instr_ptr,
        CFunction.arity, Nat.add_zero, toSigned_lit, imul_4, readMap_write32, s1, s2, s3, s4, s5,
        s6, s7, f0, f4, f20, f24, fidx, fpc, fstk, ffrm, hpub, hpub0, hE, hi, hT, rh1, rh2, rh3,
        rh4, rh5, rh6, rh7, rmF, rmE, roe, roc, rok, ror, roT, roT4, rpe, rpc, rpk, rpr, rpT,
        rpT4, race, rake, rare, rakc, rarc, rark, raTe, raTc, raTk, raTr, raUe, raUc, raUk, raUr]
      rfl)]
    rewrite [show (13 : Nat) = 7 + 6 from rfl, run_peel M 7 6 _ _ (by
      simp (disch := first | omega | exact read32_lt _ _ | exact toU32_lt _) only [
        run, step, h.fetch_all, h.labels, h.ea_lbl, execInstr, execBin, execUn, readOp, writeOp,
        State.reg, State.setReg, push32, tpc_add, Nat.reduceAdd, ea_dword_ptr, loadSized_4,
        storeSized_4, dword_ptr_size, dword_ptr_lbl_size, sub32_eq, add32_eq, imm, toU32_lit,
        Nat.mod_eq_of_lt, read32_mod, sub32_mod, add32_mod, read32_write32_ne,
        read32_write32_same, Nat.reduceSub, Nat.sub_sub, amxField_lit, gotoLabel, cond_e_sub,
        cond_ne_sub, decide_eq_true_eq, ne_eq, not_false_eq_true, not_true_eq_false, if_true,
        if_false, decide_True, decide_False, Bool.false_eq_true, goto, sub_add_lit, Nat.sub_zero,
        Nat.add_assoc, h.ret_addrs, codeAddr_mod h, dword_ptr_idx_size, sub_add_lit2,
        ea_dword_ptr_idx, stackArgs_2, stackArgs_3, cResult_public, cResult_instr_ptr,
        CFunction.arity, Nat.add_zero, toSigned_lit, imul_4, readMap_write32, s1, s2, s3, s4, s5,
        s6, s7, f0, f4, f20, f24, fidx, fpc, fstk, ffrm, hpub, hpub0, hE, hi, hT, rh1, rh2, rh3,
        rh4, rh5, rh6, rh7, rmF, rmE, roe, roc, rok, ror, roT, roT4, rpe, rpc, rpk, rpr, rpT,
        rpT4, race, rake, rare, rakc, rarc, rark, raTe, raTc, raTk, raTr, raUe, raUc, raUk, raUr]
      rfl)]
    simp (disch := first | omega | exact read32_lt _ _ | exact toU32_lt _) only [
      run, step, h.fetch_all, h.labels, h.ea_lbl, execInstr, execBin, execUn, readOp, writeOp,
      State.reg, State.setReg, push32, tpc_add, Nat.reduceAdd, ea_dword_ptr, loadSized_4,
      storeSized_4, dword_ptr_size, dword_ptr_lbl_size, sub32_eq, add32_eq, imm, toU32_lit,
      Nat.mod_eq_of_lt, read32_mod, sub32_mod, add32_mod, read32_write32_ne, read32_write32_same,
      Nat.reduceSub, Nat.sub_sub, amxField_lit, gotoLabel, cond_e_sub, cond_ne_sub,
      decide_eq_true_eq, ne_eq, not_false_eq_true, not_true_eq_false, if_true, if_false,
      decide_True, decide_False, Bool.false_eq_true, goto, sub_add_lit, Nat.sub_zero,
      Nat.add_assoc, h.ret_addrs, codeAddr_mod h, dword_ptr_idx_size, sub_add_lit2,
      ea_dword_ptr_idx, stackArgs_2, stackArgs_3, cResult_public, cResult_instr_ptr,
      CFunction.arity, Nat.add_zero, toSigned_lit, imul_4, readMap_write32, s1, s2, s3, s4, s5,
      s6, s7, f0, f4, f20, f24, fidx, fpc, fstk, ffrm, hpub, hpub0, hE, hi, hT, rh1, rh2, rh3,
      rh4, rh5, rh6, rh7, rmF, rmE, roe, roc, rok, ror, roT, roT4, rpe, rpc, rpk, rpr, rpT, rpT4,
      race, rake, rare, rakc, rarc, rark, raTe, raTc, raTk, raTr, raUe, raUc, raUk, raUr]
    rfl
  · have hpc4 : 4 * pcnt < 4294967296 := by omega
    simp (disch := first | omega | exact toU32_lt _) only [read32_write32_ne, read32_write32_same, Nat.mod_eq_of_lt, and_self, amxField_lit,
        codeAddr_mod h, List.append_assoc, List.cons_append, List.nil_append, rh1, rh2, rh3, rh4,
        rh5, rh6, rh7, rmF, rmE, roe, roc, rok, ror, roT, roT4, rpe, rpc, rpk, rpr, rpT, rpT4,
        race, rake, rare, rakc, rarc, rark, raTe, raTc, raTk, raTr, raUe, raUc, raUk, raUr, s1,
        f0, add32_mod, and_true, true_and]

set_option maxHeartbeats 4000000 in
/-- From the end of the checks of `exec` to the first instruction of
`exec_helper`: the header slots `l_ebp` and `l_esp` are as they were. -/
theorem exec_forward_entry {K : AmxH} {M : Machine} {n : Nat} (h : Loaded K M n)
    (eax ecx edx D sp edi : Nat) (flags : Flags) (df : Bool) (m : Memory)
    (calls : List CallEvent)
    (A idx pub N P E pcnt stk frm R4 R5 S2 S3 T i w4 w20 w24 ret : Nat)
    (hsp : 64 ≤ sp) (hsp2 : sp + 12 ≤ 4294967296) (hA : A < 4294967296)
    (hD : D < 4294967296)
    (hhd : M.base + 32 ≤ sp - 64 ∨ sp + 12 ≤ M.base)
    (s1 : read32 m (M.base + 4) = A) (s2 : read32 m (M.base + 8) = S2)
    (s3 : read32 m (M.base + 12) = S3) (s4 : read32 m (M.base + 16) = R4)
    (s5 : read32 m (M.base + 20) = R5) (s6 : read32 m (M.base + 24) = N)
    (s7 : read32 m (M.base + 28) = P)
    (f0 : read32 m sp = ret) (f4 : read32 m (sp - 4) = w4) (f20 : read32 m (sp - 20) = w20)
    (f24 : read32 m (sp - 24) = w24)
    (fidx : read32 m (sp + 4) = idx)
    (fpc : read32 m (amxField A K.off_paramcount) = pcnt)
    (fstk : read32 m (amxField A K.off_stk) = stk)
    (ffrm : read32 m (amxField A K.off_frm) = frm)
    (hpub : M.env.get_public_addr A idx % 4294967296 = pub) (hpub0 : pub ≠ 0)
    (hE : get_instr_ptr (toSigned pub) (readMap m P N) N % 4294967296 = E)
    (hi : codeIndex M E = some i)
    (hpc : pcnt < 536870912) (hstk : 4 ≤ stk) (hT : D + (stk - 4) = T) (hT4 : 4 ≤ T)
    (hT2 : T < 4294967296)
    (mF : sp + 12 ≤ P ∨ P + 8 * N ≤ sp - 64)
    (mE : amxField A K.off_error + 4 ≤ P ∨ P + 8 * N ≤ amxField A K.off_error)
    (oe : Outside (sp - 64) (sp + 12) (amxField A K.off_error))
    (oc : Outside (sp - 64) (sp + 12) (amxField A K.off_paramcount))
    (ok : Outside (sp - 64) (sp + 12) (amxField A K.off_stk))
    (or_ : Outside (sp - 64) (sp + 12) (amxField A K.off_frm))
    (oT : Outside (sp - 64) (sp + 12) T) (oT4 : Outside (sp - 64) (sp + 12) (T - 4))
    (pe : Outside M.base (M.base + 32) (amxField A K.off_error))
    (pc : Outside M.base (M.base + 32) (amxField A K.off_paramcount))
    (pk : Outside M.base (M.base + 32) (amxField A K.off_stk))
    (pr : Outside M.base (M.base + 32) (amxField A K.off_frm))
    (pT : Outside M.base (M.base + 32) T) (pT4 : Outside M.base (M.base + 32) (T - 4))
    (ace : Apart (amxField A K.off_paramcount) (amxField A K.off_error))
    (ake : Apart (amxField A K.off_stk) (amxField A K.off_error))
    (are : Apart (amxField A K.off_frm) (amxField A K.off_error))
    (akc : Apart (amxField A K.off_stk) (amxField A K.off_paramcount))
    (arc : Apart (amxField A K.off_frm) (amxField A K.off_paramcount))
    (ark : Apart (amxField A K.off_frm) (amxField A K.off_stk))
    (aTe : Apart T (amxField A K.off_error)) (aTc : Apart T (amxField A K.off_paramcount))
    (aTk : Apart T (amxField A K.off_stk)) (aTr : Apart T (amxField A K.off_frm))
    (aUe : Apart (T - 4) (amxField A K.off_error))
    (aUc : Apart (T - 4) (amxField A K.off_paramcount))
    (aUk : Apart (T - 4) (amxField A K.off_stk)) (aUr : Apart (T - 4) (amxField A K.off_frm)) :
    ∃ t, run M 29 ⟨eax, ecx, edx, D, sp - 24, sp - 4, A, edi, flags, df, m, tpc n 80,
        .running, calls⟩ = t ∧ t.pc = tpc n 1 ∧ t.status = .running ∧
      read32 t.mem (M.base + 8) = S2 ∧ read32 t.mem (M.base + 12) = S3 := by
  have hb := h.base_lt
  have hw4 : w4 < 4294967296 := f4 ▸ read32_lt _ _
  have hw20 : w20 < 4294967296 := f20 ▸ read32_lt _ _
  have hw24 : w24 < 4294967296 := f24 ▸ read32_lt _ _
  have hR4 : R4 < 4294967296 := s4 ▸ read32_lt _ _
  have hR5 : R5 < 4294967296 := s5 ▸ read32_lt _ _
  have hS2 : S2 < 4294967296 := s2 ▸ read32_lt _ _
  have hS3 : S3 < 4294967296 := s3 ▸ read32_lt _ _
  have hN : N < 4294967296 := s6 ▸ read32_lt _ _
  have hP : P < 4294967296 := s7 ▸ read32_lt _ _
  have hidx : idx < 4294967296 := fidx ▸ read32_lt _ _
  have hpublt : pub < 4294967296 := hpub ▸ Nat.mod_lt _ (by decide)
  have hElt : E < 4294967296 := hE ▸ Nat.mod_lt _ (by decide)
  have hstklt : stk < 4294967296 := fstk ▸ read32_lt _ _
  have hfrmlt : frm < 4294967296 := ffrm ▸ read32_lt _ _
  have rh1 := (show Outside (sp - 64) (sp + 12) (M.base + 4) by unfold Outside; omega).rw
  have rh2 := (show Outside (sp - 64) (sp + 12) (M.base + 8) by unfold Outside; omega).rw
  have rh3 := (show Outside (sp - 64) (sp + 12) (M.base + 12) by unfold Outside; omega).rw
  have rh4 := (show Outside (sp - 64) (sp + 12) (M.base + 16) by unfold Outside; omega).rw
  have rh5 := (show Outside (sp - 64) (sp + 12) (M.base + 20) by unfold Outside; omega).rw
  have rh6 := (show Outside (sp - 64) (sp + 12) (M.base + 24) by unfold Outside; omega).rw
  have rh7 := (show Outside (sp - 64) (sp + 12) (M.base + 28) by unfold Outside; omega).rw
  have rmF : ∀ (m : Memory) (b v : Nat), sp - 64 ≤ b → b + 4 ≤ sp + 12 →
      readMap (write32 m b v) P N = readMap m P N :=
    fun m b v h1 h2 => readMap_write32 m b v P N (by omega)
  have rmE : ∀ (m : Memory) (v : Nat),
      readMap (write32 m (amxField A K.off_error) v) P N = readMap m P N :=
    fun m v => readMap_write32 m _ v P N mE
  clear hhd mF mE
  have roe := oe.rw
  have roc := oc.rw
  have rok := ok.rw
  have ror := or_.rw
  have roT := oT.rw
  have roT4 := oT4.rw
  have rpe := pe.rw
  have rpc := pc.rw
  have rpk := pk.rw
  have rpr := pr.rw
  have rpT := pT.rw
  have rpT4 := pT4.rw
  have race := ace.rws
  have rake := ake.rws
  have rare := are.rws
  have rakc := akc.rws
  have rarc := arc.rws
  have rark := ark.rws
  have raTe := aTe.rws
  have raTc := aTc.rws
  have raTk := aTk.rws
  have raTr := aTr.rws
  have raUe := aUe.rws
  have raUc := aUc.rws
  have raUk := aUk.rws
  have raUr := aUr.rws
  apply Exists.intro
  constructor
  · rewrite [show (29 : Nat) = 9 + 20 from rfl, run_peel M 9 20 _ _ (by
      simp (disch := first | omega | exact read32_lt _ _ | exact toU32_lt _) only [
        run, step, h.fetch_all, h.labels, h.ea_lbl, execInstr, execBin, execUn, readOp, writeOp,
        State.reg, State.setReg, push32, tpc_add, Nat.reduceAdd, ea_dword_ptr, loadSized_4,
        storeSized_4, dword_ptr_size, dword_ptr_lbl_size, sub32_eq, add32_eq, imm, toU32_lit,
        Nat.mod_eq_of_lt, read32_mod, sub32_mod, add32_mod, read32_write32_ne,
        read32_write32_same, Nat.reduceSub, Nat.sub_sub, amxField_lit, gotoLabel, cond_e_sub,
        cond_ne_sub, decide_eq_true_eq, ne_eq, not_false_eq_true, not_true_eq_false, if_true,
        if_false, decide_True, decide_False, Bool.false_eq_true, goto, sub_add_lit, Nat.sub_zero,
        Nat.add_assoc, h.ret_addrs, codeAddr_mod h, dword_ptr_idx_size, sub_add_lit2,
        ea_dword_ptr_idx, stackArgs_2, stackArgs_3, cResult_public, cResult_instr_ptr,
        CFunction.arity, Nat.add_zero, toSigned_lit, imul_4, readMap_write32, s1, s2, s3, s4, s5,
        s6, s7, f0, f4, f20, f24, fidx, fpc, fstk, ffrm, hpub, hpub0, hE, hi, hT, rh1, rh2, rh3,
        rh4, rh5, rh6, rh7, rmF, rmE, roe, roc, rok, ror, roT, roT4, rpe, rpc, rpk, rpr, rpT,
        rpT4, race, rake, rare, rakc, rarc, rark, raTe, raTc, raTk, raTr, raUe, raUc, raUk, raUr]
      rfl)]
    rewrite [show (20 : Nat) = 7 + 13 from rfl, run_peel M 7 13 _ _ (by
      simp (disch := first | omega | exact read32_lt _ _ | exact toU32_lt _) only [
        run, step, h.fetch_all, h.labels, h.ea_lbl, execInstr, execBin, execUn, readOp, writeOp,
        State.reg, State.setReg, push32, tpc_add, Nat.reduceAdd, ea_dword_ptr, loadSized_4,
        storeSized_4, dword_ptr_size, dword_ptr_lbl_size, sub32_eq, add32_eq, imm, toU32_lit,
        Nat.mod_eq_of_lt, read32_mod, sub32_mod, add32_mod, read32_write32_ne,
        read32_write32_same, Nat.reduceSub, Nat.sub_sub, amxField_lit, gotoLabel, cond_e_sub,
        cond_ne_sub, decide_eq_true_eq, ne_eq, not_false_eq_true, not_true_eq_false, if_true,
        if_false, decide_True, decide_False, Bool.false_eq_true, goto, sub_add_lit, Nat.sub_zero,
        Nat.add_assoc, h.ret_addrs, codeAddr_mod h, dword_ptr_idx_size, sub_add_lit2,
        ea_dword_ptr_idx, stackArgs_2, stackArgs_3, cResult_public, cResult_instr_ptr,
        CFunction.arity, Nat.add_zero, toSigned_lit, imul_4, readMap_write32, s1, s2, s3, s4, s5,
        s6, s7, f0, f4, f20, f24, fidx, fpc, fstk, ffrm, hpub, hpub0, hE, hi, hT, rh1, rh2, rh3,
        rh4, rh5, rh6, rh7, rmF, rmE, roe, roc, rok, ror, roT, roT4, rpe, rpc, rpk, rpr, rpT,
        rpT4, race, rake, rare, rakc, rarc, rark, raTe, raTc, raTk, raTr, raUe, raUc, raUk, raUr]
      rfl)]
    rewrite [show (13 : Nat) = 6 + 7 from rfl, run_peel M 6 7 _ _ (by
      simp (disch := first | omega | exact read32_lt _ _ | exact toU32_lt _) only [
        run, step, h.fetch_all, h.labels, h.ea_lbl, execInstr, execBin, execUn, readOp, writeOp,
        State.reg, State.setReg, push32, tpc_add, Nat.reduceAdd, ea_dword_ptr, loadSized_4,
        storeSized_4, dword_ptr_size, dword_ptr_lbl_size, sub32_eq, add32_eq, imm, toU32_lit,
        Nat.mod_eq_of_lt, read32_mod, sub32_mod, add32_mod, read32_write32_ne,
        read32_write32_same, Nat.reduceSub, Nat.sub_sub, amxField_lit, gotoLabel, cond_e_sub,
        cond_ne_sub, decide_eq_true_eq, ne_eq, not_false_eq_true, not_true_eq_false, if_true,
        if_false, decide_True, decide_False, Bool.false_eq_true, goto, sub_add_lit, Nat.sub_zero,
        Nat.add_assoc, h.ret_addrs, codeAddr_mod h, dword_ptr_idx_size, sub_add_lit2,
        ea_dword_ptr_idx, stackArgs_2, stackArgs_3, cResult_public, cResult_instr_ptr,
        CFunction.arity, Nat.add_zero, toSigned_lit, imul_4, readMap_write32, s1, s2, s3, s4, s5,
        s6, s7, f0, f4, f20, f24, fidx, fpc, fstk, ffrm, hpub, hpub0, hE, hi, hT, rh1, rh2, rh3,
        rh4, rh5, rh6, rh7, rmF, rmE, roe, roc, rok, ror, roT, roT4, rpe, rpc, rpk, rpr, rpT,
        rpT4, race, rake, rare, rakc, rarc, rark, raTe, raTc, raTk, raTr, raUe, raUc, raUk, raUr]
      rfl)]
    simp (disch := first | omega | exact read32_lt _ _ | exact toU32_lt _) only [
      run, step, h.fetch_all, h.labels, h.ea_lbl, execInstr, execBin, execUn, readOp, writeOp,
      State.reg, State.setReg, push32, tpc_add, Nat.reduceAdd, ea_dword_ptr, loadSized_4,
      storeSized_4, dword_ptr_size, dword_ptr_lbl_size, sub32_eq, add32_eq, imm, toU32_lit,
      Nat.mod_eq_of_lt, read32_mod, sub32_mod, add32_mod, read32_write32_ne, read32_write32_same,
      Nat.reduceSub, Nat.sub_sub, amxField_lit, gotoLabel, cond_e_sub, cond_ne_sub,
      decide_eq_true_eq, ne_eq, not_false_eq_true, not_true_eq_false, if_true, if_false,
      decide_True, decide_False, Bool.false_eq_true, goto, sub_add_lit, Nat.sub_zero,
      Nat.add_assoc, h.ret_addrs, codeAddr_mod h, dword_ptr_idx_size, sub_add_lit2,
      ea_dword_ptr_idx, stackArgs_2, stackArgs_3, cResult_public, cResult_instr_ptr,
      CFunction.arity, Nat.add_zero, toSigned_lit, imul_4, readMap_write32, s1, s2, s3, s4, s5,
      s6, s7, f0, f4, f20, f24, fidx, fpc, fstk, ffrm, hpub, hpub0, hE, hi, hT, rh1, rh2, rh3,
      rh4, rh5, rh6, rh7, rmF, rmE, roe, roc, rok, ror, roT, roT4, rpe, rpc, rpk, rpr, rpT, rpT4,
      race, rake, rare, rakc, rarc, rark, raTe, raTc, raTk, raTr, raUe, raUc, raUk, raUr]
    rfl
  · simp (disch := first | omega | exact toU32_lt _) only [read32_write32_ne, read32_write32_same, Nat.mod_eq_of_lt, and_self, amxField_lit,
      codeAddr_mod h, List.append_assoc, List.cons_append, List.nil_append, rh1, rh2, rh3, rh4,
      rh5, rh6, rh7, rmF, rmE, roe, roc, rok, ror, roT, roT4, rpe, rpc, rpk, rpr, rpT, rpT4, race,
      rake, rare, rakc, rarc, rark, raTe, raTc, raTk, raTr, raUe, raUc, raUk, raUr, s2, s3,
      true_and]
/-! ## The code of two small publics -/

/-- The code of `PROC; RETN`, entered through `call eax` of `exec_helper`,
returns to `exec_helper` with `eax` as it was; it writes only inside the `AMX`
stack. -/
theorem proc_retn_run {K : AmxH} {M : Machine} {n : Nat} (h : Loaded K M n)
    (eax ecx edx D bp esi edi : Nat) (flags : Flags) (df : Bool) (m : Memory)
    (calls : List CallEvent) (T pcnt i : Nat)
    (hbp : bp < 4294967296)
    (hT8 : 8 ≤ T) (hT : T + 4 * pcnt + 8 ≤ 4294967296)
    (c0 : M.items[i]? = some (Item.instr (.un .push (.reg .ebp))))
    (c1 : M.items[i + 1]? = some (Item.instr (.bin .mov (.reg .ebp) (.reg .esp))))
    (c2 : M.items[i + 2]? = some (Item.instr (.bin .sub (.mem (dword_ptr .esp 0)) (.reg .ebx))))
    (c3 : M.items[i + 3]? = some (Item.instr (.un .pop (.reg .ebp))))
    (c4 : M.items[i + 4]? = some (Item.instr (.bin .add (.reg .ebp) (.reg .ebx))))
    (c5 : M.items[i + 5]? = some (Item.instr (.un .pop (.reg .edx))))
    (c6 : M.items[i + 6]? = some (Item.instr (.bin .add (.reg .esp) (.mem (dword_ptr .esp 0)))))
    (c7 : M.items[i + 7]? = some (Item.instr (.un .push (.reg .edx))))
    (c8 : M.items[i + 8]? = some (Item.instr (.ret_imm 4)))
    (fr : read32 m (T - 4) = codeAddr M (tpc n 20))
    (fp : read32 m T = 4 * pcnt) :
    ∃ t, run M 9 ⟨eax, ecx, edx, D, T - 4, bp, esi, edi, flags, df, m, i, .running, calls⟩ = t ∧
      t.pc = tpc n 20 ∧ t.status = .running ∧ t.eax = eax ∧ t.calls = calls ∧
      ∀ x, (x < T - 8 ∨ T + 4 * pcnt ≤ x) → t.mem x = m x := by
  apply Exists.intro
  constructor
  · simp (disch := first | omega | exact read32_lt _ _ | exact toU32_lt _) only [
      run, step, h.fetch_all, h.labels, h.ea_lbl, execInstr, execBin, execUn, readOp, writeOp,
      State.reg, State.setReg, push32, tpc_add, Nat.reduceAdd, ea_dword_ptr, loadSized_4,
      storeSized_4, dword_ptr_size, dword_ptr_lbl_size, sub32_eq, add32_eq, imm, toU32_lit,
      Nat.mod_eq_of_lt, read32_mod, sub32_mod, add32_mod, read32_write32_ne, read32_write32_same,
      Nat.reduceSub, Nat.sub_sub, amxField_lit, gotoLabel, cond_e_sub, cond_ne_sub,
      decide_eq_true_eq, ne_eq, not_false_eq_true, not_true_eq_false, if_true, if_false,
      decide_True, decide_False, Bool.false_eq_true, goto, sub_add_lit, Nat.sub_zero,
      Nat.add_assoc, h.ret_addrs, codeAddr_mod h, dword_ptr_idx_size, sub_add_lit2, Nat.add_zero,
      c0, c1, c2, c3, c4, c5, c6, c7, c8, fr, fp]
    rfl
  · refine ⟨rfl, rfl, rfl, rfl, ?_⟩
    intro x hx
    show write32 _ _ _ x = m x
    rw [write32_outside _ _ _ _ (by omega), write32_outside _ _ _ _ (by omega),
      write32_outside _ _ _ _ (by omega)]

theorem ExecEntry.state_eq {K : AmxH} {M : Machine} {n : Nat} {s : State} {A : Nat}
    (he : ExecEntry K M n s A) :
    s = ⟨s.eax, s.ecx, s.edx, s.ebx, s.esp, s.ebp, s.esi, s.edi, s.flags, s.df, s.mem,
      tpc n 38, .running, s.calls⟩ := by
  have h1 := he.pc
  have h2 := he.running
  cases s
  simp only at h1 h2
  subst h1 h2
  rfl

theorem ExecEntry.slot {K : AmxH} {M : Machine} {n : Nat} {s : State} {A : Nat}
    (he : ExecEntry K M n s A) (k : Nat) (hk : k + 4 ≤ 32) :
    read32 (exec_saves s) (M.base + k) = read32 s.mem (M.base + k) :=
  exec_saves_read s _ he.frame_lo (by have := he.header; unfold Outside; omega)

theorem exec_saves_arg (s : State) (hsp : 64 ≤ s.esp) (k : Nat) :
    read32 (exec_saves s) (s.esp + k) = read32 s.mem (s.esp + k) := by
  unfold exec_saves
  rw [read32_write32_ne _ _ _ _ (by omega), read32_write32_ne _ _ _ _ (by omega),
    read32_write32_ne _ _ _ _ (by omega)]

theorem ExecPass.data_saved {K : AmxH} {M : Machine} {n : Nat} {s : State} {A : Nat}
    (hp : ExecPass K M n s A) : data_ptr K (exec_saves s) A = data_ptr K s.mem A := by
  have he := hp.entry
  unfold data_ptr field
  rw [he.field_saved K.off_data (by simp [amx_fields]),
    he.field_saved K.off_base (by simp [amx_fields]),
    exec_saves_read s _ he.frame_lo hp.hdr]
  rfl

theorem data_ptr_lt (K : AmxH) (mem : Memory) (A : Nat) : data_ptr K mem A < 4294967296 := by
  unfold data_ptr
  split
  · exact add32_lt _ _
  · exact read32_lt _ _

theorem exec_saves_map (s : State) (p n : Nat) (hsp : 64 ≤ s.esp)
    (hm : s.esp + 12 ≤ p ∨ p + 8 * n ≤ s.esp - 64) :
    readMap (exec_saves s) p n = readMap s.mem p n := by
  unfold exec_saves
  rw [readMap_write32 _ _ _ _ _ (by omega), readMap_write32 _ _ _ _ _ (by omega),
    readMap_write32 _ _ _ _ _ (by omega)]

theorem Apart.symm {a b : Nat} (h : Apart a b) : Apart b a := by
  unfold Apart at *
  omega

theorem ExecPass.apart {K : AmxH} {M : Machine} {n : Nat} {s : State} {A : Nat}
    (hp : ExecPass K M n s A) :
    Apart (amxField A K.off_paramcount) (amxField A K.off_error) ∧
    Apart (amxField A K.off_stk) (amxField A K.off_error) ∧
    Apart (amxField A K.off_frm) (amxField A K.off_error) ∧
    Apart (amxField A K.off_stk) (amxField A K.off_paramcount) ∧
    Apart (amxField A K.off_frm) (amxField A K.off_paramcount) ∧
    Apart (amxField A K.off_frm) (amxField A K.off_stk) := by
  have h := hp.record_apart
  simp only [amx_fields, List.pairwise_cons, List.mem_cons, List.mem_singleton,
    forall_eq_or_imp, forall_eq, List.not_mem_nil, List.Pairwise.nil, and_true, false_implies,
    implies_true] at h
  obtain ⟨-, -, ⟨-, -, hfk, -, -, hfe, hfc⟩, -, -, ⟨-, -, hke, hkc⟩, -, -, hec⟩ := h
  exact ⟨hec.symm, hke, hfe, hkc, hfc, hfk⟩

theorem ExecPass.top_facts {K : AmxH} {M : Machine} {n : Nat} {s : State} {A : Nat}
    (hp : ExecPass K M n s A) (off : Int) (hoff : off ∈ amx_fields K) :
    Outside (s.esp - 64) (s.esp + 12) (exec_top K s A) ∧
    Outside (s.esp - 64) (s.esp + 12) (exec_top K s A - 4) ∧
    Outside M.base (M.base + 32) (exec_top K s A) ∧
    Outside M.base (M.base + 32) (exec_top K s A - 4) ∧
    Apart (exec_top K s A) (amxField A off) ∧
    Apart (exec_top K s A - 4) (amxField A off) := by
  have h1 := hp.stack_frame
  have h2 := hp.stack_header
  have h3 := hp.stack_record off hoff
  have h4 := hp.top_lo
  unfold Outside Apart at *
  omega

set_option maxHeartbeats 1000000 in
/-- From the first instruction of `exec` to the first instruction of the
public, for a call that passes the checks. -/
theorem exec_to_call {K : AmxH} {M : Machine} {n : Nat} (h : Loaded K M n) (s : State)
    (A : Nat) (hp : ExecPass K M n s A) (i : Nat)
    (hi : codeIndex M (exec_target M s A) = some i) :
    ∃ t, run M (exec_call_steps K s A) s = t ∧
      t.eax = exec_target M s A ∧ t.ebx = data_ptr K s.mem A ∧ t.esp = exec_top K s A - 4 ∧
      t.ebp = add32 (data_ptr K s.mem A) (field s.mem A K.off_frm) ∧ t.pc = i ∧
      t.status = .running ∧
      t.calls = s.calls ++ [⟨.get_public_addr, [A, read32 s.mem (s.esp + 4)]⟩,
        ⟨.get_instr_ptr, [exec_public M s A, read32 s.mem (M.base + 28),
          read32 s.mem (M.base + 24)]⟩] ∧
      read32 t.mem (M.base + 4) = A ∧ read32 t.mem (M.base + 8) = s.esp - 4 ∧
      read32 t.mem (M.base + 12) = s.esp - 60 ∧
      read32 t.mem (M.base + 16) = add32 (data_ptr K s.mem A) (field s.mem A K.off_frm) ∧
      read32 t.mem (M.base + 20) = exec_top K s A - 4 ∧
      read32 t.mem s.esp = read32 s.mem s.esp ∧
      read32 t.mem (s.esp - 12) = read32 s.mem (M.base + 16) ∧
      read32 t.mem (s.esp - 16) = read32 s.mem (M.base + 20) ∧
      read32 t.mem (s.esp - 32) = codeAddr M (tpc n 110) ∧ read32 t.mem (s.esp - 36) = A ∧
      read32 t.mem (s.esp - 56) = read32 s.mem (M.base + 8) ∧
      read32 t.mem (s.esp - 60) = read32 s.mem (M.base + 12) ∧
      read32 t.mem (amxField A K.off_error) = toU32 K.AMX_ERR_NONE ∧
      read32 t.mem (amxField A K.off_stk) = field s.mem A K.off_stk - 4 ∧
      read32 t.mem (amxField A K.off_paramcount) = 0 ∧
      read32 t.mem (exec_top K s A) = 4 * field s.mem A K.off_paramcount ∧
      read32 t.mem (exec_top K s A - 4) = codeAddr M (tpc n 20) := by
  have he := hp.entry
  have hlo := he.frame_lo
  have hhi := he.frame_hi
  have hA : A < 4294967296 := he.amx ▸ read32_lt _ _
  obtain ⟨ace, ake, are, akc, arc, ark⟩ := hp.apart
  obtain ⟨oT, oT4, pT, pT4, aTe, aUe⟩ := hp.top_facts K.off_error (by simp [amx_fields])
  obtain ⟨-, -, -, -, aTc, aUc⟩ := hp.top_facts K.off_paramcount (by simp [amx_fields])
  obtain ⟨-, -, -, -, aTk, aUk⟩ := hp.top_facts K.off_stk (by simp [amx_fields])
  obtain ⟨-, -, -, -, aTr, aUr⟩ := hp.top_facts K.off_frm (by simp [amx_fields])
  have hdat : field (exec_saves s) A K.off_data = field s.mem A K.off_data :=
    he.field_saved K.off_data (by simp [amx_fields])
  obtain ⟨e, f, hk⟩ := exec_prologue h s.eax s.ecx s.edx s.ebx s.esp s.ebp s.esi s.edi s.flags
    s.df s.mem s.calls A (by omega) (by omega) he.amx
    (by have := he.header; unfold Outside; omega)
  rw [← he.state_eq] at hk
  change run M (if field (exec_saves s) A K.off_data = 0 then 14 else 11) s =
    ⟨e, s.ecx, s.edx, data_ptr K (exec_saves s) A, s.esp - 24, s.esp - 4, A, s.edi, f, s.df,
     exec_saves s, tpc n 52, .running, s.calls⟩ at hk
  rw [hdat, hp.data_saved] at hk
  obtain ⟨c, d, g, hj⟩ := exec_check_pass h e s.ecx s.edx (data_ptr K s.mem A) s.esp s.edi f
    s.df (exec_saves s) s.calls A
    (by rw [he.field_saved K.off_hea (by simp [amx_fields]),
      he.field_saved K.off_stk (by simp [amx_fields])]; exact hp.hea_stk)
    (by rw [he.field_saved K.off_hlw (by simp [amx_fields]),
      he.field_saved K.off_hea (by simp [amx_fields])]; exact hp.hlw_hea)
    (by rw [he.field_saved K.off_stk (by simp [amx_fields]),
      he.field_saved K.off_stp (by simp [amx_fields])]; exact hp.stk_stp)
    (by rw [he.field_saved K.off_flags (by simp [amx_fields])]; exact hp.natives)
  obtain ⟨t, ht, hc⟩ := exec_forward h e c d (data_ptr K s.mem A) s.esp s.edi g s.df
    (exec_saves s) s.calls A (read32 s.mem (s.esp + 4)) (exec_public M s A)
    (read32 s.mem (M.base + 24)) (read32 s.mem (M.base + 28)) (exec_target M s A)
    (field s.mem A K.off_paramcount) (field s.mem A K.off_stk) (field s.mem A K.off_frm)
    (read32 s.mem (M.base + 16)) (read32 s.mem (M.base + 20)) (read32 s.mem (M.base + 8))
    (read32 s.mem (M.base + 12)) (exec_top K s A) i _ _ _ (read32 s.mem s.esp)
    hlo hhi hA (data_ptr_lt K s.mem A) he.header
    (by rw [he.slot 4 (by omega)]; exact he.amx) (he.slot 8 (by omega)) (he.slot 12 (by omega))
    (he.slot 16 (by omega)) (he.slot 20 (by omega)) (he.slot 24 (by omega))
    (he.slot 28 (by omega))
    (exec_saves_ret s hlo) rfl rfl rfl (exec_saves_arg s hlo 4)
    (he.field_saved K.off_paramcount (by simp [amx_fields]))
    (he.field_saved K.off_stk (by simp [amx_fields]))
    (he.field_saved K.off_frm (by simp [amx_fields]))
    rfl hp.found
    (by rw [exec_saves_map s _ _ hlo hp.map_frame]; rfl)
    hi hp.params hp.stk_lo rfl (by have := hp.top_lo; omega)
    (by have := hp.top_hi; omega)
    hp.map_frame hp.map_error
    (hp.entry.record K.off_error (by simp [amx_fields])) (hp.entry.record K.off_paramcount (by simp [amx_fields])) (hp.entry.record K.off_stk (by simp [amx_fields])) (hp.entry.record K.off_frm (by simp [amx_fields])) oT oT4 (hp.record_header K.off_error (by simp [amx_fields])) (hp.record_header K.off_paramcount (by simp [amx_fields])) (hp.record_header K.off_stk (by simp [amx_fields])) (hp.record_header K.off_frm (by simp [amx_fields])) pT pT4
    ace ake are akc arc ark aTe aTc aTk aTr aUe aUc aUk aUr
  refine ⟨t, ?_, hc⟩
  unfold exec_call_steps
  rw [show (if field s.mem A K.off_data = 0 then 14 else 11) + 68 =
    (if field s.mem A K.off_data = 0 then 14 else 11) + 20 + 48 by omega,
    run_add, run_add, hk, hj, ht]

theorem State.eq_lit (t : State) (p : Nat) (h1 : t.pc = p) (h2 : t.status = .running) :
    t = ⟨t.eax, t.ecx, t.edx, t.ebx, t.esp, t.ebp, t.esi, t.edi, t.flags, t.df, t.mem, p,
      .running, t.calls⟩ := by
  cases t
  simp only at h1 h2
  subst h1 h2
  rfl

theorem read32_agree (m1 m2 : Memory) (lo hi a : Nat)
    (h : ∀ x, lo ≤ x → x < hi → m2 x = m1 x) (h1 : lo ≤ a) (h2 : a + 4 ≤ hi) :
    read32 m2 a = read32 m1 a :=
  read32_congr _ _ _ (fun x hx1 hx2 => h x (by omega) (by omega))

/-- A call of `exec` whose public comes back: `exec` returns what the field
`error` holds when the called code is back in `exec_helper`, clears that
field, and the four slots `l_ebp`, `l_esp`, `l_reset_ebp` and `l_reset_esp`
hold what they held when `exec` was entered. -/
theorem exec_finish {K : AmxH} {M : Machine} {n : Nat} (h : Loaded K M n) (s : State)
    (A : Nat) (hp : ExecPass K M n s A) (i : Nat)
    (hi : codeIndex M (exec_target M s A) = some i)
    (j : Nat) (hb : ComesBack K M n s A j) :
    ∃ k t, run M k s = t ∧ t.status = .exited (read32 s.mem s.esp) ∧
      t.eax = read32 (run M (exec_call_steps K s A + j) s).mem (amxField A K.off_error) ∧
      t.esp = s.esp + 4 ∧ t.calls = (run M (exec_call_steps K s A + j) s).calls ∧
      read32 t.mem (M.base + 16) = read32 s.mem (M.base + 16) ∧
      read32 t.mem (M.base + 20) = read32 s.mem (M.base + 20) ∧
      read32 t.mem (M.base + 8) = read32 s.mem (M.base + 8) ∧
      read32 t.mem (M.base + 12) = read32 s.mem (M.base + 12) ∧
      read32 t.mem (amxField A K.off_error) = toU32 K.AMX_ERR_NONE := by
  have he := hp.entry
  have hlo := he.frame_lo
  have hhi := he.frame_hi
  have hhd := he.header
  have hA : A < 4294967296 := he.amx ▸ read32_lt _ _
  obtain ⟨-, ake, are, -, -, -⟩ := hp.apart
  obtain ⟨t, ht, -, -, -, -, -, -, -, s1, s2, s3, -, -, f0, f12, f16, f32, f36, f56, f60, -⟩ :=
    exec_to_call h s A hp i hi
  have hm : (run M (exec_call_steps K s A) s).mem = t.mem := by rw [ht]
  obtain ⟨u, hu⟩ : ∃ u, run M (exec_call_steps K s A + j) s = u := ⟨_, rfl⟩
  have hpc := hb.pc
  have hrun := hb.running
  have hfr := hb.frame
  have hsl := hb.slots
  rw [hu] at hpc hrun hfr hsl
  rw [hm] at hfr hsl
  rw [hu]
  have e20 := State.eq_lit u _ hpc hrun
  have F : ∀ a, s.esp - 64 ≤ a → a + 4 ≤ s.esp + 12 → read32 u.mem a = read32 t.mem a :=
    fun a h1 h2 => read32_agree _ _ _ _ a hfr h1 h2
  have S : ∀ a, M.base + 4 ≤ a → a + 4 ≤ M.base + 16 → read32 u.mem a = read32 t.mem a :=
    fun a h1 h2 => read32_agree _ _ _ _ a hsl h1 h2
  rcases hp.stray with hR4 | ⟨x1, x2, x3⟩
  · obtain ⟨tf, htf, c1, c2, c3, c4, c5, c6, c7, c8, c9⟩ := exec_return_null h u.eax u.ecx u.edx u.ebx u.esp
      u.ebp u.esi u.edi u.flags u.df u.mem u.calls s.esp A _ (read32 s.mem (M.base + 16))
      (read32 s.mem (M.base + 20)) (read32 s.mem (M.base + 8)) (read32 s.mem (M.base + 12))
      _ _ _ _ _ _ _ (read32 s.mem s.esp) hlo hhi hA hhd
      (by rw [S _ (by omega) (by omega)]; exact s1)
      (by rw [S _ (by omega) (by omega)]; exact s2)
      (by rw [S _ (by omega) (by omega)]; exact s3)
      (by rw [F _ (by omega) (by omega)]; exact f0) rfl
      (by rw [F _ (by omega) (by omega)]; exact f12)
      (by rw [F _ (by omega) (by omega)]; exact f16) rfl rfl
      (by rw [F _ (by omega) (by omega)]; exact f32)
      (by rw [F _ (by omega) (by omega)]; exact f36) rfl rfl rfl rfl
      (by rw [F _ (by omega) (by omega)]; exact f56)
      (by rw [F _ (by omega) (by omega)]; exact f60) rfl he.caller
      (he.record K.off_frm (by simp [amx_fields])) (he.record K.off_stk (by simp [amx_fields]))
      (he.record K.off_error (by simp [amx_fields]))
      (hp.record_header K.off_frm (by simp [amx_fields]))
      (hp.record_header K.off_stk (by simp [amx_fields]))
      (hp.record_header K.off_error (by simp [amx_fields])) are.symm ake.symm hR4
    rw [← e20] at htf
    exact ⟨exec_call_steps K s A + j + 34, tf, by rw [run_add, hu, htf],
      c1, c2, c3, c4, c5, c6, c7, c8, c9⟩
  · by_cases hR4 : read32 s.mem (M.base + 16) = 0
    · obtain ⟨tf, htf, c1, c2, c3, c4, c5, c6, c7, c8, c9⟩ := exec_return_null h u.eax u.ecx u.edx u.ebx u.esp
        u.ebp u.esi u.edi u.flags u.df u.mem u.calls s.esp A _ (read32 s.mem (M.base + 16))
        (read32 s.mem (M.base + 20)) (read32 s.mem (M.base + 8)) (read32 s.mem (M.base + 12))
        _ _ _ _ _ _ _ (read32 s.mem s.esp) hlo hhi hA hhd
        (by rw [S _ (by omega) (by omega)]; exact s1)
        (by rw [S _ (by omega) (by omega)]; exact s2)
        (by rw [S _ (by omega) (by omega)]; exact s3)
        (by rw [F _ (by omega) (by omega)]; exact f0) rfl
        (by rw [F _ (by omega) (by omega)]; exact f12)
        (by rw [F _ (by omega) (by omega)]; exact f16) rfl rfl
        (by rw [F _ (by omega) (by omega)]; exact f32)
        (by rw [F _ (by omega) (by omega)]; exact f36) rfl rfl rfl rfl
        (by rw [F _ (by omega) (by omega)]; exact f56)
        (by rw [F _ (by omega) (by omega)]; exact f60) rfl he.caller
        (he.record K.off_frm (by simp [amx_fields])) (he.record K.off_stk (by simp [amx_fields]))
        (he.record K.off_error (by simp [amx_fields]))
        (hp.record_header K.off_frm (by simp [amx_fields]))
        (hp.record_header K.off_stk (by simp [amx_fields]))
        (hp.record_header K.off_error (by simp [amx_fields])) are.symm ake.symm hR4
      rw [← e20] at htf
      exact ⟨exec_call_steps K s A + j + 34, tf, by rw [run_add, hu, htf],
        c1, c2, c3, c4, c5, c6, c7, c8, c9⟩
    · obtain ⟨tf, htf, c1, c2, c3, c4, c5, c6, c7, c8, c9, -⟩ := exec_return_stray h u.eax u.ecx u.edx u.ebx u.esp
        u.ebp u.esi u.edi u.flags u.df u.mem u.calls s.esp A _ (read32 s.mem (M.base + 16))
        (read32 s.mem (M.base + 20)) (read32 s.mem (M.base + 8)) (read32 s.mem (M.base + 12))
        _ _ _ _ _ _ _ (read32 s.mem s.esp) hlo hhi hA hhd
        (by rw [S _ (by omega) (by omega)]; exact s1)
        (by rw [S _ (by omega) (by omega)]; exact s2)
        (by rw [S _ (by omega) (by omega)]; exact s3)
        (by rw [F _ (by omega) (by omega)]; exact f0) rfl
        (by rw [F _ (by omega) (by omega)]; exact f12)
        (by rw [F _ (by omega) (by omega)]; exact f16) rfl rfl
        (by rw [F _ (by omega) (by omega)]; exact f32)
        (by rw [F _ (by omega) (by omega)]; exact f36) rfl rfl rfl rfl
        (by rw [F _ (by omega) (by omega)]; exact f56)
        (by rw [F _ (by omega) (by omega)]; exact f60) rfl he.caller
        (he.record K.off_frm (by simp [amx_fields])) (he.record K.off_stk (by simp [amx_fields]))
        (he.record K.off_error (by simp [amx_fields]))
        (hp.record_header K.off_frm (by simp [amx_fields]))
        (hp.record_header K.off_stk (by simp [amx_fields]))
        (hp.record_header K.off_error (by simp [amx_fields])) are.symm ake.symm hR4 x1 x2 x3
      rw [← e20] at htf
      exact ⟨exec_call_steps K s A + j + 35, tf, by rw [run_add, hu, htf],
        c1, c2, c3, c4, c5, c6, c7, c8, c9⟩
/-! ## Publics that come back -/
theorem translated_proc (K : AmxH) (enc : Instr → Nat) (amx : AMXPtr) (a : Int) :
    translated K enc amx ⟨a, .OP_PROC, []⟩ =
      [Item.instr (.un .push (.reg .ebp)), Item.instr (.bin .mov (.reg .ebp) (.reg .esp)),
       Item.instr (.bin .sub (.mem (dword_ptr .esp 0)) (.reg .ebx))] := rfl

theorem translated_retn (K : AmxH) (enc : Instr → Nat) (amx : AMXPtr) (a : Int) :
    translated K enc amx ⟨a, .OP_RETN, []⟩ =
      [Item.instr (.un .pop (.reg .ebp)), Item.instr (.bin .add (.reg .ebp) (.reg .ebx)),
       Item.instr (.un .pop (.reg .edx)),
       Item.instr (.bin .add (.reg .esp) (.mem (dword_ptr .esp 0))),
       Item.instr (.un .push (.reg .edx)), Item.instr (.ret_imm 4)] := rfl

theorem State.eq_call (t : State) (a b c d p : Nat) (h1 : t.eax = a) (h2 : t.ebx = b)
    (h3 : t.esp = c) (h4 : t.ebp = d) (h5 : t.pc = p) (h6 : t.status = .running) :
    t = ⟨a, t.ecx, t.edx, b, c, d, t.esi, t.edi, t.flags, t.df, t.mem, p, .running,
      t.calls⟩ := by
  cases t
  simp only at h1 h2 h3 h4 h5 h6
  subst h1 h2 h3 h4 h5 h6
  rfl

theorem CodeAt.get {M : Machine} {i : Nat} {code : List Item} (h : CodeAt M i code) (q : Nat)
    (it : Item) (hq : code[q]? = some it) : M.items[i + q]? = some it := by
  have hlt : q < code.length := by
    by_contra hc
    rw [List.getElem?_eq_none (by omega)] at hq
    cases hq
  rw [h q hlt, hq]

/-- A public `PROC; RETN` comes back nine steps after the call, with `eax`
still holding its own native address and the field `error` untouched. -/
theorem proc_retn_comes_back {K : AmxH} {M : Machine} {n : Nat} (h : Loaded K M n)
    (s : State) (A : Nat) (hp : ExecPass K M n s A) (i : Nat)
    (hi : codeIndex M (exec_target M s A) = some i) (amx : AMXPtr) (a b : Int)
    (hcode : CodeAt M i (translated K M.enc amx ⟨a, .OP_PROC, []⟩ ++
      translated K M.enc amx ⟨b, .OP_RETN, []⟩)) :
    ComesBack K M n s A 9 ∧
    (run M (exec_call_steps K s A + 9) s).eax = exec_target M s A ∧
    read32 (run M (exec_call_steps K s A + 9) s).mem (amxField A K.off_error) =
      toU32 K.AMX_ERR_NONE ∧
    (run M (exec_call_steps K s A + 9) s).calls =
      s.calls ++ [⟨.get_public_addr, [A, read32 s.mem (s.esp + 4)]⟩,
        ⟨.get_instr_ptr, [exec_public M s A, read32 s.mem (M.base + 28),
          read32 s.mem (M.base + 24)]⟩] := by
  have he := hp.entry
  have hlo := he.frame_lo
  have hsf := hp.stack_frame
  have hsh := hp.stack_header
  have hse := hp.stack_record K.off_error (by simp [amx_fields])
  have htl := hp.top_lo
  have hth := hp.top_hi
  rw [translated_proc, translated_retn] at hcode
  obtain ⟨t, ht, r1, r2, r3, r4, r5, r6, r7, -, -, -, -, -, -, -, -, -, -, -, -, ferr, -, -,
    fp, fr⟩ := exec_to_call h s A hp i hi
  have el := State.eq_call t _ _ _ _ _ r1 r2 r3 r4 r5 r6
  obtain ⟨u, hu, u1, u2, u3, u4, u5⟩ := proc_retn_run h (exec_target M s A) t.ecx t.edx
    (data_ptr K s.mem A) (add32 (data_ptr K s.mem A) (field s.mem A K.off_frm)) t.esi t.edi
    t.flags t.df t.mem t.calls (exec_top K s A) (field s.mem A K.off_paramcount) i
    (add32_lt _ _) (by omega) (by omega)
    (by simpa using hcode.get 0 _ rfl) (hcode.get 1 _ rfl) (hcode.get 2 _ rfl)
    (hcode.get 3 _ rfl) (hcode.get 4 _ rfl) (hcode.get 5 _ rfl) (hcode.get 6 _ rfl)
    (hcode.get 7 _ rfl) (hcode.get 8 _ rfl) fr fp
  rw [← el] at hu
  have hrun : run M (exec_call_steps K s A + 9) s = u := by rw [run_add, ht, hu]
  rw [hrun]
  refine ⟨⟨by rw [hrun]; exact u1, by rw [hrun]; exact u2, ?_, ?_⟩, u3, ?_, by rw [u4, r7]⟩
  · intro x h1 h2
    rw [hrun, ht]
    exact u5 x (by omega)
  · intro x h1 h2
    rw [hrun, ht]
    exact u5 x (by omega)
  · rw [← ferr]
    unfold Outside at hse
    exact read32_congr _ _ _ (fun x h1 h2 => u5 x (by omega))


/-- A public that starts with `HALT k` has reached that code when it is
called. -/
theorem halt_reaches {K : AmxH} {M : Machine} {n : Nat} (h : Loaded K M n)
    (s : State) (A : Nat) (hp : ExecPass K M n s A) (i : Nat)
    (hi : codeIndex M (exec_target M s A) = some i) (code : List Item)
    (hcode : CodeAt M i code) : ReachesCode K M n s A code 0 := by
  obtain ⟨t, ht, -, -, r3, -, r5, r6, -⟩ := exec_to_call h s A hp i hi
  have htl := hp.top_lo
  refine ⟨by rw [Nat.add_zero, ht]; exact r6, by rw [Nat.add_zero, ht, r5]; exact hcode,
    by rw [Nat.add_zero, ht, r3]; omega, by rw [Nat.add_zero, ht, r3],
    fun _ _ _ => rfl, fun _ _ _ => rfl, fun _ _ _ => rfl⟩

set_option maxHeartbeats 1000000 in
/-- From the first instruction of `exec` to the first instruction of
`exec_helper`, for a call that passes the checks: the slots `l_ebp` and
`l_esp` still hold what they held when `exec` was entered. -/
theorem exec_to_helper {K : AmxH} {M : Machine} {n : Nat} (h : Loaded K M n) (s : State)
    (A : Nat) (hp : ExecPass K M n s A) (i : Nat)
    (hi : codeIndex M (exec_target M s A) = some i) :
    ∃ t, run M (exec_call_steps K s A - 19) s = t ∧ t.pc = tpc n 1 ∧ t.status = .running ∧
      read32 t.mem (M.base + 8) = read32 s.mem (M.base + 8) ∧
      read32 t.mem (M.base + 12) = read32 s.mem (M.base + 12) := by
  have he := hp.entry
  have hlo := he.frame_lo
  have hhi := he.frame_hi
  have hA : A < 4294967296 := he.amx ▸ read32_lt _ _
  obtain ⟨ace, ake, are, akc, arc, ark⟩ := hp.apart
  obtain ⟨oT, oT4, pT, pT4, aTe, aUe⟩ := hp.top_facts K.off_error (by simp [amx_fields])
  obtain ⟨-, -, -, -, aTc, aUc⟩ := hp.top_facts K.off_paramcount (by simp [amx_fields])
  obtain ⟨-, -, -, -, aTk, aUk⟩ := hp.top_facts K.off_stk (by simp [amx_fields])
  obtain ⟨-, -, -, -, aTr, aUr⟩ := hp.top_facts K.off_frm (by simp [amx_fields])
  have hdat : field (exec_saves s) A K.off_data = field s.mem A K.off_data :=
    he.field_saved K.off_data (by simp [amx_fields])
  obtain ⟨e, f, hk⟩ := exec_prologue h s.eax s.ecx s.edx s.ebx s.esp s.ebp s.esi s.edi s.flags
    s.df s.mem s.calls A (by omega) (by omega) he.amx
    (by have := he.header; unfold Outside; omega)
  rw [← he.state_eq] at hk
  change run M (if field (exec_saves s) A K.off_data = 0 then 14 else 11) s =
    ⟨e, s.ecx, s.edx, data_ptr K (exec_saves s) A, s.esp - 24, s.esp - 4, A, s.edi, f, s.df,
     exec_saves s, tpc n 52, .running, s.calls⟩ at hk
  rw [hdat, hp.data_saved] at hk
  obtain ⟨c, d, g, hj⟩ := exec_check_pass h e s.ecx s.edx (data_ptr K s.mem A) s.esp s.edi f
    s.df (exec_saves s) s.calls A
    (by rw [he.field_saved K.off_hea (by simp [amx_fields]),
      he.field_saved K.off_stk (by simp [amx_fields])]; exact hp.hea_stk)
    (by rw [he.field_saved K.off_hlw (by simp [amx_fields]),
      he.field_saved K.off_hea (by simp [amx_fields])]; exact hp.hlw_hea)
    (by rw [he.field_saved K.off_stk (by simp [amx_fields]),
      he.field_saved K.off_stp (by simp [amx_fields])]; exact hp.stk_stp)
    (by rw [he.field_saved K.off_flags (by simp [amx_fields])]; exact hp.natives)
  obtain ⟨t, ht, hc⟩ := exec_forward_entry h e c d (data_ptr K s.mem A) s.esp s.edi g s.df
    (exec_saves s) s.calls A (read32 s.mem (s.esp + 4)) (exec_public M s A)
    (read32 s.mem (M.base + 24)) (read32 s.mem (M.base + 28)) (exec_target M s A)
    (field s.mem A K.off_paramcount) (field s.mem A K.off_stk) (field s.mem A K.off_frm)
    (read32 s.mem (M.base + 16)) (read32 s.mem (M.base + 20)) (read32 s.mem (M.base + 8))
    (read32 s.mem (M.base + 12)) (exec_top K s A) i _ _ _ (read32 s.mem s.esp)
    hlo hhi hA (data_ptr_lt K s.mem A) he.header
    (by rw [he.slot 4 (by omega)]; exact he.amx) (he.slot 8 (by omega)) (he.slot 12 (by omega))
    (he.slot 16 (by omega)) (he.slot 20 (by omega)) (he.slot 24 (by omega))
    (he.slot 28 (by omega))
    (exec_saves_ret s hlo) rfl rfl rfl (exec_saves_arg s hlo 4)
    (he.field_saved K.off_paramcount (by simp [amx_fields]))
    (he.field_saved K.off_stk (by simp [amx_fields]))
    (he.field_saved K.off_frm (by simp [amx_fields]))
    rfl hp.found
    (by rw [exec_saves_map s _ _ hlo hp.map_frame]; rfl)
    hi hp.params hp.stk_lo rfl (by have := hp.top_lo; omega)
    (by have := hp.top_hi; omega)
    hp.map_frame hp.map_error
    (hp.entry.record K.off_error (by simp [amx_fields])) (hp.entry.record K.off_paramcount (by simp [amx_fields])) (hp.entry.record K.off_stk (by simp [amx_fields])) (hp.entry.record K.off_frm (by simp [amx_fields])) oT oT4 (hp.record_header K.off_error (by simp [amx_fields])) (hp.record_header K.off_paramcount (by simp [amx_fields])) (hp.record_header K.off_stk (by simp [amx_fields])) (hp.record_header K.off_frm (by simp [amx_fields])) pT pT4
    ace ake are akc arc ark aTe aTc aTk aTr aUe aUc aUk aUr
  refine ⟨t, ?_, hc⟩
  unfold exec_call_steps
  rw [show (if field s.mem A K.off_data = 0 then 14 else 11) + 68 - 19 =
    (if field s.mem A K.off_data = 0 then 14 else 11) + 20 + 29 by omega,
    run_add, run_add, hk, hj, ht]

/-- A call of `exec` whose public comes back: seventeen steps after the called
code is back, `exec_helper` has returned into `exec` and the slots `l_ebp`
and `l_esp` hold what they held when `exec` was entered. -/
theorem exec_from_helper {K : AmxH} {M : Machine} {n : Nat} (h : Loaded K M n) (s : State)
    (A : Nat) (hp : ExecPass K M n s A) (i : Nat)
    (hi : codeIndex M (exec_target M s A) = some i)
    (j : Nat) (hb : ComesBack K M n s A j) :
    ∃ t, run M (exec_call_steps K s A + j + 17) s = t ∧ t.pc = tpc n 110 ∧
      t.status = .running ∧
      read32 t.mem (M.base + 8) = read32 s.mem (M.base + 8) ∧
      read32 t.mem (M.base + 12) = read32 s.mem (M.base + 12) := by
  have he := hp.entry
  have hlo := he.frame_lo
  have hhi := he.frame_hi
  have hhd := he.header
  have hA : A < 4294967296 := he.amx ▸ read32_lt _ _
  obtain ⟨-, ake, are, -, -, -⟩ := hp.apart
  obtain ⟨t, ht, -, -, -, -, -, -, -, s1, s2, s3, -, -, f0, f12, f16, f32, f36, f56, f60, -⟩ :=
    exec_to_call h s A hp i hi
  have hm : (run M (exec_call_steps K s A) s).mem = t.mem := by rw [ht]
  obtain ⟨u, hu⟩ : ∃ u, run M (exec_call_steps K s A + j) s = u := ⟨_, rfl⟩
  have hpc := hb.pc
  have hrun := hb.running
  have hfr := hb.frame
  have hsl := hb.slots
  rw [hu] at hpc hrun hfr hsl
  rw [hm] at hfr hsl
  have e20 := State.eq_lit u _ hpc hrun
  have F : ∀ a, s.esp - 64 ≤ a → a + 4 ≤ s.esp + 12 → read32 u.mem a = read32 t.mem a :=
    fun a h1 h2 => read32_agree _ _ _ _ a hfr h1 h2
  have S : ∀ a, M.base + 4 ≤ a → a + 4 ≤ M.base + 16 → read32 u.mem a = read32 t.mem a :=
    fun a h1 h2 => read32_agree _ _ _ _ a hsl h1 h2
  obtain ⟨tf, htf, c1, c2, c3, c4⟩ := exec_helper_return h u.eax u.ecx u.edx u.ebx u.esp
    u.ebp u.esi u.edi u.flags u.df u.mem u.calls s.esp A _ (read32 s.mem (M.base + 16))
    (read32 s.mem (M.base + 20)) (read32 s.mem (M.base + 8)) (read32 s.mem (M.base + 12))
    _ _ _ _ _ _ _ (read32 s.mem s.esp) hlo hhi hA hhd
    (by rw [S _ (by omega) (by omega)]; exact s1)
    (by rw [S _ (by omega) (by omega)]; exact s2)
    (by rw [S _ (by omega) (by omega)]; exact s3)
    (by rw [F _ (by omega) (by omega)]; exact f0) rfl
    (by rw [F _ (by omega) (by omega)]; exact f12)
    (by rw [F _ (by omega) (by omega)]; exact f16) rfl rfl
    (by rw [F _ (by omega) (by omega)]; exact f32)
    (by rw [F _ (by omega) (by omega)]; exact f36) rfl rfl rfl rfl
    (by rw [F _ (by omega) (by omega)]; exact f56)
    (by rw [F _ (by omega) (by omega)]; exact f60) rfl he.caller
    (he.record K.off_frm (by simp [amx_fields])) (he.record K.off_stk (by simp [amx_fields]))
    (he.record K.off_error (by simp [amx_fields]))
    (hp.record_header K.off_frm (by simp [amx_fields]))
    (hp.record_header K.off_stk (by simp [amx_fields]))
    (hp.record_header K.off_error (by simp [amx_fields])) are.symm ake.symm
  rw [← e20] at htf
  exact ⟨tf, by rw [run_add, hu, htf], c1, c2, c3, c4⟩



/-! ## The sample calls that pass the checks -/

set_option maxRecDepth 1000000 in
theorem sample_pass_entry :
    ExecEntry amx_h_32 sample_machine 3 (sample_state (sample_pass_mem 12288 0)) 8192 :=
  ⟨rfl, rfl, by decide, by decide, by decide, by decide, by decide, by decide⟩

set_option maxRecDepth 1000000 in
theorem sample_pass :
    ExecPass amx_h_32 sample_machine 3 (sample_state (sample_pass_mem 12288 0)) 8192 := by
  constructor <;> first | exact sample_pass_entry | decide

set_option maxRecDepth 1000000 in
theorem sample_target :
    codeIndex sample_machine
      (exec_target sample_machine (sample_state (sample_pass_mem 12288 0)) 8192) = some 224 := by
  decide

set_option maxRecDepth 1000000 in
theorem sample_code :
    CodeAt sample_machine 224 (translated amx_h_32 sample_machine.enc sample_amx
      ⟨8, .OP_PROC, []⟩ ++ translated amx_h_32 sample_machine.enc sample_amx
      ⟨12, .OP_RETN, []⟩) := by
  unfold CodeAt
  decide

set_option maxRecDepth 1000000 in
/-- C6, evidence against the code: in `stale_machine` the public table names
the bytecode address 4, for which the instruction map has no entry, so
`get_instr_ptr` answers null. The checks of `exec` pass (after 31 steps the
machine is at `L_checks_done`), `exec` does not return `AMX_ERR_INDEX`: it goes
on into `exec_helper`, whose `call eax` calls the address 0 at step 79, after
`stk` was lowered from 1024 to 1020. -/
theorem exec_unmapped_public_evidence :
    exec_public stale_machine (sample_state (sample_pass_mem 12288 0)) 8192 = 4 ∧
    exec_target stale_machine (sample_state (sample_pass_mem 12288 0)) 8192 = 0 ∧
    (run stale_machine 31 (sample_state (sample_pass_mem 12288 0))).pc = tpc 3 80 ∧
    (run stale_machine 78 (sample_state (sample_pass_mem 12288 0))).pc = tpc 3 19 ∧
    stale_machine.items[tpc 3 19]? = some (Item.instr (.call_reg .eax)) ∧
    (run stale_machine 79 (sample_state (sample_pass_mem 12288 0))).status = .called_out 0 ∧
    field (sample_pass_mem 12288 0) 8192 amx_h_32.off_stk = 1024 ∧
    field (run stale_machine 79 (sample_state (sample_pass_mem 12288 0))).mem 8192
      amx_h_32.off_stk = 1020 :=
  ⟨by decide, by decide, by decide, by decide, by decide, by decide, by decide, by decide⟩

set_option maxRecDepth 1000000 in
/-- C7, evidence against the code: `exec (0, retval)` of the sample program
`HALT 0; PROC; RETN`. With `retval = 0x3000` and a null `l_reset_ebp` slot the
run returns after 122 steps and the word at `retval` still holds `0xAAAA`: no
store was made although `retval` is not null. With `retval` null and the slot
`l_reset_ebp` holding `0x9C40` the run returns after 123 steps and has stored
the `AMX` pointer `0x2000` at `0x9C40`: a store was made although `retval` is
null. The word `exec` tests and stores through is `[esp + 12]`, the local
`var_reset_ebp`, not the argument at `[ebp + 12]`. -/
theorem exec_retval_evidence :
    read32 (sample_pass_mem 12288 0) (1048576 + 8) = 12288 ∧
    (run sample_machine 122 (sample_state (sample_pass_mem 12288 0))).status = .exited 4096 ∧
    read32 (run sample_machine 122 (sample_state (sample_pass_mem 12288 0))).mem 12288 =
      43690 ∧
    read32 (sample_pass_mem 0 40000) (1048576 + 8) = 0 ∧
    read32 (sample_pass_mem 0 40000) 40000 = 0 ∧
    (run sample_machine 123 (sample_state (sample_pass_mem 0 40000))).status = .exited 4096 ∧
    read32 (run sample_machine 123 (sample_state (sample_pass_mem 0 40000))).mem 40000 =
      8192 :=
  ⟨by decide, by decide, by decide, by decide, by decide, by decide, by decide⟩

set_option maxRecDepth 1000000 in
/-- C9, counterexample: in `exec` of the sample program `HALT 0; PROC; RETN`
the code of `PROC; RETN` is back in `exec_helper` after 88 steps, and `eax`
(`PRI`) then holds `0x103E0`, the native address of the public, not 0. -/
theorem exec_proc_retn_pri_counterexample :
    (run sample_machine 88 (sample_state (sample_pass_mem 12288 0))).pc = tpc 3 20 ∧
    (run sample_machine 88 (sample_state (sample_pass_mem 12288 0))).status = .running ∧
    (run sample_machine 88 (sample_state (sample_pass_mem 12288 0))).eax = 66528 :=
  ⟨by decide, by decide, by decide⟩

/-- C9, amended: for a public whose code is `PROC; RETN` and a call of `exec`
that passes the checks, `exec` returns `AMX_ERR_NONE`, and `PRI` (`eax`) at the
point where the code of the public returns to `exec_helper` is the native
address of the public, which `exec_helper` called through `eax`. -/
theorem exec_proc_retn_returns_none {K : AmxH} {M : Machine} {n : Nat} (h : Loaded K M n)
    (s : State) (A : Nat) (hp : ExecPass K M n s A) (i : Nat)
    (hi : codeIndex M (exec_target M s A) = some i) (amx : AMXPtr) (a b : Int)
    (hcode : CodeAt M i (translated K M.enc amx ⟨a, .OP_PROC, []⟩ ++
      translated K M.enc amx ⟨b, .OP_RETN, []⟩)) :
    (run M (exec_call_steps K s A + 9) s).pc = tpc n 20 ∧
    (run M (exec_call_steps K s A + 9) s).status = .running ∧
    (run M (exec_call_steps K s A + 9) s).eax = exec_target M s A ∧
    ∃ N t, run M N s = t ∧ t.status = .exited (read32 s.mem s.esp) ∧
      t.eax = toU32 K.AMX_ERR_NONE ∧ t.esp = s.esp + 4 := by
  obtain ⟨hb, hx, he, -⟩ := proc_retn_comes_back h s A hp i hi amx a b hcode
  obtain ⟨N, t, ht, c1, c2, c3, -⟩ := exec_finish h s A hp i hi 9 hb
  exact ⟨hb.pc, hb.running, hx, N, t, ht, c1, by rw [c2, he], c3⟩

/-- Witness of C9: the sample program `HALT 0; PROC; RETN`. -/
theorem exec_proc_retn_returns_none_witness :
    (run sample_machine (exec_call_steps amx_h_32 (sample_state (sample_pass_mem 12288 0))
      8192 + 9) (sample_state (sample_pass_mem 12288 0))).pc = tpc 3 20 ∧
    (run sample_machine (exec_call_steps amx_h_32 (sample_state (sample_pass_mem 12288 0))
      8192 + 9) (sample_state (sample_pass_mem 12288 0))).status = .running ∧
    (run sample_machine (exec_call_steps amx_h_32 (sample_state (sample_pass_mem 12288 0))
      8192 + 9) (sample_state (sample_pass_mem 12288 0))).eax =
      exec_target sample_machine (sample_state (sample_pass_mem 12288 0)) 8192 ∧
    ∃ N t, run sample_machine N (sample_state (sample_pass_mem 12288 0)) = t ∧
      t.status = .exited (read32 (sample_state (sample_pass_mem 12288 0)).mem
        (sample_state (sample_pass_mem 12288 0)).esp) ∧
      t.eax = toU32 amx_h_32.AMX_ERR_NONE ∧
      t.esp = (sample_state (sample_pass_mem 12288 0)).esp + 4 :=
  exec_proc_retn_returns_none sample_loaded _ 8192 sample_pass 224 sample_target sample_amx
    8 12 sample_code

/-- C10: for every call of `exec` that passes the checks and whose public comes
back to `exec_helper` (`ComesBack`, which the code of `PROC; RETN` and the code
of `HALT k` establish), `exec` returns to its caller with the slots
`l_reset_ebp` and `l_reset_esp` holding what they held when `exec` was
entered; and when `exec_helper` has returned into `exec`, the slots `l_ebp`
and `l_esp` hold what they held at the first instruction of `exec_helper`. -/
theorem exec_restores_header_slots {K : AmxH} {M : Machine} {n : Nat} (h : Loaded K M n)
    (s : State) (A : Nat) (hp : ExecPass K M n s A) (i : Nat)
    (hi : codeIndex M (exec_target M s A) = some i) (j : Nat)
    (hb : ComesBack K M n s A j) :
    (∃ N t, run M N s = t ∧ t.status = .exited (read32 s.mem s.esp) ∧
      read32 t.mem (M.base + 16) = read32 s.mem (M.base + 16) ∧
      read32 t.mem (M.base + 20) = read32 s.mem (M.base + 20)) ∧
    (run M (exec_call_steps K s A - 19) s).pc = tpc n 1 ∧
    (run M (exec_call_steps K s A + j + 17) s).pc = tpc n 110 ∧
    read32 (run M (exec_call_steps K s A + j + 17) s).mem (M.base + 8) =
      read32 (run M (exec_call_steps K s A - 19) s).mem (M.base + 8) ∧
    read32 (run M (exec_call_steps K s A + j + 17) s).mem (M.base + 12) =
      read32 (run M (exec_call_steps K s A - 19) s).mem (M.base + 12) := by
  obtain ⟨N, t, ht, c1, -, -, -, c5, c6, -⟩ := exec_finish h s A hp i hi j hb
  obtain ⟨u, hu, u1, -, u3, u4⟩ := exec_to_helper h s A hp i hi
  obtain ⟨w, hw, w1, -, w3, w4⟩ := exec_from_helper h s A hp i hi j hb
  rw [hu, hw]
  exact ⟨⟨N, t, ht, c1, c5, c6⟩, u1, w1, by rw [w3, u3], by rw [w4, u4]⟩

/-- Witness of C10: the sample program `HALT 0; PROC; RETN`, whose public comes
back nine steps after it was called. -/
theorem exec_restores_header_slots_witness :
    (∃ N t, run sample_machine N (sample_state (sample_pass_mem 12288 0)) = t ∧
      t.status = .exited (read32 (sample_state (sample_pass_mem 12288 0)).mem
        (sample_state (sample_pass_mem 12288 0)).esp) ∧
      read32 t.mem (sample_machine.base + 16) =
        read32 (sample_state (sample_pass_mem 12288 0)).mem (sample_machine.base + 16) ∧
      read32 t.mem (sample_machine.base + 20) =
        read32 (sample_state (sample_pass_mem 12288 0)).mem (sample_machine.base + 20)) ∧
    (run sample_machine (exec_call_steps amx_h_32 (sample_state (sample_pass_mem 12288 0))
      8192 - 19) (sample_state (sample_pass_mem 12288 0))).pc = tpc 3 1 ∧
    (run sample_machine (exec_call_steps amx_h_32 (sample_state (sample_pass_mem 12288 0))
      8192 + 9 + 17) (sample_state (sample_pass_mem 12288 0))).pc = tpc 3 110 ∧
    read32 (run sample_machine (exec_call_steps amx_h_32
      (sample_state (sample_pass_mem 12288 0)) 8192 + 9 + 17)
      (sample_state (sample_pass_mem 12288 0))).mem (sample_machine.base + 8) =
      read32 (run sample_machine (exec_call_steps amx_h_32
        (sample_state (sample_pass_mem 12288 0)) 8192 - 19)
        (sample_state (sample_pass_mem 12288 0))).mem (sample_machine.base + 8) ∧
    read32 (run sample_machine (exec_call_steps amx_h_32
      (sample_state (sample_pass_mem 12288 0)) 8192 + 9 + 17)
      (sample_state (sample_pass_mem 12288 0))).mem (sample_machine.base + 12) =
      read32 (run sample_machine (exec_call_steps amx_h_32
        (sample_state (sample_pass_mem 12288 0)) 8192 - 19)
        (sample_state (sample_pass_mem 12288 0))).mem (sample_machine.base + 12) :=
  exec_restores_header_slots sample_loaded _ 8192 sample_pass 224 sample_target 9
    (proc_retn_comes_back sample_loaded _ 8192 sample_pass 224 sample_target sample_amx 8 12
      sample_code).1

/-! ## C11 .. C13: the translation loop and the jump targets -/

theorem compile_step_error (K : AmxH) (amx : AMXPtr) (L : HelperLabels) (jt : List Int)
    (st : LoopState) (instr : AMXInstruction) :
    (compile_step K amx L jt st instr).instr = instr ∧
    (compile_step K amx L jt st instr).instr_map.length = st.instr_map.length + 1 := by
  unfold compile_step
  simp

theorem compile_loop_instr_map_length (K : AmxH) (amx : AMXPtr) (L : HelperLabels)
    (jt : List Int) (l : List AMXInstruction) (st : LoopState)
    (h : (compile_loop K amx L jt l st).error = false) :
    (compile_loop K amx L jt l st).instr_map.length = st.instr_map.length + l.length := by
  have := congrArg List.length (compile_loop_instr_map_fst K amx L jt l st h)
  simpa using this

/-- C11: when the translation of the instruction `instr` is the first that
fails (the loop has no error after the instructions `pre` before it and has
one after `instr`), `compile` returns null, calls the error handler, when one
is supplied, exactly once and with `instr`, leaves the memory as it was (no
code block is made), and the loop has stopped at `instr`: the side vector
holds one pair for each instruction of `pre` and for `instr`, and the code
buffer is the buffer after `instr` followed by the three items of
`L_do_halt`, whatever instructions `rest` follow. -/
theorem compile_stops_at_first_failure (K : AmxH) (info : OpcodeInfo) (enc : Instr → Nat)
    (amx : AMXPtr) (error_handler : Bool) (code_ptr : Nat) (mem : Memory)
    (pre rest : List AMXInstruction) (instr : AMXInstruction)
    (hdec : amx.decoded = pre ++ instr :: rest)
    (hpre : (loop_after K info enc amx pre).error = false)
    (hfail : (loop_after K info enc amx (pre ++ [instr])).error = true) :
    (compile K info enc amx error_handler code_ptr mem).output = none ∧
    (compile K info enc amx error_handler code_ptr mem).handler_calls =
      (if error_handler then [instr] else []) ∧
    (compile K info enc amx error_handler code_ptr mem).mem = mem ∧
    (compile K info enc amx error_handler code_ptr mem).instr_map.length = pre.length + 1 ∧
    (compile K info enc amx error_handler code_ptr mem).as.items =
      (loop_after K info enc amx (pre ++ [instr])).as.items ++
        [Item.bind (compile_prologue K enc amx).L_do_halt,
         Item.instr (.un .push (.reg .ecx)),
         Item.instr (.call (compile_prologue K enc amx).L_halt_helper)] := by
  have hall : loop_after K info enc amx amx.decoded =
      loop_after K info enc amx (pre ++ [instr]) := by
    unfold loop_after at hfail ⊢
    rw [hdec, show pre ++ instr :: rest = (pre ++ [instr]) ++ rest by simp,
      compile_loop_append, compile_loop_of_error _ _ _ _ _ _ hfail]
  have hstep : loop_after K info enc amx (pre ++ [instr]) =
      compile_step K amx (compile_prologue K enc amx).helpers
        (collect_jump_targets info amx []) (loop_after K info enc amx pre) instr := by
    unfold loop_after at hpre ⊢
    rw [compile_loop_append]
    simp only [compile_loop, hpre]
    rfl
  have hinstr : (loop_after K info enc amx (pre ++ [instr])).instr = instr := by
    rw [hstep]; exact (compile_step_error _ _ _ _ _ _).1
  have hlen : (loop_after K info enc amx (pre ++ [instr])).instr_map.length =
      pre.length + 1 := by
    rw [hstep, (compile_step_error _ _ _ _ _ _).2]
    have := compile_loop_instr_map_length K amx (compile_prologue K enc amx).helpers
      (collect_jump_targets info amx []) pre (loop_init K enc amx) hpre
    unfold loop_after
    rw [this]
    simp [loop_init]
  have hres : (compile_loop_result K info enc amx).error = true ∧
      (compile_loop_result K info enc amx).instr = instr ∧
      (compile_loop_result K info enc amx).instr_map =
        (loop_after K info enc amx (pre ++ [instr])).instr_map ∧
      (compile_loop_result K info enc amx).as.items =
        (loop_after K info enc amx (pre ++ [instr])).as.items ++
          [Item.bind (compile_prologue K enc amx).L_do_halt,
           Item.instr (.un .push (.reg .ecx)),
           Item.instr (.call (compile_prologue K enc amx).L_halt_helper)] := by
    unfold compile_loop_result
    simp only
    have e : compile_loop K amx (compile_prologue K enc amx).helpers
        (collect_jump_targets info amx []) amx.decoded
        { as := (compile_prologue K enc amx).as, amx_labels := ⟨[]⟩, instr_map := [],
          error := false, instr := ⟨0, .OP_NONE, []⟩ } =
        loop_after K info enc amx (pre ++ [instr]) := hall
    rw [e, if_pos hfail]
    refine ⟨hfail, hinstr, rfl, ?_⟩
    simp [X86Assembler.bind, X86Assembler.push, X86Assembler.call]
  obtain ⟨h1, h2, h3, h4⟩ := hres
  unfold compile
  simp only
  rw [if_pos h1]
  exact ⟨rfl, by rw [h2], rfl, by rw [h3, hlen], h4⟩

set_option maxRecDepth 1000000 in
/-- Witness of C11: in the program `HALT 0; LODB_I 3; PROC` the translation of
the second instruction fails. -/
theorem compile_stops_at_first_failure_witness :
    (compile amx_h_32 sample_info sample_enc failing_amx true 65536 (fun _ => 0)).output =
      none ∧
    (compile amx_h_32 sample_info sample_enc failing_amx true 65536
      (fun _ => 0)).handler_calls =
      (if true then [(⟨8, .OP_LODB_I, [3]⟩ : AMXInstruction)] else []) ∧
    (compile amx_h_32 sample_info sample_enc failing_amx true 65536 (fun _ => 0)).mem =
      (fun _ => 0) ∧
    (compile amx_h_32 sample_info sample_enc failing_amx true 65536
      (fun _ => 0)).instr_map.length = [(⟨0, .OP_HALT, [0]⟩ : AMXInstruction)].length + 1 ∧
    (compile amx_h_32 sample_info sample_enc failing_amx true 65536 (fun _ => 0)).as.items =
      (loop_after amx_h_32 sample_info sample_enc failing_amx
        ([⟨0, .OP_HALT, [0]⟩] ++ [⟨8, .OP_LODB_I, [3]⟩])).as.items ++
        [Item.bind (compile_prologue amx_h_32 sample_enc failing_amx).L_do_halt,
         Item.instr (.un .push (.reg .ecx)),
         Item.instr (.call (compile_prologue amx_h_32 sample_enc failing_amx).L_halt_helper)] :=
  compile_stops_at_first_failure amx_h_32 sample_info sample_enc failing_amx true 65536
    (fun _ => 0) [⟨0, .OP_HALT, [0]⟩] [⟨16, .OP_PROC, []⟩] ⟨8, .OP_LODB_I, [3]⟩ (by decide)
    (by decide) (by decide)

/-- C12: the translation of `LODB_I n` and of `STRB_I n` succeeds exactly for
`n` in `1, 2, 4`; of `LCTRL idx` exactly for `idx` in `0..7`; of `SCTRL idx`
exactly for `idx` in `2, 4, 5, 6`; and the translation of each of the opcodes
for which the switch has no case (`NONE`, `JREL`, `CALL_PRI`, `FILE`, `LINE`,
`SYMBOL`, `SRANGE`, `SYMTAG`) fails. -/
theorem translate_operand_checks (K : AmxH) (amx : AMXPtr) (L : HelperLabels)
    (instr : AMXInstruction) (as : X86Assembler) (amx_labels : AmxLabels) :
    (instr.opcode = .OP_LODB_I ∨ instr.opcode = .OP_STRB_I →
      ((translate K amx L instr as amx_labels).2.2 = false ↔
        instr.operand = 1 ∨ instr.operand = 2 ∨ instr.operand = 4)) ∧
    (instr.opcode = .OP_LCTRL →
      ((translate K amx L instr as amx_labels).2.2 = false ↔
        0 ≤ instr.operand ∧ instr.operand ≤ 7)) ∧
    (instr.opcode = .OP_SCTRL →
      ((translate K amx L instr as amx_labels).2.2 = false ↔
        instr.operand = 2 ∨ instr.operand = 4 ∨ instr.operand = 5 ∨ instr.operand = 6)) ∧
    (instr.opcode ∈ [AMXOpcodeID.OP_NONE, .OP_JREL, .OP_CALL_PRI, .OP_FILE, .OP_LINE,
        .OP_SYMBOL, .OP_SRANGE, .OP_SYMTAG] →
      (translate K amx L instr as amx_labels).2.2 = true) := by
  rcases instr with ⟨address, opcode, operands⟩
  refine ⟨?_, ?_, ?_, ?_⟩
  · rintro (h | h) <;> simp only at h <;> subst h <;> simp only [translate] <;>
      split_ifs <;> simp_all
  · intro h
    simp only at h
    subst h
    simp only [translate]
    split_ifs <;> simp_all
    all_goals omega
  · intro h
    simp only at h
    subst h
    simp only [translate]
    split_ifs <;> simp_all
  · intro h
    simp only [List.mem_cons, List.mem_singleton, List.not_mem_nil, or_false] at h
    rcases h with h | h | h | h | h | h | h | h <;> subst h <;> simp only [translate]

/-- Witness of C12: `LODB_I 3` has no translation. -/
theorem translate_operand_checks_witness :
    (translate amx_h_32 sample_amx (compile_prologue amx_h_32 sample_enc sample_amx).helpers
      ⟨8, .OP_LODB_I, [3]⟩ (emptyAs 0) ⟨[]⟩).2.2 = false ↔
      (3 : Int) = 1 ∨ (3 : Int) = 2 ∨ (3 : Int) = 4 :=
  (translate_operand_checks amx_h_32 sample_amx
    (compile_prologue amx_h_32 sample_enc sample_amx).helpers ⟨8, .OP_LODB_I, [3]⟩ (emptyAs 0)
    ⟨[]⟩).1 (Or.inl rfl)

theorem collect_jump_targets_step_mem (info : OpcodeInfo) (amx : AMXPtr) (refs : List Int)
    (instr : AMXInstruction) (x : Int)
    (hc1 : info.is_call .OP_CASETBL = false) (hj1 : info.is_jump .OP_CASETBL = false)
    (hc2 : info.is_call .OP_PROC = false) (hj2 : info.is_jump .OP_PROC = false) :
    x ∈ collect_jump_targets_step info amx refs instr ↔
      x ∈ refs ∨
      ((info.is_call instr.opcode = true ∨
          (info.is_jump instr.opcode = true ∧ instr.num_operands = 1)) ∧
        x = rel_code_addr amx instr.operand) ∨
      (instr.opcode = .OP_CASETBL ∧ ∃ i, i < instr.num_operands ∧ i % 2 = 1 ∧
        x = rel_code_addr amx (instr.operand_at i)) ∨
      (instr.opcode = .OP_PROC ∧ x = instr.address) := by
  have hodd : x ∈ ((List.range instr.num_operands).filter (fun i => i % 2 == 1)).map
      (fun i => rel_code_addr amx (instr.operand_at i)) ↔
      ∃ i, i < instr.num_operands ∧ i % 2 = 1 ∧
        x = rel_code_addr amx (instr.operand_at i) := by
    simp only [List.mem_map, List.mem_filter, List.mem_range, beq_iff_eq]
    constructor
    · rintro ⟨i, ⟨h1, h2⟩, h3⟩
      exact ⟨i, h1, h2, h3.symm⟩
    · rintro ⟨i, h1, h2, h3⟩
      exact ⟨i, ⟨h1, h2⟩, h3.symm⟩
  have hP : (info.is_call instr.opcode || info.is_jump instr.opcode &&
      instr.num_operands == 1) = true ↔ (info.is_call instr.opcode = true ∨
        (info.is_jump instr.opcode = true ∧ instr.num_operands = 1)) := by
    simp
  have n1 : instr.opcode = .OP_CASETBL → ¬ (info.is_call instr.opcode = true ∨
        (info.is_jump instr.opcode = true ∧ instr.num_operands = 1)) := by
    intro h; rw [h]; simp [hc1, hj1]
  have n2 : instr.opcode = .OP_PROC → ¬ (info.is_call instr.opcode = true ∨
        (info.is_jump instr.opcode = true ∧ instr.num_operands = 1)) := by
    intro h; rw [h]; simp [hc2, hj2]
  have n3 : instr.opcode = .OP_PROC → instr.opcode ≠ .OP_CASETBL := by
    intro h; rw [h]; decide
  unfold collect_jump_targets_step
  simp only
  generalize (info.is_call instr.opcode = true ∨
        (info.is_jump instr.opcode = true ∧ instr.num_operands = 1)) = P at hP n1 n2 ⊢
  by_cases hcj : (info.is_call instr.opcode || info.is_jump instr.opcode &&
      instr.num_operands == 1) = true
  · rw [if_pos hcj, List.mem_append, List.mem_singleton]
    have hp := hP.1 hcj
    constructor
    · rintro (h | h)
      · exact Or.inl h
      · exact Or.inr (Or.inl ⟨hp, h⟩)
    · rintro (h | ⟨-, h⟩ | ⟨hh, -⟩ | ⟨hh, -⟩)
      · exact Or.inl h
      · exact Or.inr h
      · exact absurd hp (n1 hh)
      · exact absurd hp (n2 hh)
  · rw [if_neg hcj]
    have hp := mt hP.2 hcj
    by_cases ht : instr.opcode = .OP_CASETBL
    · rw [if_pos ht, List.mem_append, hodd]
      constructor
      · rintro (h | h)
        · exact Or.inl h
        · exact Or.inr (Or.inr (Or.inl ⟨ht, h⟩))
      · rintro (h | ⟨hh, -⟩ | ⟨-, h⟩ | ⟨hh, -⟩)
        · exact Or.inl h
        · exact absurd hh hp
        · exact Or.inr h
        · exact absurd ht (n3 hh)
    · rw [if_neg ht]
      by_cases hq : instr.opcode = .OP_PROC
      · rw [if_pos hq, List.mem_append, List.mem_singleton]
        constructor
        · rintro (h | h)
          · exact Or.inl h
          · exact Or.inr (Or.inr (Or.inr ⟨hq, h⟩))
        · rintro (h | ⟨hh, -⟩ | ⟨hh, -⟩ | ⟨-, h⟩)
          · exact Or.inl h
          · exact absurd hh hp
          · exact absurd hh ht
          · exact Or.inr h
      · rw [if_neg hq]
        constructor
        · intro h
          exact Or.inl h
        · rintro (h | ⟨hh, -⟩ | ⟨hh, -⟩ | ⟨hh, -⟩)
          · exact h
          · exact absurd hh hp
          · exact absurd hh ht
          · exact absurd hh hq

theorem foldl_collect_mem (info : OpcodeInfo) (amx : AMXPtr) (x : Int)
    (hc1 : info.is_call .OP_CASETBL = false) (hj1 : info.is_jump .OP_CASETBL = false)
    (hc2 : info.is_call .OP_PROC = false) (hj2 : info.is_jump .OP_PROC = false) :
    ∀ (l : List AMXInstruction) (refs : List Int),
    x ∈ l.foldl (collect_jump_targets_step info amx) refs ↔
      x ∈ refs ∨ ∃ instr, instr ∈ l ∧
      (((info.is_call instr.opcode = true ∨
          (info.is_jump instr.opcode = true ∧ instr.num_operands = 1)) ∧
        x = rel_code_addr amx instr.operand) ∨
      (instr.opcode = .OP_CASETBL ∧ ∃ i, i < instr.num_operands ∧ i % 2 = 1 ∧
        x = rel_code_addr amx (instr.operand_at i)) ∨
      (instr.opcode = .OP_PROC ∧ x = instr.address)) := by
  intro l
  induction l with
  | nil => intro refs; simp
  | cons a r ih =>
    intro refs
    rw [List.foldl_cons, ih, collect_jump_targets_step_mem info amx refs a x hc1 hj1 hc2 hj2]
    constructor
    · rintro (h | ⟨instr, hm, h⟩)
      · rcases h with h | h
        · exact Or.inl h
        · exact Or.inr ⟨a, List.mem_cons_self _ _, h⟩
      · exact Or.inr ⟨instr, List.mem_cons_of_mem _ hm, h⟩
    · rintro (h | ⟨instr, hm, h⟩)
      · exact Or.inl (Or.inl h)
      · rcases List.mem_cons.1 hm with e | hm
        · subst e
          exact Or.inl (Or.inr h)
        · exact Or.inr ⟨instr, hm, h⟩

/-- C13: when `CASETBL` and `PROC` are neither call nor jump opcodes, an
address is in the set `collect_jump_targets` computes exactly when it is
`operand - code` of a decoded call instruction or of a decoded jump
instruction with one operand, or `operand (i) - code` for an odd index `i` of
a decoded `CASETBL` instruction, or the address of a decoded `PROC`
instruction. -/
theorem collect_jump_targets_exact (info : OpcodeInfo) (amx : AMXPtr) (x : Int)
    (hc1 : info.is_call .OP_CASETBL = false) (hj1 : info.is_jump .OP_CASETBL = false)
    (hc2 : info.is_call .OP_PROC = false) (hj2 : info.is_jump .OP_PROC = false) :
    x ∈ collect_jump_targets info amx [] ↔
      ∃ instr, instr ∈ amx.decoded ∧
      (((info.is_call instr.opcode = true ∨
          (info.is_jump instr.opcode = true ∧ instr.num_operands = 1)) ∧
        x = rel_code_addr amx instr.operand) ∨
      (instr.opcode = .OP_CASETBL ∧ ∃ i, i < instr.num_operands ∧ i % 2 = 1 ∧
        x = rel_code_addr amx (instr.operand_at i)) ∨
      (instr.opcode = .OP_PROC ∧ x = instr.address)) := by
  unfold collect_jump_targets
  rw [foldl_collect_mem info amx x hc1 hj1 hc2 hj2]
  simp

/-- Witness of C13: the jump targets of the sample program
`HALT 0; PROC; RETN` with the sample classification of the opcodes. -/
theorem collect_jump_targets_exact_witness :
    (8 : Int) ∈ collect_jump_targets sample_info sample_amx [] ↔
      ∃ instr, instr ∈ sample_amx.decoded ∧
      (((sample_info.is_call instr.opcode = true ∨
          (sample_info.is_jump instr.opcode = true ∧ instr.num_operands = 1)) ∧
        (8 : Int) = rel_code_addr sample_amx instr.operand) ∨
      (instr.opcode = .OP_CASETBL ∧ ∃ i, i < instr.num_operands ∧ i % 2 = 1 ∧
        (8 : Int) = rel_code_addr sample_amx (instr.operand_at i)) ∨
      (instr.opcode = .OP_PROC ∧ (8 : Int) = instr.address)) :=
  collect_jump_targets_exact sample_info sample_amx 8 (by decide) (by decide) (by decide)
    (by decide)

/-! ## C14: the labels of the jump targets -/

@[simp] theorem binds_cons_dstruct (e : InstrMapEntry) (r : List Item) :
    binds (.dstruct e :: r) = binds r := rfl

@[simp] theorem binds_cons_align (p : Nat) (r : List Item) :
    binds (.align p :: r) = binds r := rfl

theorem lookup_some_mem (l : List (Int × Label)) (x : Int) (v : Label)
    (h : l.lookup x = some v) : (x, v) ∈ l := by
  induction l with
  | nil => simp at h
  | cons p r ih =>
    rcases p with ⟨k, w⟩
    simp only [List.lookup] at h
    split at h
    · rename_i heq
      have hk : x = k := by simpa using heq
      cases h
      subst hk
      exact List.mem_cons_self _ _
    · exact List.mem_cons_of_mem _ (ih h)

theorem AmxLabels.get_mem (t : AmxLabels) (a : X86Assembler) (x : Int) :
    (x, (t.get a x).1) ∈ (t.get a x).2.1.labels_ := by
  unfold AmxLabels.get
  split
  · rename_i l h
    exact lookup_some_mem _ _ _ h
  · simp

theorem lookup_append_some (l m : List (Int × Label)) (x : Int) (v : Label)
    (h : l.lookup x = some v) : (l ++ m).lookup x = some v := by
  induction l with
  | nil => simp at h
  | cons p r ih =>
    rcases p with ⟨k, w⟩
    simp only [List.cons_append, List.lookup] at h ⊢
    split
    · rename_i heq
      rw [heq] at h
      exact h
    · rename_i heq
      rw [heq] at h
      exact ih h

theorem step_instr (M : Machine) (s : State) (x : Instr) (hr : s.status = .running)
    (hx : M.items[s.pc]? = some (.instr x)) :
    step M s = execInstr M { s with pc := s.pc + 1 } x := by
  unfold step
  rw [hr]
  simp only [hx]

theorem step_bind (M : Machine) (s : State) (l : Label) (hr : s.status = .running)
    (hx : M.items[s.pc]? = some (.bind l)) :
    step M s = { s with pc := s.pc + 1 } := by
  unfold step
  rw [hr]
  simp only [hx]

theorem cond_z_sub (a b : Nat) (ha : a < 4294967296) (hb : b < 4294967296) :
    Cond.holds (subFlags a b) .z = decide (a = b) := by
  simp only [Cond.holds, subFlags_zf a b ha hb]

theorem cond_g_sub (a b : Nat) (ha : a < 4294967296) (hb : b < 4294967296) :
    Cond.holds (subFlags a b) .g = decide (toSigned b < toSigned a) := by
  have h := cond_le_sub a b ha hb
  simp only [Cond.holds] at h ⊢
  by_cases h1 : toSigned a ≤ toSigned b
  · have : ¬ toSigned b < toSigned a := by omega
    simp only [h1, this, decide_True, decide_False] at h ⊢
    cases hz : (subFlags a b).zf <;> cases hsf : (subFlags a b).sf <;>
      cases hov : (subFlags a b).ovf <;> simp_all
  · have : toSigned b < toSigned a := by omega
    simp only [h1, this, decide_True, decide_False] at h ⊢
    cases hz : (subFlags a b).zf <;> cases hsf : (subFlags a b).sf <;>
      cases hov : (subFlags a b).ovf <;> simp_all

theorem cond_b_sub (a b : Nat) : Cond.holds (subFlags a b) .b = decide (a < b) := rfl

theorem cond_ae_sub (a b : Nat) : Cond.holds (subFlags a b) .ae = decide (b ≤ a) := by
  simp only [Cond.holds, subFlags]
  by_cases h : a < b
  · have : ¬ b ≤ a := by omega
    simp [h, this]
  · have : b ≤ a := by omega
    simp [h, this]

theorem cond_be_sub (a b : Nat) (ha : a < 4294967296) (hb : b < 4294967296) :
    Cond.holds (subFlags a b) .be = decide (a ≤ b) := by
  have hz := subFlags_zf a b ha hb
  simp only [Cond.holds, hz]
  simp only [subFlags]
  by_cases h1 : a < b <;> by_cases h2 : a = b <;> by_cases h3 : a ≤ b <;>
    simp [h1, h2, h3] <;> omega

theorem cond_a_sub (a b : Nat) (ha : a < 4294967296) (hb : b < 4294967296) :
    Cond.holds (subFlags a b) .a = decide (b < a) := by
  have hz := subFlags_zf a b ha hb
  simp only [Cond.holds, hz]
  simp only [subFlags]
  by_cases h1 : a < b <;> by_cases h2 : a = b <;> by_cases h3 : b < a <;>
    simp [h1, h2, h3] <;> omega

theorem emitted_eq (K : AmxH) (amx : AMXPtr) (L : HelperLabels) (instr : AMXInstruction)
    (as : X86Assembler) (amx_labels : AmxLabels) (code : List Item)
    (h : (translate K amx L instr as amx_labels).1.items = as.items ++ code) :
    emitted K amx L instr as amx_labels = code := by
  unfold emitted
  rw [h, List.drop_left]


theorem cmp_jcc_run (M : Machine) (s : State) (i d v : Nat) (x : Operand) (cc : Cond)
    (l : Label)
    (c0 : M.items[i]? = some (.instr (.bin .cmp (.reg .eax) x)))
    (c1 : M.items[i + 1]? = some (.instr (.j cc l)))
    (hl : labelIndex M.items l = some d) (hpc : s.pc = i) (hr : s.status = .running)
    (hx : ∀ t : State, t.ecx = s.ecx → readOp M t x = v) :
    (run M 2 s).pc = (if cc.holds (subFlags s.eax v) then d else i + 2) ∧
    (run M 2 s).status = .running ∧ (run M 2 s).eax = s.eax ∧ (run M 2 s).ecx = s.ecx ∧
    (run M 2 s).mem = s.mem ∧ (run M 2 s).esp = s.esp ∧ (run M 2 s).ebp = s.ebp := by
  subst hpc
  have e1 : step M s = { s with flags := subFlags s.eax v, pc := s.pc + 1 } := by
    rw [step_instr M s _ hr c0]
    show execBin M _ .cmp (.reg .eax) x = _
    unfold execBin
    simp only
    rw [hx { s with pc := s.pc + 1 } rfl]
    rfl
  have e2 : run M 2 s = step M (step M s) := rfl
  rw [e2, e1, step_instr M { s with flags := subFlags s.eax v, pc := s.pc + 1 } _ hr c1]
  simp only [execInstr]
  by_cases hc : cc.holds (subFlags s.eax v) = true
  · simp only [hc, if_true, gotoLabel, hl]
    exact ⟨trivial, hr, trivial, trivial, trivial, trivial, trivial⟩
  · simp only [hc, if_false, Bool.false_eq_true]
    exact ⟨trivial, hr, trivial, trivial, trivial, trivial, trivial⟩

theorem emitted_jcc (K : AmxH) (amx : AMXPtr) (L : HelperLabels) (a : Int)
    (operands : List Int) (as : X86Assembler) (amx_labels : AmxLabels) :
    emitted K amx L ⟨a, .OP_JZER, operands⟩ as amx_labels =
      [.instr (.bin .cmp (.reg .eax) (.imm 0)),
       .instr (.j .z (dest_label amx ⟨a, .OP_JZER, operands⟩ as amx_labels))] ∧
    emitted K amx L ⟨a, .OP_JNZ, operands⟩ as amx_labels =
      [.instr (.bin .cmp (.reg .eax) (.imm 0)),
       .instr (.j .nz (dest_label amx ⟨a, .OP_JNZ, operands⟩ as amx_labels))] ∧
    emitted K amx L ⟨a, .OP_JEQ, operands⟩ as amx_labels =
      [.instr (.bin .cmp (.reg .eax) (.reg .ecx)),
       .instr (.j .e (dest_label amx ⟨a, .OP_JEQ, operands⟩ as amx_labels))] ∧
    emitted K amx L ⟨a, .OP_JNEQ, operands⟩ as amx_labels =
      [.instr (.bin .cmp (.reg .eax) (.reg .ecx)),
       .instr (.j .ne (dest_label amx ⟨a, .OP_JNEQ, operands⟩ as amx_labels))] ∧
    emitted K amx L ⟨a, .OP_JLESS, operands⟩ as amx_labels =
      [.instr (.bin .cmp (.reg .eax) (.reg .ecx)),
       .instr (.j .b (dest_label amx ⟨a, .OP_JLESS, operands⟩ as amx_labels))] ∧
    emitted K amx L ⟨a, .OP_JLEQ, operands⟩ as amx_labels =
      [.instr (.bin .cmp (.reg .eax) (.reg .ecx)),
       .instr (.j .be (dest_label amx ⟨a, .OP_JLEQ, operands⟩ as amx_labels))] ∧
    emitted K amx L ⟨a, .OP_JGRTR, operands⟩ as amx_labels =
      [.instr (.bin .cmp (.reg .eax) (.reg .ecx)),
       .instr (.j .a (dest_label amx ⟨a, .OP_JGRTR, operands⟩ as amx_labels))] ∧
    emitted K amx L ⟨a, .OP_JGEQ, operands⟩ as amx_labels =
      [.instr (.bin .cmp (.reg .eax) (.reg .ecx)),
       .instr (.j .ae (dest_label amx ⟨a, .OP_JGEQ, operands⟩ as amx_labels))] ∧
    emitted K amx L ⟨a, .OP_JSLESS, operands⟩ as amx_labels =
      [.instr (.bin .cmp (.reg .eax) (.reg .ecx)),
       .instr (.j .l (dest_label amx ⟨a, .OP_JSLESS, operands⟩ as amx_labels))] ∧
    emitted K amx L ⟨a, .OP_JSLEQ, operands⟩ as amx_labels =
      [.instr (.bin .cmp (.reg .eax) (.reg .ecx)),
       .instr (.j .le (dest_label amx ⟨a, .OP_JSLEQ, operands⟩ as amx_labels))] ∧
    emitted K amx L ⟨a, .OP_JSGRTR, operands⟩ as amx_labels =
      [.instr (.bin .cmp (.reg .eax) (.reg .ecx)),
       .instr (.j .g (dest_label amx ⟨a, .OP_JSGRTR, operands⟩ as amx_labels))] ∧
    emitted K amx L ⟨a, .OP_JSGEQ, operands⟩ as amx_labels =
      [.instr (.bin .cmp (.reg .eax) (.reg .ecx)),
       .instr (.j .ge (dest_label amx ⟨a, .OP_JSGEQ, operands⟩ as amx_labels))] := by
  refine ⟨?_, ?_, ?_, ?_, ?_, ?_, ?_, ?_, ?_, ?_, ?_, ?_⟩ <;>
    (apply emitted_eq
     simp [translate, dest_label, X86Assembler.cmp, X86Assembler.jz, X86Assembler.jnz,
       X86Assembler.je, X86Assembler.jne, X86Assembler.jb, X86Assembler.jbe, X86Assembler.ja,
       X86Assembler.jae, X86Assembler.jl, X86Assembler.jle, X86Assembler.jg, X86Assembler.jge,
       imm])


/-- C15: the code emitted for a conditional jump `op` of the AMX, run with
32-bit `PRI` in `eax` and `ALT` in `ecx`, continues at the binding of the
label of the target when the condition the specification gives for `op` holds
(`JLESS`, `JLEQ`, `JGRTR`, `JGEQ` unsigned, `JSLESS`, `JSLEQ`, `JSGRTR`,
`JSGEQ` signed, `JEQ`, `JNEQ`, `JZER`, `JNZ`), and at the item behind the
code otherwise; `eax`, `ecx` and the memory are unchanged either way. -/
theorem jump_transfers_iff (K : AmxH) (amx : AMXPtr) (L : HelperLabels) (a : Int)
    (op : AMXOpcodeID) (operands : List Int) (as : X86Assembler) (amx_labels : AmxLabels)
    (M : Machine) (i d : Nat) (s : State) (c : Bool)
    (hop : spec_jump_taken op s.eax s.ecx = some c)
    (hcode : CodeAt M i (emitted K amx L ⟨a, op, operands⟩ as amx_labels))
    (hl : labelIndex M.items (dest_label amx ⟨a, op, operands⟩ as amx_labels) = some d)
    (hpc : s.pc = i) (hr : s.status = .running)
    (ha : s.eax < 4294967296) (hc : s.ecx < 4294967296) :
    (run M 2 s).pc = (if c then d else i + 2) ∧
    (run M 2 s).status = .running ∧ (run M 2 s).eax = s.eax ∧ (run M 2 s).ecx = s.ecx ∧
    (run M 2 s).mem = s.mem ∧ (run M 2 s).esp = s.esp ∧ (run M 2 s).ebp = s.ebp := by
  obtain ⟨e1, e2, e3, e4, e5, e6, e7, e8, e9, e10, e11, e12⟩ :=
    emitted_jcc K amx L a operands as amx_labels
  have h0 : toU32 0 = 0 := rfl
  cases op <;> simp only [spec_jump_taken, Option.some.injEq, reduceCtorEq] at hop <;>
    subst hop
  case OP_JZER =>
    rw [e1] at hcode
    have := cmp_jcc_run M s i d 0 (.imm 0) _ _ (by simpa using hcode.get 0 _ rfl) (hcode.get 1 _ rfl)
      hl hpc hr (fun _ _ => rfl)
    rwa [cond_z_sub _ _ ha (by decide)] at this
  case OP_JNZ =>
    rw [e2] at hcode
    have := cmp_jcc_run M s i d 0 (.imm 0) _ _ (by simpa using hcode.get 0 _ rfl) (hcode.get 1 _ rfl)
      hl hpc hr (fun _ _ => rfl)
    rwa [cond_nz_sub _ _ ha (by decide)] at this
  case OP_JEQ =>
    rw [e3] at hcode
    have := cmp_jcc_run M s i d s.ecx (.reg .ecx) _ _ (by simpa using hcode.get 0 _ rfl)
      (hcode.get 1 _ rfl) hl hpc hr (fun _ h => h)
    rwa [cond_e_sub _ _ ha hc] at this
  case OP_JNEQ =>
    rw [e4] at hcode
    have := cmp_jcc_run M s i d s.ecx (.reg .ecx) _ _ (by simpa using hcode.get 0 _ rfl)
      (hcode.get 1 _ rfl) hl hpc hr (fun _ h => h)
    rwa [cond_ne_sub _ _ ha hc] at this
  case OP_JLESS =>
    rw [e5] at hcode
    have := cmp_jcc_run M s i d s.ecx (.reg .ecx) _ _ (by simpa using hcode.get 0 _ rfl)
      (hcode.get 1 _ rfl) hl hpc hr (fun _ h => h)
    rwa [cond_b_sub] at this
  case OP_JLEQ =>
    rw [e6] at hcode
    have := cmp_jcc_run M s i d s.ecx (.reg .ecx) _ _ (by simpa using hcode.get 0 _ rfl)
      (hcode.get 1 _ rfl) hl hpc hr (fun _ h => h)
    rwa [cond_be_sub _ _ ha hc] at this
  case OP_JGRTR =>
    rw [e7] at hcode
    have := cmp_jcc_run M s i d s.ecx (.reg .ecx) _ _ (by simpa using hcode.get 0 _ rfl)
      (hcode.get 1 _ rfl) hl hpc hr (fun _ h => h)
    rwa [cond_a_sub _ _ ha hc] at this
  case OP_JGEQ =>
    rw [e8] at hcode
    have := cmp_jcc_run M s i d s.ecx (.reg .ecx) _ _ (by simpa using hcode.get 0 _ rfl)
      (hcode.get 1 _ rfl) hl hpc hr (fun _ h => h)
    rwa [cond_ae_sub] at this
  case OP_JSLESS =>
    rw [e9] at hcode
    have := cmp_jcc_run M s i d s.ecx (.reg .ecx) _ _ (by simpa using hcode.get 0 _ rfl)
      (hcode.get 1 _ rfl) hl hpc hr (fun _ h => h)
    rwa [cond_l_sub _ _ ha hc] at this
  case OP_JSLEQ =>
    rw [e10] at hcode
    have := cmp_jcc_run M s i d s.ecx (.reg .ecx) _ _ (by simpa using hcode.get 0 _ rfl)
      (hcode.get 1 _ rfl) hl hpc hr (fun _ h => h)
    rwa [cond_le_sub _ _ ha hc] at this
  case OP_JSGRTR =>
    rw [e11] at hcode
    have := cmp_jcc_run M s i d s.ecx (.reg .ecx) _ _ (by simpa using hcode.get 0 _ rfl)
      (hcode.get 1 _ rfl) hl hpc hr (fun _ h => h)
    rwa [cond_g_sub _ _ ha hc] at this
  case OP_JSGEQ =>
    rw [e12] at hcode
    have := cmp_jcc_run M s i d s.ecx (.reg .ecx) _ _ (by simpa using hcode.get 0 _ rfl)
      (hcode.get 1 _ rfl) hl hpc hr (fun _ h => h)
    rwa [cond_ge_sub _ _ ha hc] at this

theorem emitted_arith (K : AmxH) (amx : AMXPtr) (L : HelperLabels) (a : Int)
    (operands : List Int) (as : X86Assembler) (amx_labels : AmxLabels) :
    emitted K amx L ⟨a, .OP_UDIV, operands⟩ as amx_labels =
      [.instr (.bin .xor_ (.reg .edx) (.reg .edx)), .instr (.un .div (.reg .ecx)),
       .instr (.bin .mov (.reg .ecx) (.reg .edx))] ∧
    emitted K amx L ⟨a, .OP_UDIV_ALT, operands⟩ as amx_labels =
      [.instr (.bin .xchg (.reg .eax) (.reg .ecx)),
       .instr (.bin .xor_ (.reg .edx) (.reg .edx)), .instr (.un .div (.reg .ecx)),
       .instr (.bin .mov (.reg .ecx) (.reg .edx))] ∧
    emitted K amx L ⟨a, .OP_SMUL, operands⟩ as amx_labels =
      [.instr (.bin .xor_ (.reg .edx) (.reg .edx)), .instr (.un .imul1 (.reg .ecx))] := by
  refine ⟨?_, ?_, ?_⟩ <;>
    (apply emitted_eq
     simp [translate, X86Assembler.xor_, X86Assembler.div, X86Assembler.mov,
       X86Assembler.xchg, X86Assembler.imul1])

theorem udiv_run (M : Machine) (eax ecx edx ebx esp ebp esi edi : Nat) (flags : Flags)
    (df : Bool) (mem : Memory) (calls : List CallEvent) (i : Nat)
    (c0 : M.items[i]? = some (.instr (.bin .xor_ (.reg .edx) (.reg .edx))))
    (c1 : M.items[i + 1]? = some (.instr (.un .div (.reg .ecx))))
    (c2 : M.items[i + 2]? = some (.instr (.bin .mov (.reg .ecx) (.reg .edx))))
    (ha : eax < 4294967296) (hc : ecx < 4294967296) (h0 : ecx ≠ 0) :
    ∃ f, run M 3 ⟨eax, ecx, edx, ebx, esp, ebp, esi, edi, flags, df, mem, i, .running,
        calls⟩ =
      ⟨eax / ecx, eax % ecx, eax % ecx, ebx, esp, ebp, esi, edi, f, df, mem, i + 3, .running,
        calls⟩ := by
  have hq : ¬ (ecx = 0 ∨ 4294967296 ≤ eax / ecx) := by
    have : eax / ecx ≤ eax := Nat.div_le_self _ _
    omega
  have hm : eax % ecx < 4294967296 := by
    have := Nat.mod_lt eax (Nat.pos_of_ne_zero h0)
    omega
  apply Exists.intro
  simp (disch := omega) only [run, step, c0, c1, c2, execInstr, execBin, execUn, readOp,
    writeOp, State.reg, State.setReg, Nat.xor_self, Nat.zero_mod, Nat.zero_mul, Nat.zero_add,
    hq, if_false, Nat.add_assoc, Nat.reduceAdd, Nat.mod_eq_of_lt]
  rfl

theorem udiv_alt_run (M : Machine) (eax ecx edx ebx esp ebp esi edi : Nat) (flags : Flags)
    (df : Bool) (mem : Memory) (calls : List CallEvent) (i : Nat)
    (c0 : M.items[i]? = some (.instr (.bin .xchg (.reg .eax) (.reg .ecx))))
    (c1 : M.items[i + 1]? = some (.instr (.bin .xor_ (.reg .edx) (.reg .edx))))
    (c2 : M.items[i + 2]? = some (.instr (.un .div (.reg .ecx))))
    (c3 : M.items[i + 3]? = some (.instr (.bin .mov (.reg .ecx) (.reg .edx))))
    (ha : eax < 4294967296) (hc : ecx < 4294967296) (h0 : eax ≠ 0) :
    ∃ f, run M 4 ⟨eax, ecx, edx, ebx, esp, ebp, esi, edi, flags, df, mem, i, .running,
        calls⟩ =
      ⟨ecx / eax, ecx % eax, ecx % eax, ebx, esp, ebp, esi, edi, f, df, mem, i + 4, .running,
        calls⟩ := by
  have hq : ¬ (eax = 0 ∨ 4294967296 ≤ ecx / eax) := by
    have : ecx / eax ≤ ecx := Nat.div_le_self _ _
    omega
  have hm : ecx % eax < 4294967296 := by
    have := Nat.mod_lt ecx (Nat.pos_of_ne_zero h0)
    omega
  apply Exists.intro
  simp (disch := omega) only [run, step, c0, c1, c2, c3, execInstr, execBin, execUn, readOp,
    writeOp, State.reg, State.setReg, Nat.xor_self, Nat.zero_mod, Nat.zero_mul, Nat.zero_add,
    hq, if_false, Nat.add_assoc, Nat.reduceAdd, Nat.mod_eq_of_lt]
  rfl

/-- C17: the code emitted for `UDIV`, run with 32-bit `PRI` in `eax` and a
non-zero 32-bit `ALT` in `ecx`, leaves `PRI = PRI div ALT` and
`ALT = PRI mod ALT`; the code emitted for `UDIV_ALT`, run with a non-zero
`PRI`, leaves `PRI = ALT div PRI` and `ALT = ALT mod PRI` (unsigned). -/
theorem udiv_divides (K : AmxH) (amx : AMXPtr) (L : HelperLabels) (a : Int)
    (operands : List Int) (as : X86Assembler) (amx_labels : AmxLabels)
    (M : Machine) (i : Nat) (s : State)
    (hpc : s.pc = i) (hr : s.status = .running)
    (ha : s.eax < 4294967296) (hc : s.ecx < 4294967296) :
    (CodeAt M i (emitted K amx L ⟨a, .OP_UDIV, operands⟩ as amx_labels) → s.ecx ≠ 0 →
      (run M 3 s).eax = s.eax / s.ecx ∧ (run M 3 s).ecx = s.eax % s.ecx ∧
      (run M 3 s).pc = i + 3 ∧ (run M 3 s).status = .running) ∧
    (CodeAt M i (emitted K amx L ⟨a, .OP_UDIV_ALT, operands⟩ as amx_labels) → s.eax ≠ 0 →
      (run M 4 s).eax = s.ecx / s.eax ∧ (run M 4 s).ecx = s.ecx % s.eax ∧
      (run M 4 s).pc = i + 4 ∧ (run M 4 s).status = .running) := by
  obtain ⟨e1, e2, -⟩ := emitted_arith K amx L a operands as amx_labels
  have el := State.eq_lit s i hpc hr
  constructor
  · intro hcode h0
    rw [e1] at hcode
    obtain ⟨f, hf⟩ := udiv_run M s.eax s.ecx s.edx s.ebx s.esp s.ebp s.esi s.edi s.flags s.df
      s.mem s.calls i (by simpa using hcode.get 0 _ rfl) (hcode.get 1 _ rfl)
      (hcode.get 2 _ rfl) ha hc h0
    rw [← el] at hf
    rw [hf]
    exact ⟨rfl, rfl, rfl, rfl⟩
  · intro hcode h0
    rw [e2] at hcode
    obtain ⟨f, hf⟩ := udiv_alt_run M s.eax s.ecx s.edx s.ebx s.esp s.ebp s.esi s.edi s.flags
      s.df s.mem s.calls i (by simpa using hcode.get 0 _ rfl) (hcode.get 1 _ rfl)
      (hcode.get 2 _ rfl) (hcode.get 3 _ rfl) ha hc h0
    rw [← el] at hf
    rw [hf]
    exact ⟨rfl, rfl, rfl, rfl⟩


theorem toSigned_modEq (a : Nat) (ha : a < 4294967296) :
    toSigned a ≡ (a : Int) [ZMOD 4294967296] := by
  rw [toSigned_eq a ha]
  split
  · exact Int.ModEq.refl _
  · unfold Int.ModEq
    omega

theorem toU32_mul_signed (a b : Nat) (ha : a < 4294967296) (hb : b < 4294967296) :
    toU32 (toSigned a * toSigned b) = (a * b) % 4294967296 := by
  have h := (toSigned_modEq a ha).mul (toSigned_modEq b hb)
  unfold Int.ModEq at h
  unfold toU32
  rw [h]
  have : ((a : Int) * (b : Int)) % 4294967296 = (((a * b) % 4294967296 : Nat) : Int) := by
    push_cast
    rfl
  rw [this]
  exact Int.toNat_natCast _

theorem smul_run (M : Machine) (eax ecx edx ebx esp ebp esi edi : Nat) (flags : Flags)
    (df : Bool) (mem : Memory) (calls : List CallEvent) (i : Nat)
    (c0 : M.items[i]? = some (.instr (.bin .xor_ (.reg .edx) (.reg .edx))))
    (c1 : M.items[i + 1]? = some (.instr (.un .imul1 (.reg .ecx)))) :
    ∃ f, run M 2 ⟨eax, ecx, edx, ebx, esp, ebp, esi, edi, flags, df, mem, i, .running,
        calls⟩ =
      ⟨toU32 (toSigned eax * toSigned ecx), ecx,
        toU32 (toSigned eax * toSigned ecx / 4294967296), ebx, esp, ebp, esi, edi, f, df, mem,
        i + 2, .running, calls⟩ := by
  apply Exists.intro
  simp (disch := omega) only [run, step, c0, c1, execInstr, execBin, execUn, readOp,
    writeOp, State.reg, State.setReg, Nat.xor_self, Nat.zero_mod, Nat.add_assoc,
    Nat.reduceAdd]
  rfl

/-- C18, counterexample: the code emitted for `SMUL`, run with `PRI = 7` and
`ALT = 5`, leaves `PRI = 35` and `ALT = 5`, not 0. -/
theorem smul_alt_counterexample :
    (run smul_machine 2 (snippet_state 7 5)).eax = 35 ∧
    (run smul_machine 2 (snippet_state 7 5)).ecx = 5 := by
  decide

/-- C18, amended: the code emitted for `SMUL`, run with 32-bit `PRI` in `eax`
and `ALT` in `ecx`, leaves `PRI` equal to the low 32 bits of `PRI x ALT`,
leaves `ALT` as it was, and leaves the high half of the signed product in
`edx`. -/
theorem smul_low_half (K : AmxH) (amx : AMXPtr) (L : HelperLabels) (a : Int)
    (operands : List Int) (as : X86Assembler) (amx_labels : AmxLabels)
    (M : Machine) (i : Nat) (s : State)
    (hcode : CodeAt M i (emitted K amx L ⟨a, .OP_SMUL, operands⟩ as amx_labels))
    (hpc : s.pc = i) (hr : s.status = .running)
    (ha : s.eax < 4294967296) (hc : s.ecx < 4294967296) :
    (run M 2 s).eax = (s.eax * s.ecx) % 4294967296 ∧ (run M 2 s).ecx = s.ecx ∧
    (run M 2 s).edx = toU32 (toSigned s.eax * toSigned s.ecx / 4294967296) ∧
    (run M 2 s).pc = i + 2 ∧ (run M 2 s).status = .running := by
  obtain ⟨-, -, e3⟩ := emitted_arith K amx L a operands as amx_labels
  have el := State.eq_lit s i hpc hr
  rw [e3] at hcode
  obtain ⟨f, hf⟩ := smul_run M s.eax s.ecx s.edx s.ebx s.esp s.ebp s.esi s.edi s.flags s.df
    s.mem s.calls i (by simpa using hcode.get 0 _ rfl) (hcode.get 1 _ rfl)
  rw [← el] at hf
  rw [hf]
  exact ⟨toU32_mul_signed _ _ ha hc, rfl, rfl, rfl, rfl⟩

set_option maxRecDepth 100000 in
/-- Witness of C18: `PRI = 7`, `ALT = 5`. -/
theorem smul_low_half_witness :
    (run smul_machine 2 (snippet_state 7 5)).eax =
      ((snippet_state 7 5).eax * (snippet_state 7 5).ecx) % 4294967296 ∧
    (run smul_machine 2 (snippet_state 7 5)).ecx = (snippet_state 7 5).ecx ∧
    (run smul_machine 2 (snippet_state 7 5)).edx =
      toU32 (toSigned (snippet_state 7 5).eax * toSigned (snippet_state 7 5).ecx /
        4294967296) ∧
    (run smul_machine 2 (snippet_state 7 5)).pc = 0 + 2 ∧
    (run smul_machine 2 (snippet_state 7 5)).status = .running :=
  smul_low_half amx_h_32 sample_amx sample_helpers 0 [] (emptyAs 0) ⟨[]⟩ smul_machine 0
    (snippet_state 7 5) (by unfold CodeAt; decide) rfl rfl (by decide) (by decide)


theorem toSigned_zero : toSigned 0 = 0 := by decide

theorem bounds_run_above (M : Machine) (eax ecx edx ebx esp ebp esi edi : Nat) (flags : Flags)
    (df : Bool) (mem : Memory) (calls : List CallEvent) (i d : Nat) (v e : Int)
    (l1 l2 l3 : Label)
    (c0 : M.items[i]? = some (.instr (.bin .cmp (.reg .eax) (.imm v))))
    (c1 : M.items[i + 1]? = some (.instr (.j .g l1)))
    (c2 : M.items[i + 2]? = some (.instr (.bin .cmp (.reg .eax) (.imm 0))))
    (c3 : M.items[i + 3]? = some (.instr (.j .l l1)))
    (c4 : M.items[i + 4]? = some (.instr (.jmp l2)))
    (c5 : M.items[i + 5]? = some (.bind l1))
    (c6 : M.items[i + 6]? = some (.instr (.bin .mov (.reg .ecx) (.imm e))))
    (c7 : M.items[i + 7]? = some (.instr (.jmp l3)))
    (c8 : M.items[i + 8]? = some (.bind l2))
    (hl1 : labelIndex M.items l1 = some (i + 5))
    (hl2 : labelIndex M.items l2 = some (i + 8))
    (hl3 : labelIndex M.items l3 = some d)
    (ha : eax < 4294967296)
    (hgt : toSigned (toU32 v) < toSigned eax) :
    ∃ f, run M 5 ⟨eax, ecx, edx, ebx, esp, ebp, esi, edi, flags, df, mem, i, .running,
        calls⟩ =
      ⟨eax, toU32 e, edx, ebx, esp, ebp, esi, edi, f, df, mem, d, .running, calls⟩ := by
  apply Exists.intro
  simp (disch := first | omega | exact toU32_lt _) only [run, step, c0, c1, c2, c3, c4, c5,
    c6, c7, c8, hl1, hl2, hl3, execInstr, execBin, execUn, readOp, writeOp, State.reg,
    State.setReg, gotoLabel, cond_g_sub, cond_l_sub, toU32_zero, toSigned_zero, hgt,
    decide_True, decide_False, if_true, if_false, Bool.false_eq_true, Nat.add_assoc,
    Nat.reduceAdd, Nat.mod_eq_of_lt]
  rfl

theorem bounds_run_below (M : Machine) (eax ecx edx ebx esp ebp esi edi : Nat) (flags : Flags)
    (df : Bool) (mem : Memory) (calls : List CallEvent) (i d : Nat) (v e : Int)
    (l1 l2 l3 : Label)
    (c0 : M.items[i]? = some (.instr (.bin .cmp (.reg .eax) (.imm v))))
    (c1 : M.items[i + 1]? = some (.instr (.j .g l1)))
    (c2 : M.items[i + 2]? = some (.instr (.bin .cmp (.reg .eax) (.imm 0))))
    (c3 : M.items[i + 3]? = some (.instr (.j .l l1)))
    (c4 : M.items[i + 4]? = some (.instr (.jmp l2)))
    (c5 : M.items[i + 5]? = some (.bind l1))
    (c6 : M.items[i + 6]? = some (.instr (.bin .mov (.reg .ecx) (.imm e))))
    (c7 : M.items[i + 7]? = some (.instr (.jmp l3)))
    (c8 : M.items[i + 8]? = some (.bind l2))
    (hl1 : labelIndex M.items l1 = some (i + 5))
    (hl2 : labelIndex M.items l2 = some (i + 8))
    (hl3 : labelIndex M.items l3 = some d)
    (ha : eax < 4294967296)
    (hgt : ¬ toSigned (toU32 v) < toSigned eax) (hneg : toSigned eax < 0) :
    ∃ f, run M 7 ⟨eax, ecx, edx, ebx, esp, ebp, esi, edi, flags, df, mem, i, .running,
        calls⟩ =
      ⟨eax, toU32 e, edx, ebx, esp, ebp, esi, edi, f, df, mem, d, .running, calls⟩ := by
  apply Exists.intro
  simp (disch := first | omega | exact toU32_lt _) only [run, step, c0, c1, c2, c3, c4, c5,
    c6, c7, c8, hl1, hl2, hl3, execInstr, execBin, execUn, readOp, writeOp, State.reg,
    State.setReg, gotoLabel, cond_g_sub, cond_l_sub, toU32_zero, toSigned_zero, hgt, hneg,
    decide_True, decide_False, if_true, if_false, Bool.false_eq_true, Nat.add_assoc,
    Nat.reduceAdd, Nat.mod_eq_of_lt]
  rfl

theorem bounds_run_inside (M : Machine) (eax ecx edx ebx esp ebp esi edi : Nat) (flags : Flags)
    (df : Bool) (mem : Memory) (calls : List CallEvent) (i d : Nat) (v e : Int)
    (l1 l2 l3 : Label)
    (c0 : M.items[i]? = some (.instr (.bin .cmp (.reg .eax) (.imm v))))
    (c1 : M.items[i + 1]? = some (.instr (.j .g l1)))
    (c2 : M.items[i + 2]? = some (.instr (.bin .cmp (.reg .eax) (.imm 0))))
    (c3 : M.items[i + 3]? = some (.instr (.j .l l1)))
    (c4 : M.items[i + 4]? = some (.instr (.jmp l2)))
    (c5 : M.items[i + 5]? = some (.bind l1))
    (c6 : M.items[i + 6]? = some (.instr (.bin .mov (.reg .ecx) (.imm e))))
    (c7 : M.items[i + 7]? = some (.instr (.jmp l3)))
    (c8 : M.items[i + 8]? = some (.bind l2))
    (hl1 : labelIndex M.items l1 = some (i + 5))
    (hl2 : labelIndex M.items l2 = some (i + 8))
    (hl3 : labelIndex M.items l3 = some d)
    (ha : eax < 4294967296)
    (hgt : ¬ toSigned (toU32 v) < toSigned eax) (hneg : ¬ toSigned eax < 0) :
    ∃ f, run M 6 ⟨eax, ecx, edx, ebx, esp, ebp, esi, edi, flags, df, mem, i, .running,
        calls⟩ =
      ⟨eax, ecx, edx, ebx, esp, ebp, esi, edi, f, df, mem, i + 9, .running, calls⟩ := by
  apply Exists.intro
  simp (disch := first | omega | exact toU32_lt _) only [run, step, c0, c1, c2, c3, c4, c5,
    c6, c7, c8, hl1, hl2, hl3, execInstr, execBin, execUn, readOp, writeOp, State.reg,
    State.setReg, gotoLabel, cond_g_sub, cond_l_sub, toU32_zero, toSigned_zero, hgt, hneg,
    decide_True, decide_False, if_true, if_false, Bool.false_eq_true, Nat.add_assoc,
    Nat.reduceAdd, Nat.mod_eq_of_lt]
  rfl

set_option maxRecDepth 100000 in
/-- Witness of C15: `JSLESS` with `PRI = -1` and `ALT = 1` jumps (the signed
comparison holds, an unsigned one would not). -/
theorem jump_transfers_iff_witness :
    (run jsless_machine 2 (snippet_state 4294967295 1)).pc = (if true then 3 else 0 + 2) ∧
    (run jsless_machine 2 (snippet_state 4294967295 1)).status = .running ∧
    (run jsless_machine 2 (snippet_state 4294967295 1)).eax =
      (snippet_state 4294967295 1).eax ∧
    (run jsless_machine 2 (snippet_state 4294967295 1)).ecx =
      (snippet_state 4294967295 1).ecx ∧
    (run jsless_machine 2 (snippet_state 4294967295 1)).mem =
      (snippet_state 4294967295 1).mem ∧
    (run jsless_machine 2 (snippet_state 4294967295 1)).esp =
      (snippet_state 4294967295 1).esp ∧
    (run jsless_machine 2 (snippet_state 4294967295 1)).ebp =
      (snippet_state 4294967295 1).ebp :=
  jump_transfers_iff amx_h_32 sample_amx sample_helpers 0 .OP_JSLESS [16400] (emptyAs 0) ⟨[]⟩
    jsless_machine 0 3 (snippet_state 4294967295 1) true (by decide)
    (by unfold CodeAt; decide) (by decide) rfl rfl (by decide) (by decide)

set_option maxRecDepth 100000 in
/-- C16, evidence against the code: the code emitted for `SDIV` clears `edx`
instead of sign-extending `eax` into it, so `idiv` divides the unsigned value
of `PRI`. With `PRI = -7` and `ALT = 2` it leaves `PRI = 2147483644` and
`ALT = 1`, where the signed quotient is -3 (or -4, rounding down) and the
remainder -1 (or 1); with `PRI = -7` and `ALT = 1` the quotient does not fit
and the division faults. -/
theorem sdiv_negative_evidence :
    sdiv_machine.items = [.instr (.bin .xor_ (.reg .edx) (.reg .edx)),
      .instr (.un .idiv (.reg .ecx)), .instr (.bin .mov (.reg .ecx) (.reg .edx))] ∧
    toSigned 4294967289 = -7 ∧
    (run sdiv_machine 3 (snippet_state 4294967289 2)).eax = 2147483644 ∧
    (run sdiv_machine 3 (snippet_state 4294967289 2)).ecx = 1 ∧
    (run sdiv_machine 3 (snippet_state 4294967289 1)).status = .fault := by
  decide

set_option maxRecDepth 100000 in
/-- Witness of C17: `PRI = 4294967289`, `ALT = 2`. -/
theorem udiv_divides_witness :
    (run udiv_machine 3 (snippet_state 4294967289 2)).eax =
      (snippet_state 4294967289 2).eax / (snippet_state 4294967289 2).ecx ∧
    (run udiv_machine 3 (snippet_state 4294967289 2)).ecx =
      (snippet_state 4294967289 2).eax % (snippet_state 4294967289 2).ecx ∧
    (run udiv_machine 3 (snippet_state 4294967289 2)).pc = 0 + 3 ∧
    (run udiv_machine 3 (snippet_state 4294967289 2)).status = .running :=
  (udiv_divides amx_h_32 sample_amx sample_helpers 0 [] (emptyAs 0) ⟨[]⟩ udiv_machine 0
    (snippet_state 4294967289 2) rfl rfl (by decide) (by decide)).1
    (by unfold CodeAt; decide) (by decide)

set_option maxRecDepth 100000 in
/-- C19, evidence against the code: the code emitted for `SHR_C_ALT 1` is
`shl ecx, 1`; run with `ALT = 8` it leaves `ALT = 16`, where a logical shift
right by one bit gives 4. -/
theorem shr_c_alt_evidence :
    shr_c_alt_machine.items = [.instr (.bin .shl (.reg .ecx) (.imm 1))] ∧
    (run shr_c_alt_machine 1 (snippet_state 0 8)).ecx = 16 ∧
    8 / 2 ^ 1 = 4 := by
  decide

theorem emitted_bounds (K : AmxH) (amx : AMXPtr) (L : HelperLabels) (a : Int)
    (operands : List Int) (as : X86Assembler) (amx_labels : AmxLabels) :
    emitted K amx L ⟨a, .OP_BOUNDS, operands⟩ as amx_labels =
      [.instr (.bin .cmp (.reg .eax) (.imm (operands.getD 0 0))),
       .instr (.j .g ⟨as.numLabels⟩),
       .instr (.bin .cmp (.reg .eax) (.imm 0)),
       .instr (.j .l ⟨as.numLabels⟩),
       .instr (.jmp ⟨as.numLabels + 1⟩),
       .bind ⟨as.numLabels⟩,
       .instr (.bin .mov (.reg .ecx) (.imm K.AMX_ERR_BOUNDS)),
       .instr (.jmp L.L_do_halt),
       .bind ⟨as.numLabels + 1⟩] := by
  apply emitted_eq
  simp [translate, X86Assembler.newLabel, X86Assembler.cmp, X86Assembler.jg, X86Assembler.jl,
    X86Assembler.jmp, X86Assembler.bind, X86Assembler.mov, imm, AMXInstruction.operand,
    AMXInstruction.operand_at]

/-- C20: the code emitted for `BOUNDS v`, in a buffer in which its two labels
and `L_do_halt` resolve to their bindings, run with a 32-bit `PRI` in `eax`:
when `PRI > v` or `PRI < 0` as signed integers it arrives at `L_do_halt` with
`ALT` (`ecx`) equal to `AMX_ERR_BOUNDS` and `PRI` unchanged; otherwise it
arrives after six steps at the item behind the code, with `PRI`, `ALT` and
the memory unchanged. -/
theorem bounds_checks_range (K : AmxH) (amx : AMXPtr) (L : HelperLabels) (a : Int)
    (operands : List Int) (as : X86Assembler) (amx_labels : AmxLabels)
    (M : Machine) (i d : Nat) (s : State)
    (hcode : CodeAt M i (emitted K amx L ⟨a, .OP_BOUNDS, operands⟩ as amx_labels))
    (hl1 : labelIndex M.items ⟨as.numLabels⟩ = some (i + 5))
    (hl2 : labelIndex M.items ⟨as.numLabels + 1⟩ = some (i + 8))
    (hl3 : labelIndex M.items L.L_do_halt = some d)
    (hpc : s.pc = i) (hr : s.status = .running) (ha : s.eax < 4294967296) :
    (toSigned (toU32 (AMXInstruction.operand ⟨a, .OP_BOUNDS, operands⟩)) < toSigned s.eax ∨
        toSigned s.eax < 0 →
      ∃ k, (run M k s).pc = d ∧ (run M k s).status = .running ∧
        (run M k s).ecx = toU32 K.AMX_ERR_BOUNDS ∧ (run M k s).eax = s.eax) ∧
    (¬ (toSigned (toU32 (AMXInstruction.operand ⟨a, .OP_BOUNDS, operands⟩)) < toSigned s.eax ∨
        toSigned s.eax < 0) →
      (run M 6 s).pc = i + 9 ∧ (run M 6 s).status = .running ∧
        (run M 6 s).eax = s.eax ∧ (run M 6 s).ecx = s.ecx ∧ (run M 6 s).mem = s.mem) := by
  rw [emitted_bounds] at hcode
  have el := State.eq_lit s i hpc hr
  have c0 := hcode.get 0 _ rfl
  rw [Nat.add_zero] at c0
  have hv : AMXInstruction.operand ⟨a, .OP_BOUNDS, operands⟩ = operands.getD 0 0 := rfl
  rw [hv]
  constructor
  · intro h
    by_cases hgt : toSigned (toU32 (operands.getD 0 0)) < toSigned s.eax
    · obtain ⟨f, hf⟩ := bounds_run_above M s.eax s.ecx s.edx s.ebx s.esp s.ebp s.esi s.edi
        s.flags s.df s.mem s.calls i d _ _ _ _ _ c0 (hcode.get 1 _ rfl) (hcode.get 2 _ rfl)
        (hcode.get 3 _ rfl) (hcode.get 4 _ rfl) (hcode.get 5 _ rfl) (hcode.get 6 _ rfl)
        (hcode.get 7 _ rfl) (hcode.get 8 _ rfl) hl1 hl2 hl3 ha hgt
      rw [← el] at hf
      exact ⟨5, by rw [hf], by rw [hf], by rw [hf], by rw [hf]⟩
    · have hneg : toSigned s.eax < 0 := by
        rcases h with h | h
        · exact absurd h hgt
        · exact h
      obtain ⟨f, hf⟩ := bounds_run_below M s.eax s.ecx s.edx s.ebx s.esp s.ebp s.esi s.edi
        s.flags s.df s.mem s.calls i d _ _ _ _ _ c0 (hcode.get 1 _ rfl) (hcode.get 2 _ rfl)
        (hcode.get 3 _ rfl) (hcode.get 4 _ rfl) (hcode.get 5 _ rfl) (hcode.get 6 _ rfl)
        (hcode.get 7 _ rfl) (hcode.get 8 _ rfl) hl1 hl2 hl3 ha hgt hneg
      rw [← el] at hf
      exact ⟨7, by rw [hf], by rw [hf], by rw [hf], by rw [hf]⟩
  · intro h
    obtain ⟨f, hf⟩ := bounds_run_inside M s.eax s.ecx s.edx s.ebx s.esp s.ebp s.esi s.edi
      s.flags s.df s.mem s.calls i d _ _ _ _ _ c0 (hcode.get 1 _ rfl) (hcode.get 2 _ rfl)
      (hcode.get 3 _ rfl) (hcode.get 4 _ rfl) (hcode.get 5 _ rfl) (hcode.get 6 _ rfl)
      (hcode.get 7 _ rfl) (hcode.get 8 _ rfl) hl1 hl2 hl3 ha (fun x => h (Or.inl x))
      (fun x => h (Or.inr x))
    rw [← el] at hf
    rw [hf]
    exact ⟨rfl, rfl, rfl, rfl, rfl⟩

set_option maxRecDepth 100000 in
/-- Witness of C20: `BOUNDS 9` with `PRI = 12` goes to `L_do_halt`. -/
theorem bounds_checks_range_witness :
    ∃ k, (run bounds_machine k (snippet_state 12 0)).pc = 9 ∧
      (run bounds_machine k (snippet_state 12 0)).status = .running ∧
      (run bounds_machine k (snippet_state 12 0)).ecx = toU32 amx_h_32.AMX_ERR_BOUNDS ∧
      (run bounds_machine k (snippet_state 12 0)).eax = (snippet_state 12 0).eax :=
  (bounds_checks_range amx_h_32 sample_amx sample_helpers 0 [9] (emptyAs 26) ⟨[]⟩
    bounds_machine 0 9 (snippet_state 12 0) (by unfold CodeAt; decide) (by decide) (by decide)
    (by decide) rfl rfl (by decide)).1 (Or.inl (by decide))

/-! ## The code of the system requests -/

theorem intrinsics_lookup_none (name : String) (h : name ∉ intrinsic_names) :
    intrinsics.lookup name = none := by
  simp only [intrinsic_names, intrinsics, List.map_cons, List.map_nil, List.mem_cons,
    List.mem_singleton, List.not_mem_nil, or_false, not_or] at h
  obtain ⟨h1, h2, h3, h4, h5, h6, h7, h8⟩ := h
  have b : ∀ x : String, ¬ name = x → (name == x) = false := fun x hx => by simpa using hx
  simp only [intrinsics, List.lookup, b _ h1, b _ h2, b _ h3, b _ h4, b _ h5, b _ h6, b _ h7,
    b _ h8]

set_option maxRecDepth 1000000 in
/-- C24, evidence against the code: in the compiled sample program with
natives the code of `JUMP_PRI` is `push esp; push ebp; push eax;
call jump_helper` (items 233 to 236). Run with `PRI = 5`, which is not the
address of an instruction, `jump_helper` returns; 14 steps later the machine
is at the next instruction (item 237) with the stack pointer 12 bytes lower
than before (the three arguments are still on the `AMX` stack) and with
`PRI = 0`, the answer of `get_instr_ptr`. Run with `PRI = 52`, the address of
the `RETN`, it arrives at the code of the `RETN` (item 255) with the stack
pointer and the frame pointer as before. -/
theorem jump_pri_miss_evidence :
    (natives_machine.items.drop 233).take 4 =
      [.instr (.un .push (.reg .esp)), .instr (.un .push (.reg .ebp)),
       .instr (.un .push (.reg .eax)), .instr (.call ⟨19⟩)] ∧
    (natives_state 233 5 0).esp = 36864 ∧
    (run natives_machine 14 (natives_state 233 5 0)).pc = 237 ∧
    (run natives_machine 14 (natives_state 233 5 0)).status = .running ∧
    (run natives_machine 14 (natives_state 233 5 0)).esp = 36852 ∧
    (run natives_machine 14 (natives_state 233 5 0)).eax = 0 ∧
    (run natives_machine 17 (natives_state 233 52 0)).pc = 255 ∧
    (run natives_machine 17 (natives_state 233 52 0)).esp = 36864 ∧
    (run natives_machine 17 (natives_state 233 52 0)).ebp = 36880 :=
  ⟨by decide, by decide, by decide, by decide, by decide, by decide, by decide, by decide,
    by decide⟩

set_option maxRecDepth 1000000 in
/-- C26, evidence against the code: in the compiled sample program with
natives the code of `SYSREQ_PRI` is `push esp; push ebp; push eax;
call sysreq_c_helper` (items 237 to 240). Run with `PRI = 7`, an index
`get_native_addr` does not resolve, the machine is 20 steps later at the next
instruction (item 241) with `PRI = AMX_ERR_NOTFOUND` and the frame pointer as
before, but with the stack pointer 12 bytes lower: the three arguments are
still on the `AMX` stack. -/
theorem sysreq_notfound_evidence :
    (natives_machine.items.drop 237).take 4 =
      [.instr (.un .push (.reg .esp)), .instr (.un .push (.reg .ebp)),
       .instr (.un .push (.reg .eax)), .instr (.call ⟨22⟩)] ∧
    natives_env.get_native_addr 8192 7 = 0 ∧
    (natives_state 237 7 0).esp = 36864 ∧
    (run natives_machine 20 (natives_state 237 7 0)).pc = 241 ∧
    (run natives_machine 20 (natives_state 237 7 0)).status = .running ∧
    (run natives_machine 20 (natives_state 237 7 0)).eax = toU32 amx_h_32.AMX_ERR_NOTFOUND ∧
    (run natives_machine 20 (natives_state 237 7 0)).ebp = 36880 ∧
    (run natives_machine 20 (natives_state 237 7 0)).esp = 36852 :=
  ⟨by decide, by decide, by decide, by decide, by decide, by decide, by decide, by decide⟩

set_option maxRecDepth 1000000 in
/-- C30, evidence against the code: in the compiled sample program with
natives the code of `LCTRL 0` is `mov eax, [L_amx]; mov eax, [eax + base];
mov eax, [edx + cod]` (items 249 to 251) and the code of `LCTRL 1` ends in
`mov eax, [edx + dat]`: the last load goes through `edx`, which the code
never sets. The header reached through the field `base` holds `cod = 56` and
`dat = 120`; run with `edx = 0` both leave `PRI = 0`, and `LCTRL 0` leaves 56
only when `edx` happens to hold the address of the header. -/
theorem lctrl_edx_evidence :
    (natives_machine.items.drop 249).take 3 =
      [.instr (.bin .mov (.reg .eax) (.mem (dword_ptr_lbl ⟨1⟩))),
       .instr (.bin .mov (.reg .eax) (.mem (dword_ptr .eax amx_h_32.off_base))),
       .instr (.bin .mov (.reg .eax) (.mem (dword_ptr .edx amx_h_32.hdr_cod)))] ∧
    (natives_machine.items.drop 252).take 3 =
      [.instr (.bin .mov (.reg .eax) (.mem (dword_ptr_lbl ⟨1⟩))),
       .instr (.bin .mov (.reg .eax) (.mem (dword_ptr .eax amx_h_32.off_base))),
       .instr (.bin .mov (.reg .eax) (.mem (dword_ptr .edx amx_h_32.hdr_dat)))] ∧
    read32 natives_mem (field natives_mem 8192 amx_h_32.off_base + 12) = 56 ∧
    read32 natives_mem (field natives_mem 8192 amx_h_32.off_base + 16) = 120 ∧
    (run natives_machine 3 (natives_state 249 0 0)).eax = 0 ∧
    (run natives_machine 3 (natives_state 249 0 12288)).eax = 56 ∧
    (run natives_machine 3 (natives_state 252 0 0)).eax = 0 :=
  ⟨by decide, by decide, by decide, by decide, by decide, by decide, by decide⟩

/-! ## The runtime header -/

theorem exec_helper_items_length (K : AmxH) : (exec_helper_items K).length = 36 := by
  simp [exec_helper_items, emit_exec_helper, emit_get_amx_ptr, emptyAs, X86Assembler.mov,
    X86Assembler.push, X86Assembler.pop, X86Assembler.lea, X86Assembler.sub,
    X86Assembler.call_reg, X86Assembler.ret, X86Assembler.emit]

theorem tramp_items_take_exec (K : AmxH) :
    (tramp_items K).take 38 = Item.bind ⟨8⟩ :: (exec_helper_items K ++ [Item.bind ⟨9⟩]) := by
  have e : tramp_items K = (Item.bind ⟨8⟩ :: (exec_helper_items K ++ [Item.bind ⟨9⟩])) ++
      (exec_items K ++ ((Item.bind ⟨18⟩ :: halt_helper_items K) ++
        (Item.bind ⟨19⟩ :: jump_helper_items) ++ (Item.bind ⟨21⟩ :: sysreq_d_helper_items K) ++
        (Item.bind ⟨22⟩ :: sysreq_c_helper_items K))) := by
    simp only [tramp_items, List.cons_append, List.append_assoc, List.nil_append]
  rw [e]
  exact List.take_left' (by simp [exec_helper_items_length])

/-- The slots 0 to 5 of the runtime header after a successful `compile` whose
block lies inside the 32-bit address space, and the place of `exec` in the
buffer. -/
theorem compile_header_in_memory (K : AmxH) (info : OpcodeInfo) (enc : Instr → Nat)
    (amx : AMXPtr) (eh : Bool) (B : Nat) (mem : Memory)
    (hok : (compile K info enc amx eh B mem).output ≠ none)
    (hfit : B + (compile K info enc amx eh B mem).as.getCodeSize < 4294967296) :
    read32 (compile K info enc amx eh B mem).mem B = B + exec_offset K enc amx.decoded.length ∧
    read32 (compile K info enc amx eh B mem).mem (B + 4) = toU32 amx.amx ∧
    read32 (compile K info enc amx eh B mem).mem (B + 8) = 0 ∧
    read32 (compile K info enc amx eh B mem).mem (B + 12) = 0 ∧
    read32 (compile K info enc amx eh B mem).mem (B + 16) = 0 ∧
    read32 (compile K info enc amx eh B mem).mem (B + 20) = 0 ∧
    itemsSize enc ((compile K info enc amx eh B mem).as.items.take (tpc amx.decoded.length 38)) =
      exec_offset K enc amx.decoded.length ∧
    (∃ rest, (compile K info enc amx eh B mem).as.items =
      header_items (exec_offset K enc amx.decoded.length : Nat) amx.amx amx.decoded.length ++
        (List.replicate amx.decoded.length (Item.dstruct ⟨0, 0⟩) ++ rest)) := by
  have he := compile_ok K info enc amx eh B mem hok
  obtain ⟨henc, hit⟩ := compile_as_items K info enc amx eh B mem hok
  obtain ⟨body, hbody⟩ := loop_after_items K info enc amx amx.decoded
  have hitems : (compile K info enc amx eh B mem).as.items =
      header_items (exec_offset K enc amx.decoded.length : Nat) amx.amx amx.decoded.length ++
        (List.replicate amx.decoded.length (Item.dstruct ⟨0, 0⟩) ++ (tramp_items K ++ (body ++
          [Item.bind ⟨25⟩, Item.instr (.un .push (.reg .ecx)), Item.instr (.call ⟨18⟩)]))) := by
    rw [hit, hbody]; simp only [List.append_assoc]
  have htake : (compile K info enc amx eh B mem).as.items.take (tpc amx.decoded.length 38) =
      header_items (exec_offset K enc amx.decoded.length : Nat) amx.amx amx.decoded.length ++
        (List.replicate amx.decoded.length (Item.dstruct ⟨0, 0⟩) ++
          Item.bind ⟨8⟩ :: (exec_helper_items K ++ [Item.bind ⟨9⟩])) := by
    rw [hitems, ← tramp_items_take_exec, tpc]
    rw [List.take_append_eq_append_take, List.take_append_eq_append_take,
      List.take_append_eq_append_take]
    simp only [header_items_length, List.length_replicate, tramp_items_length]
    rw [List.take_of_length_le (by rw [header_items_length]; omega),
      List.take_of_length_le (by rw [List.length_replicate]; omega)]
    have e1 : 16 + amx.decoded.length + 38 - 16 - amx.decoded.length = 38 := by omega
    have e2 : 38 - 201 = 0 := rfl
    rw [e1, e2, List.take_zero, List.append_nil]
  have hsize : itemsSize enc ((compile K info enc amx eh B mem).as.items.take
      (tpc amx.decoded.length 38)) = exec_offset K enc amx.decoded.length := by
    rw [htake, itemsSize_append, itemsSize_append, header_items_size,
      itemsSize_replicate_dstruct, itemsSize_cons, itemsSize_append, itemsSize_cons,
      itemsSize_nil, Item.size_bind, Item.size_bind]
    unfold exec_offset
    omega
  have hle : exec_offset K enc amx.decoded.length ≤
      (compile K info enc amx eh B mem).as.getCodeSize := by
    rw [← hsize]
    unfold X86Assembler.getCodeSize
    rw [henc]
    exact itemsSize_take_le enc _ _
  have hcs : (compile K info enc amx eh B mem).as = (compile_loop_result K info enc amx).as := by
    simp [compile, he]
  obtain ⟨m1, hm1, e⟩ : ∃ m1, m1 = storeItems enc (compile K info enc amx eh B mem).as.items B mem ∧
      (compile K info enc amx eh B mem).mem =
        write_instr_map B (compile_loop_result K info enc amx).instr_map
          (read32 (write32 (write32 m1 B (read32 m1 B + B)) (B + 28)
            (read32 (write32 m1 B (read32 m1 B + B)) (B + 28) + B)) (B + 28))
          (write32 (write32 m1 B (read32 m1 B + B)) (B + 28)
            (read32 (write32 m1 B (read32 m1 B + B)) (B + 28) + B)) := by
    refine ⟨_, rfl, ?_⟩
    rw [hcs]
    simp [compile, he, RuntimeDataExecPtr, RuntimeDataInstrMapPtr]
  obtain ⟨h0, h1, h2, h3, h4, h5, h6, h7⟩ := header_store enc
    (exec_offset K enc amx.decoded.length : Nat) amx.amx amx.decoded.length
    (List.replicate amx.decoded.length (Item.dstruct ⟨0, 0⟩) ++ (tramp_items K ++ (body ++
          [Item.bind ⟨25⟩, Item.instr (.un .push (.reg .ecx)), Item.instr (.call ⟨18⟩)]))) B mem
  rw [← hitems, ← hm1] at h0 h1 h2 h3 h4 h5 h6 h7
  rw [Nat.add_zero] at h0
  have hx0 : toU32 ((exec_offset K enc amx.decoded.length : Nat) : Int) =
      exec_offset K enc amx.decoded.length := by
    rw [toU32_natCast]
    exact Nat.mod_eq_of_lt (by omega)
  rw [hx0] at h0
  have h32 : 32 ≤ exec_offset K enc amx.decoded.length := by unfold exec_offset; omega
  have hp : read32 (write32 (write32 m1 B (read32 m1 B + B)) (B + 28)
      (read32 (write32 m1 B (read32 m1 B + B)) (B + 28) + B)) (B + 28) = B + 32 := by
    rw [read32_write32_same, read32_write32_ne _ _ _ _ (by omega), h7]
    omega
  rw [hp] at e
  have hb : ∀ a, a + 4 ≤ B + 32 → read32 (compile K info enc amx eh B mem).mem a =
      read32 (write32 (write32 m1 B (read32 m1 B + B)) (B + 28)
        (read32 (write32 m1 B (read32 m1 B + B)) (B + 28) + B)) a := fun a ha => by
    rw [e]
    exact read32_congr _ _ a (fun x _ h2 => write_instr_map_below _ _ _ _ _ (by omega))
  refine ⟨?_, ?_, ?_, ?_, ?_, ?_, hsize, _, hitems⟩
  · rw [hb _ (by omega), read32_write32_ne _ _ _ _ (by omega), read32_write32_same, h0]
    rw [Nat.mod_eq_of_lt (by omega)]
    omega
  · rw [hb _ (by omega), read32_write32_ne _ _ _ _ (by omega),
      read32_write32_ne _ _ _ _ (by omega), h1]
  · rw [hb _ (by omega), read32_write32_ne _ _ _ _ (by omega),
      read32_write32_ne _ _ _ _ (by omega), h2]
  · rw [hb _ (by omega), read32_write32_ne _ _ _ _ (by omega),
      read32_write32_ne _ _ _ _ (by omega), h3]
  · rw [hb _ (by omega), read32_write32_ne _ _ _ _ (by omega),
      read32_write32_ne _ _ _ _ (by omega), h4]
  · rw [hb _ (by omega), read32_write32_ne _ _ _ _ (by omega),
      read32_write32_ne _ _ _ _ (by omega), h5]

theorem compile_prologue_L_exec (K : AmxH) (enc : Instr → Nat) (amx : AMXPtr) :
    (compile_prologue K enc amx).L_exec = ⟨9⟩ := by
  simp only [compile_prologue, compile_header_eq, X86Assembler.newLabel,
    X86Assembler.bind, X86Assembler.emit, emit_exec_helper_numLabels, Nat.reduceAdd]

/-- C29: after a successful `compile` that places its block at `B` (the block
inside the 32-bit address space) the eight slots of the runtime header hold:
slot 0 `B` plus the size of the items in front of the first instruction of
`exec` (`push ebp`, item `tpc n 38`), that is the address of the first byte of
`exec`; slot 1 the `AMX` instance pointer; slots 2 to 5 zero; slot 6 the
number of pairs of the side vector, which is the number of decoded
instructions and the number of entries `reserve_instr_map` has reserved right
behind the header, not relocated; slot 7 `B + 32`, the address right behind
the eight slots. -/
theorem compile_runtime_header (K : AmxH) (info : OpcodeInfo) (enc : Instr → Nat)
    (amx : AMXPtr) (eh : Bool) (B : Nat) (mem : Memory)
    (hok : (compile K info enc amx eh B mem).output ≠ none)
    (hfit : B + (compile K info enc amx eh B mem).as.getCodeSize < 4294967296) :
    read32 (compile K info enc amx eh B mem).mem (B + 4 * RuntimeDataExecPtr) =
      B + itemsSize enc
        ((compile K info enc amx eh B mem).as.items.take (tpc amx.decoded.length 38)) ∧
    (compile K info enc amx eh B mem).as.items[tpc amx.decoded.length 37]? =
      some (Item.bind (compile_prologue K enc amx).L_exec) ∧
    (compile K info enc amx eh B mem).as.items[tpc amx.decoded.length 38]? =
      some (Item.instr (.un .push (.reg .ebp))) ∧
    read32 (compile K info enc amx eh B mem).mem (B + 4 * RuntimeDataAmxPtr) = toU32 amx.amx ∧
    read32 (compile K info enc amx eh B mem).mem (B + 4 * RuntimeDataEbp) = 0 ∧
    read32 (compile K info enc amx eh B mem).mem (B + 4 * RuntimeDataEsp) = 0 ∧
    read32 (compile K info enc amx eh B mem).mem (B + 4 * RuntimeDataResetEbp) = 0 ∧
    read32 (compile K info enc amx eh B mem).mem (B + 4 * RuntimeDataResetEsp) = 0 ∧
    read32 (compile K info enc amx eh B mem).mem (B + 4 * RuntimeDataInstrMapSize) =
      (compile K info enc amx eh B mem).instr_map.length ∧
    (compile K info enc amx eh B mem).instr_map.length = amx.decoded.length ∧
    (∃ x0 rest, (compile K info enc amx eh B mem).as.items =
      header_items x0 amx.amx amx.decoded.length ++
        (List.replicate amx.decoded.length (Item.dstruct ⟨0, 0⟩) ++ rest)) ∧
    read32 (compile K info enc amx eh B mem).mem (B + 4 * RuntimeDataInstrMapPtr) =
      B + itemsSize enc ((compile K info enc amx eh B mem).as.items.take 16) ∧
    itemsSize enc ((compile K info enc amx eh B mem).as.items.take 16) = 32 := by
  obtain ⟨h0, h1, h2, h3, h4, h5, hsize, rest, hitems⟩ :=
    compile_header_in_memory K info enc amx eh B mem hok hfit
  obtain ⟨him, hlen, h6, h7, -⟩ := compile_map_in_memory K info enc amx eh B mem hok hfit
  obtain ⟨-, hit⟩ := compile_as_items K info enc amx eh B mem hok
  obtain ⟨body, hbody⟩ := loop_after_items K info enc amx amx.decoded
  have hf : ∀ k, k < 201 →
      (compile K info enc amx eh B mem).as.items[tpc amx.decoded.length k]? =
        (tramp_items K)[k]? := fun k hk => by
    have e1 := getElem?_append_add
      (header_items (exec_offset K enc amx.decoded.length : Nat) amx.amx amx.decoded.length)
      (List.replicate amx.decoded.length (Item.dstruct ⟨0, 0⟩) ++
        (tramp_items K ++ (body ++ [Item.bind ⟨25⟩, Item.instr (.un .push (.reg .ecx)),
          Item.instr (.call ⟨18⟩)]))) (amx.decoded.length + k)
    have e2 := getElem?_append_add (List.replicate amx.decoded.length (Item.dstruct ⟨0, 0⟩))
      (tramp_items K ++ (body ++ [Item.bind ⟨25⟩, Item.instr (.un .push (.reg .ecx)),
          Item.instr (.call ⟨18⟩)])) k
    rw [header_items_length] at e1
    rw [List.length_replicate] at e2
    rw [hit, hbody]
    simp only [List.append_assoc]
    rw [tpc, Nat.add_assoc, e1, e2,
      List.getElem?_append_left (by rw [tramp_items_length]; exact hk)]
  have ht16 : (compile K info enc amx eh B mem).as.items.take 16 =
      header_items (exec_offset K enc amx.decoded.length : Nat) amx.amx amx.decoded.length := by
    rw [hitems]
    exact List.take_left' (header_items_length _ _ _)
  simp only [RuntimeDataExecPtr, RuntimeDataAmxPtr, RuntimeDataEbp, RuntimeDataEsp,
    RuntimeDataResetEbp, RuntimeDataResetEsp, RuntimeDataInstrMapSize, RuntimeDataInstrMapPtr,
    Nat.mul_zero, Nat.add_zero, Nat.reduceMul]
  rw [ht16, header_items_size, hsize, hf 37 (by decide), hf 38 (by decide), tramp_items_eq,
    compile_prologue_L_exec]
  exact ⟨h0, rfl, rfl, h1, h2, h3, h4, h5, by rw [h6, him, hlen], by rw [him, hlen],
    ⟨_, rest, hitems⟩, h7, rfl⟩

set_option maxRecDepth 1000000 in
/-- Witness of C29: the sample program `HALT 0; PROC; RETN`, compiled to a
block at `0x10000`. -/
theorem compile_runtime_header_witness :
    read32 sample_compiled.mem (65536 + 4 * RuntimeDataExecPtr) =
      65536 + itemsSize sample_enc (sample_compiled.as.items.take (tpc 3 38)) ∧
    read32 sample_compiled.mem (65536 + 4 * RuntimeDataInstrMapSize) = 3 ∧
    read32 sample_compiled.mem (65536 + 4 * RuntimeDataInstrMapPtr) = 65536 + 32 := by
  have h := compile_runtime_header amx_h_32 sample_info sample_enc sample_amx false 65536
    (fun _ => 0) sample_compile_ok sample_compile_fit
  obtain ⟨h0, -, -, -, -, -, -, -, h6, h6b, -, h7, h7b⟩ := h
  exact ⟨h0, h6.trans h6b, by rw [← h7b]; exact h7⟩

/-! ## `PROC` and `RETN` -/

theorem add32_sub32_cancel (a b : Nat) (ha : a < 4294967296) (hb : b < 4294967296) :
    add32 (sub32 a b) b = a := by
  unfold add32
  rcases sub32_cases a b ha hb with h | h <;> rw [h.2] <;> omega

theorem emitted_proc_retn (K : AmxH) (amx : AMXPtr) (L : HelperLabels) (a : Int)
    (operands : List Int) (as : X86Assembler) (amx_labels : AmxLabels) :
    emitted K amx L ⟨a, .OP_PROC, operands⟩ as amx_labels =
      [.instr (.un .push (.reg .ebp)), .instr (.bin .mov (.reg .ebp) (.reg .esp)),
       .instr (.bin .sub (.mem (dword_ptr .esp 0)) (.reg .ebx))] ∧
    emitted K amx L ⟨a, .OP_RETN, operands⟩ as amx_labels =
      [.instr (.un .pop (.reg .ebp)), .instr (.bin .add (.reg .ebp) (.reg .ebx)),
       .instr (.un .pop (.reg .edx)),
       .instr (.bin .add (.reg .esp) (.mem (dword_ptr .esp 0))),
       .instr (.un .push (.reg .edx)), .instr (.ret_imm 4)] := by
  refine ⟨?_, ?_⟩ <;>
    (apply emitted_eq
     simp [translate, X86Assembler.push, X86Assembler.pop, X86Assembler.mov, X86Assembler.sub,
       X86Assembler.add, X86Assembler.ret_imm, X86Assembler.emit])

/-- The code of `PROC` on any machine: it pushes the frame pointer, makes the
stack pointer the new frame pointer and turns the saved cell into an offset
from the data section. -/
theorem proc_run_frame (M : Machine) (eax ecx edx D S bp esi edi : Nat) (flags : Flags)
    (df : Bool) (m : Memory) (calls : List CallEvent) (i : Nat)
    (hbp : bp < 4294967296) (hS4 : 4 ≤ S) (hS : S < 4294967296)
    (c0 : M.items[i]? = some (Item.instr (.un .push (.reg .ebp))))
    (c1 : M.items[i + 1]? = some (Item.instr (.bin .mov (.reg .ebp) (.reg .esp))))
    (c2 : M.items[i + 2]? = some (Item.instr (.bin .sub (.mem (dword_ptr .esp 0)) (.reg .ebx)))) :
    ∃ f, run M 3 ⟨eax, ecx, edx, D, S, bp, esi, edi, flags, df, m, i, .running, calls⟩ =
      ⟨eax, ecx, edx, D, S - 4, S - 4, esi, edi, f, df,
        write32 (write32 m (S - 4) bp) (S - 4) (sub32 bp D), i + 3, .running, calls⟩ := by
  apply Exists.intro
  simp (disch := first | omega | exact read32_lt _ _ | exact toU32_lt _) only [
    run, step, execInstr, execBin, execUn, readOp, writeOp,
    State.reg, State.setReg, push32, Nat.reduceAdd, ea_dword_ptr, loadSized_4,
    storeSized_4, dword_ptr_size, sub32_eq, add32_eq, toU32_lit,
    Nat.mod_eq_of_lt, read32_mod, sub32_mod, add32_mod, read32_write32_ne, read32_write32_same,
    Nat.reduceSub, Nat.sub_sub, amxField_lit, Nat.add_assoc, c0, c1, c2]
  rfl

/-- The code of `RETN` on any machine, run with the stack pointer at the cell
`PROC` has saved, below the return address `R` and the count cell `k`. -/
theorem retn_run_frame (M : Machine) (eax ecx edx D S bp esi edi v R k : Nat) (flags : Flags)
    (df : Bool) (m : Memory) (calls : List CallEvent) (i : Nat)
    (hS4 : 4 ≤ S) (hS : S + 8 + k < 4294967296)
    (c0 : M.items[i]? = some (Item.instr (.un .pop (.reg .ebp))))
    (c1 : M.items[i + 1]? = some (Item.instr (.bin .add (.reg .ebp) (.reg .ebx))))
    (c2 : M.items[i + 2]? = some (Item.instr (.un .pop (.reg .edx))))
    (c3 : M.items[i + 3]? = some (Item.instr (.bin .add (.reg .esp) (.mem (dword_ptr .esp 0)))))
    (c4 : M.items[i + 4]? = some (Item.instr (.un .push (.reg .edx))))
    (c5 : M.items[i + 5]? = some (Item.instr (.ret_imm 4)))
    (f1 : read32 m (S - 4) = v) (f2 : read32 m S = R) (f3 : read32 m (S + 4) = k) :
    ∃ f, run M 6 ⟨eax, ecx, edx, D, S - 4, bp, esi, edi, flags, df, m, i, .running, calls⟩ =
      goto M ⟨eax, ecx, R, D, S + 8 + k, add32 v D, esi, edi, f, df, write32 m (S + k) R,
        i + 6, .running, calls⟩ R := by
  have hv : v < 4294967296 := by rw [← f1]; exact read32_lt _ _
  have hR : R < 4294967296 := by rw [← f2]; exact read32_lt _ _
  apply Exists.intro
  simp (disch := first | omega | exact read32_lt _ _ | exact toU32_lt _) only [
    run, step, execInstr, execBin, execUn, readOp, writeOp,
    State.reg, State.setReg, push32, Nat.reduceAdd, ea_dword_ptr, loadSized_4,
    storeSized_4, dword_ptr_size, sub32_eq, add32_eq, toU32_lit,
    Nat.mod_eq_of_lt, read32_mod, sub32_mod, add32_mod, read32_write32_ne, read32_write32_same,
    Nat.reduceSub, Nat.sub_sub, amxField_lit, Nat.add_assoc, c0, c1, c2, c3, c4, c5, f1, f2, f3,
    sub_add_lit, Nat.sub_zero, Nat.add_sub_cancel]
  rw [show S + (4 + k) - 4 = S + k from by omega, show S + k + 8 = S + (8 + k) from by omega]

/-- C27: the code of `PROC`, run in a state `s` as a `CALL` leaves it (the
return address on top of the stack, the count cell `k` above it), saves the
frame and makes the stack pointer the frame pointer, one cell lower. When the
code of `RETN` is run later in a state `s2` whose stack pointer is back at
that saved cell, with the cell, the return address and the count cell as they
were and `ebx` unchanged, it continues at the return address with the frame
pointer (`FRM`) equal to its value before `PROC`, the stack pointer (`STK`)
equal to its value before `PROC` plus the return-address cell, the count cell
and `k` bytes, and `PRI` as `RETN` found it. -/
theorem proc_retn_restores_frame (K : AmxH) (amx : AMXPtr) (L : HelperLabels) (a1 a2 : Int)
    (ops1 ops2 : List Int) (as1 as2 : X86Assembler) (t1 t2 : AmxLabels)
    (M : Machine) (i j : Nat) (s s2 : State)
    (hproc : CodeAt M i (emitted K amx L ⟨a1, .OP_PROC, ops1⟩ as1 t1))
    (hretn : CodeAt M j (emitted K amx L ⟨a2, .OP_RETN, ops2⟩ as2 t2))
    (hpc : s.pc = i) (hr : s.status = .running)
    (hebp : s.ebp < 4294967296) (hebx : s.ebx < 4294967296)
    (hS4 : 4 ≤ s.esp) (hS : s.esp + 8 + read32 s.mem (s.esp + 4) < 4294967296)
    (hpc2 : s2.pc = j) (hr2 : s2.status = .running)
    (hsp2 : s2.esp = (run M 3 s).esp) (hbx2 : s2.ebx = s.ebx)
    (hframe : read32 s2.mem (run M 3 s).esp = read32 (run M 3 s).mem (run M 3 s).esp)
    (hret : read32 s2.mem s.esp = read32 s.mem s.esp)
    (hcnt : read32 s2.mem (s.esp + 4) = read32 s.mem (s.esp + 4)) :
    (run M 3 s).pc = i + 3 ∧ (run M 3 s).status = .running ∧
    (run M 3 s).esp = s.esp - 4 ∧ (run M 3 s).ebp = s.esp - 4 ∧
    ∃ t, run M 6 s2 = goto M t (read32 s.mem s.esp) ∧ t.status = .running ∧
      t.ebp = s.ebp ∧ t.esp = s.esp + 4 + 4 + read32 s.mem (s.esp + 4) ∧
      t.ebx = s.ebx ∧ t.eax = s2.eax := by
  obtain ⟨e1, e2⟩ := emitted_proc_retn K amx L a1 ops1 as1 t1
  obtain ⟨-, e3⟩ := emitted_proc_retn K amx L a2 ops2 as2 t2
  rw [e1] at hproc
  rw [e3] at hretn
  have el := State.eq_lit s i hpc hr
  have el2 := State.eq_lit s2 j hpc2 hr2
  obtain ⟨f, hf⟩ := proc_run_frame M s.eax s.ecx s.edx s.ebx s.esp s.ebp s.esi s.edi s.flags
    s.df s.mem s.calls i hebp hS4 (by omega) (by simpa using hproc.get 0 _ rfl)
    (hproc.get 1 _ rfl) (hproc.get 2 _ rfl)
  rw [← el] at hf
  rw [hf] at hsp2 hframe ⊢
  simp only at hsp2 hframe
  rw [read32_write32_same, Nat.mod_eq_of_lt (sub32_lt _ _)] at hframe
  refine ⟨rfl, rfl, rfl, rfl, ?_⟩
  obtain ⟨g, hg⟩ := retn_run_frame M s2.eax s2.ecx s2.edx s2.ebx s.esp s2.ebp s2.esi s2.edi
    (sub32 s.ebp s.ebx) (read32 s.mem s.esp) (read32 s.mem (s.esp + 4)) s2.flags s2.df
    s2.mem s2.calls j hS4 hS (by simpa using hretn.get 0 _ rfl)
    (hretn.get 1 _ rfl) (hretn.get 2 _ rfl) (hretn.get 3 _ rfl) (hretn.get 4 _ rfl)
    (hretn.get 5 _ rfl) hframe hret hcnt
  rw [← hsp2, ← el2] at hg
  refine ⟨_, hg, rfl, ?_, ?_, hbx2, rfl⟩
  · show add32 (sub32 s.ebp s.ebx) s2.ebx = s.ebp
    rw [hbx2]
    exact add32_sub32_cancel _ _ hebp hebx
  · show s.esp + 8 + read32 s.mem (s.esp + 4) = _
    omega

set_option maxRecDepth 100000 in
/-- Witness of C27: `PROC` directly followed by `RETN`, with the return
address `0x5000` and the count cell 8 on the stack at `0x8000`. -/
theorem proc_retn_restores_frame_witness :
    (run proc_retn_machine 3 called_state).pc = 0 + 3 ∧
    (run proc_retn_machine 3 called_state).status = .running ∧
    (run proc_retn_machine 3 called_state).esp = called_state.esp - 4 ∧
    (run proc_retn_machine 3 called_state).ebp = called_state.esp - 4 ∧
    ∃ t, run proc_retn_machine 6 (run proc_retn_machine 3 called_state) =
        goto proc_retn_machine t (read32 called_state.mem called_state.esp) ∧
      t.status = .running ∧ t.ebp = called_state.ebp ∧
      t.esp = called_state.esp + 4 + 4 + read32 called_state.mem (called_state.esp + 4) ∧
      t.ebx = called_state.ebx ∧ t.eax = (run proc_retn_machine 3 called_state).eax :=
  proc_retn_restores_frame amx_h_32 sample_amx sample_helpers 0 4 [] [] (emptyAs 0) (emptyAs 0)
    ⟨[]⟩ ⟨[]⟩ proc_retn_machine 0 3 called_state (run proc_retn_machine 3 called_state)
    (by unfold CodeAt; decide) (by unfold CodeAt; decide) rfl rfl (by decide) (by decide)
    (by decide) (by decide) (by decide) (by decide) rfl (by decide) rfl (by decide) (by decide)

/-! ## `MOVS` and `CMPS` -/

theorem copyBytes_outside : ∀ (n : Nat) (mem : Memory) (src dst x : Nat),
    dst + n ≤ 4294967296 → (x < dst ∨ dst + n ≤ x) → copyBytes mem n src dst x = mem x := by
  intro n
  induction n with
  | zero => intro mem src dst x _ _; rfl
  | succ k ih =>
    intro mem src dst x hd hx
    simp only [copyBytes]
    rw [ih _ _ _ _ (by omega) (by omega), Nat.mod_eq_of_lt (by omega : dst < 4294967296)]
    exact write8_below _ _ _ _ (by omega)

theorem copyBytes_read : ∀ (n : Nat) (mem : Memory) (src dst : Nat),
    src + n ≤ 4294967296 → dst + n ≤ 4294967296 → (src + n ≤ dst ∨ dst + n ≤ src) →
    ∀ k, k < n → read8 (copyBytes mem n src dst) (dst + k) = read8 mem (src + k) := by
  intro n
  induction n with
  | zero => intro mem src dst _ _ _ k hk; omega
  | succ j ih =>
    intro mem src dst hs hd hdis k hk
    simp only [copyBytes]
    rw [Nat.mod_eq_of_lt (by omega : dst < 4294967296),
      Nat.mod_eq_of_lt (by omega : src < 4294967296)]
    cases k with
    | zero =>
      simp only [Nat.add_zero]
      unfold read8
      rw [copyBytes_outside _ _ _ _ _ (by omega) (by omega)]
      show read8 (write8 mem dst (mem src % 256)) dst = mem src % 256
      rw [read8_write8_same, Nat.mod_mod]
    | succ k2 =>
      have e1 : dst + (k2 + 1) = dst + 1 + k2 := by omega
      have e2 : src + (k2 + 1) = src + 1 + k2 := by omega
      rw [e1, e2, ih _ _ _ (by omega) (by omega) (by omega) k2 (by omega)]
      exact read8_write8_ne _ _ _ _ (by omega)

theorem cmpBytes_equal : ∀ (n : Nat) (mem : Memory) (si di k : Nat) (f : Flags),
    si + (n + 1) ≤ 4294967296 → di + (n + 1) ≤ 4294967296 →
    (∀ j, j < n + 1 → read8 mem (si + j) = read8 mem (di + j)) →
    cmpBytes mem (n + 1) si di k f = (0, k + (n + 1), ⟨false, true, false, false⟩) := by
  intro n
  induction n with
  | zero =>
    intro mem si di k f hs hd h
    have h0 := h 0 (by omega)
    simp only [Nat.add_zero] at h0
    have hb := read8_lt mem di
    simp only [cmpBytes, Nat.mod_eq_of_lt (by omega : si < 4294967296),
      Nat.mod_eq_of_lt (by omega : di < 4294967296), h0, if_true, Nat.zero_add]
    have e : (read8 mem di + (256 - read8 mem di)) % 256 = 0 := by omega
    simp [e]
  | succ m ih =>
    intro mem si di k f hs hd h
    have h0 := h 0 (by omega)
    simp only [Nat.add_zero] at h0
    rw [cmpBytes]
    simp only [Nat.mod_eq_of_lt (by omega : si < 4294967296),
      Nat.mod_eq_of_lt (by omega : di < 4294967296), h0, if_true]
    rw [ih _ _ _ _ _ (by omega) (by omega) (fun j hj => by
      have := h (j + 1) (by omega)
      rw [show si + 1 + j = si + (j + 1) by omega, show di + 1 + j = di + (j + 1) by omega]
      exact this)]
    rw [show k + 1 + (m + 1) = k + (m + 1 + 1) by omega]

theorem emitted_movs (K : AmxH) (amx : AMXPtr) (L : HelperLabels) (a : Int) (n : Nat)
    (as : X86Assembler) (amx_labels : AmxLabels) :
    emitted K amx L ⟨a, .OP_MOVS, [(n : Int)]⟩ as amx_labels =
      [.instr .cld, .instr (.lea (.reg .esi) (dword_ptr_idx .ebx .eax 0)),
       .instr (.lea (.reg .edi) (dword_ptr_idx .ebx .ecx 0)),
       .instr (.un .push (.reg .ecx)),
       .instr (.bin .mov (.reg .ecx)
         (.imm ((if n % 4 = 0 then n / 4 else if n % 2 = 0 then n / 2 else n : Nat) : Int))),
       .instr (.str (if n % 4 = 0 then .rep_movsd else if n % 2 = 0 then .rep_movsw
         else .rep_movsb)),
       .instr (.un .pop (.reg .ecx))] := by
  apply emitted_eq
  have e4 : (n : Int).tmod 4 = ((n % 4 : Nat) : Int) := (Int.ofNat_tmod n 4).symm
  have e2 : (n : Int).tmod 2 = ((n % 2 : Nat) : Int) := (Int.ofNat_tmod n 2).symm
  have d4 : (n : Int).tdiv 4 = ((n / 4 : Nat) : Int) := (Int.ofNat_tdiv n 4).symm
  have d2 : (n : Int).tdiv 2 = ((n / 2 : Nat) : Int) := (Int.ofNat_tdiv n 2).symm
  simp only [translate, AMXInstruction.operand, AMXInstruction.operand_at, List.getD_cons_zero,
    e4, e2, d4, d2, Int.natCast_eq_zero]
  by_cases h4 : n % 4 = 0
  · simp [h4, X86Assembler.cld, X86Assembler.lea, X86Assembler.push, X86Assembler.pop,
      X86Assembler.mov, X86Assembler.rep_movsd, X86Assembler.emit, imm]
  · by_cases h2 : n % 2 = 0
    · simp [h4, h2, X86Assembler.cld, X86Assembler.lea, X86Assembler.push, X86Assembler.pop,
        X86Assembler.mov, X86Assembler.rep_movsw, X86Assembler.emit, imm]
    · simp [h4, h2, X86Assembler.cld, X86Assembler.lea, X86Assembler.push, X86Assembler.pop,
        X86Assembler.mov, X86Assembler.rep_movsb, X86Assembler.emit, imm]

theorem emitted_cmps (K : AmxH) (amx : AMXPtr) (L : HelperLabels) (a : Int) (n : Nat)
    (as : X86Assembler) (amx_labels : AmxLabels) :
    emitted K amx L ⟨a, .OP_CMPS, [(n : Int)]⟩ as amx_labels =
      [.instr .cld, .instr (.lea (.reg .edi) (dword_ptr_idx .ebx .eax 0)),
       .instr (.lea (.reg .esi) (dword_ptr_idx .ebx .ecx 0)),
       .instr (.un .push (.reg .ecx)),
       .instr (.bin .mov (.reg .ecx) (.imm (n : Int))),
       .instr (.str .repe_cmpsb),
       .instr (.un .pop (.reg .ecx)),
       .instr (.j .a ⟨as.numLabels⟩),
       .instr (.j .b ⟨as.numLabels + 1⟩),
       .instr (.j .z ⟨as.numLabels + 2⟩),
       .bind ⟨as.numLabels⟩,
       .instr (.bin .mov (.reg .eax) (.imm 1)),
       .instr (.jmp ⟨as.numLabels + 3⟩),
       .bind ⟨as.numLabels + 1⟩,
       .instr (.bin .mov (.reg .eax) (.imm (-1))),
       .instr (.jmp ⟨as.numLabels + 3⟩),
       .bind ⟨as.numLabels + 2⟩,
       .instr (.bin .xor_ (.reg .eax) (.reg .eax)),
       .bind ⟨as.numLabels + 3⟩] := by
  apply emitted_eq
  simp [translate, AMXInstruction.operand, AMXInstruction.operand_at, X86Assembler.newLabel,
    X86Assembler.cld, X86Assembler.lea, X86Assembler.push, X86Assembler.pop, X86Assembler.mov,
    X86Assembler.repe_cmpsb, X86Assembler.ja, X86Assembler.jb, X86Assembler.jz,
    X86Assembler.jmp, X86Assembler.bind, X86Assembler.xor_, X86Assembler.emit, imm]

/-- The code of `MOVS` on any machine: `q` units of 4, 2 or 1 bytes, `n` bytes
in all, are copied from `[ebx + eax]` to `[ebx + ecx]`; `ecx` is saved on the
stack and restored. -/
theorem movs_run (M : Machine) (eax ecx edx D S bp esi edi : Nat) (flags : Flags)
    (df : Bool) (m : Memory) (calls : List CallEvent) (i q n : Nat) (op : StrOp)
    (c0 : M.items[i]? = some (Item.instr .cld))
    (c1 : M.items[i + 1]? = some (Item.instr (.lea (.reg .esi) (dword_ptr_idx .ebx .eax 0))))
    (c2 : M.items[i + 2]? = some (Item.instr (.lea (.reg .edi) (dword_ptr_idx .ebx .ecx 0))))
    (c3 : M.items[i + 3]? = some (Item.instr (.un .push (.reg .ecx))))
    (c4 : M.items[i + 4]? = some (Item.instr (.bin .mov (.reg .ecx) (.imm (q : Int)))))
    (c5 : M.items[i + 5]? = some (Item.instr (.str op)))
    (c6 : M.items[i + 6]? = some (Item.instr (.un .pop (.reg .ecx))))
    (hop : (op = .rep_movsd ∧ n = 4 * q) ∨ (op = .rep_movsw ∧ n = 2 * q) ∨
      (op = .rep_movsb ∧ n = q))
    (hq : q < 4294967296) (hS4 : 4 ≤ S) (hS : S < 4294967296) (hc : ecx < 4294967296)
    (hpop : read32 (copyBytes (write32 m (S - 4) ecx) n (add32 D eax) (add32 D ecx)) (S - 4) =
      ecx) :
    run M 7 ⟨eax, ecx, edx, D, S, bp, esi, edi, flags, df, m, i, .running, calls⟩ =
      ⟨eax, ecx, edx, D, S, bp, add32 (add32 D eax) n, add32 (add32 D ecx) n, flags, false,
        copyBytes (write32 m (S - 4) ecx) n (add32 D eax) (add32 D ecx), i + 7, .running,
        calls⟩ := by
  rcases hop with ⟨h1, h2⟩ | ⟨h1, h2⟩ | ⟨h1, h2⟩ <;> subst h1 <;> subst h2 <;>
    simp (disch := first | omega | exact read32_lt _ _ | exact toU32_lt _) only [
      run, step, execInstr, execBin, execUn, execStr, readOp, writeOp,
      State.reg, State.setReg, push32, Nat.reduceAdd, ea_dword_ptr_idx,
      sub32_eq, add32_eq, toU32_natCast, Nat.mod_eq_of_lt, add32_mod,
      Nat.reduceSub, Nat.sub_sub, Nat.add_assoc, c0, c1, c2, c3, c4, c5, c6, hpop,
      Bool.false_eq_true, if_false, Nat.sub_add_cancel]

/-- The code of `CMPS` on any machine when the comparison finds the two blocks
equal: it leaves `PRI = 0`, restores `ecx` and writes only the cell below the
stack pointer. -/
theorem cmps_run_equal (M : Machine) (eax ecx edx D S bp esi edi : Nat) (flags : Flags)
    (df : Bool) (m : Memory) (calls : List CallEvent) (i n : Nat) (l0 l1 l2 l3 : Label)
    (c0 : M.items[i]? = some (Item.instr .cld))
    (c1 : M.items[i + 1]? = some (Item.instr (.lea (.reg .edi) (dword_ptr_idx .ebx .eax 0))))
    (c2 : M.items[i + 2]? = some (Item.instr (.lea (.reg .esi) (dword_ptr_idx .ebx .ecx 0))))
    (c3 : M.items[i + 3]? = some (Item.instr (.un .push (.reg .ecx))))
    (c4 : M.items[i + 4]? = some (Item.instr (.bin .mov (.reg .ecx) (.imm (n : Int)))))
    (c5 : M.items[i + 5]? = some (Item.instr (.str .repe_cmpsb)))
    (c6 : M.items[i + 6]? = some (Item.instr (.un .pop (.reg .ecx))))
    (c7 : M.items[i + 7]? = some (Item.instr (.j .a l0)))
    (c8 : M.items[i + 8]? = some (Item.instr (.j .b l1)))
    (c9 : M.items[i + 9]? = some (Item.instr (.j .z l2)))
    (c16 : M.items[i + 16]? = some (Item.bind l2))
    (c17 : M.items[i + 17]? = some (Item.instr (.bin .xor_ (.reg .eax) (.reg .eax))))
    (c18 : M.items[i + 18]? = some (Item.bind l3))
    (hl2 : labelIndex M.items l2 = some (i + 16))
    (hn : n < 4294967296) (hS4 : 4 ≤ S) (hS : S < 4294967296) (hc : ecx < 4294967296)
    (hcmp : cmpBytes (write32 m (S - 4) ecx) n (add32 D ecx) (add32 D eax) 0 flags =
      (0, n, ⟨false, true, false, false⟩)) :
    ∃ f, run M 13 ⟨eax, ecx, edx, D, S, bp, esi, edi, flags, df, m, i, .running, calls⟩ =
      ⟨0, ecx, edx, D, S, bp, add32 (add32 D ecx) n, add32 (add32 D eax) n, f, false,
        write32 m (S - 4) ecx, i + 19, .running, calls⟩ := by
  have ha : Cond.holds ⟨false, true, false, false⟩ .a = false := rfl
  have hb : Cond.holds ⟨false, true, false, false⟩ .b = false := rfl
  have hz : Cond.holds ⟨false, true, false, false⟩ .z = true := rfl
  apply Exists.intro
  rewrite [show (13 : Nat) = 7 + 6 from rfl, run_peel M 7 6 _ _ (by
    simp (disch := first | omega | exact read32_lt _ _ | exact toU32_lt _) only [
      run, step, execInstr, execBin, execUn, execStr, readOp, writeOp,
      State.reg, State.setReg, push32, Nat.reduceAdd, ea_dword_ptr_idx,
      sub32_eq, add32_eq, toU32_natCast, Nat.mod_eq_of_lt, add32_mod,
      Nat.reduceSub, Nat.sub_sub, Nat.add_assoc, c0, c1, c2, c3, c4, c5, c6, hcmp,
      read32_write32_same, Bool.false_eq_true, if_false, if_true, Nat.sub_add_cancel]
    rfl)]
  simp (disch := first | omega | exact read32_lt _ _ | exact toU32_lt _) only [
    run, step, execInstr, execBin, execUn, execStr, readOp, writeOp,
    State.reg, State.setReg, Nat.reduceAdd, Nat.mod_eq_of_lt,
    Nat.add_assoc, c7, c8, c9, c16, c17,
    c18, hl2, ha, hb, hz, gotoLabel,
    Bool.false_eq_true, if_false, if_true, Nat.xor_self, Nat.zero_mod]
  rfl

/-- C28: the code emitted for `MOVS n` followed by the code emitted for
`CMPS n`, for every `n ≥ 1` (in particular for `n` in `1..65`), run with the
two `n`-byte blocks at `data[PRI]` (`ebx + eax`) and `data[ALT]`
(`ebx + ecx`) inside the address space, not overlapping each other nor the
stack cell below the stack pointer in which the code saves `ecx`: after 20
steps the machine is behind the code with `PRI = 0`, and `ALT` and the stack
pointer are as before. -/
theorem movs_cmps_zero (K : AmxH) (amx : AMXPtr) (L : HelperLabels) (a1 a2 : Int) (n : Nat)
    (as1 as2 : X86Assembler) (t1 t2 : AmxLabels) (M : Machine) (i : Nat) (s : State)
    (hmovs : CodeAt M i (emitted K amx L ⟨a1, .OP_MOVS, [(n : Int)]⟩ as1 t1))
    (hcmps : CodeAt M (i + 7) (emitted K amx L ⟨a2, .OP_CMPS, [(n : Int)]⟩ as2 t2))
    (hl : labelIndex M.items ⟨as2.numLabels + 2⟩ = some (i + 23))
    (hpc : s.pc = i) (hr : s.status = .running) (hn : 1 ≤ n)
    (hc : s.ecx < 4294967296)
    (hsrc : s.ebx + s.eax + n ≤ 4294967296) (hdst : s.ebx + s.ecx + n ≤ 4294967296)
    (hdis : s.ebx + s.eax + n ≤ s.ebx + s.ecx ∨ s.ebx + s.ecx + n ≤ s.ebx + s.eax)
    (hS4 : 4 ≤ s.esp) (hS : s.esp < 4294967296)
    (hstk_src : s.esp ≤ s.ebx + s.eax ∨ s.ebx + s.eax + n ≤ s.esp - 4)
    (hstk_dst : s.esp ≤ s.ebx + s.ecx ∨ s.ebx + s.ecx + n ≤ s.esp - 4) :
    (run M 20 s).eax = 0 ∧ (run M 20 s).pc = i + 26 ∧ (run M 20 s).status = .running ∧
    (run M 20 s).ecx = s.ecx ∧ (run M 20 s).esp = s.esp := by
  rw [emitted_movs] at hmovs
  rw [emitted_cmps] at hcmps
  have el := State.eq_lit s i hpc hr
  have es : add32 s.ebx s.eax = s.ebx + s.eax := add32_eq _ _ (by omega)
  have ed : add32 s.ebx s.ecx = s.ebx + s.ecx := add32_eq _ _ (by omega)
  have hq : (if n % 4 = 0 then n / 4 else if n % 2 = 0 then n / 2 else n) < 4294967296 := by
    split
    · omega
    · split <;> omega
  have hop : ((if n % 4 = 0 then StrOp.rep_movsd else if n % 2 = 0 then .rep_movsw
        else .rep_movsb) = .rep_movsd ∧
        n = 4 * (if n % 4 = 0 then n / 4 else if n % 2 = 0 then n / 2 else n)) ∨
      ((if n % 4 = 0 then StrOp.rep_movsd else if n % 2 = 0 then .rep_movsw
        else .rep_movsb) = .rep_movsw ∧
        n = 2 * (if n % 4 = 0 then n / 4 else if n % 2 = 0 then n / 2 else n)) ∨
      ((if n % 4 = 0 then StrOp.rep_movsd else if n % 2 = 0 then .rep_movsw
        else .rep_movsb) = .rep_movsb ∧
        n = (if n % 4 = 0 then n / 4 else if n % 2 = 0 then n / 2 else n)) := by
    by_cases h4 : n % 4 = 0
    · simp only [h4, if_true]
      exact Or.inl ⟨trivial, by omega⟩
    · by_cases h2 : n % 2 = 0
      · simp only [h4, h2, if_true, if_false]
        exact Or.inr (Or.inl ⟨trivial, by omega⟩)
      · simp only [h4, h2, if_false]
        exact Or.inr (Or.inr ⟨trivial, trivial⟩)
  have hpop : read32 (copyBytes (write32 s.mem (s.esp - 4) s.ecx) n (add32 s.ebx s.eax)
      (add32 s.ebx s.ecx)) (s.esp - 4) = s.ecx := by
    rw [es, ed, read32_congr _ (write32 s.mem (s.esp - 4) s.ecx) _ (fun x h1 h2 =>
      copyBytes_outside _ _ _ _ _ hdst (by omega)), read32_write32_same]
    exact Nat.mod_eq_of_lt hc
  have h7 := movs_run M s.eax s.ecx s.edx s.ebx s.esp s.ebp s.esi s.edi s.flags s.df s.mem
    s.calls i _ n _ (by simpa using hmovs.get 0 _ rfl) (hmovs.get 1 _ rfl) (hmovs.get 2 _ rfl)
    (hmovs.get 3 _ rfl) (hmovs.get 4 _ rfl) (hmovs.get 5 _ rfl) (hmovs.get 6 _ rfl) hop hq hS4
    hS hc hpop
  rw [← el] at h7
  have hbytes : ∀ j, j < n - 1 + 1 →
      read8 (write32 (copyBytes (write32 s.mem (s.esp - 4) s.ecx) n (s.ebx + s.eax)
        (s.ebx + s.ecx)) (s.esp - 4) s.ecx) (s.ebx + s.ecx + j) =
      read8 (write32 (copyBytes (write32 s.mem (s.esp - 4) s.ecx) n (s.ebx + s.eax)
        (s.ebx + s.ecx)) (s.esp - 4) s.ecx) (s.ebx + s.eax + j) := by
    intro j hj
    rw [read8_write32_ne _ _ _ _ (by omega), read8_write32_ne _ _ _ _ (by omega),
      copyBytes_read _ _ _ _ hsrc hdst hdis j (by omega)]
    unfold read8
    rw [copyBytes_outside _ _ _ _ _ hdst (by omega)]
  have hcmp : cmpBytes (write32 (copyBytes (write32 s.mem (s.esp - 4) s.ecx) n
      (add32 s.ebx s.eax) (add32 s.ebx s.ecx)) (s.esp - 4) s.ecx) n (add32 s.ebx s.ecx)
      (add32 s.ebx s.eax) 0 s.flags = (0, n, ⟨false, true, false, false⟩) := by
    rw [es, ed]
    have e := cmpBytes_equal (n - 1) _ (s.ebx + s.ecx) (s.ebx + s.eax) 0 s.flags (by omega)
      (by omega) hbytes
    rw [show n - 1 + 1 = n by omega, Nat.zero_add] at e
    exact e
  have c : ∀ q it, ([.instr .cld, .instr (.lea (.reg .edi) (dword_ptr_idx .ebx .eax 0)),
       .instr (.lea (.reg .esi) (dword_ptr_idx .ebx .ecx 0)),
       .instr (.un .push (.reg .ecx)),
       .instr (.bin .mov (.reg .ecx) (.imm (n : Int))),
       .instr (.str .repe_cmpsb),
       .instr (.un .pop (.reg .ecx)),
       .instr (.j .a ⟨as2.numLabels⟩),
       .instr (.j .b ⟨as2.numLabels + 1⟩),
       .instr (.j .z ⟨as2.numLabels + 2⟩),
       .bind ⟨as2.numLabels⟩,
       .instr (.bin .mov (.reg .eax) (.imm 1)),
       .instr (.jmp ⟨as2.numLabels + 3⟩),
       .bind ⟨as2.numLabels + 1⟩,
       .instr (.bin .mov (.reg .eax) (.imm (-1))),
       .instr (.jmp ⟨as2.numLabels + 3⟩),
       .bind ⟨as2.numLabels + 2⟩,
       .instr (.bin .xor_ (.reg .eax) (.reg .eax)),
       .bind ⟨as2.numLabels + 3⟩] : List Item)[q]? = some it →
      M.items[i + 7 + q]? = some it := fun q it h => hcmps.get q it h
  obtain ⟨f, h13⟩ := cmps_run_equal M s.eax s.ecx s.edx s.ebx s.esp s.ebp
    (add32 (add32 s.ebx s.eax) n) (add32 (add32 s.ebx s.ecx) n) s.flags false
    (copyBytes (write32 s.mem (s.esp - 4) s.ecx) n (add32 s.ebx s.eax) (add32 s.ebx s.ecx))
    s.calls (i + 7) n _ _ _ _ (c 0 _ rfl) (c 1 _ rfl) (c 2 _ rfl) (c 3 _ rfl) (c 4 _ rfl)
    (c 5 _ rfl) (c 6 _ rfl) (c 7 _ rfl) (c 8 _ rfl) (c 9 _ rfl) (c 16 _ rfl) (c 17 _ rfl)
    (c 18 _ rfl) hl (by omega) hS4 hS hc hcmp
  rw [show (20 : Nat) = 7 + 13 from rfl, run_peel M 7 13 _ _ h7, h13]
  exact ⟨rfl, rfl, rfl, rfl, rfl⟩

set_option maxRecDepth 100000 in
/-- Witness of C28: `MOVS 6; CMPS 6` with `PRI = 16` and `ALT = 64`. -/
theorem movs_cmps_zero_witness :
    (run movs_cmps_machine 20 copy_state).eax = 0 ∧
    (run movs_cmps_machine 20 copy_state).pc = 0 + 26 ∧
    (run movs_cmps_machine 20 copy_state).status = .running ∧
    (run movs_cmps_machine 20 copy_state).ecx = copy_state.ecx ∧
    (run movs_cmps_machine 20 copy_state).esp = copy_state.esp :=
  movs_cmps_zero amx_h_32 sample_amx sample_helpers 0 8 6 (emptyAs 0) (emptyAs 0) ⟨[]⟩ ⟨[]⟩
    movs_cmps_machine 0 copy_state (by unfold CodeAt; decide) (by unfold CodeAt; decide)
    (by decide) rfl rfl (by decide) (by decide) (by decide) (by decide) (by decide) (by decide)
    (by decide) (by decide) (by decide)

/-! ## `SWITCH` -/

theorem AmxLabels.get_spec (t : AmxLabels) (as : X86Assembler) (x : Int) :
    (t.get as x).2.2.items = as.items ∧ (t.get as x).2.2.enc = as.enc ∧
    (t.get as x).2.1.labels_.lookup x = some (t.get as x).1 ∧
    ∃ more, (t.get as x).2.1.labels_ = t.labels_ ++ more := by
  unfold AmxLabels.get
  split
  · rename_i l h
    exact ⟨rfl, rfl, h, [], by simp⟩
  · rename_i h
    refine ⟨rfl, rfl, ?_, _, rfl⟩
    show (t.labels_ ++ [(x, (⟨as.numLabels⟩ : Label))]).lookup x = some ⟨as.numLabels⟩
    revert h
    generalize t.labels_ = l
    intro h
    induction l with
    | nil => simp [List.lookup]
    | cons p r ih =>
      rcases p with ⟨k, w⟩
      simp only [List.lookup] at h
      split at h
      · cases h
      · rename_i hne
        simp only [List.cons_append, List.lookup, hne]
        exact ih h

theorem label_of_grow (t u : AmxLabels) (x : Int) (more : List (Int × Label))
    (hu : u.labels_ = t.labels_ ++ more) (h : (t.labels_.lookup x).isSome) :
    label_of u x = label_of t x ∧ (u.labels_.lookup x).isSome := by
  obtain ⟨l, hl⟩ := Option.isSome_iff_exists.1 h
  have := lookup_append_some t.labels_ more x l hl
  unfold label_of
  rw [hu, this, hl]
  exact ⟨rfl, rfl⟩

theorem switch_cascade_nat (amx : AMXPtr) (operand : Int) (n : Nat) (as : X86Assembler)
    (t : AmxLabels) :
    switch_cascade amx operand n as t =
      (List.range n).foldl (switch_cascade_step amx operand) (as, t) := by
  have e : (do let a ← List.range n; pure (a : Int) : List Int) =
      List.map (fun a : Nat => (a : Int)) (List.range n) := by
    simp only [List.pure_def, List.bind_eq_flatMap]
    induction List.range n with
    | nil => rfl
    | cons x r ih => simp [List.flatMap_cons, ih]
  unfold switch_cascade
  rw [e, List.foldl_map]
  rfl

theorem switch_cascade_succ (amx : AMXPtr) (operand : Int) (n : Nat) (as : X86Assembler)
    (t : AmxLabels) :
    switch_cascade amx operand (n + 1) as t =
      switch_cascade_step amx operand (switch_cascade amx operand n as t) n := by
  rw [switch_cascade_nat, switch_cascade_nat, List.range_succ, List.foldl_append]
  rfl

theorem cascade_items_snoc (recs : List (Int × Label)) (r : Int × Label) :
    cascade_items (recs ++ [r]) = cascade_items recs ++
      [.instr (.bin .cmp (.reg .eax) (.imm r.1)), .instr (.j .e r.2)] := by
  simp [cascade_items]

/-- What the compare cascade of `SWITCH` appends, and what it does to the
label table. -/
theorem switch_cascade_spec (amx : AMXPtr) (operand : Int) (as : X86Assembler) (t : AmxLabels) :
    ∀ n : Nat,
      (switch_cascade amx operand n as t).1.items = as.items ++
        cascade_items ((List.range n).map (fun k => (case_value amx operand k,
          label_of (switch_cascade amx operand n as t).2
            (rel_code_addr amx (case_address amx operand k))))) ∧
      (∀ k, k < n → ((switch_cascade amx operand n as t).2.labels_.lookup
        (rel_code_addr amx (case_address amx operand k))).isSome) ∧
      ∃ more, (switch_cascade amx operand n as t).2.labels_ = t.labels_ ++ more := by
  intro n
  induction n with
  | zero =>
    exact ⟨by simp [switch_cascade_nat, cascade_items], fun k hk => by omega, [],
      by simp [switch_cascade_nat]⟩
  | succ n ih =>
    obtain ⟨h1, h2, more, h3⟩ := ih
    rw [switch_cascade_succ]
    generalize switch_cascade amx operand n as t = c at h1 h2 h3 ⊢
    obtain ⟨g1, g2, g3, more2, g4⟩ := AmxLabels.get_spec c.2
      (c.1.cmp GpReg.eax (imm (case_value amx operand n)))
      (rel_code_addr amx (case_address amx operand n))
    unfold switch_cascade_step
    generalize c.2.get (c.1.cmp GpReg.eax (imm (case_value amx operand n)))
      (rel_code_addr amx (case_address amx operand n)) = g at g1 g2 g3 g4 ⊢
    have e : List.map (fun k => (case_value amx operand k,
          label_of g.2.1 (rel_code_addr amx (case_address amx operand k)))) (List.range n) =
        List.map (fun k => (case_value amx operand k,
          label_of c.2 (rel_code_addr amx (case_address amx operand k)))) (List.range n) := by
      apply List.map_congr_left
      intro k hk
      rw [(label_of_grow _ _ _ more2 g4 (h2 k (List.mem_range.1 hk))).1]
    have e2 : label_of g.2.1 (rel_code_addr amx (case_address amx operand n)) = g.1 := by
      unfold label_of
      rw [g3]
      rfl
    refine ⟨?_, ?_, more ++ more2, by rw [g4, h3, List.append_assoc]⟩
    · show (g.2.2.items ++ [Item.instr (.j .e g.1)]) = _
      rw [g1]
      show (c.1.items ++ [Item.instr (.bin .cmp (.reg .eax) (imm (case_value amx operand n)))]) ++
        [Item.instr (.j .e g.1)] = _
      rw [h1, List.range_succ, List.map_append, List.map_cons, List.map_nil, cascade_items_snoc,
        e, e2]
      simp only [List.append_assoc, List.cons_append, List.nil_append, imm]
    · intro k hk
      by_cases hkn : k = n
      · subst hkn
        rw [g3]; rfl
      · exact (label_of_grow _ _ _ more2 g4 (h2 k (by omega))).2

theorem range_cast_map (n : Nat) : (do let a ← List.range n; pure (a : Int) : List Int) =
    List.map (fun a : Nat => (a : Int)) (List.range n) := by
  simp only [List.pure_def, List.bind_eq_flatMap]
  induction List.range n with
  | nil => rfl
  | cons x r ih => simp [List.flatMap_cons, ih]

theorem switch_min_max_succ (amx : AMXPtr) (operand : Int) (n : Nat) :
    switch_min_max amx.cell_at operand (n + 1) =
      ((match (switch_min_max amx.cell_at operand n).1 with
        | none => some (case_value amx operand n)
        | some m => if case_value amx operand n < m then some (case_value amx operand n)
          else some m),
       (match (switch_min_max amx.cell_at operand n).2 with
        | none => some (case_value amx operand n)
        | some m => if case_value amx operand n > m then some (case_value amx operand n)
          else some m)) := by
  unfold switch_min_max
  rw [range_cast_map, range_cast_map, List.foldl_map, List.foldl_map, List.range_succ,
    List.foldl_append]
  rfl

/-- The scan of `SWITCH` over at least one record finds two of the case
values, one below and one above all of them. -/
theorem switch_min_max_spec (amx : AMXPtr) (operand : Int) :
    ∀ n : Nat, ∃ mn mx, switch_min_max amx.cell_at operand (n + 1) = (some mn, some mx) ∧
      (∀ k, k < n + 1 → mn ≤ case_value amx operand k ∧ case_value amx operand k ≤ mx) ∧
      (∃ k, k < n + 1 ∧ mn = case_value amx operand k) ∧
      (∃ k, k < n + 1 ∧ mx = case_value amx operand k) := by
  intro n
  induction n with
  | zero =>
    refine ⟨case_value amx operand 0, case_value amx operand 0, ?_, ?_, ⟨0, by omega, rfl⟩,
      ⟨0, by omega, rfl⟩⟩
    · rw [switch_min_max_succ]
      have e : switch_min_max amx.cell_at operand 0 = (none, none) := by
        unfold switch_min_max
        rw [range_cast_map]
        rfl
      rw [e]
    · intro k hk
      have : k = 0 := by omega
      subst this
      exact ⟨le_refl _, le_refl _⟩
  | succ n ih =>
    obtain ⟨mn, mx, h, hb, ⟨k1, hk1, e1⟩, ⟨k2, hk2, e2⟩⟩ := ih
    rw [switch_min_max_succ, h]
    simp only
    by_cases c1 : case_value amx operand (n + 1) < mn <;>
      by_cases c2 : case_value amx operand (n + 1) > mx
    · refine ⟨_, _, by rw [if_pos c1, if_pos c2], ?_, ⟨n + 1, by omega, rfl⟩,
        ⟨n + 1, by omega, rfl⟩⟩
      intro k hk
      by_cases hkn : k = n + 1
      · subst hkn; exact ⟨le_refl _, le_refl _⟩
      · have := hb k (by omega); omega
    · refine ⟨_, _, by rw [if_pos c1, if_neg c2], ?_, ⟨n + 1, by omega, rfl⟩,
        ⟨k2, by omega, e2⟩⟩
      intro k hk
      by_cases hkn : k = n + 1
      · subst hkn; exact ⟨le_refl _, by omega⟩
      · have := hb k (by omega); omega
    · refine ⟨_, _, by rw [if_neg c1, if_pos c2], ?_, ⟨k1, by omega, e1⟩,
        ⟨n + 1, by omega, rfl⟩⟩
      intro k hk
      by_cases hkn : k = n + 1
      · subst hkn; exact ⟨by omega, le_refl _⟩
      · have := hb k (by omega); omega
    · refine ⟨_, _, by rw [if_neg c1, if_neg c2], ?_, ⟨k1, by omega, e1⟩,
        ⟨k2, by omega, e2⟩⟩
      intro k hk
      by_cases hkn : k = n + 1
      · subst hkn; exact ⟨by omega, by omega⟩
      · have := hb k (by omega); omega

/-- The code of `SWITCH`: the range check and the compare cascade when the
table has records, then the jump to the default label; all labels are those
the label table holds after the translation. -/
theorem emitted_switch (K : AmxH) (amx : AMXPtr) (L : HelperLabels) (a : Int)
    (operands : List Int) (as : X86Assembler) (t : AmxLabels) (o : Int)
    (ho : AMXInstruction.operand ⟨a, .OP_SWITCH, operands⟩ = o) :
    emitted K amx L ⟨a, .OP_SWITCH, operands⟩ as t =
      (if amx.cell_at (o + 4) > 0 then
        [.instr (.bin .cmp (.reg .eax)
            (.imm ((switch_min_max amx.cell_at o (case_count amx o)).1.getD 0))),
         .instr (.j .l (label_of (translate K amx L ⟨a, .OP_SWITCH, operands⟩ as t).2.1
            (rel_code_addr amx (case_default amx o)))),
         .instr (.bin .cmp (.reg .eax)
            (.imm ((switch_min_max amx.cell_at o (case_count amx o)).2.getD 0))),
         .instr (.j .g (label_of (translate K amx L ⟨a, .OP_SWITCH, operands⟩ as t).2.1
            (rel_code_addr amx (case_default amx o))))] ++
        cascade_items ((List.range (case_count amx o)).map (fun k => (case_value amx o k,
          label_of (translate K amx L ⟨a, .OP_SWITCH, operands⟩ as t).2.1
            (rel_code_addr amx (case_address amx o k)))))
       else []) ++
      [.instr (.jmp (label_of (translate K amx L ⟨a, .OP_SWITCH, operands⟩ as t).2.1
        (rel_code_addr amx (case_default amx o))))] ∧
    ((translate K amx L ⟨a, .OP_SWITCH, operands⟩ as t).2.1.labels_.lookup
      (rel_code_addr amx (case_default amx o))).isSome ∧
    (amx.cell_at (o + 4) > 0 → ∀ k, k < case_count amx o →
      ((translate K amx L ⟨a, .OP_SWITCH, operands⟩ as t).2.1.labels_.lookup
        (rel_code_addr amx (case_address amx o k))).isSome) := by
  have hd : ∀ (u : AmxLabels) (g : Label × AmxLabels × X86Assembler) (x : Int),
      g.2.1.labels_.lookup x = some g.1 → label_of g.2.1 x = g.1 := fun u g x hx => by
    unfold label_of; rw [hx]; rfl
  simp only [AMXInstruction.operand, AMXInstruction.operand_at] at ho
  by_cases h : amx.cell_at (o + 4) > 0
  · simp only [emitted, translate, AMXInstruction.operand, AMXInstruction.operand_at, ho, h,
      if_true, case_count, case_default]
    generalize (amx.cell_at (o + 4)).toNat = n
    generalize (switch_min_max amx.cell_at o n).1.getD 0 = mn
    generalize (switch_min_max amx.cell_at o n).2.getD 0 = mx
    generalize rel_code_addr amx (amx.cell_at (o + 4 + 4)) = D
    obtain ⟨a1, -, a3, m1, a4⟩ := AmxLabels.get_spec t (as.cmp GpReg.eax (imm mn)) D
    generalize t.get (as.cmp GpReg.eax (imm mn)) D = g1 at a1 a3 a4 ⊢
    obtain ⟨b1, -, b3, m2, b4⟩ := AmxLabels.get_spec g1.2.1
      ((g1.2.2.jl g1.1).cmp GpReg.eax (imm mx)) D
    generalize g1.2.1.get ((g1.2.2.jl g1.1).cmp GpReg.eax (imm mx)) D = g2 at b1 b3 b4 ⊢
    obtain ⟨c1, c2, m3, c3⟩ := switch_cascade_spec amx o (g2.2.2.jg g2.1) g2.2.1 n
    generalize switch_cascade amx o n (g2.2.2.jg g2.1) g2.2.1 = c at c1 c2 c3 ⊢
    obtain ⟨d1, -, d3, m4, d4⟩ := AmxLabels.get_spec c.2 c.1 D
    generalize c.2.get c.1 D = g3 at d1 d3 d4 ⊢
    have e3 : label_of g3.2.1 D = g3.1 := hd t g3 D d3
    have e2 : g2.1 = g1.1 := by
      have := lookup_append_some _ m2 D _ a3
      rw [← b4, b3] at this
      exact Option.some.inj this
    have e1 : g3.1 = g1.1 := by
      have := lookup_append_some _ m4 D _ (lookup_append_some _ m3 D _
        (lookup_append_some _ m2 D _ a3))
      rw [← b4, ← c3, ← d4, d3] at this
      exact Option.some.inj this
    have ek : List.map (fun k => (case_value amx o k,
          label_of g3.2.1 (rel_code_addr amx (case_address amx o k)))) (List.range n) =
        List.map (fun k => (case_value amx o k,
          label_of c.2 (rel_code_addr amx (case_address amx o k)))) (List.range n) := by
      apply List.map_congr_left
      intro k hk
      rw [(label_of_grow _ _ _ m4 d4 (c2 k (List.mem_range.1 hk))).1]
    refine ⟨?_, by rw [d3]; rfl, fun _ k hk => (label_of_grow _ _ _ m4 d4 (c2 k hk)).2⟩
    rw [ek, e3, e1]
    show List.drop as.items.length (g3.2.2.items ++ [Item.instr (.jmp g1.1)]) = _
    rw [d1, c1]
    show List.drop as.items.length ((g2.2.2.items ++ [Item.instr (.j .g g2.1)]) ++ _ ++ _) = _
    rw [b1]
    show List.drop as.items.length ((((g1.2.2.items ++ [Item.instr (.j .l g1.1)]) ++
      [Item.instr (.bin .cmp (.reg .eax) (imm mx))]) ++ [Item.instr (.j .g g2.1)]) ++ _ ++ _) = _
    rw [a1]
    show List.drop as.items.length (((((as.items ++
      [Item.instr (.bin .cmp (.reg .eax) (imm mn))]) ++ [Item.instr (.j .l g1.1)]) ++
      [Item.instr (.bin .cmp (.reg .eax) (imm mx))]) ++ [Item.instr (.j .g g2.1)]) ++ _ ++ _) = _
    rw [e2]
    simp only [List.append_assoc, List.drop_left, List.cons_append, List.nil_append, imm]
  · simp only [emitted, translate, AMXInstruction.operand, AMXInstruction.operand_at, ho, h,
      if_false, case_count, case_default]
    generalize rel_code_addr amx (amx.cell_at (o + 4 + 4)) = D
    obtain ⟨d1, -, d3, m4, d4⟩ := AmxLabels.get_spec t as D
    generalize t.get as D = g3 at d1 d3 d4 ⊢
    have e3 : label_of g3.2.1 D = g3.1 := hd t g3 D d3
    refine ⟨?_, by rw [d3]; rfl, fun hf => absurd hf (by simp)⟩
    rw [e3]
    show List.drop as.items.length (g3.2.2.items ++ [Item.instr (.jmp g3.1)]) = _
    rw [d1]
    simp only [List.drop_left, List.nil_append]

theorem CodeAt.tail {M : Machine} {i : Nat} {x : Item} {code : List Item}
    (h : CodeAt M i (x :: code)) : CodeAt M (i + 1) code := by
  intro q hq
  have := h (q + 1) (by simp; omega)
  rw [List.getElem?_cons_succ] at this
  rw [← this, Nat.add_assoc, Nat.add_comm 1 q]

theorem CodeAt.head {M : Machine} {i : Nat} {x : Item} {code : List Item}
    (h : CodeAt M i (x :: code)) : M.items[i]? = some x := by
  have := h 0 (by simp)
  simpa using this

theorem CodeAt.drop_left {M : Machine} {i : Nat} (pre : List Item) {code : List Item}
    (h : CodeAt M i (pre ++ code)) : CodeAt M (i + pre.length) code := by
  induction pre generalizing i with
  | nil => simpa using h
  | cons x r ih =>
    rw [List.cons_append] at h
    have := ih h.tail
    rw [List.length_cons, Nat.add_comm r.length 1, ← Nat.add_assoc]
    exact this

theorem toU32_eq_iff (v : Int) (a : Nat) (h0 : -2147483648 ≤ v) (h1 : v < 2147483648)
    (ha : a < 4294967296) : toU32 v = a ↔ v = toSigned a := by
  rw [toSigned_eq a ha]
  unfold toU32
  split <;> omega

/-- The compare cascade on the machine: it goes to the label of the first pair
whose value equals `eax`, and to the label behind the cascade when there is
none. -/
theorem cascade_run (M : Machine) (ld : Label) :
    ∀ (recs : List (Int × Label)) (i : Nat) (s : State),
      CodeAt M i (cascade_items recs ++ [.instr (.jmp ld)]) → s.pc = i →
      s.status = .running → s.eax < 4294967296 →
      ∃ k t, run M k s = gotoLabel M t
          (match recs.find? (fun r => decide (toU32 r.1 = s.eax)) with
           | some r => r.2
           | none => ld) ∧
        t.status = .running ∧ t.eax = s.eax ∧ t.ecx = s.ecx ∧ t.mem = s.mem ∧
        t.esp = s.esp ∧ t.ebp = s.ebp ∧ t.ebx = s.ebx := by
  intro recs
  induction recs with
  | nil =>
    intro i s hc hpc hr ha
    refine ⟨1, { s with pc := s.pc + 1 }, ?_, hr, rfl, rfl, rfl, rfl, rfl, rfl⟩
    have c0 : M.items[s.pc]? = some (Item.instr (.jmp ld)) := by
      rw [hpc]; exact hc.head
    show step M s = _
    rw [step_instr M s _ hr c0]
    rfl
  | cons r rest ih =>
    intro i s hc hpc hr ha
    have hc' : CodeAt M i (Item.instr (.bin .cmp (.reg .eax) (.imm r.1)) ::
        Item.instr (.j .e r.2) :: (cascade_items rest ++ [.instr (.jmp ld)])) := by
      simpa [cascade_items] using hc
    have c0 : M.items[s.pc]? = some (Item.instr (.bin .cmp (.reg .eax) (.imm r.1))) := by
      rw [hpc]; exact hc'.head
    have c1 : M.items[s.pc + 1]? = some (Item.instr (.j .e r.2)) := by
      rw [hpc]; exact hc'.tail.head
    have e1 : step M s = { s with flags := subFlags s.eax (toU32 r.1), pc := s.pc + 1 } := by
      rw [step_instr M s _ hr c0]
      rfl
    have e2 : step M { s with flags := subFlags s.eax (toU32 r.1), pc := s.pc + 1 } =
        if Cond.holds (subFlags s.eax (toU32 r.1)) .e then
          gotoLabel M { s with flags := subFlags s.eax (toU32 r.1), pc := s.pc + 1 + 1 } r.2
        else { s with flags := subFlags s.eax (toU32 r.1), pc := s.pc + 1 + 1 } := by
      rw [step_instr M { s with flags := subFlags s.eax (toU32 r.1), pc := s.pc + 1 } _ hr c1]
      rfl
    rw [cond_e_sub _ _ ha (toU32_lt _)] at e2
    by_cases hm : toU32 r.1 = s.eax
    · refine ⟨2, { s with flags := subFlags s.eax (toU32 r.1), pc := s.pc + 1 + 1 }, ?_, hr,
        rfl, rfl, rfl, rfl, rfl, rfl⟩
      show step M (step M s) = _
      rw [e1, e2]
      simp [List.find?, hm]
    · obtain ⟨k, t, hk, h1, h2, h3, h4, h5, h6, h7⟩ := ih (i + 2)
        { s with flags := subFlags s.eax (toU32 r.1), pc := s.pc + 1 + 1 } hc'.tail.tail
        (by show s.pc + 1 + 1 = i + 2; omega) hr ha
      refine ⟨k + 2, t, ?_, h1, h2, h3, h4, h5, h6, h7⟩
      rw [Nat.add_comm k 2, run_add]
      show run M k (step M (step M s)) = _
      rw [e1, e2]
      have hne : ¬ s.eax = toU32 r.1 := fun h => hm h.symm
      simp only [hne, decide_False, Bool.false_eq_true, if_false]
      rw [hk]
      simp [List.find?, hm]

theorem lookup_label_of (u : AmxLabels) (x : Int) (h : (u.labels_.lookup x).isSome) :
    u.labels_.lookup x = some (label_of u x) := by
  unfold label_of
  cases hl : u.labels_.lookup x with
  | none => rw [hl] at h; cases h
  | some l => rfl

/-- The label the cascade of `SWITCH` selects is the label of the address the
specification selects. -/
theorem switch_target_label (amx : AMXPtr) (o : Int) (u : AmxLabels) (eax : Nat)
    (ha : eax < 4294967296) (d : Int) (ks : List Nat)
    (hcell : ∀ k, k ∈ ks → -2147483648 ≤ case_value amx o k ∧ case_value amx o k < 2147483648)
    (hD : (u.labels_.lookup (rel_code_addr amx d)).isSome)
    (hk : ∀ k, k ∈ ks → (u.labels_.lookup (rel_code_addr amx (case_address amx o k))).isSome) :
    u.labels_.lookup (rel_code_addr amx (spec_switch_target
        (ks.map (fun i => (case_value amx o i, case_address amx o i))) d (toSigned eax))) =
      some (match (ks.map (fun k => (case_value amx o k,
          label_of u (rel_code_addr amx (case_address amx o k))))).find?
            (fun r => decide (toU32 r.1 = eax)) with
        | some r => r.2
        | none => label_of u (rel_code_addr amx d)) := by
  induction ks with
  | nil => exact lookup_label_of u _ hD
  | cons k rest ih =>
    have hc := hcell k (List.mem_cons_self _ _)
    have hi := toU32_eq_iff (case_value amx o k) eax hc.1 hc.2 ha
    by_cases hm : toU32 (case_value amx o k) = eax
    · have hd1 : decide (toU32 (case_value amx o k) = eax) = true := decide_eq_true hm
      have hd2 : decide (case_value amx o k = toSigned eax) = true := decide_eq_true (hi.1 hm)
      simp only [spec_switch_target, List.map_cons, List.find?, hd1, hd2]
      exact lookup_label_of u _ (hk k (List.mem_cons_self _ _))
    · have hd1 : decide (toU32 (case_value amx o k) = eax) = false := decide_eq_false hm
      have hd2 : decide (case_value amx o k = toSigned eax) = false :=
        decide_eq_false (fun h => hm (hi.2 h))
      have := ih (fun j hj => hcell j (List.mem_cons_of_mem _ hj))
        (fun j hj => hk j (List.mem_cons_of_mem _ hj))
      simp only [spec_switch_target, List.map_cons, List.find?, hd1, hd2] at this ⊢
      exact this

theorem spec_switch_target_none (amx : AMXPtr) (o : Int) (d pri : Int) (ks : List Nat)
    (h : ∀ k, k ∈ ks → case_value amx o k ≠ pri) :
    spec_switch_target (ks.map (fun i => (case_value amx o i, case_address amx o i))) d pri =
      d := by
  induction ks with
  | nil => rfl
  | cons k rest ih =>
    have hk : decide (case_value amx o k = pri) = false :=
      decide_eq_false (h k (List.mem_cons_self _ _))
    have := ih (fun j hj => h j (List.mem_cons_of_mem _ hj))
    simp only [spec_switch_target, List.map_cons, List.find?, hk] at this ⊢
    exact this

/-- The range check of `SWITCH` on the machine: it goes to the default label
when `eax` is below `mn` or above `mx` as signed integers, and falls through
otherwise. -/
theorem switch_range_run (M : Machine) (ld : Label) (mn mx : Int) (i : Nat) (s : State)
    (c0 : M.items[i]? = some (Item.instr (.bin .cmp (.reg .eax) (.imm mn))))
    (c1 : M.items[i + 1]? = some (Item.instr (.j .l ld)))
    (c2 : M.items[i + 2]? = some (Item.instr (.bin .cmp (.reg .eax) (.imm mx))))
    (c3 : M.items[i + 3]? = some (Item.instr (.j .g ld)))
    (hpc : s.pc = i) (hr : s.status = .running) (ha : s.eax < 4294967296) :
    (toSigned s.eax < toSigned (toU32 mn) ∨ toSigned (toU32 mx) < toSigned s.eax →
      ∃ k t, run M k s = gotoLabel M t ld ∧
        t.status = .running ∧ t.eax = s.eax ∧ t.ecx = s.ecx ∧ t.mem = s.mem ∧
        t.esp = s.esp ∧ t.ebp = s.ebp ∧ t.ebx = s.ebx) ∧
    (¬ (toSigned s.eax < toSigned (toU32 mn) ∨ toSigned (toU32 mx) < toSigned s.eax) →
      ∃ t, run M 4 s = t ∧ t.pc = i + 4 ∧
        t.status = .running ∧ t.eax = s.eax ∧ t.ecx = s.ecx ∧ t.mem = s.mem ∧
        t.esp = s.esp ∧ t.ebp = s.ebp ∧ t.ebx = s.ebx) := by
  subst hpc
  have e1 : step M s = { s with flags := subFlags s.eax (toU32 mn), pc := s.pc + 1 } := by
    rw [step_instr M s _ hr c0]
    rfl
  have e2 : step M { s with flags := subFlags s.eax (toU32 mn), pc := s.pc + 1 } =
      if Cond.holds (subFlags s.eax (toU32 mn)) .l then
        gotoLabel M { s with flags := subFlags s.eax (toU32 mn), pc := s.pc + 1 + 1 } ld
      else { s with flags := subFlags s.eax (toU32 mn), pc := s.pc + 1 + 1 } := by
    rw [step_instr M { s with flags := subFlags s.eax (toU32 mn), pc := s.pc + 1 } _ hr c1]
    rfl
  have e3 : step M { s with flags := subFlags s.eax (toU32 mn), pc := s.pc + 1 + 1 } =
      { s with flags := subFlags s.eax (toU32 mx), pc := s.pc + 1 + 1 + 1 } := by
    rw [step_instr M { s with flags := subFlags s.eax (toU32 mn), pc := s.pc + 1 + 1 } _ hr c2]
    rfl
  have e4 : step M { s with flags := subFlags s.eax (toU32 mx), pc := s.pc + 1 + 1 + 1 } =
      if Cond.holds (subFlags s.eax (toU32 mx)) .g then
        gotoLabel M { s with flags := subFlags s.eax (toU32 mx), pc := s.pc + 1 + 1 + 1 + 1 } ld
      else { s with flags := subFlags s.eax (toU32 mx), pc := s.pc + 1 + 1 + 1 + 1 } := by
    rw [step_instr M { s with flags := subFlags s.eax (toU32 mx), pc := s.pc + 1 + 1 + 1 } _ hr
      c3]
    rfl
  rw [cond_l_sub _ _ ha (toU32_lt _)] at e2
  rw [cond_g_sub _ _ ha (toU32_lt _)] at e4
  constructor
  · intro h
    by_cases hl : toSigned s.eax < toSigned (toU32 mn)
    · refine ⟨2, { s with flags := subFlags s.eax (toU32 mn), pc := s.pc + 1 + 1 }, ?_, hr,
        rfl, rfl, rfl, rfl, rfl, rfl⟩
      show step M (step M s) = _
      rw [e1, e2]
      simp only [hl, decide_True, if_true]
    · have hg : toSigned (toU32 mx) < toSigned s.eax := by
        rcases h with h | h
        · exact absurd h hl
        · exact h
      refine ⟨4, { s with flags := subFlags s.eax (toU32 mx), pc := s.pc + 1 + 1 + 1 + 1 }, ?_,
        hr, rfl, rfl, rfl, rfl, rfl, rfl⟩
      show step M (step M (step M (step M s))) = _
      rw [e1, e2]
      simp only [hl, decide_False, Bool.false_eq_true, if_false]
      rw [e3, e4]
      simp only [hg, decide_True, if_true]
  · intro h
    have hl : ¬ toSigned s.eax < toSigned (toU32 mn) := fun x => h (Or.inl x)
    have hg : ¬ toSigned (toU32 mx) < toSigned s.eax := fun x => h (Or.inr x)
    have e : run M 4 s =
        { s with flags := subFlags s.eax (toU32 mx), pc := s.pc + 1 + 1 + 1 + 1 } := by
      show step M (step M (step M (step M s))) = _
      rw [e1, e2]
      simp only [hl, decide_False, Bool.false_eq_true, if_false]
      rw [e3, e4]
      simp only [hg, decide_False, Bool.false_eq_true, if_false]
    exact ⟨_, e, rfl, hr, rfl, rfl, rfl, rfl, rfl, rfl⟩

/-- C21: the code emitted for `SWITCH`, for every case table (the default
address, the records `(value_i, address_i)` the translation reads, their
values being cells; there may be none) and every 32-bit `PRI` in `eax`: the
machine arrives at a jump to the label the label table holds for the address
the specification selects, `address_i` for the first `i` with
`value_i = PRI` and the default address when no value equals `PRI`, with
`PRI`, `ALT`, the memory, the stack pointer and the frame pointer unchanged.
The range check in front of the cascade therefore never changes the target
the linear search selects. -/
theorem switch_selects_first_match (K : AmxH) (amx : AMXPtr) (L : HelperLabels) (a : Int)
    (operands : List Int) (as : X86Assembler) (t : AmxLabels) (M : Machine) (i : Nat)
    (s : State)
    (hcode : CodeAt M i (emitted K amx L ⟨a, .OP_SWITCH, operands⟩ as t))
    (hpc : s.pc = i) (hr : s.status = .running) (ha : s.eax < 4294967296)
    (hcell : ∀ k, k < case_count amx (AMXInstruction.operand ⟨a, .OP_SWITCH, operands⟩) →
      -2147483648 ≤ case_value amx (AMXInstruction.operand ⟨a, .OP_SWITCH, operands⟩) k ∧
      case_value amx (AMXInstruction.operand ⟨a, .OP_SWITCH, operands⟩) k < 2147483648) :
    ∃ (k : Nat) (t' : State) (l : Label), run M k s = gotoLabel M t' l ∧
      (translate K amx L ⟨a, .OP_SWITCH, operands⟩ as t).2.1.labels_.lookup
        (rel_code_addr amx (spec_switch_target
          (case_records amx (AMXInstruction.operand ⟨a, .OP_SWITCH, operands⟩))
          (case_default amx (AMXInstruction.operand ⟨a, .OP_SWITCH, operands⟩))
          (toSigned s.eax))) = some l ∧
      t'.status = .running ∧ t'.eax = s.eax ∧ t'.ecx = s.ecx ∧ t'.mem = s.mem ∧
      t'.esp = s.esp ∧ t'.ebp = s.ebp := by
  generalize ho : AMXInstruction.operand ⟨a, .OP_SWITCH, operands⟩ = o at hcell ⊢
  obtain ⟨he, hD, hK⟩ := emitted_switch K amx L a operands as t o ho
  rw [he] at hcode
  generalize (translate K amx L ⟨a, .OP_SWITCH, operands⟩ as t).2.1 = u at hcode hD hK ⊢
  unfold case_records
  by_cases h : amx.cell_at (o + 4) > 0
  · rw [if_pos h] at hcode
    have hK' := hK h
    have hn : case_count amx o = case_count amx o - 1 + 1 := by
      have : 0 < case_count amx o := by unfold case_count; omega
      omega
    obtain ⟨mn, mx, hmm, hb, ⟨k1, hk1, e1⟩, ⟨k2, hk2, e2⟩⟩ :=
      switch_min_max_spec amx o (case_count amx o - 1)
    rw [← hn] at hmm hb hk1 hk2
    rw [hmm] at hcode
    simp only [Option.getD_some] at hcode
    have smn : toSigned (toU32 mn) = mn := by
      rw [e1]; exact toSigned_toU32 _ (hcell k1 hk1).1 (hcell k1 hk1).2
    have smx : toSigned (toU32 mx) = mx := by
      rw [e2]; exact toSigned_toU32 _ (hcell k2 hk2).1 (hcell k2 hk2).2
    have c : ∀ q it, ([.instr (.bin .cmp (.reg .eax) (.imm mn)),
        .instr (.j .l (label_of u (rel_code_addr amx (case_default amx o)))),
        .instr (.bin .cmp (.reg .eax) (.imm mx)),
        .instr (.j .g (label_of u (rel_code_addr amx (case_default amx o))))] :
          List Item)[q]? = some it → M.items[i + q]? = some it := fun q it hq => by
      apply hcode.get q it
      rw [List.append_assoc, List.getElem?_append_left]
      · exact hq
      · by_contra hc
        rw [List.getElem?_eq_none (by omega)] at hq
        cases hq
    obtain ⟨hout, hin⟩ := switch_range_run M (label_of u (rel_code_addr amx (case_default amx o)))
      mn mx i s (by simpa using c 0 _ rfl) (c 1 _ rfl) (c 2 _ rfl) (c 3 _ rfl) hpc hr ha
    rw [smn, smx] at hout hin
    by_cases hr2 : toSigned s.eax < mn ∨ mx < toSigned s.eax
    · obtain ⟨k, t', hk, h1, h2, h3, h4, h5, h6, -⟩ := hout hr2
      refine ⟨k, t', _, hk, ?_, h1, h2, h3, h4, h5, h6⟩
      rw [spec_switch_target_none amx o _ _ _ (fun j hj => by
        have := hb j (List.mem_range.1 hj)
        omega)]
      exact lookup_label_of u _ hD
    · obtain ⟨t4, ht4, p4, r4, a4, b4, m4, s4, f4, -⟩ := hin hr2
      have hc2 : CodeAt M (i + 4) (cascade_items ((List.range (case_count amx o)).map
          (fun k => (case_value amx o k, label_of u
            (rel_code_addr amx (case_address amx o k))))) ++
          [.instr (.jmp (label_of u (rel_code_addr amx (case_default amx o))))]) := by
        rw [List.append_assoc] at hcode
        exact hcode.drop_left _
      obtain ⟨k, t', hk, h1, h2, h3, h4, h5, h6, -⟩ := cascade_run M _ _ (i + 4) t4 hc2 p4 r4
        (by rw [a4]; exact ha)
      rw [a4] at hk
      have hk' := (run_add M 4 k s).trans ((congrArg (run M k) ht4).trans hk)
      exact ⟨4 + k, t', _, hk', switch_target_label amx o u s.eax ha _ _
          (fun j hj => hcell j (List.mem_range.1 hj)) hD
          (fun j hj => hK' j (List.mem_range.1 hj)), h1, h2.trans a4, h3.trans b4,
        h4.trans m4, h5.trans s4, h6.trans f4⟩
  · rw [if_neg h, List.nil_append] at hcode
    have hn : case_count amx o = 0 := by unfold case_count; omega
    rw [hn]
    obtain ⟨k, t', hk, h1, h2, h3, h4, h5, h6, -⟩ := cascade_run M
      (label_of u (rel_code_addr amx (case_default amx o))) [] i s hcode hpc hr ha
    exact ⟨k, t', label_of u (rel_code_addr amx (case_default amx o)), hk,
      lookup_label_of u _ hD, h1, h2, h3, h4, h5, h6⟩

set_option maxRecDepth 100000 in
/-- Witness of C21: the table `10 -> code + 40`, `20 -> code + 60`,
`30 -> code + 80` with default `code + 100`, and `PRI = 20`. -/
theorem switch_selects_first_match_witness :
    ∃ (k : Nat) (t' : State) (l : Label),
      run switch_machine k (snippet_state 20 0) = gotoLabel switch_machine t' l ∧
      (translate amx_h_32 switch_amx sample_helpers ⟨0, .OP_SWITCH, [16392]⟩ (emptyAs 0)
        ⟨[]⟩).2.1.labels_.lookup
        (rel_code_addr switch_amx (spec_switch_target
          (case_records switch_amx (AMXInstruction.operand ⟨0, .OP_SWITCH, [16392]⟩))
          (case_default switch_amx (AMXInstruction.operand ⟨0, .OP_SWITCH, [16392]⟩))
          (toSigned (snippet_state 20 0).eax))) = some l ∧
      t'.status = .running ∧ t'.eax = (snippet_state 20 0).eax ∧
      t'.ecx = (snippet_state 20 0).ecx ∧ t'.mem = (snippet_state 20 0).mem ∧
      t'.esp = (snippet_state 20 0).esp ∧ t'.ebp = (snippet_state 20 0).ebp :=
  switch_selects_first_match amx_h_32 switch_amx sample_helpers 0 [16392] (emptyAs 0) ⟨[]⟩
    switch_machine 0 (snippet_state 20 0) (by unfold CodeAt; decide) rfl rfl (by decide)
    (by decide)

/-! ## The helpers behind `halt_helper` -/

set_option maxRecDepth 100000 in
set_option maxHeartbeats 4000000 in
/-- The items of `jump_helper`, `sysreq_d_helper` and `sysreq_c_helper` in a loaded
buffer. -/
theorem Loaded.fetch_rest {K : AmxH} {M : Machine} {n : Nat} (h : Loaded K M n) :
    M.items[tpc n 139]? = some (Item.bind ⟨19⟩) ∧
    M.items[tpc n 140]? = some (Item.instr (Instr.bin BinOp.mov (Operand.reg GpReg.eax) (Operand.mem (dword_ptr GpReg.esp 4)))) ∧
    M.items[tpc n 141]? = some (Item.instr (Instr.un UnOp.push (Operand.mem (dword_ptr_lbl ⟨6⟩)))) ∧
    M.items[tpc n 142]? = some (Item.instr (Instr.un UnOp.push (Operand.mem (dword_ptr_lbl ⟨7⟩)))) ∧
    M.items[tpc n 143]? = some (Item.instr (Instr.un UnOp.push (Operand.reg GpReg.eax))) ∧
    M.items[tpc n 144]? = some (Item.instr (Instr.call_ptr CFunction.get_instr_ptr)) ∧
    M.items[tpc n 145]? = some (Item.instr (Instr.bin BinOp.add (Operand.reg GpReg.esp) (imm 12))) ∧
    M.items[tpc n 146]? = some (Item.instr (Instr.bin BinOp.cmp (Operand.reg GpReg.eax) (imm 0))) ∧
    M.items[tpc n 147]? = some (Item.instr (Instr.j Cond.ne ⟨20⟩)) ∧
    M.items[tpc n 148]? = some (Item.instr Instr.ret) ∧
    M.items[tpc n 149]? = some (Item.bind ⟨20⟩) ∧
    M.items[tpc n 150]? = some (Item.instr (Instr.bin BinOp.mov (Operand.reg GpReg.ebp) (Operand.mem (dword_ptr GpReg.esp 8)))) ∧
    M.items[tpc n 151]? = some (Item.instr (Instr.bin BinOp.mov (Operand.reg GpReg.esp) (Operand.mem (dword_ptr GpReg.esp 12)))) ∧
    M.items[tpc n 152]? = some (Item.instr (Instr.jmp_reg GpReg.eax)) ∧
    M.items[tpc n 153]? = some (Item.bind ⟨21⟩) ∧
    M.items[tpc n 154]? = some (Item.instr (Instr.bin BinOp.mov (Operand.reg GpReg.eax) (Operand.mem (dword_ptr GpReg.esp 4)))) ∧
    M.items[tpc n 155]? = some (Item.instr (Instr.bin BinOp.mov (Operand.reg GpReg.ebp) (Operand.mem (dword_ptr GpReg.esp 8)))) ∧
    M.items[tpc n 156]? = some (Item.instr (Instr.bin BinOp.mov (Operand.reg GpReg.esp) (Operand.mem (dword_ptr GpReg.esp 12)))) ∧
    M.items[tpc n 157]? = some (Item.instr (Instr.bin BinOp.mov (Operand.reg GpReg.ecx) (Operand.reg GpReg.esp))) ∧
    M.items[tpc n 158]? = some (Item.instr (Instr.bin BinOp.mov (Operand.reg GpReg.esi) (Operand.mem (dword_ptr GpReg.esp (-16))))) ∧
    M.items[tpc n 159]? = some (Item.instr (Instr.bin BinOp.mov (Operand.reg GpReg.edx) (Operand.mem (dword_ptr_lbl ⟨1⟩)))) ∧
    M.items[tpc n 160]? = some (Item.instr (Instr.bin BinOp.sub (Operand.reg GpReg.ebp) (Operand.reg GpReg.ebx))) ∧
    M.items[tpc n 161]? = some (Item.instr (Instr.bin BinOp.mov (Operand.mem (dword_ptr GpReg.edx K.off_frm)) (Operand.reg GpReg.ebp))) ∧
    M.items[tpc n 162]? = some (Item.instr (Instr.bin BinOp.mov (Operand.reg GpReg.ebp) (Operand.mem (dword_ptr_lbl ⟨2⟩)))) ∧
    M.items[tpc n 163]? = some (Item.instr (Instr.bin BinOp.sub (Operand.reg GpReg.esp) (Operand.reg GpReg.ebx))) ∧
    M.items[tpc n 164]? = some (Item.instr (Instr.bin BinOp.mov (Operand.mem (dword_ptr GpReg.edx K.off_stk)) (Operand.reg GpReg.esp))) ∧
    M.items[tpc n 165]? = some (Item.instr (Instr.bin BinOp.mov (Operand.reg GpReg.esp) (Operand.mem (dword_ptr_lbl ⟨3⟩)))) ∧
    M.items[tpc n 166]? = some (Item.instr (Instr.un UnOp.push (Operand.reg GpReg.ecx))) ∧
    M.items[tpc n 167]? = some (Item.instr (Instr.un UnOp.push (Operand.reg GpReg.edx))) ∧
    M.items[tpc n 168]? = some (Item.instr (Instr.call_reg GpReg.eax)) ∧
    M.items[tpc n 169]? = some (Item.instr (Instr.bin BinOp.add (Operand.reg GpReg.esp) (imm 8))) ∧
    M.items[tpc n 170]? = some (Item.instr (Instr.bin BinOp.mov (Operand.reg GpReg.edx) (Operand.mem (dword_ptr_lbl ⟨1⟩)))) ∧
    M.items[tpc n 171]? = some (Item.instr (Instr.bin BinOp.mov (Operand.mem (dword_ptr_lbl ⟨2⟩)) (Operand.reg GpReg.ebp))) ∧
    M.items[tpc n 172]? = some (Item.instr (Instr.bin BinOp.mov (Operand.reg GpReg.ecx) (Operand.mem (dword_ptr GpReg.edx K.off_frm)))) ∧
    M.items[tpc n 173]? = some (Item.instr (Instr.lea (Operand.reg GpReg.ebp) (dword_ptr_idx GpReg.ebx GpReg.ecx 0))) ∧
    M.items[tpc n 174]? = some (Item.instr (Instr.bin BinOp.mov (Operand.mem (dword_ptr_lbl ⟨3⟩)) (Operand.reg GpReg.esp))) ∧
    M.items[tpc n 175]? = some (Item.instr (Instr.bin BinOp.mov (Operand.reg GpReg.ecx) (Operand.mem (dword_ptr GpReg.edx K.off_stk)))) ∧
    M.items[tpc n 176]? = some (Item.instr (Instr.lea (Operand.reg GpReg.esp) (dword_ptr_idx GpReg.ebx GpReg.ecx 0))) ∧
    M.items[tpc n 177]? = some (Item.instr (Instr.un UnOp.push (Operand.reg GpReg.esi))) ∧
    M.items[tpc n 178]? = some (Item.instr Instr.ret) ∧
    M.items[tpc n 179]? = some (Item.bind ⟨22⟩) ∧
    M.items[tpc n 180]? = some (Item.instr (Instr.un UnOp.push (Operand.reg GpReg.ebp))) ∧
    M.items[tpc n 181]? = some (Item.instr (Instr.bin BinOp.mov (Operand.reg GpReg.ebp) (Operand.reg GpReg.esp))) ∧
    M.items[tpc n 182]? = some (Item.instr (Instr.un UnOp.push (Operand.mem (dword_ptr GpReg.ebp 8)))) ∧
    M.items[tpc n 183]? = some (Item.instr (Instr.bin BinOp.mov (Operand.reg GpReg.eax) (Operand.mem (dword_ptr_lbl ⟨1⟩)))) ∧
    M.items[tpc n 184]? = some (Item.instr (Instr.un UnOp.push (Operand.reg GpReg.eax))) ∧
    M.items[tpc n 185]? = some (Item.instr (Instr.call_ptr CFunction.get_native_addr)) ∧
    M.items[tpc n 186]? = some (Item.instr (Instr.bin BinOp.add (Operand.reg GpReg.esp) (imm 8))) ∧
    M.items[tpc n 187]? = some (Item.instr (Instr.bin BinOp.cmp (Operand.reg GpReg.eax) (imm 0))) ∧
    M.items[tpc n 188]? = some (Item.instr (Instr.j Cond.ne ⟨23⟩)) ∧
    M.items[tpc n 189]? = some (Item.instr (Instr.bin BinOp.mov (Operand.reg GpReg.eax) (imm K.AMX_ERR_NOTFOUND))) ∧
    M.items[tpc n 190]? = some (Item.instr (Instr.jmp ⟨24⟩)) ∧
    M.items[tpc n 191]? = some (Item.bind ⟨23⟩) ∧
    M.items[tpc n 192]? = some (Item.instr (Instr.un UnOp.push (Operand.mem (dword_ptr GpReg.ebp 16)))) ∧
    M.items[tpc n 193]? = some (Item.instr (Instr.un UnOp.push (Operand.mem (dword_ptr GpReg.ebp 12)))) ∧
    M.items[tpc n 194]? = some (Item.instr (Instr.un UnOp.push (Operand.reg GpReg.eax))) ∧
    M.items[tpc n 195]? = some (Item.instr (Instr.call ⟨21⟩)) ∧
    M.items[tpc n 196]? = some (Item.instr (Instr.bin BinOp.add (Operand.reg GpReg.esp) (imm 12))) ∧
    M.items[tpc n 197]? = some (Item.bind ⟨24⟩) ∧
    M.items[tpc n 198]? = some (Item.instr (Instr.bin BinOp.mov (Operand.reg GpReg.esp) (Operand.reg GpReg.ebp))) ∧
    M.items[tpc n 199]? = some (Item.instr (Instr.un UnOp.pop (Operand.reg GpReg.ebp))) ∧
    M.items[tpc n 200]? = some (Item.instr Instr.ret) := by
  rw [h.fetch 139 (by decide), h.fetch 140 (by decide), h.fetch 141 (by decide), h.fetch 142 (by decide), h.fetch 143 (by decide), h.fetch 144 (by decide), h.fetch 145 (by decide), h.fetch 146 (by decide)]
  rw [h.fetch 147 (by decide), h.fetch 148 (by decide), h.fetch 149 (by decide), h.fetch 150 (by decide), h.fetch 151 (by decide), h.fetch 152 (by decide), h.fetch 153 (by decide), h.fetch 154 (by decide)]
  rw [h.fetch 155 (by decide), h.fetch 156 (by decide), h.fetch 157 (by decide), h.fetch 158 (by decide), h.fetch 159 (by decide), h.fetch 160 (by decide), h.fetch 161 (by decide), h.fetch 162 (by decide)]
  rw [h.fetch 163 (by decide), h.fetch 164 (by decide), h.fetch 165 (by decide), h.fetch 166 (by decide), h.fetch 167 (by decide), h.fetch 168 (by decide), h.fetch 169 (by decide), h.fetch 170 (by decide)]
  rw [h.fetch 171 (by decide), h.fetch 172 (by decide), h.fetch 173 (by decide), h.fetch 174 (by decide), h.fetch 175 (by decide), h.fetch 176 (by decide), h.fetch 177 (by decide), h.fetch 178 (by decide)]
  rw [h.fetch 179 (by decide), h.fetch 180 (by decide), h.fetch 181 (by decide), h.fetch 182 (by decide), h.fetch 183 (by decide), h.fetch 184 (by decide), h.fetch 185 (by decide), h.fetch 186 (by decide)]
  rw [h.fetch 187 (by decide), h.fetch 188 (by decide), h.fetch 189 (by decide), h.fetch 190 (by decide), h.fetch 191 (by decide), h.fetch 192 (by decide), h.fetch 193 (by decide), h.fetch 194 (by decide)]
  rw [h.fetch 195 (by decide), h.fetch 196 (by decide), h.fetch 197 (by decide), h.fetch 198 (by decide), h.fetch 199 (by decide), h.fetch 200 (by decide)]
  rw [tramp_items_eq]
  repeat' constructor

set_option maxRecDepth 100000 in
/-- Indices of the labels bound inside `jump_helper`, `sysreq_d_helper` and
`sysreq_c_helper`. -/
theorem Loaded.labels_rest {K : AmxH} {M : Machine} {n : Nat} (h : Loaded K M n) :
    labelIndex M.items ⟨19⟩ = some (tpc n 139) ∧ labelIndex M.items ⟨20⟩ = some (tpc n 149) ∧
    labelIndex M.items ⟨21⟩ = some (tpc n 153) ∧ labelIndex M.items ⟨22⟩ = some (tpc n 179) ∧
    labelIndex M.items ⟨23⟩ = some (tpc n 191) ∧ labelIndex M.items ⟨24⟩ = some (tpc n 197) := by
  have e := tramp_items_eq K
  refine ⟨?_, ?_, ?_, ?_, ?_, ?_⟩ <;>
    exact h.label _ _ (by decide) (by rw [e]; rfl)

/-! ## A system request that calls a native -/

theorem amxField_16 (x : Nat) :
    (16 ≤ x → x < 4294967296 → amxField x (-16) = x - 16) ∧
    (x + 16 < 4294967296 → amxField x 16 = x + 16) := by
  have e1 : toU32 (-16) = 4294967280 := by decide
  have e2 : toU32 16 = 16 := by decide
  unfold amxField
  rw [e1, e2]
  omega

theorem add32_sub32_back (a b : Nat) (ha : a < 4294967296) (hb : b < 4294967296) :
    add32 b (sub32 a b) = a := by
  unfold add32
  rcases sub32_cases a b ha hb with h | h <;> rw [h.2] <;> omega

theorem cResult_native (M : Machine) (s : State) (a b : Nat) :
    cResult M s .get_native_addr [a, b] = M.env.get_native_addr a b % 4294967296 := rfl

set_option maxHeartbeats 1000000 in
/-- The call sequence of a `SYSREQ_D` that is no intrinsic, `push esp;
push ebp; push address; call sysreq_d_helper`, and the first half of the
helper: it stores `frm` and `stk` in the `AMX` record, switches to the saved
native stack, pushes `(amx, params)` and calls the native, whose address lies
outside the block. `params` is the stack pointer the `SYSREQ_D` found. -/
theorem sysreq_d_to_native {K : AmxH} {M : Machine} {n : Nat} (h : Loaded K M n)
    (eax ecx edx D S bp esi edi : Nat) (flags : Flags) (df : Bool) (m : Memory)
    (calls : List CallEvent) (A E N i : Nat) (addr : Int)
    (c0 : M.items[i]? = some (Item.instr (.un .push (.reg .esp))))
    (c1 : M.items[i + 1]? = some (Item.instr (.un .push (.reg .ebp))))
    (c2 : M.items[i + 2]? = some (Item.instr (.un .push (.imm addr))))
    (c3 : M.items[i + 3]? = some (Item.instr (.call ⟨21⟩)))
    (hS16 : 16 ≤ S) (hS : S < 4294967296) (hbp : bp < 4294967296) (hN12 : 12 ≤ N)
    (hnat : codeIndex M (toU32 addr) = none)
    (hv : M.base + 32 ≤ S - 16 ∨ S ≤ M.base)
    (s1 : read32 m (M.base + 4) = A) (s2 : read32 m (M.base + 8) = E)
    (s3 : read32 m (M.base + 12) = N)
    (pf : Outside M.base (M.base + 32) (amxField A K.off_frm))
    (pk : Outside M.base (M.base + 32) (amxField A K.off_stk))
    (afk : Apart (amxField A K.off_frm) (amxField A K.off_stk))
    (nf : Outside (N - 12) N (amxField A K.off_frm))
    (nk : Outside (N - 12) N (amxField A K.off_stk))
    (n1 : Outside (N - 12) N (M.base + 4)) :
    ∃ t, run M 20 ⟨eax, ecx, edx, D, S, bp, esi, edi, flags, df, m, i, .running, calls⟩ = t ∧
      t.status = .called_out (toU32 addr) ∧ t.pc = tpc n 169 ∧ t.esp = N - 12 ∧ t.ebp = E ∧
      t.ebx = D ∧ t.esi = codeAddr M (i + 4) ∧ t.edi = edi ∧ t.calls = calls ∧
      read32 t.mem (N - 8) = A ∧ read32 t.mem (N - 4) = S ∧
      read32 t.mem (amxField A K.off_frm) = sub32 bp D ∧
      read32 t.mem (amxField A K.off_stk) = sub32 S D ∧
      read32 t.mem (M.base + 4) = A := by
  have hb := h.base_lt
  have hA : A < 4294967296 := s1 ▸ read32_lt _ _
  have hE : E < 4294967296 := s2 ▸ read32_lt _ _
  have hN : N < 4294967296 := s3 ▸ read32_lt _ _
  have rh1 := (show Outside (S - 16) S (M.base + 4) by unfold Outside; omega).rw
  have rh2 := (show Outside (S - 16) S (M.base + 8) by unfold Outside; omega).rw
  have rh3 := (show Outside (S - 16) S (M.base + 12) by unfold Outside; omega).rw
  have rpf := pf.rw
  have rpk := pk.rw
  have rafk := afk.rws
  have rnf := nf.rw
  have rnk := nk.rw
  have rn1 := n1.rw
  apply Exists.intro
  constructor
  · rewrite [show (20 : Nat) = 5 + 15 from rfl, run_peel M 5 15 _ _ (by
      simp (disch := first | omega | exact read32_lt _ _ | exact toU32_lt _) only [
        run, step, h.fetch_all, h.labels, h.ea_lbl, execInstr, execBin, execUn, readOp, writeOp,
        State.reg, State.setReg, push32, tpc_add, Nat.reduceAdd, ea_dword_ptr, loadSized_4,
        storeSized_4, dword_ptr_size, dword_ptr_lbl_size, sub32_eq, add32_eq, imm, toU32_lit,
        Nat.mod_eq_of_lt, read32_mod, sub32_mod, add32_mod, read32_write32_ne,
        read32_write32_same, Nat.reduceSub, Nat.sub_sub, amxField_lit, gotoLabel, cond_e_sub,
        cond_ne_sub, decide_eq_true_eq, ne_eq, not_false_eq_true, not_true_eq_false, if_true,
        if_false, decide_True, decide_False, Bool.false_eq_true, goto, sub_add_lit, Nat.sub_zero,
        Nat.add_assoc, h.ret_addrs, codeAddr_mod h, h.fetch_rest, h.labels_rest, amxField_16,
        ea_dword_ptr_idx, Nat.add_zero, stackArgs_2, cResult_native, CFunction.arity,
        sub_add_lit2, c0, c1, c2, c3, s1, s2, s3, hnat, rh1, rh2, rh3, rpf, rpk, rafk]
      rfl)]
    rewrite [show (15 : Nat) = 8 + 7 from rfl, run_peel M 8 7 _ _ (by
      simp (disch := first | omega | exact read32_lt _ _ | exact toU32_lt _) only [
        run, step, h.fetch_all, h.labels, h.ea_lbl, execInstr, execBin, execUn, readOp, writeOp,
        State.reg, State.setReg, push32, tpc_add, Nat.reduceAdd, ea_dword_ptr, loadSized_4,
        storeSized_4, dword_ptr_size, dword_ptr_lbl_size, sub32_eq, add32_eq, imm, toU32_lit,
        Nat.mod_eq_of_lt, read32_mod, sub32_mod, add32_mod, read32_write32_ne,
        read32_write32_same, Nat.reduceSub, Nat.sub_sub, amxField_lit, gotoLabel, cond_e_sub,
        cond_ne_sub, decide_eq_true_eq, ne_eq, not_false_eq_true, not_true_eq_false, if_true,
        if_false, decide_True, decide_False, Bool.false_eq_true, goto, sub_add_lit, Nat.sub_zero,
        Nat.add_assoc, h.ret_addrs, codeAddr_mod h, h.fetch_rest, h.labels_rest, amxField_16,
        ea_dword_ptr_idx, Nat.add_zero, stackArgs_2, cResult_native, CFunction.arity,
        sub_add_lit2, c0, c1, c2, c3, s1, s2, s3, hnat, rh1, rh2, rh3, rpf, rpk, rafk]
      rfl)]
    simp (disch := first | omega | exact read32_lt _ _ | exact toU32_lt _) only [
      run, step, h.fetch_all, h.labels, h.ea_lbl, execInstr, execBin, execUn, readOp, writeOp,
      State.reg, State.setReg, push32, tpc_add, Nat.reduceAdd, ea_dword_ptr, loadSized_4,
      storeSized_4, dword_ptr_size, dword_ptr_lbl_size, sub32_eq, add32_eq, imm, toU32_lit,
      Nat.mod_eq_of_lt, read32_mod, sub32_mod, add32_mod, read32_write32_ne, read32_write32_same,
      Nat.reduceSub, Nat.sub_sub, amxField_lit, gotoLabel, cond_e_sub, cond_ne_sub,
      decide_eq_true_eq, ne_eq, not_false_eq_true, not_true_eq_false, if_true, if_false,
      decide_True, decide_False, Bool.false_eq_true, goto, sub_add_lit, Nat.sub_zero,
      Nat.add_assoc, h.ret_addrs, codeAddr_mod h, h.fetch_rest, h.labels_rest, amxField_16,
      ea_dword_ptr_idx, Nat.add_zero, stackArgs_2, cResult_native, CFunction.arity, sub_add_lit2,
      c0, c1, c2, c3, s1, s2, s3, hnat, rh1, rh2, rh3, rpf, rpk, rafk]
    rfl
  · refine ⟨rfl, rfl, rfl, rfl, rfl, rfl, rfl, rfl, ?_, ?_, ?_, ?_, ?_⟩
    · simp (disch := first | omega | exact sub32_lt _ _) only [read32_write32_same,
        read32_write32_ne, Nat.mod_eq_of_lt]
    · simp (disch := first | omega | exact sub32_lt _ _) only [read32_write32_same,
        read32_write32_ne, Nat.mod_eq_of_lt]
    · simp (disch := first | omega | exact sub32_lt _ _) only [read32_write32_same, rnf, rafk,
        Nat.mod_eq_of_lt]
    · simp (disch := first | omega | exact sub32_lt _ _) only [read32_write32_same, rnk,
        Nat.mod_eq_of_lt]
    · simp (disch := first | omega | exact sub32_lt _ _) only [rn1, rpf, rpk, rh1, s1]

set_option maxHeartbeats 1000000 in
/-- The call sequence of a `SYSREQ_C` that is no intrinsic, `push esp;
push ebp; push index; call sysreq_c_helper`, when `get_native_addr` resolves
the index: the helper passes the address it got to `sysreq_d_helper`, which
calls the native with `(amx, params)`. -/
theorem sysreq_c_to_native {K : AmxH} {M : Machine} {n : Nat} (h : Loaded K M n)
    (eax ecx edx D S bp esi edi : Nat) (flags : Flags) (df : Bool) (m : Memory)
    (calls : List CallEvent) (A E N i addr : Nat) (idx : Int)
    (c0 : M.items[i]? = some (Item.instr (.un .push (.reg .esp))))
    (c1 : M.items[i + 1]? = some (Item.instr (.un .push (.reg .ebp))))
    (c2 : M.items[i + 2]? = some (Item.instr (.un .push (.imm idx))))
    (c3 : M.items[i + 3]? = some (Item.instr (.call ⟨22⟩)))
    (hS36 : 36 ≤ S) (hS : S < 4294967296) (hbp : bp < 4294967296) (hN12 : 12 ≤ N)
    (hidx : M.env.get_native_addr A (toU32 idx) % 4294967296 = addr) (haddr0 : addr ≠ 0)
    (hnat : codeIndex M addr = none)
    (hv : M.base + 32 ≤ S - 36 ∨ S ≤ M.base)
    (s1 : read32 m (M.base + 4) = A) (s2 : read32 m (M.base + 8) = E)
    (s3 : read32 m (M.base + 12) = N)
    (pf : Outside M.base (M.base + 32) (amxField A K.off_frm))
    (pk : Outside M.base (M.base + 32) (amxField A K.off_stk))
    (afk : Apart (amxField A K.off_frm) (amxField A K.off_stk))
    (nf : Outside (N - 12) N (amxField A K.off_frm))
    (nk : Outside (N - 12) N (amxField A K.off_stk))
    (n1 : Outside (N - 12) N (M.base + 4)) :
    ∃ t, run M 35 ⟨eax, ecx, edx, D, S, bp, esi, edi, flags, df, m, i, .running, calls⟩ = t ∧
      t.status = .called_out addr ∧ t.pc = tpc n 169 ∧ t.esp = N - 12 ∧ t.ebp = E ∧
      t.ebx = D ∧ t.esi = codeAddr M (i + 4) ∧ t.edi = edi ∧ t.calls = calls ++ [⟨.get_native_addr, [A, toU32 idx]⟩] ∧
      read32 t.mem (N - 8) = A ∧ read32 t.mem (N - 4) = S ∧
      read32 t.mem (amxField A K.off_frm) = sub32 bp D ∧
      read32 t.mem (amxField A K.off_stk) = sub32 S D ∧
      read32 t.mem (M.base + 4) = A := by
  have hb := h.base_lt
  have hA : A < 4294967296 := s1 ▸ read32_lt _ _
  have hE : E < 4294967296 := s2 ▸ read32_lt _ _
  have hN : N < 4294967296 := s3 ▸ read32_lt _ _
  have haddr : addr < 4294967296 := hidx ▸ Nat.mod_lt _ (by decide)
  have rh1 := (show Outside (S - 36) S (M.base + 4) by unfold Outside; omega).rw
  have rh2 := (show Outside (S - 36) S (M.base + 8) by unfold Outside; omega).rw
  have rh3 := (show Outside (S - 36) S (M.base + 12) by unfold Outside; omega).rw
  have rpf := pf.rw
  have rpk := pk.rw
  have rafk := afk.rws
  have rnf := nf.rw
  have rnk := nk.rw
  have rn1 := n1.rw
  apply Exists.intro
  constructor
  · rewrite [show (35 : Nat) = 10 + 25 from rfl, run_peel M 10 25 _ _ (by
      simp (disch := first | omega | exact read32_lt _ _ | exact toU32_lt _) only [
        run, step, h.fetch_all, h.labels, h.ea_lbl, execInstr, execBin, execUn, readOp, writeOp,
        State.reg, State.setReg, push32, tpc_add, Nat.reduceAdd, ea_dword_ptr, loadSized_4,
        storeSized_4, dword_ptr_size, dword_ptr_lbl_size, sub32_eq, add32_eq, imm, toU32_lit,
        Nat.mod_eq_of_lt, read32_mod, sub32_mod, add32_mod, read32_write32_ne,
        read32_write32_same, Nat.reduceSub, Nat.sub_sub, amxField_lit, gotoLabel, cond_e_sub,
        cond_ne_sub, decide_eq_true_eq, ne_eq, not_false_eq_true, not_true_eq_false, if_true,
        if_false, decide_True, decide_False, Bool.false_eq_true, goto, sub_add_lit, Nat.sub_zero,
        Nat.add_assoc, h.ret_addrs, codeAddr_mod h, h.fetch_rest, h.labels_rest, amxField_16,
        ea_dword_ptr_idx, Nat.add_zero, stackArgs_2, cResult_native, CFunction.arity,
        sub_add_lit2, c0, c1, c2, c3, hidx, haddr0, s1, s2, s3, hnat, rh1, rh2, rh3, rpf, rpk,
        rafk]
      rfl)]
    rewrite [show (25 : Nat) = 10 + 15 from rfl, run_peel M 10 15 _ _ (by
      simp (disch := first | omega | exact read32_lt _ _ | exact toU32_lt _) only [
        run, step, h.fetch_all, h.labels, h.ea_lbl, execInstr, execBin, execUn, readOp, writeOp,
        State.reg, State.setReg, push32, tpc_add, Nat.reduceAdd, ea_dword_ptr, loadSized_4,
        storeSized_4, dword_ptr_size, dword_ptr_lbl_size, sub32_eq, add32_eq, imm, toU32_lit,
        Nat.mod_eq_of_lt, read32_mod, sub32_mod, add32_mod, read32_write32_ne,
        read32_write32_same, Nat.reduceSub, Nat.sub_sub, amxField_lit, gotoLabel, cond_e_sub,
        cond_ne_sub, decide_eq_true_eq, ne_eq, not_false_eq_true, not_true_eq_false, if_true,
        if_false, decide_True, decide_False, Bool.false_eq_true, goto, sub_add_lit, Nat.sub_zero,
        Nat.add_assoc, h.ret_addrs, codeAddr_mod h, h.fetch_rest, h.labels_rest, amxField_16,
        ea_dword_ptr_idx, Nat.add_zero, stackArgs_2, cResult_native, CFunction.arity,
        sub_add_lit2, c0, c1, c2, c3, hidx, haddr0, s1, s2, s3, hnat, rh1, rh2, rh3, rpf, rpk,
        rafk]
      rfl)]
    rewrite [show (15 : Nat) = 8 + 7 from rfl, run_peel M 8 7 _ _ (by
      simp (disch := first | omega | exact read32_lt _ _ | exact toU32_lt _) only [
        run, step, h.fetch_all, h.labels, h.ea_lbl, execInstr, execBin, execUn, readOp, writeOp,
        State.reg, State.setReg, push32, tpc_add, Nat.reduceAdd, ea_dword_ptr, loadSized_4,
        storeSized_4, dword_ptr_size, dword_ptr_lbl_size, sub32_eq, add32_eq, imm, toU32_lit,
        Nat.mod_eq_of_lt, read32_mod, sub32_mod, add32_mod, read32_write32_ne,
        read32_write32_same, Nat.reduceSub, Nat.sub_sub, amxField_lit, gotoLabel, cond_e_sub,
        cond_ne_sub, decide_eq_true_eq, ne_eq, not_false_eq_true, not_true_eq_false, if_true,
        if_false, decide_True, decide_False, Bool.false_eq_true, goto, sub_add_lit, Nat.sub_zero,
        Nat.add_assoc, h.ret_addrs, codeAddr_mod h, h.fetch_rest, h.labels_rest, amxField_16,
        ea_dword_ptr_idx, Nat.add_zero, stackArgs_2, cResult_native, CFunction.arity,
        sub_add_lit2, c0, c1, c2, c3, hidx, haddr0, s1, s2, s3, hnat, rh1, rh2, rh3, rpf, rpk,
        rafk]
      rfl)]
    simp (disch := first | omega | exact read32_lt _ _ | exact toU32_lt _) only [
      run, step, h.fetch_all, h.labels, h.ea_lbl, execInstr, execBin, execUn, readOp, writeOp,
      State.reg, State.setReg, push32, tpc_add, Nat.reduceAdd, ea_dword_ptr, loadSized_4,
      storeSized_4, dword_ptr_size, dword_ptr_lbl_size, sub32_eq, add32_eq, imm, toU32_lit,
      Nat.mod_eq_of_lt, read32_mod, sub32_mod, add32_mod, read32_write32_ne, read32_write32_same,
      Nat.reduceSub, Nat.sub_sub, amxField_lit, gotoLabel, cond_e_sub, cond_ne_sub,
      decide_eq_true_eq, ne_eq, not_false_eq_true, not_true_eq_false, if_true, if_false,
      decide_True, decide_False, Bool.false_eq_true, goto, sub_add_lit, Nat.sub_zero,
      Nat.add_assoc, h.ret_addrs, codeAddr_mod h, h.fetch_rest, h.labels_rest, amxField_16,
      ea_dword_ptr_idx, Nat.add_zero, stackArgs_2, cResult_native, CFunction.arity, sub_add_lit2,
      c0, c1, c2, c3, hidx, haddr0, s1, s2, s3, hnat, rh1, rh2, rh3, rpf, rpk, rafk]
    rfl
  · refine ⟨rfl, rfl, rfl, rfl, rfl, rfl, rfl, rfl, ?_, ?_, ?_, ?_, ?_⟩
    · simp (disch := first | omega | exact sub32_lt _ _) only [read32_write32_same,
        read32_write32_ne, Nat.mod_eq_of_lt]
    · simp (disch := first | omega | exact sub32_lt _ _) only [read32_write32_same,
        read32_write32_ne, Nat.mod_eq_of_lt]
    · simp (disch := first | omega | exact sub32_lt _ _) only [read32_write32_same, rnf, rafk,
        Nat.mod_eq_of_lt]
    · simp (disch := first | omega | exact sub32_lt _ _) only [read32_write32_same, rnk,
        Nat.mod_eq_of_lt]
    · simp (disch := first | omega | exact sub32_lt _ _) only [rn1, rpf, rpk, rh1, s1]

set_option maxHeartbeats 1000000 in
/-- The second half of `sysreq_d_helper`, run from the instruction behind the
call of the native: it drops the two arguments, saves the native stack and
frame pointers in the slots `L_esp` and `L_ebp`, rebuilds `ebp` and `esp` from
the fields `frm` and `stk`, and returns to the address it kept in `esi`. -/
theorem sysreq_d_helper_back {K : AmxH} {M : Machine} {n : Nat} (h : Loaded K M n)
    (res cx dx D E R edi : Nat) (f : Flags) (df : Bool) (m : Memory)
    (calls : List CallEvent) (A N S bp j : Nat)
    (hD : D < 4294967296) (hE : E < 4294967296)
    (hR : R < 4294967296) (hbp : bp < 4294967296)
    (hS4 : 4 ≤ S) (hS : S < 4294967296) (hN8 : 8 ≤ N) (hN : N < 4294967296)
    (g1 : read32 m (M.base + 4) = A)
    (gf : read32 m (amxField A K.off_frm) = sub32 bp D)
    (gk : read32 m (amxField A K.off_stk) = sub32 S D)
    (hj : codeIndex M R = some j)
    (pf : Outside M.base (M.base + 32) (amxField A K.off_frm))
    (pk : Outside M.base (M.base + 32) (amxField A K.off_stk))
    (v2 : Apart (S - 4) (M.base + 8)) (v3 : Apart (S - 4) (M.base + 12)) :
    ∃ t, run M 10 ⟨res, cx, dx, D, N - 8, E, R, edi, f, df, m, tpc n 169, .running,
        calls⟩ = t ∧
      t.status = .running ∧ t.pc = j ∧ t.eax = res ∧ t.ebx = D ∧ t.ebp = bp ∧ t.esp = S ∧
      t.edi = edi ∧ t.calls = calls ∧
      read32 t.mem (M.base + 8) = E ∧ read32 t.mem (M.base + 12) = N ∧
      ∀ x, (x < M.base + 8 ∨ M.base + 16 ≤ x) → (x < S - 4 ∨ S ≤ x) → t.mem x = m x := by
  have hb := h.base_lt
  have hA : A < 4294967296 := g1 ▸ read32_lt _ _
  have rpf := pf.rw
  have rpk := pk.rw
  have rv2 := v2.rws
  have rv3 := v3.rws
  apply Exists.intro
  constructor
  · simp (disch := first | omega | exact read32_lt _ _ | exact toU32_lt _) only [
      run, step, h.fetch_all, h.labels, h.ea_lbl, execInstr, execBin, execUn, readOp, writeOp,
      State.reg, State.setReg, push32, tpc_add, Nat.reduceAdd, ea_dword_ptr, loadSized_4,
      storeSized_4, dword_ptr_size, dword_ptr_lbl_size, sub32_eq, add32_eq, imm, toU32_lit,
      Nat.mod_eq_of_lt, read32_mod, sub32_mod, add32_mod, read32_write32_ne, read32_write32_same,
      Nat.reduceSub, Nat.sub_sub, amxField_lit, gotoLabel, cond_e_sub, cond_ne_sub,
      decide_eq_true_eq, ne_eq, not_false_eq_true, not_true_eq_false, if_true, if_false,
      decide_True, decide_False, Bool.false_eq_true, goto, sub_add_lit, Nat.sub_zero,
      Nat.add_assoc, h.ret_addrs, codeAddr_mod h, h.fetch_rest, h.labels_rest, amxField_16,
      ea_dword_ptr_idx, Nat.add_zero, add32_sub32_back, g1, gf, gk, hj, rpf, rpk]
    rfl
  · refine ⟨rfl, rfl, rfl, rfl, rfl, rfl, rfl, rfl, ?_, ?_, ?_⟩
    · simp (disch := first | omega) only [read32_write32_same, read32_write32_ne, rv2,
        Nat.mod_eq_of_lt]
    · simp (disch := first | omega) only [read32_write32_same, read32_write32_ne, rv3,
        Nat.mod_eq_of_lt]
    · intro x h1 h2
      show write32 _ _ _ x = m x
      rw [write32_outside _ _ _ _ (by omega), write32_outside _ _ _ _ (by omega),
        write32_outside _ _ _ _ (by omega)]

theorem native_returns_eq (t : State) (r : NativeReturn) (a : Nat)
    (h : t.status = .called_out a) :
    native_returns t r = ⟨r.result % 4294967296, r.ecx % 4294967296, r.edx % 4294967296,
      t.ebx, add32 t.esp 4, t.ebp, t.esi, t.edi, r.flags, t.df, r.mem, t.pc, .running,
      t.calls⟩ := by
  unfold native_returns
  rw [h]

theorem emitted_sysreq_call (K : AmxH) (amx : AMXPtr) (L : HelperLabels) (a : Int)
    (operands : List Int) (as : X86Assembler) (amx_labels : AmxLabels) (name : String)
    (hm : name ∉ intrinsic_names) :
    (amx.get_native_name (AMXInstruction.operand ⟨a, .OP_SYSREQ_C, operands⟩) = some name →
      emitted K amx L ⟨a, .OP_SYSREQ_C, operands⟩ as amx_labels =
        [.instr (.un .push (.reg .esp)), .instr (.un .push (.reg .ebp)),
         .instr (.un .push (.imm (AMXInstruction.operand ⟨a, .OP_SYSREQ_C, operands⟩))),
         .instr (.call L.L_sysreq_c_helper)]) ∧
    (amx.get_native_name
        (amx.find_native (AMXInstruction.operand ⟨a, .OP_SYSREQ_D, operands⟩)) = some name →
      emitted K amx L ⟨a, .OP_SYSREQ_D, operands⟩ as amx_labels =
        [.instr (.un .push (.reg .esp)), .instr (.un .push (.reg .ebp)),
         .instr (.un .push (.imm (AMXInstruction.operand ⟨a, .OP_SYSREQ_D, operands⟩))),
         .instr (.call L.L_sysreq_d_helper)]) := by
  constructor
  · intro hn
    apply emitted_eq
    simp [translate, hn, intrinsics_lookup_none name hm, X86Assembler.push,
      X86Assembler.call, X86Assembler.emit, imm]
  · intro hn
    apply emitted_eq
    simp [translate, hn, intrinsics_lookup_none name hm, X86Assembler.push,
      X86Assembler.call, X86Assembler.emit, imm]

/-- The way back from a native: a state `t` in which `sysreq_d_helper` has
called the native, and what the native leaves behind. -/
theorem sysreq_resume {K : AmxH} {M : Machine} {n : Nat} (h : Loaded K M n)
    (t : State) (r : NativeReturn) (A N E D S bp R addr j : Nat)
    (hD : D < 4294967296) (hE : E < 4294967296) (hR : R < 4294967296)
    (hbp : bp < 4294967296) (hS4 : 4 ≤ S) (hS : S < 4294967296) (hN12 : 12 ≤ N)
    (hN : N < 4294967296)
    (st : t.status = .called_out addr) (tpc_ : t.pc = tpc n 169) (tsp : t.esp = N - 12)
    (tbp : t.ebp = E) (tbx : t.ebx = D) (tsi : t.esi = R)
    (tf : read32 t.mem (amxField A K.off_frm) = sub32 bp D)
    (tk : read32 t.mem (amxField A K.off_stk) = sub32 S D)
    (g1 : read32 r.mem (M.base + 4) = A)
    (gf : read32 r.mem (amxField A K.off_frm) = read32 t.mem (amxField A K.off_frm))
    (gk : read32 r.mem (amxField A K.off_stk) = read32 t.mem (amxField A K.off_stk))
    (hj : codeIndex M R = some j)
    (pf : Outside M.base (M.base + 32) (amxField A K.off_frm))
    (pk : Outside M.base (M.base + 32) (amxField A K.off_stk))
    (v2 : Apart (S - 4) (M.base + 8)) (v3 : Apart (S - 4) (M.base + 12)) :
    ∃ u, run M 10 (native_returns t r) = u ∧ u.status = .running ∧ u.pc = j ∧
      u.eax = r.result % 4294967296 ∧ u.ebp = bp ∧ u.esp = S ∧ u.ebx = D ∧
      read32 u.mem (M.base + 8) = E ∧ read32 u.mem (M.base + 12) = N := by
  rw [native_returns_eq t r addr st, tpc_, tsp, tbp, tbx, tsi,
    add32_eq _ _ (by omega), show N - 12 + 4 = N - 8 from by omega]
  obtain ⟨u, hu, u1, u2, u3, u4, u5, u6, -, -, u7, u8, -⟩ :=
    sysreq_d_helper_back h (r.result % 4294967296) (r.ecx % 4294967296)
      (r.edx % 4294967296) D E R t.edi r.flags t.df r.mem t.calls A N S bp j hD hE hR hbp hS4
      hS (by omega) hN g1 (gf.trans tf) (gk.trans tk) hj pf pk v2 v3
  exact ⟨u, hu, u1, u2, u3, u5, u6, u4, u7, u8⟩

/-- C25: in a loaded block, at the call sequence of a `SYSREQ_D` whose native
has a name that is no intrinsic (the operand is the native's address), or of
such a `SYSREQ_C` whose index `get_native_addr` resolves to a non-null
address, with the native's address `addr` outside the block: after some
steps the machine has called `addr` with the cdecl arguments `(amx, params)`,
`amx` the pointer of the header slot `L_amx` and `params` the stack pointer
(`STK`) the `SYSREQ` found. For every native that returns leaving the fields
`frm` and `stk` of the `AMX` record and the slot `L_amx` as they were at the
call, ten steps later the machine runs at the item of the address right
behind the call sequence, `PRI` holds the native's answer, and `ebp` (`FRM`),
`esp` (`STK`), `ebx` and the slots `L_ebp` and `L_esp` hold what they held
before the `SYSREQ`. -/
theorem sysreq_calls_native {K : AmxH} {M : Machine} {n : Nat} (h : Loaded K M n)
    (amx : AMXPtr) (a : Int) (operands : List Int) (as : X86Assembler) (tbl : AmxLabels)
    (name : String) (s : State) (i j A addr : Nat)
    (hm : name ∉ intrinsic_names)
    (hcode :
      (amx.get_native_name
          (amx.find_native (AMXInstruction.operand ⟨a, .OP_SYSREQ_D, operands⟩)) = some name ∧
        CodeAt M i (emitted K amx (compile_prologue K M.enc amx).helpers
          ⟨a, .OP_SYSREQ_D, operands⟩ as tbl) ∧
        toU32 (AMXInstruction.operand ⟨a, .OP_SYSREQ_D, operands⟩) = addr) ∨
      (amx.get_native_name (AMXInstruction.operand ⟨a, .OP_SYSREQ_C, operands⟩) = some name ∧
        CodeAt M i (emitted K amx (compile_prologue K M.enc amx).helpers
          ⟨a, .OP_SYSREQ_C, operands⟩ as tbl) ∧
        M.env.get_native_addr A (toU32 (AMXInstruction.operand ⟨a, .OP_SYSREQ_C, operands⟩)) %
          4294967296 = addr ∧ addr ≠ 0))
    (hpc : s.pc = i) (hr : s.status = .running)
    (hebx : s.ebx < 4294967296) (hebp : s.ebp < 4294967296)
    (hS36 : 36 ≤ s.esp) (hS : s.esp < 4294967296)
    (s1 : read32 s.mem (M.base + 4) = A)
    (hN12 : 12 ≤ read32 s.mem (M.base + 12))
    (hnat : codeIndex M addr = none)
    (hj : codeIndex M (codeAddr M (i + 4)) = some j)
    (hv : M.base + 32 ≤ s.esp - 36 ∨ s.esp ≤ M.base)
    (pf : Outside M.base (M.base + 32) (amxField A K.off_frm))
    (pk : Outside M.base (M.base + 32) (amxField A K.off_stk))
    (afk : Apart (amxField A K.off_frm) (amxField A K.off_stk))
    (nf : Outside (read32 s.mem (M.base + 12) - 12) (read32 s.mem (M.base + 12))
      (amxField A K.off_frm))
    (nk : Outside (read32 s.mem (M.base + 12) - 12) (read32 s.mem (M.base + 12))
      (amxField A K.off_stk))
    (n1 : Outside (read32 s.mem (M.base + 12) - 12) (read32 s.mem (M.base + 12))
      (M.base + 4)) :
    ∃ k t, run M k s = t ∧ t.status = .called_out addr ∧
      read32 t.mem (t.esp + 4) = A ∧ read32 t.mem (t.esp + 8) = s.esp ∧
      ∀ r : NativeReturn,
        read32 r.mem (M.base + 4) = A →
        read32 r.mem (amxField A K.off_frm) = read32 t.mem (amxField A K.off_frm) →
        read32 r.mem (amxField A K.off_stk) = read32 t.mem (amxField A K.off_stk) →
        ∃ u, run M 10 (native_returns t r) = u ∧ u.status = .running ∧ u.pc = j ∧
          u.eax = r.result % 4294967296 ∧ u.ebp = s.ebp ∧ u.esp = s.esp ∧ u.ebx = s.ebx ∧
          read32 u.mem (M.base + 8) = read32 s.mem (M.base + 8) ∧
          read32 u.mem (M.base + 12) = read32 s.mem (M.base + 12) := by
  have el := State.eq_lit s i hpc hr
  have hN := read32_lt s.mem (M.base + 12)
  have hE := read32_lt s.mem (M.base + 8)
  have hR := h.codeAddr_lt (i + 4)
  have v2 : Apart (s.esp - 4) (M.base + 8) := by unfold Apart; omega
  have v3 : Apart (s.esp - 4) (M.base + 12) := by unfold Apart; omega
  obtain ⟨eC, eD⟩ := emitted_sysreq_call K amx ⟨⟨1⟩, ⟨19⟩, ⟨22⟩, ⟨21⟩, ⟨25⟩⟩ a operands as tbl
    name hm
  rw [compile_prologue_helpers] at hcode
  rcases hcode with ⟨hn, hc, ha⟩ | ⟨hn, hc, ha, ha0⟩
  · rw [eD hn] at hc
    rw [← ha] at hnat
    obtain ⟨t, ht, st, t1, t2, t3, t4, t5, -, -, m1, m2, m3, m4, -⟩ :=
      sysreq_d_to_native h s.eax s.ecx s.edx s.ebx s.esp s.ebp s.esi s.edi s.flags s.df s.mem
        s.calls A _ _ i _ (by simpa using hc.get 0 _ rfl) (hc.get 1 _ rfl) (hc.get 2 _ rfl)
        (hc.get 3 _ rfl) (by omega) hS hebp hN12 hnat (by omega) s1 rfl rfl pf pk afk nf nk n1
    rw [← el] at ht
    rw [ha] at st
    refine ⟨20, t, ht, st, ?_, ?_, ?_⟩
    · rw [t2, show read32 s.mem (M.base + 12) - 12 + 4 = read32 s.mem (M.base + 12) - 8
        from by omega]
      exact m1
    · rw [t2, show read32 s.mem (M.base + 12) - 12 + 8 = read32 s.mem (M.base + 12) - 4
        from by omega]
      exact m2
    · intro r g1 gf gk
      exact sysreq_resume h t r A _ _ s.ebx s.esp s.ebp _ addr j hebx hE hR hebp (by omega) hS
        hN12 hN st t1 t2 t3 t4 t5 m3 m4 g1 gf gk hj pf pk v2 v3
  · rw [eC hn] at hc
    obtain ⟨t, ht, st, t1, t2, t3, t4, t5, -, -, m1, m2, m3, m4, -⟩ :=
      sysreq_c_to_native h s.eax s.ecx s.edx s.ebx s.esp s.ebp s.esi s.edi s.flags s.df s.mem
        s.calls A _ _ i addr _ (by simpa using hc.get 0 _ rfl) (hc.get 1 _ rfl)
        (hc.get 2 _ rfl) (hc.get 3 _ rfl) hS36 hS hebp hN12 ha ha0 hnat hv s1 rfl rfl pf pk afk
        nf nk n1
    rw [← el] at ht
    refine ⟨35, t, ht, st, ?_, ?_, ?_⟩
    · rw [t2, show read32 s.mem (M.base + 12) - 12 + 4 = read32 s.mem (M.base + 12) - 8
        from by omega]
      exact m1
    · rw [t2, show read32 s.mem (M.base + 12) - 12 + 8 = read32 s.mem (M.base + 12) - 4
        from by omega]
      exact m2
    · intro r g1 gf gk
      exact sysreq_resume h t r A _ _ s.ebx s.esp s.ebp _ addr j hebx hE hR hebp (by omega) hS
        hN12 hN st t1 t2 t3 t4 t5 m3 m4 g1 gf gk hj pf pk v2 v3

set_option maxRecDepth 1000000 in
theorem natives_loaded : Loaded amx_h_32 natives_machine 9 :=
  compile_loaded amx_h_32 sample_info sample_enc natives_amx false 65536 (fun _ => 0)
    natives_env (by decide) (by decide) (fun _ => Nat.succ_pos 4)

set_option maxRecDepth 1000000 in
/-- Witness of C25: in the compiled sample program with natives, the
`SYSREQ_D 0x6000` (items 245 to 248, the item behind it is 249) and the
`SYSREQ_C 1` (items 241 to 244, the item behind it is 245), both calls of the
native `print` at `0x6000` outside the block, run with the stack pointer at
`0x9000`. -/
theorem sysreq_calls_native_witness :
    (∃ k t, run natives_machine k (natives_state 245 7 0) = t ∧
      t.status = .called_out 24576 ∧
      read32 t.mem (t.esp + 4) = 8192 ∧ read32 t.mem (t.esp + 8) = (natives_state 245 7 0).esp ∧
      ∀ r : NativeReturn,
        read32 r.mem (natives_machine.base + 4) = 8192 →
        read32 r.mem (amxField 8192 amx_h_32.off_frm) =
          read32 t.mem (amxField 8192 amx_h_32.off_frm) →
        read32 r.mem (amxField 8192 amx_h_32.off_stk) =
          read32 t.mem (amxField 8192 amx_h_32.off_stk) →
        ∃ u, run natives_machine 10 (native_returns t r) = u ∧ u.status = .running ∧
          u.pc = 249 ∧ u.eax = r.result % 4294967296 ∧
          u.ebp = (natives_state 245 7 0).ebp ∧ u.esp = (natives_state 245 7 0).esp ∧
          u.ebx = (natives_state 245 7 0).ebx ∧
          read32 u.mem (natives_machine.base + 8) =
            read32 (natives_state 245 7 0).mem (natives_machine.base + 8) ∧
          read32 u.mem (natives_machine.base + 12) =
            read32 (natives_state 245 7 0).mem (natives_machine.base + 12)) ∧
    (∃ k t, run natives_machine k (natives_state 241 7 0) = t ∧
      t.status = .called_out 24576 ∧
      read32 t.mem (t.esp + 4) = 8192 ∧ read32 t.mem (t.esp + 8) = (natives_state 241 7 0).esp ∧
      ∀ r : NativeReturn,
        read32 r.mem (natives_machine.base + 4) = 8192 →
        read32 r.mem (amxField 8192 amx_h_32.off_frm) =
          read32 t.mem (amxField 8192 amx_h_32.off_frm) →
        read32 r.mem (amxField 8192 amx_h_32.off_stk) =
          read32 t.mem (amxField 8192 amx_h_32.off_stk) →
        ∃ u, run natives_machine 10 (native_returns t r) = u ∧ u.status = .running ∧
          u.pc = 245 ∧ u.eax = r.result % 4294967296 ∧
          u.ebp = (natives_state 241 7 0).ebp ∧ u.esp = (natives_state 241 7 0).esp ∧
          u.ebx = (natives_state 241 7 0).ebx ∧
          read32 u.mem (natives_machine.base + 8) =
            read32 (natives_state 241 7 0).mem (natives_machine.base + 8) ∧
          read32 u.mem (natives_machine.base + 12) =
            read32 (natives_state 241 7 0).mem (natives_machine.base + 12)) :=
  ⟨sysreq_calls_native natives_loaded natives_amx 28 [24576] (emptyAs 0) ⟨[]⟩ "print"
      (natives_state 245 7 0) 245 249 8192 24576 (by decide)
      (Or.inl ⟨by decide, by unfold CodeAt; decide, by decide⟩) rfl rfl (by decide)
      (by decide) (by decide) (by decide) (by decide) (by decide) (by decide) (by decide)
      (by decide) (by unfold Outside; decide) (by unfold Outside; decide)
      (by unfold Apart; decide) (by unfold Outside; decide) (by unfold Outside; decide)
      (by unfold Outside; decide),
   sysreq_calls_native natives_loaded natives_amx 20 [1] (emptyAs 0) ⟨[]⟩ "print"
      (natives_state 241 7 0) 241 245 8192 24576 (by decide)
      (Or.inr ⟨by decide, by unfold CodeAt; decide, by decide, by decide⟩) rfl rfl (by decide)
      (by decide) (by decide) (by decide) (by decide) (by decide) (by decide) (by decide)
      (by decide) (by unfold Outside; decide) (by unfold Outside; decide)
      (by unfold Apart; decide) (by unfold Outside; decide) (by unfold Outside; decide)
      (by unfold Outside; decide)⟩

/-! ## C31 .. C34: comparisons, block instructions and the data base register -/

/-- The code `cmp x, y; setcc al; movzx eax, al` on any machine: `eax`
becomes 1 when the condition holds for the flags of `x - y` and 0 otherwise;
`ecx`, `ebx`, the memory, the stack pointer and the frame pointer are as
before. -/
theorem cmp_setcc_run (M : Machine) (s : State) (i a b : Nat) (x y : Operand) (cc : Cond)
    (c0 : M.items[i]? = some (.instr (.bin .cmp x y)))
    (c1 : M.items[i + 1]? = some (.instr (.set cc (.reg8 .eax))))
    (c2 : M.items[i + 2]? = some (.instr (.bin .movzx (.reg .eax) (.reg8 .eax))))
    (hpc : s.pc = i) (hr : s.status = .running)
    (hx : ∀ t : State, t.eax = s.eax → t.ecx = s.ecx → readOp M t x = a)
    (hy : ∀ t : State, t.eax = s.eax → t.ecx = s.ecx → readOp M t y = b) :
    (run M 3 s).eax = (if cc.holds (subFlags a b) then 1 else 0) ∧
    (run M 3 s).pc = i + 3 ∧ (run M 3 s).status = .running ∧ (run M 3 s).ecx = s.ecx ∧
    (run M 3 s).ebx = s.ebx ∧ (run M 3 s).mem = s.mem ∧ (run M 3 s).esp = s.esp ∧
    (run M 3 s).ebp = s.ebp := by
  subst hpc
  have e1 : step M s = { s with flags := subFlags a b, pc := s.pc + 1 } := by
    rw [step_instr M s _ hr c0]
    show execBin M _ .cmp x y = _
    unfold execBin
    simp only
    rw [hx { s with pc := s.pc + 1 } rfl rfl, hy { s with pc := s.pc + 1 } rfl rfl]
  have e2 : step M { s with flags := subFlags a b, pc := s.pc + 1 } =
      { s with eax := s.eax / 256 * 256 + (if cc.holds (subFlags a b) then 1 else 0) % 256,
               flags := subFlags a b, pc := s.pc + 2 } := by
    rw [step_instr M { s with flags := subFlags a b, pc := s.pc + 1 } _ hr c1]
    rfl
  have e3 : step M { s with
        eax := s.eax / 256 * 256 + (if cc.holds (subFlags a b) then 1 else 0) % 256,
        flags := subFlags a b, pc := s.pc + 2 } =
      { s with
        eax := (s.eax / 256 * 256 + (if cc.holds (subFlags a b) then 1 else 0) % 256) % 256 %
          4294967296, flags := subFlags a b, pc := s.pc + 3 } := by
    rw [step_instr M { s with
        eax := s.eax / 256 * 256 + (if cc.holds (subFlags a b) then 1 else 0) % 256,
        flags := subFlags a b, pc := s.pc + 2 } _ hr c2]
    rfl
  have e : run M 3 s = step M (step M (step M s)) := rfl
  rw [e, e1, e2, e3]
  refine ⟨?_, rfl, hr, rfl, rfl, rfl, rfl, rfl⟩
  show (s.eax / 256 * 256 + (if cc.holds (subFlags a b) then 1 else 0) % 256) % 256 %
    4294967296 = _
  by_cases hc : cc.holds (subFlags a b) = true
  · simp only [hc, if_true]
    omega
  · simp only [hc, if_false, Bool.false_eq_true]
    omega

theorem emitted_setcc (K : AmxH) (amx : AMXPtr) (L : HelperLabels) (a : Int)
    (operands : List Int) (as : X86Assembler) (amx_labels : AmxLabels) :
    (∀ op cc, (op, cc) ∈ [(AMXOpcodeID.OP_EQ, Cond.e), (.OP_NEQ, .ne), (.OP_LESS, .b),
        (.OP_LEQ, .be), (.OP_GRTR, .a), (.OP_GEQ, .ae), (.OP_SLESS, .l), (.OP_SLEQ, .le),
        (.OP_SGRTR, .g), (.OP_SGEQ, .ge)] →
      emitted K amx L ⟨a, op, operands⟩ as amx_labels =
        [.instr (.bin .cmp (.reg .eax) (.reg .ecx)), .instr (.set cc (.reg8 .eax)),
         .instr (.bin .movzx (.reg .eax) (.reg8 .eax))]) ∧
    emitted K amx L ⟨a, .OP_EQ_C_PRI, operands⟩ as amx_labels =
      [.instr (.bin .cmp (.reg .eax) (.imm (AMXInstruction.operand ⟨a, .OP_EQ_C_PRI, operands⟩))),
       .instr (.set .e (.reg8 .eax)), .instr (.bin .movzx (.reg .eax) (.reg8 .eax))] ∧
    emitted K amx L ⟨a, .OP_EQ_C_ALT, operands⟩ as amx_labels =
      [.instr (.bin .cmp (.reg .ecx) (.imm (AMXInstruction.operand ⟨a, .OP_EQ_C_ALT, operands⟩))),
       .instr (.set .e (.reg8 .eax)), .instr (.bin .movzx (.reg .eax) (.reg8 .eax))] := by
  refine ⟨?_, ?_, ?_⟩
  · intro op cc h
    simp only [List.mem_cons, Prod.mk.injEq, List.mem_singleton, List.not_mem_nil,
      or_false] at h
    rcases h with h | h | h | h | h | h | h | h | h | h <;> obtain ⟨h1, h2⟩ := h <;>
      subst h1 <;> subst h2 <;>
      (apply emitted_eq
       simp [translate, X86Assembler.cmp, X86Assembler.sete, X86Assembler.setne,
         X86Assembler.setb, X86Assembler.setbe, X86Assembler.seta, X86Assembler.setae,
         X86Assembler.setl, X86Assembler.setle, X86Assembler.setg, X86Assembler.setge,
         X86Assembler.movzx, X86Assembler.emit, al])
  · apply emitted_eq
    simp [translate, X86Assembler.cmp, X86Assembler.sete, X86Assembler.movzx,
      X86Assembler.emit, al, imm]
  · apply emitted_eq
    simp [translate, X86Assembler.cmp, X86Assembler.sete, X86Assembler.movzx,
      X86Assembler.emit, al, imm]

/-- C31: the code emitted for a comparison `op` of the AMX (`EQ`, `NEQ`,
`LESS`, `LEQ`, `GRTR`, `GEQ` unsigned, `SLESS`, `SLEQ`, `SGRTR`, `SGEQ`
signed, `EQ_C_PRI v` on `PRI` and `EQ_C_ALT v` on `ALT`, `v` taken as a 32-bit
cell), run with 32-bit `PRI` in `eax` and `ALT` in `ecx`: three steps later
`PRI` is 1 when the relation the specification gives for `op` holds and 0
otherwise, so its upper 24 bits are clear, and `ALT`, `ebx`, the memory, the
stack pointer and the frame pointer are unchanged. -/
theorem compare_sets_boolean (K : AmxH) (amx : AMXPtr) (L : HelperLabels) (a : Int)
    (op : AMXOpcodeID) (operands : List Int) (as : X86Assembler) (amx_labels : AmxLabels)
    (M : Machine) (i : Nat) (s : State) (c : Bool)
    (hop : spec_relation op s.eax s.ecx (AMXInstruction.operand ⟨a, op, operands⟩) = some c)
    (hcode : CodeAt M i (emitted K amx L ⟨a, op, operands⟩ as amx_labels))
    (hpc : s.pc = i) (hr : s.status = .running)
    (ha : s.eax < 4294967296) (hc : s.ecx < 4294967296) :
    (run M 3 s).eax = (if c then 1 else 0) ∧
    ((run M 3 s).eax = 0 ∨ (run M 3 s).eax = 1) ∧ (run M 3 s).eax / 256 = 0 ∧
    (run M 3 s).pc = i + 3 ∧ (run M 3 s).status = .running ∧ (run M 3 s).ecx = s.ecx ∧
    (run M 3 s).ebx = s.ebx ∧ (run M 3 s).mem = s.mem ∧ (run M 3 s).esp = s.esp ∧
    (run M 3 s).ebp = s.ebp := by
  obtain ⟨e0, e1, e2⟩ := emitted_setcc K amx L a operands as amx_labels
  have fin : ∀ (b : Bool),
      ((run M 3 s).eax = (if b = true then 1 else 0) ∧
        (run M 3 s).pc = i + 3 ∧ (run M 3 s).status = .running ∧ (run M 3 s).ecx = s.ecx ∧
        (run M 3 s).ebx = s.ebx ∧ (run M 3 s).mem = s.mem ∧ (run M 3 s).esp = s.esp ∧
        (run M 3 s).ebp = s.ebp) →
      (run M 3 s).eax = (if b = true then 1 else 0) ∧
      ((run M 3 s).eax = 0 ∨ (run M 3 s).eax = 1) ∧ (run M 3 s).eax / 256 = 0 ∧
      (run M 3 s).pc = i + 3 ∧ (run M 3 s).status = .running ∧ (run M 3 s).ecx = s.ecx ∧
      (run M 3 s).ebx = s.ebx ∧ (run M 3 s).mem = s.mem ∧ (run M 3 s).esp = s.esp ∧
      (run M 3 s).ebp = s.ebp := by
    intro b h
    obtain ⟨h1, h2⟩ := h
    refine ⟨h1, ?_, ?_, h2⟩
    · rw [h1]
      cases b
      · exact Or.inl rfl
      · exact Or.inr rfl
    · rw [h1]
      cases b <;> rfl
  cases op <;> simp only [spec_relation, Option.some.injEq, reduceCtorEq] at hop <;>
    subst hop
  case OP_EQ =>
    have hcode := e0 .OP_EQ .e (by simp) ▸ hcode
    have h := cmp_setcc_run M s i s.eax s.ecx (.reg .eax) (.reg .ecx) .e
      (by simpa using hcode.get 0 _ rfl) (hcode.get 1 _ rfl) (hcode.get 2 _ rfl) hpc hr
      (fun _ h _ => h) (fun _ _ h => h)
    rw [cond_e_sub _ _ ha hc] at h
    exact fin _ h
  case OP_NEQ =>
    have hcode := e0 .OP_NEQ .ne (by simp) ▸ hcode
    have h := cmp_setcc_run M s i s.eax s.ecx (.reg .eax) (.reg .ecx) .ne
      (by simpa using hcode.get 0 _ rfl) (hcode.get 1 _ rfl) (hcode.get 2 _ rfl) hpc hr
      (fun _ h _ => h) (fun _ _ h => h)
    rw [cond_ne_sub _ _ ha hc] at h
    exact fin _ h
  case OP_LESS =>
    have hcode := e0 .OP_LESS .b (by simp) ▸ hcode
    have h := cmp_setcc_run M s i s.eax s.ecx (.reg .eax) (.reg .ecx) .b
      (by simpa using hcode.get 0 _ rfl) (hcode.get 1 _ rfl) (hcode.get 2 _ rfl) hpc hr
      (fun _ h _ => h) (fun _ _ h => h)
    rw [cond_b_sub] at h
    exact fin _ h
  case OP_LEQ =>
    have hcode := e0 .OP_LEQ .be (by simp) ▸ hcode
    have h := cmp_setcc_run M s i s.eax s.ecx (.reg .eax) (.reg .ecx) .be
      (by simpa using hcode.get 0 _ rfl) (hcode.get 1 _ rfl) (hcode.get 2 _ rfl) hpc hr
      (fun _ h _ => h) (fun _ _ h => h)
    rw [cond_be_sub _ _ ha hc] at h
    exact fin _ h
  case OP_GRTR =>
    have hcode := e0 .OP_GRTR .a (by simp) ▸ hcode
    have h := cmp_setcc_run M s i s.eax s.ecx (.reg .eax) (.reg .ecx) .a
      (by simpa using hcode.get 0 _ rfl) (hcode.get 1 _ rfl) (hcode.get 2 _ rfl) hpc hr
      (fun _ h _ => h) (fun _ _ h => h)
    rw [cond_a_sub _ _ ha hc] at h
    exact fin _ h
  case OP_GEQ =>
    have hcode := e0 .OP_GEQ .ae (by simp) ▸ hcode
    have h := cmp_setcc_run M s i s.eax s.ecx (.reg .eax) (.reg .ecx) .ae
      (by simpa using hcode.get 0 _ rfl) (hcode.get 1 _ rfl) (hcode.get 2 _ rfl) hpc hr
      (fun _ h _ => h) (fun _ _ h => h)
    rw [cond_ae_sub] at h
    exact fin _ h
  case OP_SLESS =>
    have hcode := e0 .OP_SLESS .l (by simp) ▸ hcode
    have h := cmp_setcc_run M s i s.eax s.ecx (.reg .eax) (.reg .ecx) .l
      (by simpa using hcode.get 0 _ rfl) (hcode.get 1 _ rfl) (hcode.get 2 _ rfl) hpc hr
      (fun _ h _ => h) (fun _ _ h => h)
    rw [cond_l_sub _ _ ha hc] at h
    exact fin _ h
  case OP_SLEQ =>
    have hcode := e0 .OP_SLEQ .le (by simp) ▸ hcode
    have h := cmp_setcc_run M s i s.eax s.ecx (.reg .eax) (.reg .ecx) .le
      (by simpa using hcode.get 0 _ rfl) (hcode.get 1 _ rfl) (hcode.get 2 _ rfl) hpc hr
      (fun _ h _ => h) (fun _ _ h => h)
    rw [cond_le_sub _ _ ha hc] at h
    exact fin _ h
  case OP_SGRTR =>
    have hcode := e0 .OP_SGRTR .g (by simp) ▸ hcode
    have h := cmp_setcc_run M s i s.eax s.ecx (.reg .eax) (.reg .ecx) .g
      (by simpa using hcode.get 0 _ rfl) (hcode.get 1 _ rfl) (hcode.get 2 _ rfl) hpc hr
      (fun _ h _ => h) (fun _ _ h => h)
    rw [cond_g_sub _ _ ha hc] at h
    exact fin _ h
  case OP_SGEQ =>
    have hcode := e0 .OP_SGEQ .ge (by simp) ▸ hcode
    have h := cmp_setcc_run M s i s.eax s.ecx (.reg .eax) (.reg .ecx) .ge
      (by simpa using hcode.get 0 _ rfl) (hcode.get 1 _ rfl) (hcode.get 2 _ rfl) hpc hr
      (fun _ h _ => h) (fun _ _ h => h)
    rw [cond_ge_sub _ _ ha hc] at h
    exact fin _ h
  case OP_EQ_C_PRI =>
    rw [e1] at hcode
    have h := cmp_setcc_run M s i s.eax
      (toU32 (AMXInstruction.operand ⟨a, .OP_EQ_C_PRI, operands⟩)) (.reg .eax) (.imm _) .e
      (by simpa using hcode.get 0 _ rfl) (hcode.get 1 _ rfl) (hcode.get 2 _ rfl) hpc hr
      (fun _ h _ => h) (fun _ _ _ => rfl)
    rw [cond_e_sub _ _ ha (toU32_lt _)] at h
    exact fin _ h
  case OP_EQ_C_ALT =>
    rw [e2] at hcode
    have h := cmp_setcc_run M s i s.ecx
      (toU32 (AMXInstruction.operand ⟨a, .OP_EQ_C_ALT, operands⟩)) (.reg .ecx) (.imm _) .e
      (by simpa using hcode.get 0 _ rfl) (hcode.get 1 _ rfl) (hcode.get 2 _ rfl) hpc hr
      (fun _ _ h => h) (fun _ _ _ => rfl)
    rw [cond_e_sub _ _ hc (toU32_lt _)] at h
    exact fin _ h

set_option maxRecDepth 100000 in
/-- Witness of C31: `SLESS` with `PRI = -7` and `ALT = 2`; the signed relation
holds though `PRI` is the larger word. -/
theorem compare_sets_boolean_witness :
    (run sless_machine 3 (snippet_state 4294967289 2)).eax = (if true then 1 else 0) ∧
    ((run sless_machine 3 (snippet_state 4294967289 2)).eax = 0 ∨
      (run sless_machine 3 (snippet_state 4294967289 2)).eax = 1) ∧
    (run sless_machine 3 (snippet_state 4294967289 2)).eax / 256 = 0 ∧
    (run sless_machine 3 (snippet_state 4294967289 2)).pc = 0 + 3 ∧
    (run sless_machine 3 (snippet_state 4294967289 2)).status = .running ∧
    (run sless_machine 3 (snippet_state 4294967289 2)).ecx = (snippet_state 4294967289 2).ecx ∧
    (run sless_machine 3 (snippet_state 4294967289 2)).ebx = (snippet_state 4294967289 2).ebx ∧
    (run sless_machine 3 (snippet_state 4294967289 2)).mem = (snippet_state 4294967289 2).mem ∧
    (run sless_machine 3 (snippet_state 4294967289 2)).esp = (snippet_state 4294967289 2).esp ∧
    (run sless_machine 3 (snippet_state 4294967289 2)).ebp = (snippet_state 4294967289 2).ebp :=
  compare_sets_boolean amx_h_32 sample_amx sample_helpers 0 .OP_SLESS [] (emptyAs 0) ⟨[]⟩
    sless_machine 0 (snippet_state 4294967289 2) true (by decide) (by unfold CodeAt; decide)
    rfl rfl (by decide) (by decide)

theorem movs_unit_cases (n : Nat) :
    ((if n % 4 = 0 then StrOp.rep_movsd else if n % 2 = 0 then .rep_movsw
        else .rep_movsb) = .rep_movsd ∧
        n = 4 * (if n % 4 = 0 then n / 4 else if n % 2 = 0 then n / 2 else n)) ∨
      ((if n % 4 = 0 then StrOp.rep_movsd else if n % 2 = 0 then .rep_movsw
        else .rep_movsb) = .rep_movsw ∧
        n = 2 * (if n % 4 = 0 then n / 4 else if n % 2 = 0 then n / 2 else n)) ∨
      ((if n % 4 = 0 then StrOp.rep_movsd else if n % 2 = 0 then .rep_movsw
        else .rep_movsb) = .rep_movsb ∧
        n = (if n % 4 = 0 then n / 4 else if n % 2 = 0 then n / 2 else n)) := by
  by_cases h4 : n % 4 = 0
  · simp only [h4, if_true]
    exact Or.inl ⟨trivial, by omega⟩
  · by_cases h2 : n % 2 = 0
    · simp only [h4, h2, if_true, if_false]
      exact Or.inr (Or.inl ⟨trivial, by omega⟩)
    · simp only [h4, h2, if_false]
      exact Or.inr (Or.inr ⟨trivial, trivial⟩)

/-- The code of `MOVS n` run in a state `s`: the state after its seven
steps. -/
theorem movs_run_state (K : AmxH) (amx : AMXPtr) (L : HelperLabels) (a : Int) (n : Nat)
    (as : X86Assembler) (t : AmxLabels) (M : Machine) (i : Nat) (s : State)
    (hmovs : CodeAt M i (emitted K amx L ⟨a, .OP_MOVS, [(n : Int)]⟩ as t))
    (hpc : s.pc = i) (hr : s.status = .running) (hc : s.ecx < 4294967296)
    (hpa : s.ebx + s.eax < 4294967296) (hpd : s.ebx + s.ecx < 4294967296)
    (hdst : s.ebx + s.ecx + n ≤ 4294967296)
    (hS4 : 4 ≤ s.esp) (hS : s.esp < 4294967296)
    (hstk_dst : n = 0 ∨ s.esp ≤ s.ebx + s.ecx ∨ s.ebx + s.ecx + n ≤ s.esp - 4) :
    run M 7 s = ⟨s.eax, s.ecx, s.edx, s.ebx, s.esp, s.ebp, add32 (s.ebx + s.eax) n,
      add32 (s.ebx + s.ecx) n, s.flags, false,
      copyBytes (write32 s.mem (s.esp - 4) s.ecx) n (s.ebx + s.eax) (s.ebx + s.ecx), i + 7,
      .running, s.calls⟩ := by
  rw [emitted_movs] at hmovs
  have el := State.eq_lit s i hpc hr
  have es : add32 s.ebx s.eax = s.ebx + s.eax := add32_eq _ _ (by omega)
  have ed : add32 s.ebx s.ecx = s.ebx + s.ecx := add32_eq _ _ (by omega)
  have hq : (if n % 4 = 0 then n / 4 else if n % 2 = 0 then n / 2 else n) < 4294967296 := by
    split
    · omega
    · split <;> omega
  have hpop : read32 (copyBytes (write32 s.mem (s.esp - 4) s.ecx) n (add32 s.ebx s.eax)
      (add32 s.ebx s.ecx)) (s.esp - 4) = s.ecx := by
    rw [es, ed, read32_congr _ (write32 s.mem (s.esp - 4) s.ecx) _ (fun x h1 h2 =>
      copyBytes_outside _ _ _ _ _ hdst (by omega)), read32_write32_same]
    exact Nat.mod_eq_of_lt hc
  have h7 := movs_run M s.eax s.ecx s.edx s.ebx s.esp s.ebp s.esi s.edi s.flags s.df s.mem
    s.calls i _ n _ (by simpa using hmovs.get 0 _ rfl) (hmovs.get 1 _ rfl) (hmovs.get 2 _ rfl)
    (hmovs.get 3 _ rfl) (hmovs.get 4 _ rfl) (hmovs.get 5 _ rfl) (hmovs.get 6 _ rfl)
    (movs_unit_cases n) hq hS4 hS hc hpop
  rw [← el, es, ed] at h7
  exact h7

/-- C32: the code emitted for `MOVS n`, for every `n ≥ 0`, run with the
source block at `data[PRI]` (`ebx + eax`) and the destination block at
`data[ALT]` (`ebx + ecx`) inside the address space, not overlapping each
other nor the cell below the stack pointer in which the code saves `ecx`: the
code is `cld; lea esi; lea edi; push ecx; mov ecx, count; rep movs; pop ecx`
with the unit and the count of `movs_unit n`; after its seven steps the `n`
bytes at `data[ALT]` are the `n` bytes that were at `data[PRI]`, every byte
outside the destination and outside that cell (so every byte at or above
`STK`) is unchanged, and `PRI`, `ALT`, `STK`, `ebx` and the frame pointer are
unchanged. -/
theorem movs_copies_block (K : AmxH) (amx : AMXPtr) (L : HelperLabels) (a : Int) (n : Nat)
    (as : X86Assembler) (t : AmxLabels) (M : Machine) (i : Nat) (s : State)
    (hmovs : CodeAt M i (emitted K amx L ⟨a, .OP_MOVS, [(n : Int)]⟩ as t))
    (hpc : s.pc = i) (hr : s.status = .running) (hc : s.ecx < 4294967296)
    (hpa : s.ebx + s.eax < 4294967296) (hpd : s.ebx + s.ecx < 4294967296)
    (hsrc : s.ebx + s.eax + n ≤ 4294967296) (hdst : s.ebx + s.ecx + n ≤ 4294967296)
    (hdis : s.ebx + s.eax + n ≤ s.ebx + s.ecx ∨ s.ebx + s.ecx + n ≤ s.ebx + s.eax)
    (hS4 : 4 ≤ s.esp) (hS : s.esp < 4294967296)
    (hstk_src : n = 0 ∨ s.esp ≤ s.ebx + s.eax ∨ s.ebx + s.eax + n ≤ s.esp - 4)
    (hstk_dst : n = 0 ∨ s.esp ≤ s.ebx + s.ecx ∨ s.ebx + s.ecx + n ≤ s.esp - 4) :
    emitted K amx L ⟨a, .OP_MOVS, [(n : Int)]⟩ as t =
      [.instr .cld, .instr (.lea (.reg .esi) (dword_ptr_idx .ebx .eax 0)),
       .instr (.lea (.reg .edi) (dword_ptr_idx .ebx .ecx 0)),
       .instr (.un .push (.reg .ecx)),
       .instr (.bin .mov (.reg .ecx) (.imm ((movs_unit n).2 : Int))),
       .instr (.str (movs_unit n).1), .instr (.un .pop (.reg .ecx))] ∧
    (∀ k, k < n →
      read8 (run M 7 s).mem (s.ebx + s.ecx + k) = read8 s.mem (s.ebx + s.eax + k)) ∧
    (∀ x, (x < s.esp - 4 ∨ s.esp ≤ x) → (x < s.ebx + s.ecx ∨ s.ebx + s.ecx + n ≤ x) →
      (run M 7 s).mem x = s.mem x) ∧
    (run M 7 s).eax = s.eax ∧ (run M 7 s).ecx = s.ecx ∧ (run M 7 s).esp = s.esp ∧
    (run M 7 s).ebx = s.ebx ∧ (run M 7 s).ebp = s.ebp ∧ (run M 7 s).pc = i + 7 ∧
    (run M 7 s).status = .running := by
  rw [movs_run_state K amx L a n as t M i s hmovs hpc hr hc hpa hpd hdst hS4 hS hstk_dst]
  refine ⟨?_, ?_, ?_, rfl, rfl, rfl, rfl, rfl, rfl, rfl⟩
  · rw [emitted_movs]
    unfold movs_unit
    by_cases h4 : n % 4 = 0
    · simp only [h4, if_true]
    · by_cases h2 : n % 2 = 0
      · simp only [h4, h2, if_true, if_false]
      · simp only [h4, h2, if_false]
  · intro k hk
    show read8 (copyBytes (write32 s.mem (s.esp - 4) s.ecx) n (s.ebx + s.eax)
      (s.ebx + s.ecx)) (s.ebx + s.ecx + k) = _
    rw [copyBytes_read _ _ _ _ hsrc hdst hdis k hk]
    exact read8_write32_ne _ _ _ _ (by omega)
  · intro x hx hd
    show copyBytes (write32 s.mem (s.esp - 4) s.ecx) n (s.ebx + s.eax) (s.ebx + s.ecx) x = _
    rw [copyBytes_outside _ _ _ _ _ hdst hd]
    exact write32_outside _ _ _ _ (by omega)

set_option maxRecDepth 100000 in
/-- Witness of C32: `MOVS 6` with `PRI = 16` and `ALT = 64`. -/
theorem movs_copies_block_witness :
    (∀ k, k < 6 →
      read8 (run movs_cmps_machine 7 copy_state).mem (copy_state.ebx + copy_state.ecx + k) =
        read8 copy_state.mem (copy_state.ebx + copy_state.eax + k)) ∧
    (run movs_cmps_machine 7 copy_state).eax = copy_state.eax ∧
    (run movs_cmps_machine 7 copy_state).ecx = copy_state.ecx ∧
    (run movs_cmps_machine 7 copy_state).esp = copy_state.esp :=
  have h := movs_copies_block amx_h_32 sample_amx sample_helpers 0 6 (emptyAs 0) ⟨[]⟩
    movs_cmps_machine 0 copy_state (by unfold CodeAt; decide) rfl rfl (by decide) (by decide)
    (by decide) (by decide) (by decide) (by decide) (by decide) (by decide) (by decide) (by decide)
  ⟨h.2.1, h.2.2.2.1, h.2.2.2.2.1, h.2.2.2.2.2.1⟩

/-- The flags `repe cmpsb` leaves when the blocks differ: at the first
position `p` where they differ the zero flag is clear and the carry flag tells
whether the byte at `si + p` is below the byte at `di + p`. -/
theorem cmpBytes_first_diff : ∀ (n : Nat) (mem : Memory) (si di k : Nat) (f : Flags) (p : Nat),
    si + n ≤ 4294967296 → di + n ≤ 4294967296 → p < n →
    (∀ j, j < p → read8 mem (si + j) = read8 mem (di + j)) →
    read8 mem (si + p) ≠ read8 mem (di + p) →
    (cmpBytes mem n si di k f).2.2.cf = decide (read8 mem (si + p) < read8 mem (di + p)) ∧
    (cmpBytes mem n si di k f).2.2.zf = false := by
  intro n
  induction n with
  | zero => intro mem si di k f p _ _ hp; omega
  | succ m ih =>
    intro mem si di k f p hs hd hp heq hne
    rw [cmpBytes]
    simp only [Nat.mod_eq_of_lt (by omega : si < 4294967296),
      Nat.mod_eq_of_lt (by omega : di < 4294967296)]
    cases p with
    | zero =>
      simp only [Nat.add_zero] at hne
      simp only [hne, if_false, Nat.add_zero, decide_False]
      exact ⟨trivial, trivial⟩
    | succ q =>
      have h0 := heq 0 (by omega)
      simp only [Nat.add_zero] at h0
      simp only [h0, if_true]
      have := ih mem (si + 1) (di + 1) (k + 1)
        ⟨decide (read8 mem di < read8 mem di), decide (read8 mem di = read8 mem di),
          decide (128 ≤ (read8 mem di + (256 - read8 mem di)) % 256),
          decide ((if read8 mem di < 128 then (read8 mem di : Int) else read8 mem di - 256) -
            (if read8 mem di < 128 then (read8 mem di : Int) else read8 mem di - 256) ≠
            (if (read8 mem di + (256 - read8 mem di)) % 256 < 128
              then (((read8 mem di + (256 - read8 mem di)) % 256 : Nat) : Int)
              else ((read8 mem di + (256 - read8 mem di)) % 256 : Nat) - 256))⟩ q
        (by omega) (by omega) (by omega)
        (fun j hj => by
          have := heq (j + 1) (by omega)
          rw [show si + 1 + j = si + (j + 1) by omega, show di + 1 + j = di + (j + 1) by omega]
          exact this)
        (by
          rw [show si + 1 + q = si + (q + 1) by omega, show di + 1 + q = di + (q + 1) by omega]
          exact hne)
      rw [show si + 1 + q = si + (q + 1) by omega, show di + 1 + q = di + (q + 1) by omega]
        at this
      simpa using this

theorem exists_first_diff (n : Nat) (g : Nat → Prop) (h : ¬ ∀ j, j < n → g j) :
    ∃ p, p < n ∧ (∀ j, j < p → g j) ∧ ¬ g p := by
  induction n with
  | zero => exact absurd (fun j hj => absurd hj (Nat.not_lt_zero j)) h
  | succ m ih =>
    by_cases hm : ∀ j, j < m → g j
    · refine ⟨m, by omega, hm, ?_⟩
      intro hg
      apply h
      intro j hj
      rcases Nat.lt_succ_iff_lt_or_eq.1 hj with h1 | h1
      · exact hm j h1
      · rw [h1]; exact hg
    · obtain ⟨p, hp, h1, h2⟩ := ih hm
      exact ⟨p, by omega, h1, h2⟩

theorem cond_three_way (f : Flags) :
    Cond.holds f .a = true ∨ Cond.holds f .b = true ∨ Cond.holds f .z = true := by
  rcases f with ⟨cf, zf, sf, ovf⟩
  cases cf <;> cases zf <;> simp [Cond.holds]

/-- The first seven instructions of the code of `CMPS` on any machine, up to
the `pop ecx`: the flags are those `repe cmpsb` leaves, `ecx` is restored and
only the cell below the stack pointer is written. -/
theorem cmps_run_head (M : Machine) (eax ecx edx D S bp esi edi : Nat) (flags : Flags)
    (df : Bool) (m : Memory) (calls : List CallEvent) (i n rc rk : Nat) (rf : Flags)
    (c0 : M.items[i]? = some (Item.instr .cld))
    (c1 : M.items[i + 1]? = some (Item.instr (.lea (.reg .edi) (dword_ptr_idx .ebx .eax 0))))
    (c2 : M.items[i + 2]? = some (Item.instr (.lea (.reg .esi) (dword_ptr_idx .ebx .ecx 0))))
    (c3 : M.items[i + 3]? = some (Item.instr (.un .push (.reg .ecx))))
    (c4 : M.items[i + 4]? = some (Item.instr (.bin .mov (.reg .ecx) (.imm (n : Int)))))
    (c5 : M.items[i + 5]? = some (Item.instr (.str .repe_cmpsb)))
    (c6 : M.items[i + 6]? = some (Item.instr (.un .pop (.reg .ecx))))
    (hn : n < 4294967296) (hS4 : 4 ≤ S) (hS : S < 4294967296) (hc : ecx < 4294967296)
    (hcmp : cmpBytes (write32 m (S - 4) ecx) n (add32 D ecx) (add32 D eax) 0 flags =
      (rc, rk, rf)) :
    run M 7 ⟨eax, ecx, edx, D, S, bp, esi, edi, flags, df, m, i, .running, calls⟩ =
      ⟨eax, ecx, edx, D, S, bp, add32 (add32 D ecx) rk, add32 (add32 D eax) rk, rf, false,
        write32 m (S - 4) ecx, i + 7, .running, calls⟩ := by
  simp (disch := first | omega | exact read32_lt _ _ | exact toU32_lt _) only [
    run, step, execInstr, execBin, execUn, execStr, readOp, writeOp,
    State.reg, State.setReg, push32, Nat.reduceAdd, ea_dword_ptr_idx,
    sub32_eq, add32_eq, toU32_natCast, Nat.mod_eq_of_lt, add32_mod,
    Nat.reduceSub, Nat.sub_sub, Nat.add_assoc, c0, c1, c2, c3, c4, c5, c6, hcmp,
    read32_write32_same, Bool.false_eq_true, if_false, if_true, Nat.sub_add_cancel]

/-- The three-way branch behind the `pop ecx` of the code of `CMPS`, for any
state of the flags: `ja` leads to `mov eax, 1`, else `jb` leads to
`mov eax, -1`, else `jz` is taken and leads to `xor eax, eax`; each way ends
behind the code and changes nothing but `eax` and the flags. -/
theorem cmps_branch_run (M : Machine) (eax ecx edx D S bp esi edi : Nat) (f : Flags)
    (df : Bool) (m : Memory) (calls : List CallEvent) (i : Nat) (l0 l1 l2 l3 : Label)
    (c7 : M.items[i + 7]? = some (Item.instr (.j .a l0)))
    (c8 : M.items[i + 8]? = some (Item.instr (.j .b l1)))
    (c9 : M.items[i + 9]? = some (Item.instr (.j .z l2)))
    (c10 : M.items[i + 10]? = some (Item.bind l0))
    (c11 : M.items[i + 11]? = some (Item.instr (.bin .mov (.reg .eax) (.imm 1))))
    (c12 : M.items[i + 12]? = some (Item.instr (.jmp l3)))
    (c13 : M.items[i + 13]? = some (Item.bind l1))
    (c14 : M.items[i + 14]? = some (Item.instr (.bin .mov (.reg .eax) (.imm (-1)))))
    (c15 : M.items[i + 15]? = some (Item.instr (.jmp l3)))
    (c16 : M.items[i + 16]? = some (Item.bind l2))
    (c17 : M.items[i + 17]? = some (Item.instr (.bin .xor_ (.reg .eax) (.reg .eax))))
    (c18 : M.items[i + 18]? = some (Item.bind l3))
    (hl0 : labelIndex M.items l0 = some (i + 10))
    (hl1 : labelIndex M.items l1 = some (i + 13))
    (hl2 : labelIndex M.items l2 = some (i + 16))
    (hl3 : labelIndex M.items l3 = some (i + 18)) :
    ∃ k g, run M k ⟨eax, ecx, edx, D, S, bp, esi, edi, f, df, m, i + 7, .running, calls⟩ =
      ⟨if Cond.holds f .a then 1 else if Cond.holds f .b then 4294967295 else 0,
        ecx, edx, D, S, bp, esi, edi, g, df, m, i + 19, .running, calls⟩ := by
  have e1 : toU32 1 = 1 := rfl
  have e2 : toU32 (-1) = 4294967295 := rfl
  by_cases ha : Cond.holds f .a = true
  · refine ⟨5, f, ?_⟩
    simp (disch := first | omega) only [
      run, step, execInstr, execBin, readOp, writeOp,
      State.reg, State.setReg, Nat.reduceAdd, Nat.mod_eq_of_lt,
      Nat.add_assoc, c7, c10, c11, c12, c18, hl0, hl3, ha, gotoLabel, e1,
      Bool.false_eq_true, if_false, if_true]
  · have ha' : Cond.holds f .a = false := by simpa using ha
    by_cases hb : Cond.holds f .b = true
    · refine ⟨6, f, ?_⟩
      simp (disch := first | omega) only [
        run, step, execInstr, execBin, readOp, writeOp,
        State.reg, State.setReg, Nat.reduceAdd, Nat.mod_eq_of_lt,
        Nat.add_assoc, c7, c8, c13, c14, c15, c18, hl1, hl3, ha', hb, gotoLabel, e2,
        Bool.false_eq_true, if_false, if_true]
    · have hb' : Cond.holds f .b = false := by simpa using hb
      have hz : Cond.holds f .z = true := by
        rcases cond_three_way f with h | h | h
        · exact absurd h ha
        · exact absurd h hb
        · exact h
      refine ⟨6, logicFlags 0, ?_⟩
      simp (disch := first | omega) only [
        run, step, execInstr, execBin, readOp, writeOp,
        State.reg, State.setReg, Nat.reduceAdd, Nat.mod_eq_of_lt,
        Nat.add_assoc, c7, c8, c9, c16, c17, c18, hl2, ha', hb', hz, gotoLabel,
        Bool.false_eq_true, if_false, if_true, Nat.xor_self, Nat.zero_mod]

theorem cmps_result_cases (rf : Flags) :
    ((if Cond.holds rf .a then 1 else if Cond.holds rf .b then 4294967295 else 0 : Nat) = 0 ∨
      (if Cond.holds rf .a then 1 else if Cond.holds rf .b then 4294967295 else 0 : Nat) = 1 ∨
      (if Cond.holds rf .a then 1 else if Cond.holds rf .b then 4294967295 else 0 : Nat) =
        4294967295) ∧
    (rf.zf = true → rf.cf = false →
      (if Cond.holds rf .a then 1 else if Cond.holds rf .b then 4294967295 else 0 : Nat) = 0) ∧
    (rf.zf = false → rf.cf = true →
      (if Cond.holds rf .a then 1 else if Cond.holds rf .b then 4294967295 else 0 : Nat) =
        4294967295) ∧
    (rf.zf = false → rf.cf = false →
      (if Cond.holds rf .a then 1 else if Cond.holds rf .b then 4294967295 else 0 : Nat) = 1) := by
  rcases rf with ⟨cf, zf, sf, ovf⟩
  cases cf <;> cases zf <;> simp [Cond.holds]

/-- C33: the code emitted for `CMPS n`, for every `n ≥ 1`, run with the two
`n`-byte blocks at `data[PRI]` (`ebx + eax`) and `data[ALT]` (`ebx + ecx`)
inside the address space and apart from the cell below the stack pointer in
which the code saves `ecx`. For every state of the flags one of `ja`, `jb`,
`jz` is taken. The machine arrives behind the code with `PRI` one of 0, 1 and
-1: 0 exactly when the blocks are equal; when they first differ at position
`p`, 1 exactly when the byte of the `ALT` block is above (unsigned) the byte
of the `PRI` block and -1 exactly when it is below. `ALT`, `STK`, `ebx`, the
frame pointer and every byte outside that cell are unchanged. -/
theorem cmps_three_way (K : AmxH) (amx : AMXPtr) (L : HelperLabels) (a : Int) (n : Nat)
    (as : X86Assembler) (t : AmxLabels) (M : Machine) (i : Nat) (s : State)
    (hcode : CodeAt M i (emitted K amx L ⟨a, .OP_CMPS, [(n : Int)]⟩ as t))
    (hl0 : labelIndex M.items ⟨as.numLabels⟩ = some (i + 10))
    (hl1 : labelIndex M.items ⟨as.numLabels + 1⟩ = some (i + 13))
    (hl2 : labelIndex M.items ⟨as.numLabels + 2⟩ = some (i + 16))
    (hl3 : labelIndex M.items ⟨as.numLabels + 3⟩ = some (i + 18))
    (hpc : s.pc = i) (hr : s.status = .running) (hn : 1 ≤ n) (hc : s.ecx < 4294967296)
    (hpri : s.ebx + s.eax + n ≤ 4294967296) (halt : s.ebx + s.ecx + n ≤ 4294967296)
    (hS4 : 4 ≤ s.esp) (hS : s.esp < 4294967296)
    (hstk_pri : s.esp ≤ s.ebx + s.eax ∨ s.ebx + s.eax + n ≤ s.esp - 4)
    (hstk_alt : s.esp ≤ s.ebx + s.ecx ∨ s.ebx + s.ecx + n ≤ s.esp - 4) :
    (∀ f : Flags, Cond.holds f .a = true ∨ Cond.holds f .b = true ∨ Cond.holds f .z = true) ∧
    ∃ k u, run M k s = u ∧ u.pc = i + 19 ∧ u.status = .running ∧
      (u.eax = 0 ∨ u.eax = 1 ∨ u.eax = toU32 (-1)) ∧
      (u.eax = 0 ↔
        ∀ j, j < n → read8 s.mem (s.ebx + s.ecx + j) = read8 s.mem (s.ebx + s.eax + j)) ∧
      (∀ p, p < n →
        (∀ j, j < p → read8 s.mem (s.ebx + s.ecx + j) = read8 s.mem (s.ebx + s.eax + j)) →
        read8 s.mem (s.ebx + s.ecx + p) ≠ read8 s.mem (s.ebx + s.eax + p) →
        (u.eax = 1 ↔ read8 s.mem (s.ebx + s.eax + p) < read8 s.mem (s.ebx + s.ecx + p)) ∧
        (u.eax = toU32 (-1) ↔
          read8 s.mem (s.ebx + s.ecx + p) < read8 s.mem (s.ebx + s.eax + p))) ∧
      u.ecx = s.ecx ∧ u.esp = s.esp ∧ u.ebx = s.ebx ∧ u.ebp = s.ebp ∧
      ∀ x, (x < s.esp - 4 ∨ s.esp ≤ x) → u.mem x = s.mem x := by
  refine ⟨cond_three_way, ?_⟩
  rw [emitted_cmps] at hcode
  have el := State.eq_lit s i hpc hr
  have es : add32 s.ebx s.eax = s.ebx + s.eax := add32_eq _ _ (by omega)
  have ed : add32 s.ebx s.ecx = s.ebx + s.ecx := add32_eq _ _ (by omega)
  have e1 : toU32 (-1) = 4294967295 := rfl
  have hbA : ∀ j, j < n → read8 (write32 s.mem (s.esp - 4) s.ecx) (s.ebx + s.ecx + j) =
      read8 s.mem (s.ebx + s.ecx + j) :=
    fun j hj => read8_write32_ne _ _ _ _ (by omega)
  have hbP : ∀ j, j < n → read8 (write32 s.mem (s.esp - 4) s.ecx) (s.ebx + s.eax + j) =
      read8 s.mem (s.ebx + s.eax + j) :=
    fun j hj => read8_write32_ne _ _ _ _ (by omega)
  rcases hcm : cmpBytes (write32 s.mem (s.esp - 4) s.ecx) n (s.ebx + s.ecx) (s.ebx + s.eax) 0
    s.flags with ⟨rc, rk, rf⟩
  have hrf : (cmpBytes (write32 s.mem (s.esp - 4) s.ecx) n (s.ebx + s.ecx) (s.ebx + s.eax) 0
    s.flags).2.2 = rf := by rw [hcm]
  have h7 := cmps_run_head M s.eax s.ecx s.edx s.ebx s.esp s.ebp s.esi s.edi s.flags s.df s.mem
    s.calls i n rc rk rf (by simpa using hcode.get 0 _ rfl) (hcode.get 1 _ rfl)
    (hcode.get 2 _ rfl) (hcode.get 3 _ rfl) (hcode.get 4 _ rfl) (hcode.get 5 _ rfl)
    (hcode.get 6 _ rfl) (by omega) hS4 hS hc (by rw [es, ed]; exact hcm)
  rw [← el] at h7
  obtain ⟨k, g, hk⟩ := cmps_branch_run M s.eax s.ecx s.edx s.ebx s.esp s.ebp
    (add32 (add32 s.ebx s.ecx) rk) (add32 (add32 s.ebx s.eax) rk) rf false
    (write32 s.mem (s.esp - 4) s.ecx) s.calls i _ _ _ _ (hcode.get 7 _ rfl)
    (hcode.get 8 _ rfl) (hcode.get 9 _ rfl) (hcode.get 10 _ rfl) (hcode.get 11 _ rfl)
    (hcode.get 12 _ rfl) (hcode.get 13 _ rfl) (hcode.get 14 _ rfl) (hcode.get 15 _ rfl)
    (hcode.get 16 _ rfl) (hcode.get 17 _ rfl) (hcode.get 18 _ rfl) hl0 hl1 hl2 hl3
  have hrun := (run_peel M 7 k _ _ h7).trans hk
  obtain ⟨r0, rz, rb, ra⟩ := cmps_result_cases rf
  have hequal : (∀ j, j < n →
      read8 s.mem (s.ebx + s.ecx + j) = read8 s.mem (s.ebx + s.eax + j)) →
      rf.zf = true ∧ rf.cf = false := by
    intro h
    have e := cmpBytes_equal (n - 1) (write32 s.mem (s.esp - 4) s.ecx) (s.ebx + s.ecx)
      (s.ebx + s.eax) 0 s.flags (by omega) (by omega) (fun j hj => by
        rw [hbA j (by omega), hbP j (by omega)]
        exact h j (by omega))
    rw [show n - 1 + 1 = n by omega, hcm] at e
    have : rf = ⟨false, true, false, false⟩ := congrArg (fun q => q.2.2) e
    rw [this]
    exact ⟨rfl, rfl⟩
  have hdiff : ∀ p, p < n →
      (∀ j, j < p → read8 s.mem (s.ebx + s.ecx + j) = read8 s.mem (s.ebx + s.eax + j)) →
      read8 s.mem (s.ebx + s.ecx + p) ≠ read8 s.mem (s.ebx + s.eax + p) →
      rf.cf = decide (read8 s.mem (s.ebx + s.ecx + p) < read8 s.mem (s.ebx + s.eax + p)) ∧
      rf.zf = false := by
    intro p hp h1 h2
    have e := cmpBytes_first_diff n (write32 s.mem (s.esp - 4) s.ecx) (s.ebx + s.ecx)
      (s.ebx + s.eax) 0 s.flags p halt hpri hp
      (fun j hj => by rw [hbA j (by omega), hbP j (by omega)]; exact h1 j hj)
      (by rw [hbA p hp, hbP p hp]; exact h2)
    rw [hrf, hbA p hp, hbP p hp] at e
    exact e
  refine ⟨7 + k, _, hrun, rfl, rfl, ?_, ?_, ?_, rfl, rfl, rfl, rfl, ?_⟩
  · rw [e1]
    exact r0
  · constructor
    · intro h0
      by_contra hne
      obtain ⟨p, hp, h1, h2⟩ := exists_first_diff n _ hne
      obtain ⟨hcf, hzf⟩ := hdiff p hp h1 h2
      change (if Cond.holds rf .a then 1 else if Cond.holds rf .b then 4294967295 else 0 : Nat)
        = 0 at h0
      cases hb : rf.cf
      · rw [ra hzf hb] at h0
        omega
      · rw [rb hzf hb] at h0
        omega
    · intro h
      exact rz (hequal h).1 (hequal h).2
  · intro p hp h1 h2
    obtain ⟨hcf, hzf⟩ := hdiff p hp h1 h2
    rw [e1]
    change ((if Cond.holds rf .a then 1 else if Cond.holds rf .b then 4294967295 else 0 : Nat)
        = 1 ↔ _) ∧
      ((if Cond.holds rf .a then 1 else if Cond.holds rf .b then 4294967295 else 0 : Nat)
        = 4294967295 ↔ _)
    by_cases hlt : read8 s.mem (s.ebx + s.ecx + p) < read8 s.mem (s.ebx + s.eax + p)
    · rw [decide_eq_true hlt] at hcf
      rw [rb hzf hcf]
      exact ⟨⟨fun h => by omega, fun h => by omega⟩, ⟨fun _ => hlt, fun _ => rfl⟩⟩
    · rw [decide_eq_false hlt] at hcf
      rw [ra hzf hcf]
      exact ⟨⟨fun _ => by omega, fun _ => rfl⟩, ⟨fun h => by omega, fun h => absurd h hlt⟩⟩
  · intro x hx
    exact write32_outside _ _ _ _ (by omega)

set_option maxRecDepth 100000 in
/-- Witness of C33: `CMPS 4` on the blocks `1, 2, 3, 4` at `data[PRI]` and
`1, 2, 9, 4` at `data[ALT]`, which first differ at position 2. -/
theorem cmps_three_way_witness :
    ∃ k u, run cmps_machine k differ_state = u ∧ u.pc = 0 + 19 ∧ u.status = .running ∧
      (u.eax = 0 ∨ u.eax = 1 ∨ u.eax = toU32 (-1)) ∧
      (u.eax = 0 ↔
        ∀ j, j < 4 → read8 differ_state.mem (differ_state.ebx + differ_state.ecx + j) =
          read8 differ_state.mem (differ_state.ebx + differ_state.eax + j)) ∧
      (∀ p, p < 4 →
        (∀ j, j < p → read8 differ_state.mem (differ_state.ebx + differ_state.ecx + j) =
          read8 differ_state.mem (differ_state.ebx + differ_state.eax + j)) →
        read8 differ_state.mem (differ_state.ebx + differ_state.ecx + p) ≠ read8 differ_state.mem (differ_state.ebx + differ_state.eax + p) →
        (u.eax = 1 ↔ read8 differ_state.mem (differ_state.ebx + differ_state.eax + p) <
          read8 differ_state.mem (differ_state.ebx + differ_state.ecx + p)) ∧
        (u.eax = toU32 (-1) ↔
          read8 differ_state.mem (differ_state.ebx + differ_state.ecx + p) <
            read8 differ_state.mem (differ_state.ebx + differ_state.eax + p))) ∧
      u.ecx = differ_state.ecx ∧ u.esp = differ_state.esp ∧ u.ebx = differ_state.ebx ∧ u.ebp = differ_state.ebp ∧
      ∀ x, (x < differ_state.esp - 4 ∨ differ_state.esp ≤ x) → u.mem x = differ_state.mem x :=
  (cmps_three_way amx_h_32 sample_amx sample_helpers 0 4 (emptyAs 0) ⟨[]⟩ cmps_machine 0
    differ_state (by unfold CodeAt; decide) (by decide) (by decide) (by decide) (by decide) rfl rfl
    (by decide) (by decide) (by decide) (by decide) (by decide) (by decide) (by decide)
    (by decide)).2

@[simp] theorem ebx_writers_append (a b : List Item) :
    ebx_writers (a ++ b) = ebx_writers a ++ ebx_writers b := by
  induction a with
  | nil => rfl
  | cons x r ih =>
    cases x with
    | instr y =>
      simp only [List.cons_append, ebx_writers]
      split <;> simp [ih]
    | bind l => simpa [ebx_writers] using ih
    | dd v => simpa [ebx_writers] using ih
    | dstruct e => simpa [ebx_writers] using ih
    | align p => simpa [ebx_writers] using ih

theorem ebx_writers_nil_iff (l : List Item) :
    ebx_writers l = [] ↔ ∀ x, Item.instr x ∈ l → x.writes .ebx = false := by
  induction l with
  | nil => simp [ebx_writers]
  | cons it r ih =>
    cases it with
    | instr y =>
      simp only [ebx_writers, List.mem_cons, Item.instr.injEq]
      by_cases hy : y.writes .ebx = true
      · simp only [hy, if_true]
        constructor
        · intro h; cases h
        · intro h
          have := h y (Or.inl rfl)
          rw [hy] at this
          cases this
      · simp only [hy, if_false, Bool.false_eq_true, ih]
        constructor
        · intro h x hx
          rcases hx with hx | hx
          · rw [hx]; simpa using hy
          · exact h x hx
        · intro h x hx
          exact h x (Or.inr hx)
    | bind l => simp [ebx_writers, ih]
    | dd v => simp [ebx_writers, ih]
    | dstruct e => simp [ebx_writers, ih]
    | align p => simp [ebx_writers, ih]

theorem intrinsics_ebx_writers (name : String) (emit : X86Assembler → X86Assembler)
    (h : intrinsics.lookup name = some emit) (as : X86Assembler) :
    ebx_writers (emit as).items = ebx_writers as.items := by
  have hm : emit = emit_float ∨ emit = emit_floatabs ∨ emit = emit_floatadd ∨
      emit = emit_floatsub ∨ emit = emit_floatmul ∨ emit = emit_floatdiv ∨
      emit = emit_floatsqroot ∨ emit = emit_floatlog := by
    simp only [intrinsics, List.lookup] at h
    repeat (first | (split at h; simp at h; simp [h]) | simp at h)
  rcases hm with h | h | h | h | h | h | h | h <;> subst h <;>
    simp [ebx_writers, Instr.writes, Operand.regOf, emit_float, emit_floatabs, emit_floatadd,
      emit_floatsub, emit_floatmul,
      emit_floatdiv, emit_floatsqroot, emit_floatlog, X86Assembler.fild, X86Assembler.fld,
      X86Assembler.fstp, X86Assembler.fadd, X86Assembler.fsub, X86Assembler.fmul,
      X86Assembler.fdiv, X86Assembler.fabs, X86Assembler.fsqrt, X86Assembler.fld1,
      X86Assembler.fyl2x, X86Assembler.fdivrp, X86Assembler.sub, X86Assembler.mov,
      X86Assembler.add]

theorem switch_cascade_ebx_writers (amx : AMXPtr) (operand : Int) (n : Nat)
    (as : X86Assembler) (amx_labels : AmxLabels) :
    ebx_writers (switch_cascade amx operand n as amx_labels).1.items =
      ebx_writers as.items := by
  unfold switch_cascade
  suffices h : ∀ (l : List Nat) (acc : X86Assembler × AmxLabels),
      ebx_writers acc.1.items = ebx_writers as.items →
      ebx_writers (l.foldl (fun (acc : X86Assembler × AmxLabels) i =>
        let dest := rel_code_addr amx (amx.cell_at (operand + 4 + 8 * ((i : Int) + 1) + 4))
        let as := acc.1.cmp GpReg.eax (imm (amx.cell_at (operand + 4 + 8 * ((i : Int) + 1))))
        let (l, amx_labels, as) := acc.2.get as dest
        (as.je l, amx_labels)) acc).1.items = ebx_writers as.items from h _ _ rfl
  intro l
  induction l with
  | nil => intro acc h; simpa using h
  | cons i l ih =>
    intro acc h
    simp only [List.foldl_cons]
    apply ih
    simp [ebx_writers, Instr.writes, X86Assembler.cmp, X86Assembler.je, h]

theorem ebx_writers_instr (x : Instr) (h : x.writes .ebx = false) :
    ebx_writers [Item.instr x] = [] := by
  simp [ebx_writers, h]

theorem ebx_writers_bind (l : Label) : ebx_writers [Item.bind l] = [] := rfl

set_option maxHeartbeats 1000000 in
/-- No case of the opcode switch appends an instruction that has `ebx` as a
destination. -/
theorem translate_ebx_writers (K : AmxH) (amx : AMXPtr) (L : HelperLabels)
    (instr : AMXInstruction) (as : X86Assembler) (amx_labels : AmxLabels) :
    ebx_writers (translate K amx L instr as amx_labels).1.items = ebx_writers as.items := by
  rcases instr with ⟨address, opcode, operands⟩
  cases opcode <;> simp only [translate]
  case OP_SYSREQ_C =>
    split
    · split
      · exact intrinsics_ebx_writers _ _ (by assumption) _
      · simp [ebx_writers, Instr.writes, X86Assembler.push, X86Assembler.call]
    · rfl
  case OP_SYSREQ_D =>
    split
    · split
      · exact intrinsics_ebx_writers _ _ (by assumption) _
      · simp [ebx_writers, Instr.writes, X86Assembler.push, X86Assembler.call]
    · rfl
  case OP_SWITCH =>
    simp only [X86Assembler.jmp, X86Assembler.emit_items, ebx_writers_append,
      AmxLabels.get_items]
    split
    · rw [switch_cascade_ebx_writers]
      simp [ebx_writers, Instr.writes, X86Assembler.cmp, X86Assembler.jl, X86Assembler.jg]
    · simp [ebx_writers, Instr.writes]
  all_goals
    first
    | (simp (disch := simp [Instr.writes, Operand.regOf]) only [emit_get_amx_ptr, al, cl, ax, imm,
    X86Assembler.mov, X86Assembler.movzx, X86Assembler.movsx, X86Assembler.lea,
    X86Assembler.push, X86Assembler.pop, X86Assembler.add, X86Assembler.sub,
    X86Assembler.cmp, X86Assembler.and_, X86Assembler.or_, X86Assembler.xor_,
    X86Assembler.test, X86Assembler.xchg, X86Assembler.not_, X86Assembler.neg,
    X86Assembler.inc, X86Assembler.dec, X86Assembler.imul1, X86Assembler.imul2,
    X86Assembler.imul3, X86Assembler.mul, X86Assembler.idiv, X86Assembler.div,
    X86Assembler.shl, X86Assembler.shr, X86Assembler.sar, X86Assembler.sete,
    X86Assembler.setne, X86Assembler.setz, X86Assembler.setl, X86Assembler.setle,
    X86Assembler.setg, X86Assembler.setge, X86Assembler.setb, X86Assembler.setbe,
    X86Assembler.seta, X86Assembler.setae, X86Assembler.jmp, X86Assembler.jmp_reg,
    X86Assembler.je, X86Assembler.jne, X86Assembler.jz, X86Assembler.jnz,
    X86Assembler.jl, X86Assembler.jle, X86Assembler.jg, X86Assembler.jge,
    X86Assembler.jb, X86Assembler.jbe, X86Assembler.ja, X86Assembler.jae,
    X86Assembler.call, X86Assembler.call_reg, X86Assembler.call_ptr, X86Assembler.ret,
    X86Assembler.ret_imm, X86Assembler.cld, X86Assembler.rep_movsd,
    X86Assembler.rep_movsw, X86Assembler.rep_movsb, X86Assembler.repe_cmpsb,
    X86Assembler.rep_stosd, X86Assembler.bind, X86Assembler.emit_items,
    X86Assembler.newLabel_items, AmxLabels.get_items, ebx_writers_append, ebx_writers_instr,
    ebx_writers_bind, List.append_nil]; done)
    | (split_ifs <;> simp (disch := simp [Instr.writes, Operand.regOf]) only [emit_get_amx_ptr, al, cl, ax, imm,
    X86Assembler.mov, X86Assembler.movzx, X86Assembler.movsx, X86Assembler.lea,
    X86Assembler.push, X86Assembler.pop, X86Assembler.add, X86Assembler.sub,
    X86Assembler.cmp, X86Assembler.and_, X86Assembler.or_, X86Assembler.xor_,
    X86Assembler.test, X86Assembler.xchg, X86Assembler.not_, X86Assembler.neg,
    X86Assembler.inc, X86Assembler.dec, X86Assembler.imul1, X86Assembler.imul2,
    X86Assembler.imul3, X86Assembler.mul, X86Assembler.idiv, X86Assembler.div,
    X86Assembler.shl, X86Assembler.shr, X86Assembler.sar, X86Assembler.sete,
    X86Assembler.setne, X86Assembler.setz, X86Assembler.setl, X86Assembler.setle,
    X86Assembler.setg, X86Assembler.setge, X86Assembler.setb, X86Assembler.setbe,
    X86Assembler.seta, X86Assembler.setae, X86Assembler.jmp, X86Assembler.jmp_reg,
    X86Assembler.je, X86Assembler.jne, X86Assembler.jz, X86Assembler.jnz,
    X86Assembler.jl, X86Assembler.jle, X86Assembler.jg, X86Assembler.jge,
    X86Assembler.jb, X86Assembler.jbe, X86Assembler.ja, X86Assembler.jae,
    X86Assembler.call, X86Assembler.call_reg, X86Assembler.call_ptr, X86Assembler.ret,
    X86Assembler.ret_imm, X86Assembler.cld, X86Assembler.rep_movsd,
    X86Assembler.rep_movsw, X86Assembler.rep_movsb, X86Assembler.repe_cmpsb,
    X86Assembler.rep_stosd, X86Assembler.bind, X86Assembler.emit_items,
    X86Assembler.newLabel_items, AmxLabels.get_items, ebx_writers_append, ebx_writers_instr,
    ebx_writers_bind, List.append_nil])

/-- Every instruction the opcode switch appends for an instruction of the
program leaves `ebx` alone. -/
theorem emitted_ebx_free (K : AmxH) (amx : AMXPtr) (L : HelperLabels)
    (instr : AMXInstruction) (as : X86Assembler) (amx_labels : AmxLabels) (x : Instr)
    (hx : Item.instr x ∈ emitted K amx L instr as amx_labels) : x.writes .ebx = false := by
  obtain ⟨-, more, hm⟩ := translate_extends K amx L instr as amx_labels
  have h := translate_ebx_writers K amx L instr as amx_labels
  rw [hm, ebx_writers_append] at h
  have h0 : ebx_writers more = [] := by
    have := congrArg List.length h
    rw [List.length_append] at this
    exact List.length_eq_zero.1 (by omega)
  rw [emitted_eq K amx L instr as amx_labels more hm] at hx
  exact (ebx_writers_nil_iff more).1 h0 x hx

theorem writeOp_ebx (M : Machine) (s : State) (o : Operand) (v : Nat)
    (h : o.regOf ≠ some .ebx) : (writeOp M s o v).ebx = s.ebx := by
  cases o with
  | reg q => cases q <;> simp [Operand.regOf] at h <;> rfl
  | reg8 q => cases q <;> simp [Operand.regOf] at h <;> rfl
  | reg16 q => cases q <;> simp [Operand.regOf] at h <;> rfl
  | imm k => rfl
  | mem m => rfl

theorem goto_ebx (M : Machine) (s : State) (v : Nat) : (goto M s v).ebx = s.ebx := by
  unfold goto
  split <;> rfl

theorem gotoLabel_ebx (M : Machine) (s : State) (l : Label) : (gotoLabel M s l).ebx = s.ebx := by
  unfold gotoLabel
  split <;> rfl

theorem push32_ebx (s : State) (v : Nat) : (push32 s v).ebx = s.ebx := by
  unfold push32
  exact rfl

theorem with_pc_ebx (t : State) (i : Nat) : ({ t with pc := i }).ebx = t.ebx := rfl

theorem with_status_ebx (t : State) (st : Status) :
    ({ t with status := st }).ebx = t.ebx := rfl

/-- An instruction that does not have `ebx` as a destination leaves `ebx` as
it was, in every state of the machine. -/
theorem execInstr_ebx (M : Machine) (s : State) (x : Instr) (h : x.writes .ebx = false) :
    (execInstr M s x).ebx = s.ebx := by
  cases x with
  | bin op dst src =>
    cases op <;> simp only [Instr.writes, decide_eq_false_iff_not, Bool.or_eq_false_iff] at h <;>
      simp only [execInstr, execBin]
    case xchg =>
      rw [writeOp_ebx _ _ _ _ h.2, writeOp_ebx _ _ _ _ h.1]
    case shl => split <;> simp only [writeOp_ebx _ _ _ _ h]
    case shr => split <;> simp only [writeOp_ebx _ _ _ _ h]
    case sar => split <;> simp only [writeOp_ebx _ _ _ _ h]
    all_goals simp only [writeOp_ebx _ _ _ _ h]
  | un op dst =>
    cases op <;> simp only [Instr.writes, decide_eq_false_iff_not, Bool.or_eq_false_iff] at h <;>
      simp only [execInstr, execUn, push32_ebx]
    case pop => exact writeOp_ebx _ _ _ _ h.2
    case div => split <;> simp only
    case idiv => (repeat' split) <;> simp only
    all_goals simp only [writeOp_ebx _ _ _ _ h]
  | lea dst src =>
    simp only [Instr.writes, decide_eq_false_iff_not] at h
    exact writeOp_ebx _ _ _ _ h
  | imul3 dst src k =>
    simp only [Instr.writes, decide_eq_false_iff_not] at h
    simp only [execInstr, writeOp_ebx _ _ _ _ h]
  | set c dst =>
    simp only [Instr.writes, decide_eq_false_iff_not] at h
    exact writeOp_ebx _ _ _ _ h
  | jmp l => exact gotoLabel_ebx _ _ _
  | jmp_reg r => exact goto_ebx _ _ _
  | j c l =>
    simp only [execInstr]
    split
    · exact gotoLabel_ebx _ _ _
    · simp only
  | call l =>
    simp only [execInstr, gotoLabel_ebx, push32_ebx]
  | call_reg r =>
    simp only [execInstr]
    split
    · rw [with_pc_ebx, push32_ebx]
    · rw [with_status_ebx, push32_ebx]
  | call_ptr f => simp only [execInstr]
  | ret => simp only [execInstr, goto_ebx]
  | ret_imm n => simp only [execInstr, goto_ebx]
  | cld => simp only [execInstr]
  | str op =>
    simp only [execInstr, execStr]
    split
    · simp only
    · cases op <;> simp only
  | fpu_mem op m => simp only [execInstr]
  | fpu op => simp only [execInstr]

theorem step_ebx (M : Machine) (s : State)
    (h : ∀ x, Item.instr x ∈ M.items → x.writes .ebx = false) : (step M s).ebx = s.ebx := by
  unfold step
  split
  · split
    · rename_i x hx
      exact execInstr_ebx M _ x (h x (List.getElem?_mem hx))
    · rfl
    · rfl
    · rfl
  · rfl

/-- A machine whose buffer holds no instruction with `ebx` as a destination
never changes `ebx`. -/
theorem run_ebx (M : Machine) (h : ∀ x, Item.instr x ∈ M.items → x.writes .ebx = false) :
    ∀ (n : Nat) (s : State), (run M n s).ebx = s.ebx := by
  intro n
  induction n with
  | zero => intro s; rfl
  | succ k ih =>
    intro s
    rw [run, ih, step_ebx M s h]

theorem fillWords_outside : ∀ (q : Nat) (mem : Memory) (v dst x : Nat),
    dst + 4 * q ≤ 4294967296 → (x < dst ∨ dst + 4 * q ≤ x) → fillWords mem v q dst x = mem x := by
  intro q
  induction q with
  | zero => intro mem v dst x _ _; rfl
  | succ k ih =>
    intro mem v dst x hd hx
    simp only [fillWords]
    rw [ih _ _ _ _ (by omega) (by omega), Nat.mod_eq_of_lt (by omega : dst < 4294967296)]
    exact write32_outside _ _ _ _ (by omega)

theorem emitted_fill (K : AmxH) (amx : AMXPtr) (L : HelperLabels) (a : Int)
    (operands : List Int) (as : X86Assembler) (amx_labels : AmxLabels) :
    emitted K amx L ⟨a, .OP_FILL, operands⟩ as amx_labels =
      [.instr .cld, .instr (.lea (.reg .edi) (dword_ptr_idx .ebx .ecx 0)),
       .instr (.un .push (.reg .ecx)),
       .instr (.bin .mov (.reg .ecx)
         (.imm ((toU32 (AMXInstruction.operand ⟨a, .OP_FILL, operands⟩) / 4 : Nat) : Int))),
       .instr (.str .rep_stosd), .instr (.un .pop (.reg .ecx))] := by
  apply emitted_eq
  simp [translate, X86Assembler.cld, X86Assembler.lea, X86Assembler.push, X86Assembler.pop,
    X86Assembler.mov, X86Assembler.rep_stosd, X86Assembler.emit, imm]

/-- The code of `FILL` on any machine: `q` words from `[ebx + ecx]` are set
to `eax`; `ecx` is saved on the stack and restored. -/
theorem fill_run (M : Machine) (eax ecx edx D S bp esi edi : Nat) (flags : Flags)
    (df : Bool) (m : Memory) (calls : List CallEvent) (i q : Nat)
    (c0 : M.items[i]? = some (Item.instr .cld))
    (c1 : M.items[i + 1]? = some (Item.instr (.lea (.reg .edi) (dword_ptr_idx .ebx .ecx 0))))
    (c2 : M.items[i + 2]? = some (Item.instr (.un .push (.reg .ecx))))
    (c3 : M.items[i + 3]? = some (Item.instr (.bin .mov (.reg .ecx) (.imm (q : Int)))))
    (c4 : M.items[i + 4]? = some (Item.instr (.str .rep_stosd)))
    (c5 : M.items[i + 5]? = some (Item.instr (.un .pop (.reg .ecx))))
    (hq : q < 4294967296) (hS4 : 4 ≤ S) (hS : S < 4294967296) (hc : ecx < 4294967296)
    (hpop : read32 (fillWords (write32 m (S - 4) ecx) eax q (add32 D ecx)) (S - 4) = ecx) :
    run M 6 ⟨eax, ecx, edx, D, S, bp, esi, edi, flags, df, m, i, .running, calls⟩ =
      ⟨eax, ecx, edx, D, S, bp, esi, add32 (add32 D ecx) (4 * q), flags, false,
        fillWords (write32 m (S - 4) ecx) eax q (add32 D ecx), i + 6, .running, calls⟩ := by
  simp (disch := first | omega | exact read32_lt _ _ | exact toU32_lt _) only [
    run, step, execInstr, execBin, execUn, execStr, readOp, writeOp,
    State.reg, State.setReg, push32, Nat.reduceAdd, ea_dword_ptr_idx,
    sub32_eq, add32_eq, toU32_natCast, Nat.mod_eq_of_lt, add32_mod,
    Nat.reduceSub, Nat.sub_sub, Nat.add_assoc, c0, c1, c2, c3, c4, c5, hpop,
    Bool.false_eq_true, if_false, Nat.sub_add_cancel]

set_option maxRecDepth 100000 in
/-- The helpers the emitted calls enter, `jump_helper`, `sysreq_d_helper` and
`sysreq_c_helper` (the trampoline items from 139 on), hold no instruction
with `ebx` as a destination. -/
theorem helpers_ebx_free (K : AmxH) (x : Instr)
    (hx : Item.instr x ∈ (tramp_items K).drop 139) : x.writes .ebx = false := by
  have h0 : ebx_writers ((tramp_items K).drop 139) = [] := by
    rw [tramp_items_eq]
    rfl
  exact (ebx_writers_nil_iff _).1 h0 x hx

theorem intrinsics_ebx_free (name : String) (emit : X86Assembler → X86Assembler)
    (h : intrinsics.lookup name = some emit) (as : X86Assembler) (x : Instr)
    (hx : Item.instr x ∈ (emit as).items.drop as.items.length) : x.writes .ebx = false := by
  obtain ⟨-, more, hm⟩ := intrinsics_extends name emit h as
  have hw := intrinsics_ebx_writers name emit h as
  rw [hm, ebx_writers_append] at hw
  have h0 : ebx_writers more = [] := by
    have := congrArg List.length hw
    rw [List.length_append] at this
    exact List.length_eq_zero.1 (by omega)
  rw [hm, List.drop_left] at hx
  exact (ebx_writers_nil_iff more).1 h0 x hx

/-- C34: no instruction the opcode switch emits for any instruction of the
program, none an intrinsic emitter emits, and none of the helpers the
emitted calls enter (`jump_helper`, `sysreq_d_helper`, `sysreq_c_helper`) has
`ebx` as a destination (`Instr.writes`); an instruction without that destination leaves `ebx` as it
was in every machine state, so a machine whose buffer holds only such
instructions never changes `ebx`. The code of `MOVS`, of `CMPS` and of `FILL`,
which use `ecx` as the repeat counter, arrives behind itself with `ecx`
(`ALT`) as at entry; for `MOVS` and `FILL` the destination block lies inside
the address space and apart from the cell below the stack pointer in which
the code saves `ecx`. -/
theorem opcodes_keep_ebx (K : AmxH) (amx : AMXPtr) (L : HelperLabels) :
    (∀ (instr : AMXInstruction) (as : X86Assembler) (t : AmxLabels) (x : Instr),
      Item.instr x ∈ emitted K amx L instr as t → x.writes .ebx = false) ∧
    (∀ (name : String) (emit : X86Assembler → X86Assembler) (as : X86Assembler) (x : Instr),
      intrinsics.lookup name = some emit →
      Item.instr x ∈ (emit as).items.drop as.items.length → x.writes .ebx = false) ∧
    (∀ (x : Instr), Item.instr x ∈ (tramp_items K).drop 139 → x.writes .ebx = false) ∧
    (∀ (M : Machine) (s : State) (x : Instr), x.writes .ebx = false →
      (execInstr M s x).ebx = s.ebx) ∧
    (∀ (M : Machine), (∀ x, Item.instr x ∈ M.items → x.writes .ebx = false) →
      ∀ (n : Nat) (s : State), (run M n s).ebx = s.ebx) ∧
    (∀ (a : Int) (n : Nat) (as : X86Assembler) (t : AmxLabels) (M : Machine) (i : Nat)
      (s : State), CodeAt M i (emitted K amx L ⟨a, .OP_MOVS, [(n : Int)]⟩ as t) →
      s.pc = i → s.status = .running → s.ecx < 4294967296 →
      s.ebx + s.eax < 4294967296 → s.ebx + s.ecx < 4294967296 →
      s.ebx + s.ecx + n ≤ 4294967296 → 4 ≤ s.esp → s.esp < 4294967296 →
      (n = 0 ∨ s.esp ≤ s.ebx + s.ecx ∨ s.ebx + s.ecx + n ≤ s.esp - 4) →
      (run M 7 s).pc = i + 7 ∧ (run M 7 s).ecx = s.ecx ∧ (run M 7 s).ebx = s.ebx) ∧
    (∀ (a : Int) (n : Nat) (as : X86Assembler) (t : AmxLabels) (M : Machine) (i : Nat)
      (s : State), CodeAt M i (emitted K amx L ⟨a, .OP_CMPS, [(n : Int)]⟩ as t) →
      labelIndex M.items ⟨as.numLabels⟩ = some (i + 10) →
      labelIndex M.items ⟨as.numLabels + 1⟩ = some (i + 13) →
      labelIndex M.items ⟨as.numLabels + 2⟩ = some (i + 16) →
      labelIndex M.items ⟨as.numLabels + 3⟩ = some (i + 18) →
      s.pc = i → s.status = .running → n < 4294967296 → s.ecx < 4294967296 →
      4 ≤ s.esp → s.esp < 4294967296 →
      ∃ k, (run M k s).pc = i + 19 ∧ (run M k s).ecx = s.ecx ∧ (run M k s).ebx = s.ebx) ∧
    (∀ (a : Int) (operands : List Int) (as : X86Assembler) (t : AmxLabels) (M : Machine)
      (i : Nat) (s : State), CodeAt M i (emitted K amx L ⟨a, .OP_FILL, operands⟩ as t) →
      s.pc = i → s.status = .running → s.ecx < 4294967296 →
      s.ebx + s.ecx < 4294967296 →
      s.ebx + s.ecx + 4 * (toU32 (AMXInstruction.operand ⟨a, .OP_FILL, operands⟩) / 4) ≤
        4294967296 →
      4 ≤ s.esp → s.esp < 4294967296 →
      (s.esp ≤ s.ebx + s.ecx ∨
        s.ebx + s.ecx + 4 * (toU32 (AMXInstruction.operand ⟨a, .OP_FILL, operands⟩) / 4) ≤
          s.esp - 4) →
      (run M 6 s).pc = i + 6 ∧ (run M 6 s).ecx = s.ecx ∧ (run M 6 s).ebx = s.ebx) := by
  refine ⟨emitted_ebx_free K amx L, fun name emit as x h hx => intrinsics_ebx_free name emit h as x hx,
    helpers_ebx_free K, fun M s x h => execInstr_ebx M s x h, fun M h => run_ebx M h, ?_, ?_, ?_⟩
  · intro a n as t M i s hcode hpc hr hc hpa hpd hdst hS4 hS hstk
    rw [movs_run_state K amx L a n as t M i s hcode hpc hr hc hpa hpd hdst hS4 hS hstk]
    exact ⟨rfl, rfl, rfl⟩
  · intro a n as t M i s hcode hl0 hl1 hl2 hl3 hpc hr hn hc hS4 hS
    rw [emitted_cmps] at hcode
    have el := State.eq_lit s i hpc hr
    rcases hcm : cmpBytes (write32 s.mem (s.esp - 4) s.ecx) n (add32 s.ebx s.ecx)
      (add32 s.ebx s.eax) 0 s.flags with ⟨rc, rk, rf⟩
    have h7 := cmps_run_head M s.eax s.ecx s.edx s.ebx s.esp s.ebp s.esi s.edi s.flags s.df
      s.mem s.calls i n rc rk rf (by simpa using hcode.get 0 _ rfl) (hcode.get 1 _ rfl)
      (hcode.get 2 _ rfl) (hcode.get 3 _ rfl) (hcode.get 4 _ rfl) (hcode.get 5 _ rfl)
      (hcode.get 6 _ rfl) hn hS4 hS hc hcm
    rw [← el] at h7
    obtain ⟨k, g, hk⟩ := cmps_branch_run M s.eax s.ecx s.edx s.ebx s.esp s.ebp
      (add32 (add32 s.ebx s.ecx) rk) (add32 (add32 s.ebx s.eax) rk) rf false
      (write32 s.mem (s.esp - 4) s.ecx) s.calls i _ _ _ _ (hcode.get 7 _ rfl)
      (hcode.get 8 _ rfl) (hcode.get 9 _ rfl) (hcode.get 10 _ rfl) (hcode.get 11 _ rfl)
      (hcode.get 12 _ rfl) (hcode.get 13 _ rfl) (hcode.get 14 _ rfl) (hcode.get 15 _ rfl)
      (hcode.get 16 _ rfl) (hcode.get 17 _ rfl) (hcode.get 18 _ rfl) hl0 hl1 hl2 hl3
    refine ⟨7 + k, ?_⟩
    rw [(run_peel M 7 k _ _ h7).trans hk]
    exact ⟨rfl, rfl, rfl⟩
  · intro a operands as t M i s hcode hpc hr hc hpd hdst hS4 hS hstk
    rw [emitted_fill] at hcode
    have el := State.eq_lit s i hpc hr
    have ed : add32 s.ebx s.ecx = s.ebx + s.ecx := add32_eq _ _ hpd
    have hq : toU32 (AMXInstruction.operand ⟨a, .OP_FILL, operands⟩) / 4 < 4294967296 := by
      have := toU32_lt (AMXInstruction.operand ⟨a, .OP_FILL, operands⟩)
      omega
    have hpop : read32 (fillWords (write32 s.mem (s.esp - 4) s.ecx) s.eax
        (toU32 (AMXInstruction.operand ⟨a, .OP_FILL, operands⟩) / 4) (add32 s.ebx s.ecx))
        (s.esp - 4) = s.ecx := by
      rw [ed, read32_congr _ (write32 s.mem (s.esp - 4) s.ecx) _ (fun x h1 h2 =>
        fillWords_outside _ _ _ _ _ hdst (by omega)), read32_write32_same]
      exact Nat.mod_eq_of_lt hc
    have h6 := fill_run M s.eax s.ecx s.edx s.ebx s.esp s.ebp s.esi s.edi s.flags s.df s.mem
      s.calls i _ (by simpa using hcode.get 0 _ rfl) (hcode.get 1 _ rfl) (hcode.get 2 _ rfl)
      (hcode.get 3 _ rfl) (hcode.get 4 _ rfl) (hcode.get 5 _ rfl) hq hS4 hS hc hpop
    rw [← el] at h6
    rw [h6]
    exact ⟨rfl, rfl, rfl⟩

set_option maxRecDepth 100000 in
/-- Witness of C34: the code of `FILL 8` in a small machine, with `ALT = 64`:
its buffer holds no instruction with `ebx` as a destination, so six steps
leave `ebx` as it was, and they leave `ALT` as it was. -/
theorem opcodes_keep_ebx_witness :
    (run fill_machine 6 fill_state).ebx = fill_state.ebx ∧
    ((run fill_machine 6 fill_state).pc = 0 + 6 ∧
      (run fill_machine 6 fill_state).ecx = fill_state.ecx ∧
      (run fill_machine 6 fill_state).ebx = fill_state.ebx) :=
  ⟨(opcodes_keep_ebx amx_h_32 sample_amx sample_helpers).2.2.2.2.1 fill_machine
      (fun x hx => (opcodes_keep_ebx amx_h_32 sample_amx sample_helpers).1
        ⟨0, .OP_FILL, [8]⟩ (emptyAs 0) ⟨[]⟩ x hx) 6 fill_state,
   (opcodes_keep_ebx amx_h_32 sample_amx sample_helpers).2.2.2.2.2.2.2 0 [8] (emptyAs 0) ⟨[]⟩
      fill_machine 0 fill_state (by unfold CodeAt; decide) rfl rfl (by decide) (by decide)
      (by decide) (by decide) (by decide) (by decide)⟩

end Jit
